import Mathlib

/-!
# WLP4 code generator (`wlp4gen.cc`): shallow embedding and verified properties

The embedding follows `src/wlp4gen.cc` function by function.

* A C++ `throw std::exception()` is the error `Err.thrown`; an access the C++
  standard leaves undefined (`children[i]` past the end of the vector) is the
  error `Err.undefined`.
* The two globals `g_tables` and `labelCtr` are threaded explicitly as a `State`.
* Emitted assembly is kept as the list of its lines. Every fragment the source
  appends to `out` is a sequence of pieces each ending in a newline, so the C++
  string is `render` of the line list (each line followed by a newline).
* `int` offsets are `Int` (signed overflow is undefined in C++); `labelCtr` is an
  `unsigned long long` that starts at 0 and is incremented at most twice per tree
  node, so it cannot wrap for a tree that fits in a 64-bit address space: `Nat`.
-/

namespace Wlp4gen

/-! ## Basic types -/

abbrev WType := String
abbrev Symbol := String
abbrev TokenKind := String
abbrev TokenLexeme := String
abbrev Production := String
abbrev Register := String
abbrev Identifier := String

def INT : WType := "int"
def INT_STAR : WType := "int*"

/-- Failure modes of the C++ program. -/
inductive Err where
  | thrown
  | undefined
deriving DecidableEq, Repr

structure Token where
  kind : TokenKind := ""
  lexeme : TokenLexeme := ""
deriving DecidableEq, Repr

/-- Parse-tree node, with the fields of the C++ class `TreeNode`. -/
inductive TreeNode where
  | mk (type : WType) (symbol : Symbol) (production : Production) (token : Token)
      (children : List TreeNode)

namespace TreeNode

def type : TreeNode → WType
  | mk ty _ _ _ _ => ty

def symbol : TreeNode → Symbol
  | mk _ sym _ _ _ => sym

def production : TreeNode → Production
  | mk _ _ prod _ _ => prod

def token : TreeNode → Token
  | mk _ _ _ tok _ => tok

def children : TreeNode → List TreeNode
  | mk _ _ _ _ cs => cs

/-- Constructor `TreeNode(symbol, production = "", token = Token())`; `type` starts empty. -/
def new (symbol : Symbol) (production : Production := "") (token : Token := {}) : TreeNode :=
  mk "" symbol production token []

def N (self : TreeNode) : Bool :=
  if self.production ≠ "" then true else false

def T (self : TreeNode) : Bool :=
  !self.N

def getType (self : TreeNode) : WType :=
  self.type

def getSymbol (self : TreeNode) : Symbol :=
  self.symbol

def getProduction (self : TreeNode) : Except Err Production :=
  if !self.N then .error .thrown else .ok self.production

def getToken (self : TreeNode) : Except Err Token :=
  if !self.T then .error .thrown else .ok self.token

mutual
/-- Method `getChildSymbolNodes(sym)`: a child with the symbol is collected and not
searched; any other child is searched recursively. -/
def getChildSymbolNodes (sym : Symbol) : TreeNode → List TreeNode
  | mk _ _ _ _ cs => getChildSymbolNodesList sym cs
/-- The `for (TreeNode* child : this->children)` loop of `getChildSymbolNodes`. -/
def getChildSymbolNodesList (sym : Symbol) : List TreeNode → List TreeNode
  | [] => []
  | child :: rest =>
    (if child.symbol = sym then [child] else getChildSymbolNodes sym child)
      ++ getChildSymbolNodesList sym rest
end

theorem sizeOf_lt_of_mem_children {root c : TreeNode} (h : c ∈ root.children) :
    sizeOf c < sizeOf root := by
  cases root with
  | mk ty sym prod tok cs =>
    have hlt := List.sizeOf_lt_of_mem h
    simp only [children] at hlt
    simp only [mk.sizeOf_spec]
    omega

mutual
theorem sizeOf_lt_of_mem_getChildSymbolNodes (sym : Symbol) :
    ∀ (t x : TreeNode), x ∈ getChildSymbolNodes sym t → sizeOf x < sizeOf t
  | mk _ _ _ _ cs, x, h => by
    have hlt := sizeOf_lt_of_mem_getChildSymbolNodesList sym cs x
      (by simpa [getChildSymbolNodes] using h)
    simp only [mk.sizeOf_spec]
    omega
theorem sizeOf_lt_of_mem_getChildSymbolNodesList (sym : Symbol) :
    ∀ (cs : List TreeNode) (x : TreeNode),
      x ∈ getChildSymbolNodesList sym cs → sizeOf x < sizeOf cs
  | [], x, h => by simp [getChildSymbolNodesList] at h
  | c :: rest, x, h => by
    simp only [getChildSymbolNodesList, List.mem_append] at h
    simp only [List.cons.sizeOf_spec]
    rcases h with h | h
    · by_cases hc : c.symbol = sym
      · simp only [hc, if_true, List.mem_singleton] at h
        subst h
        omega
      · simp only [hc, if_false] at h
        have hlt := sizeOf_lt_of_mem_getChildSymbolNodes sym c x h
        omega
    · have hlt := sizeOf_lt_of_mem_getChildSymbolNodesList sym rest x h
      omega
end

/-- Access `children[i]`; reading past the end of the vector is undefined in C++. -/
def child (root : TreeNode) (i : Nat) : Except Err {c : TreeNode // sizeOf c < sizeOf root} :=
  match h : root.children[i]? with
  | some c => .ok ⟨c, sizeOf_lt_of_mem_children (List.getElem?_mem h)⟩
  | none => .error .undefined

end TreeNode

/-! ## Symbol tables -/

/-- Arithmetic of the C++ type `int` as the compiled program carries it out: 32 bits, two's
complement, a result outside `-2^31 .. 2^31 - 1` wraps around (the C++ standard leaves
signed overflow undefined). -/
def wrapInt (x : Int) : Int :=
  (x + 2147483648) % 4294967296 - 2147483648

/-- Class `SymbolTable`. `varTable` lists the bindings of the `unordered_map` (keys are
pairwise distinct; every operation of the class is independent of their order). The
counters and the offsets are `int` in the source: every sum and difference of the class
goes through `wrapInt`. -/
structure SymbolTable where
  varTable : List (Identifier × (WType × Int)) := []
  localCtr : Int := 0
  paramCtr : Int := 4

namespace SymbolTable

/-- Member `find(id) != end()` followed by `varTable[id]`. -/
def find (vt : List (Identifier × (WType × Int))) (id : Identifier) : Option (WType × Int) :=
  match vt with
  | [] => none
  | (k, v) :: rest => if k = id then some v else find rest id

/-- Member `std::unordered_map::insert`: an existing binding of the key is kept. -/
def mapInsert (vt : List (Identifier × (WType × Int))) (id : Identifier) (v : WType × Int) :
    List (Identifier × (WType × Int)) :=
  match find vt id with
  | some _ => vt
  | none => vt ++ [(id, v)]

def insertLocalVariable (self : SymbolTable) (id : Identifier) (type : WType) : SymbolTable :=
  { self with
    varTable := mapInsert self.varTable id (type, self.localCtr)
    localCtr := wrapInt (self.localCtr - 4) }

def insertParameterVariable (self : SymbolTable) (id : Identifier) (type : WType) : SymbolTable :=
  { self with
    varTable := mapInsert self.varTable id (type, self.paramCtr)
    paramCtr := wrapInt (self.paramCtr + 4) }

def getVariable (self : SymbolTable) (id : Identifier) : Except Err (WType × Int) :=
  match find self.varTable id with
  | none => .error .thrown
  | some v => .ok v

def getType (self : SymbolTable) (id : Identifier) : Except Err WType :=
  (self.getVariable id).map Prod.fst

/-- Renders the offset with `std::to_string(int)`: signed decimal. -/
def getOffset (self : SymbolTable) (id : Identifier) : Except Err String :=
  (self.getVariable id).map (fun v => toString v.2)

/-- The counter `nParams` is incremented once for each binding with a positive offset; the
sum `4 + maxOffset - offset` is evaluated from the left. -/
def invertParamOffsets (self : SymbolTable) : SymbolTable :=
  let nParams : Int := wrapInt (self.varTable.filter (fun var => decide (var.2.2 > 0))).length
  let maxOffset : Int := wrapInt (nParams * 4)
  { self with
    varTable := self.varTable.map (fun var =>
      if var.2.2 > 0 then (var.1, (var.2.1, wrapInt (wrapInt (4 + maxOffset) - var.2.2)))
      else var) }

end SymbolTable

/-- Calls `insertParameterVariable` on the declared parameters in declaration order. -/
def insertParameters (t : SymbolTable) (params : List (Identifier × WType)) : SymbolTable :=
  params.foldl (fun t p => t.insertParameterVariable p.1 p.2) t

/-- Calls `insertLocalVariable` on the declared locals in declaration order. -/
def insertLocals (t : SymbolTable) (locals : List (Identifier × WType)) : SymbolTable :=
  locals.foldl (fun t p => t.insertLocalVariable p.1 p.2) t

/-- Class `SymbolTableStack`. The head of `s` is `s.back()` of the C++ deque. -/
structure SymbolTableStack where
  s : List SymbolTable := []

namespace SymbolTableStack

def current (self : SymbolTableStack) : Except Err SymbolTable :=
  match self.s with
  | [] => .error .thrown
  | t :: _ => .ok t

/-- Writes back the table that `current()` returned by reference. -/
def setCurrent (self : SymbolTableStack) (t : SymbolTable) : SymbolTableStack :=
  { s := t :: self.s.tail }

def push (self : SymbolTableStack) : SymbolTableStack :=
  { s := ({} : SymbolTable) :: self.s }

def pop (self : SymbolTableStack) : Except Err SymbolTableStack :=
  match self.s with
  | [] => .error .thrown
  | _ :: rest => .ok { s := rest }

def insertLocalVariable (self : SymbolTableStack) (id : Identifier) (type : WType) :
    Except Err SymbolTableStack := do
  let t ← self.current
  pure (self.setCurrent (t.insertLocalVariable id type))

def insertParameterVariable (self : SymbolTableStack) (id : Identifier) (type : WType) :
    Except Err SymbolTableStack := do
  let t ← self.current
  pure (self.setCurrent (t.insertParameterVariable id type))

def getVariable (self : SymbolTableStack) (id : Identifier) : Except Err (WType × Int) := do
  let t ← self.current
  t.getVariable id

def getType (self : SymbolTableStack) (id : Identifier) : Except Err WType := do
  let t ← self.current
  t.getType id

def getOffset (self : SymbolTableStack) (id : Identifier) : Except Err String := do
  let t ← self.current
  t.getOffset id

def invertParamOffsets (self : SymbolTableStack) : Except Err SymbolTableStack := do
  let t ← self.current
  pure (self.setCurrent t.invertParamOffsets)

end SymbolTableStack

/-- The globals `g_tables` and `labelCtr`. -/
structure State where
  g_tables : SymbolTableStack := {}
  labelCtr : Nat := 0

/-! ## Emitted text -/

/-- The text of a list of emitted lines: each line followed by a newline. -/
def render (ls : List String) : String :=
  String.join (ls.map (fun l => l ++ "\n"))

def pop (reg : Register) : List String :=
  ["add $30, $30, $4", "lw " ++ reg ++ ", -4($30)"]

def push (reg : Register) : List String :=
  ["sw " ++ reg ++ ", -4($30)", "sub $30, $30, $4"]

/-- Result of emitting a subtree: the emitted lines and the globals afterwards. -/
abbrev Result := Except Err (List String × State)

def codeT (root : TreeNode) (st : State) : Result := do
  let sym := root.getSymbol
  let tok ← root.getToken
  let lexeme := tok.lexeme
  if sym = "NUM" then
    pure (["lis $3", ".word " ++ lexeme], st)
  else if sym = "NULL" then
    pure (["lis $3", ".word 69"], st)
  else if sym = "ID" then do
    let off ← st.g_tables.getOffset lexeme
    pure (["lw $3, " ++ off ++ "($29)"], st)
  else
    pure ([], st)

/-- The local `comparisonOp` of the six test handlers: initialised to `slt` and set to
`sltu` when the type of the left operand is `INT_STAR`. -/
def comparisonOp (type : WType) : String :=
  if type = INT_STAR then "sltu" else "slt"

mutual

def codeN (root : TreeNode) (st : State) : Result := do
  let production ← root.getProduction
  if production = "start BOF procedures EOF" then do
    let procedures ← root.child 1
    code procedures.1 st
  else if production = "procedures main" then do
    let main ← root.child 0
    code main.1 st
  else if production = "main INT WAIN LPAREN dcl COMMA dcl RPAREN LBRACE dcls statements RETURN expr SEMI RBRACE" then do
    let st0 : State := { st with g_tables := st.g_tables.push }
    let paramDcl1 ← root.child 3
    let paramDcl2 ← root.child 5
    let varDcls ← root.child 8
    let statements ← root.child 9
    let returnExpr ← root.child 11
    let out0 : List String := ["Fwain:", "sub $29, $30, $4"]
    let p1id ← paramDcl1.1.child 1
    let out1 : List String :=
      if p1id.1.getType = INT_STAR then
        out0 ++ push "$29" ++ push "$31" ++ ["lis $5", ".word init", "jalr $5"]
          ++ pop "$31" ++ pop "$29"
      else if p1id.1.getType = INT then
        out0 ++ push "$29" ++ push "$31" ++ push "$2" ++ ["lis $2", ".word 0"]
          ++ ["lis $5", ".word init", "jalr $5"] ++ pop "$2" ++ pop "$31" ++ pop "$29"
      else out0
    let r1 ← code paramDcl1.1 st0
    let r2 ← code paramDcl2.1 r1.2
    let r3 ← code varDcls.1 r2.2
    let r4 ← code statements.1 r3.2
    let r5 ← code returnExpr.1 r4.2
    pure (out1 ++ push "$1" ++ r1.1 ++ push "$2" ++ r2.1 ++ r3.1 ++ r4.1 ++ r5.1 ++ ["jr $31"], r5.2)
  else if production = "type INT" then
    pure ([], st)
  else if production = "dcl type ID" then do
    let idNode ← root.child 1
    let tok ← idNode.1.getToken
    let id := tok.lexeme
    let type := idNode.1.getType
    let tables ← st.g_tables.insertLocalVariable id type
    pure ([], { st with g_tables := tables })
  else if production = "dcls .EMPTY" then
    pure ([], st)
  else if production = "statements .EMPTY" then
    pure ([], st)
  else if production = "expr term" then do
    let term ← root.child 0
    code term.1 st
  else if production = "term factor" then do
    let factor ← root.child 0
    code factor.1 st
  else if production = "factor NUM" then do
    let num ← root.child 0
    code num.1 st
  else if production = "factor ID" then do
    let id ← root.child 0
    code id.1 st
  else if production = "factor LPAREN expr RPAREN" then do
    let expr ← root.child 1
    code expr.1 st
  else if production = "dcls dcls dcl BECOMES NUM SEMI" then do
    let dcls ← root.child 0
    let dcl ← root.child 1
    let num ← root.child 3
    let r1 ← code dcls.1 st
    let r2 ← code dcl.1 r1.2
    let r3 ← code num.1 r2.2
    pure (r1.1 ++ r2.1 ++ r3.1 ++ push "$3", r3.2)
  else if production = "statements statements statement" then do
    let statements ← root.child 0
    let statement ← root.child 1
    let r1 ← code statements.1 st
    let r2 ← code statement.1 r1.2
    pure (r1.1 ++ r2.1, r2.2)
  else if production = "statement lvalue BECOMES expr SEMI" then do
    let lvalue ← root.child 0
    let expr ← root.child 2
    let r1 ← code lvalue.1 st
    let r2 ← code expr.1 r1.2
    pure (r1.1 ++ push "$3" ++ r2.1 ++ pop "$5" ++ ["sw $3, 0($5)"], r2.2)
  else if production = "lvalue ID" then do
    let idNode ← root.child 0
    let tok ← idNode.1.getToken
    let id := tok.lexeme
    let off ← st.g_tables.getOffset id
    pure (["lis $5", ".word " ++ off, "add $3, $29, $5"], st)
  else if production = "lvalue LPAREN lvalue RPAREN" then do
    let lvalue ← root.child 1
    code lvalue.1 st
  else if production = "expr expr PLUS term" then do
    let expr ← root.child 0
    let term ← root.child 2
    let t1 := expr.1.getType
    let t2 := term.1.getType
    if t1 = INT ∧ t2 = INT then do
      let r1 ← code expr.1 st
      let r2 ← code term.1 r1.2
      pure (r1.1 ++ push "$3" ++ r2.1 ++ pop "$5" ++ ["add $3, $5, $3"], r2.2)
    else if t1 = INT_STAR ∧ t2 = INT then do
      let r1 ← code expr.1 st
      let r2 ← code term.1 r1.2
      pure (r1.1 ++ push "$3" ++ r2.1 ++ ["mult $3, $4", "mflo $3"] ++ pop "$5"
        ++ ["add $3, $5, $3"], r2.2)
    else if t1 = INT ∧ t2 = INT_STAR then do
      let r1 ← code expr.1 st
      let r2 ← code term.1 r1.2
      pure (r1.1 ++ ["mult $3, $4", "mflo $3"] ++ push "$3" ++ r2.1 ++ pop "$5"
        ++ ["add $3, $5, $3"], r2.2)
    else
      pure ([], st)
  else if production = "expr expr MINUS term" then do
    let expr ← root.child 0
    let term ← root.child 2
    let t1 := expr.1.getType
    let t2 := term.1.getType
    if t1 = INT ∧ t2 = INT then do
      let r1 ← code expr.1 st
      let r2 ← code term.1 r1.2
      pure (r1.1 ++ push "$3" ++ r2.1 ++ pop "$5" ++ ["sub $3, $5, $3"], r2.2)
    else if t1 = INT_STAR ∧ t2 = INT then do
      let r1 ← code expr.1 st
      let r2 ← code term.1 r1.2
      pure (r1.1 ++ push "$3" ++ r2.1 ++ ["mult $3, $4", "mflo $3"] ++ pop "$5"
        ++ ["sub $3, $5, $3"], r2.2)
    else if t1 = INT_STAR ∧ t2 = INT_STAR then do
      let r1 ← code expr.1 st
      let r2 ← code term.1 r1.2
      pure (r1.1 ++ push "$3" ++ r2.1 ++ pop "$5"
        ++ ["sub $3, $5, $3", "div $3, $4", "mflo $3"], r2.2)
    else
      pure ([], st)
  else if production = "term term STAR factor" then do
    let term ← root.child 0
    let factor ← root.child 2
    let r1 ← code term.1 st
    let r2 ← code factor.1 r1.2
    pure (r1.1 ++ push "$3" ++ r2.1 ++ pop "$5" ++ ["mult $5, $3", "mflo $3"], r2.2)
  else if production = "term term SLASH factor" then do
    let term ← root.child 0
    let factor ← root.child 2
    let r1 ← code term.1 st
    let r2 ← code factor.1 r1.2
    pure (r1.1 ++ push "$3" ++ r2.1 ++ pop "$5" ++ ["div $5, $3", "mflo $3"], r2.2)
  else if production = "term term PCT factor" then do
    let term ← root.child 0
    let factor ← root.child 2
    let r1 ← code term.1 st
    let r2 ← code factor.1 r1.2
    pure (r1.1 ++ push "$3" ++ r2.1 ++ pop "$5" ++ ["div $5, $3", "mfhi $3"], r2.2)
  else if production = "statement IF LPAREN test RPAREN LBRACE statements RBRACE ELSE LBRACE statements RBRACE" then do
    let test ← root.child 2
    let ifStatements ← root.child 5
    let elseStatements ← root.child 9
    let else_label := "Felse" ++ toString st.labelCtr
    let endif_label := "Fendif" ++ toString (st.labelCtr + 1)
    let st0 : State := { st with labelCtr := st.labelCtr + 1 + 1 }
    let r1 ← code test.1 st0
    let r2 ← code ifStatements.1 r1.2
    let r3 ← code elseStatements.1 r2.2
    pure (r1.1 ++ ["beq $3, $0, " ++ else_label] ++ r2.1 ++ ["beq $0, $0, " ++ endif_label]
      ++ [else_label ++ ":"] ++ r3.1 ++ [endif_label ++ ":"], r3.2)
  else if production = "statement WHILE LPAREN test RPAREN LBRACE statements RBRACE" then do
    let test ← root.child 2
    let statements ← root.child 5
    let loop_label := "Floop" ++ toString st.labelCtr
    let endwhile_label := "Fendwhile" ++ toString (st.labelCtr + 1)
    let st0 : State := { st with labelCtr := st.labelCtr + 1 + 1 }
    let r1 ← code test.1 st0
    let r2 ← code statements.1 r1.2
    pure ([loop_label ++ ":"] ++ r1.1 ++ ["beq $3, $0, " ++ endwhile_label] ++ r2.1
      ++ ["beq $0, $0, " ++ loop_label] ++ [endwhile_label ++ ":"], r2.2)
  else if production = "test expr EQ expr" then do
    let e1 ← root.child 0
    let e2 ← root.child 2
    let type := e1.1.getType
    let comparisonOp := comparisonOp type
    let r1 ← code e1.1 st
    let r2 ← code e2.1 r1.2
    pure (r1.1 ++ push "$3" ++ r2.1 ++ pop "$5"
      ++ [comparisonOp ++ " $6, $3, $5", comparisonOp ++ " $7, $5, $3", "add $3, $6, $7",
          "sub $3, $11, $3"], r2.2)
  else if production = "test expr NE expr" then do
    let e1 ← root.child 0
    let e2 ← root.child 2
    let type := e1.1.getType
    let comparisonOp := comparisonOp type
    let r1 ← code e1.1 st
    let r2 ← code e2.1 r1.2
    pure (r1.1 ++ push "$3" ++ r2.1 ++ pop "$5"
      ++ [comparisonOp ++ " $6, $3, $5", comparisonOp ++ " $7, $5, $3", "add $3, $6, $7"], r2.2)
  else if production = "test expr LT expr" then do
    let e1 ← root.child 0
    let e2 ← root.child 2
    let type := e1.1.getType
    let comparisonOp := comparisonOp type
    let r1 ← code e1.1 st
    let r2 ← code e2.1 r1.2
    pure (r1.1 ++ push "$3" ++ r2.1 ++ pop "$5" ++ [comparisonOp ++ " $3, $5, $3"], r2.2)
  else if production = "test expr LE expr" then do
    let e1 ← root.child 0
    let e2 ← root.child 2
    let type := e1.1.getType
    let comparisonOp := comparisonOp type
    let r1 ← code e1.1 st
    let r2 ← code e2.1 r1.2
    let r3 ← code e1.1 r2.2
    let r4 ← code e2.1 r3.2
    pure (r1.1 ++ push "$3" ++ r2.1 ++ pop "$5" ++ [comparisonOp ++ " $3, $5, $3"]
      ++ push "$3"
      ++ r3.1 ++ push "$3" ++ r4.1 ++ pop "$5"
      ++ [comparisonOp ++ " $6, $3, $5", comparisonOp ++ " $7, $5, $3", "add $3, $6, $7",
          "sub $3, $11, $3"]
      ++ pop "$5" ++ ["add $3, $5, $3"], r4.2)
  else if production = "test expr GE expr" then do
    let e1 ← root.child 0
    let e2 ← root.child 2
    let type := e1.1.getType
    let comparisonOp := comparisonOp type
    let r1 ← code e1.1 st
    let r2 ← code e2.1 r1.2
    let r3 ← code e1.1 r2.2
    let r4 ← code e2.1 r3.2
    pure (r1.1 ++ push "$3" ++ r2.1 ++ pop "$5" ++ [comparisonOp ++ " $3, $3, $5"]
      ++ push "$3"
      ++ r3.1 ++ push "$3" ++ r4.1 ++ pop "$5"
      ++ [comparisonOp ++ " $6, $3, $5", comparisonOp ++ " $7, $5, $3", "add $3, $6, $7",
          "sub $3, $11, $3"]
      ++ pop "$5" ++ ["add $3, $5, $3"], r4.2)
  else if production = "test expr GT expr" then do
    let e1 ← root.child 0
    let e2 ← root.child 2
    let type := e1.1.getType
    let comparisonOp := comparisonOp type
    let r1 ← code e1.1 st
    let r2 ← code e2.1 r1.2
    pure (r1.1 ++ push "$3" ++ r2.1 ++ pop "$5" ++ [comparisonOp ++ " $3, $3, $5"], r2.2)
  else if production = "statement PRINTLN LPAREN expr RPAREN SEMI" then do
    let expr ← root.child 2
    let r1 ← code expr.1 st
    pure (r1.1 ++ push "$3" ++ pop "$1" ++ push "$31" ++ push "$29" ++ ["jalr $10"]
      ++ pop "$29" ++ pop "$31", r1.2)
  else if production = "procedures procedure procedures" then do
    let procedure ← root.child 0
    let procedures ← root.child 1
    let r1 ← code procedure.1 st
    let r2 ← code procedures.1 r1.2
    pure (r1.1 ++ r2.1, r2.2)
  else if production = "procedure INT ID LPAREN params RPAREN LBRACE dcls statements RETURN expr SEMI RBRACE" then do
    let st0 : State := { st with g_tables := st.g_tables.push }
    let params ← root.child 3
    let dcls ← root.child 6
    let statements ← root.child 7
    let returnExpr ← root.child 9
    let nameNode ← root.child 1
    let tok ← nameNode.1.getToken
    let label := "F" ++ tok.lexeme
    let r1 ← code params.1 st0
    let r2 ← code dcls.1 r1.2
    let r3 ← code statements.1 r2.2
    let r4 ← code returnExpr.1 r3.2
    let tables ← r4.2.g_tables.pop
    pure ([label ++ ":", "sub $29, $30, $4"] ++ r1.1 ++ r2.1
      ++ (push "$1" ++ push "$2" ++ push "$5" ++ push "$6" ++ push "$7")
      ++ r3.1 ++ r4.1
      ++ (pop "$1" ++ pop "$2" ++ pop "$5" ++ pop "$6" ++ pop "$7")
      ++ ["jr $31"], { r4.2 with g_tables := tables })
  else if production = "params .EMPTY" then
    pure ([], st)
  else if production = "params paramlist" then do
    let paramlist ← root.child 0
    let r1 ← code paramlist.1 st
    let tables ← r1.2.g_tables.invertParamOffsets
    pure (r1.1, { r1.2 with g_tables := tables })
  else if production = "paramlist dcl" then do
    let dcl ← root.child 0
    let idNode ← dcl.1.child 1
    let tok ← idNode.1.getToken
    let id := tok.lexeme
    let type := idNode.1.getType
    let tables ← st.g_tables.insertParameterVariable id type
    pure ([], { st with g_tables := tables })
  else if production = "paramlist dcl COMMA paramlist" then do
    let dcl ← root.child 0
    let paramlist ← root.child 2
    let idNode ← dcl.1.child 1
    let tok ← idNode.1.getToken
    let id := tok.lexeme
    let type := idNode.1.getType
    let tables ← st.g_tables.insertParameterVariable id type
    code paramlist.1 { st with g_tables := tables }
  else if production = "factor ID LPAREN RPAREN" then do
    let idNode ← root.child 0
    let tok ← idNode.1.getToken
    let id := tok.lexeme
    let label := "F" ++ id
    pure (push "$29" ++ push "$31" ++ ["lis $5", ".word " ++ label, "jalr $5"]
      ++ pop "$31" ++ pop "$29", st)
  else if production = "factor ID LPAREN arglist RPAREN" then do
    let arglist ← root.child 2
    let args := arglist.1.getChildSymbolNodes "expr"
    let idNode ← root.child 0
    let tok ← idNode.1.getToken
    let id := tok.lexeme
    let label := "F" ++ id
    let r ← args.attach.foldlM (fun (acc : List String × State) expr => do
        let r1 ← code expr.1 acc.2
        pure (acc.1 ++ r1.1 ++ push "$3", r1.2)) (push "$29" ++ push "$31", st)
    pure (r.1 ++ ["lis $5", ".word " ++ label, "jalr $5"]
      ++ (List.replicate args.length (pop "$5")).flatten
      ++ pop "$31" ++ pop "$29", r.2)
  else if production = "arglist expr" then
    pure ([], st)
  else if production = "arglist expr COMMA arglist" then
    pure ([], st)
  else if production = "type INT STAR" then
    pure ([], st)
  else if production = "dcls dcls dcl BECOMES NULL SEMI" then do
    let dcls ← root.child 0
    let dcl ← root.child 1
    let null ← root.child 3
    let r1 ← code dcls.1 st
    let r2 ← code dcl.1 r1.2
    let r3 ← code null.1 r2.2
    pure (r1.1 ++ r2.1 ++ r3.1 ++ push "$3", r3.2)
  else if production = "factor NULL" then do
    let null ← root.child 0
    code null.1 st
  else if production = "factor AMP lvalue" then do
    let lvalue ← root.child 1
    code lvalue.1 st
  else if production = "factor STAR factor" then do
    let factor ← root.child 1
    let r1 ← code factor.1 st
    pure (r1.1 ++ ["lw $3, 0($3)"], r1.2)
  else if production = "lvalue STAR factor" then do
    let factor ← root.child 1
    let r1 ← code factor.1 st
    pure (r1.1, r1.2)
  else if production = "factor NEW INT LBRACK expr RBRACK" then do
    let expr ← root.child 3
    let r1 ← code expr.1 st
    pure (r1.1 ++ push "$3" ++ pop "$1" ++ push "$31" ++ push "$29"
      ++ ["lis $5", ".word new", "jalr $5"] ++ pop "$29" ++ pop "$31"
      ++ ["bne $3, $0, 2", "lis $3", ".word 69"], r1.2)
  else if production = "statement DELETE LBRACK RBRACK expr SEMI" then do
    let expr ← root.child 3
    let skipDelete_label := "FskipDelete" ++ toString st.labelCtr
    let st0 : State := { st with labelCtr := st.labelCtr + 1 }
    let r1 ← code expr.1 st0
    pure (r1.1 ++ ["lis $5", ".word 69", "beq $3, $5, " ++ skipDelete_label]
      ++ push "$3" ++ pop "$1" ++ push "$31" ++ push "$29"
      ++ ["lis $5", ".word delete", "jalr $5"] ++ pop "$29" ++ pop "$31"
      ++ [skipDelete_label ++ ":"], r1.2)
  else
    pure ([], st)
termination_by (sizeOf root, 0)
decreasing_by
  all_goals apply Prod.Lex.left
  all_goals first
    | exact @Subtype.property TreeNode (fun c => sizeOf c < sizeOf root) _
    | exact Nat.lt_trans
        (TreeNode.sizeOf_lt_of_mem_getChildSymbolNodes "expr" arglist.1 expr.1 expr.2) arglist.2

def code (root : TreeNode) (st : State) : Result :=
  if root.N then codeN root st else codeT root st
termination_by (sizeOf root, 1)
decreasing_by
  all_goals exact Prod.Lex.right _ Nat.zero_lt_one

end

/-- The fixed lines `main` emits before the code of the tree. -/
def prologue : List String :=
  [".import print", ".import init", ".import new", ".import delete",
   "lis $4", ".word 4", "lis $10", ".word print", "lis $11", ".word 1",
   "beq $0, $0, Fwain"]

/-- Function `main` after loading the tree: the text written to standard output, from
the initial globals (empty `g_tables`, `labelCtr = 0`). -/
def emit (root : TreeNode) : Except Err String := do
  let r ← code root {}
  pure (render (prologue ++ r.1))

/-! ## Call sites: the argument chain of an `arglist` -/

/-- The argument expressions `e1..en` of a well-formed `arglist` chain
(`arglist expr` or `arglist expr COMMA arglist`), `none` when the node is not one. -/
def TreeNode.argChain : TreeNode → Option (List TreeNode)
  | .mk _ sym prod _ [e] =>
    if sym = "arglist" ∧ prod = "arglist expr" ∧ e.symbol = "expr" then some [e] else none
  | .mk _ sym prod _ [e, comma, rest] =>
    if sym = "arglist" ∧ prod = "arglist expr COMMA arglist" ∧ e.symbol = "expr"
        ∧ comma.symbol = "COMMA" ∧ comma.children.isEmpty then
      match rest.argChain with
      | some es => some (e :: es)
      | none => none
    else none
  | _ => none

/-- Code of the arguments `e1..en` in left-to-right order, each followed by push `$3`;
the globals are threaded from one argument to the next. -/
def argsCode : List TreeNode → State → Result
  | [], st => .ok ([], st)
  | e :: es, st => do
    let r ← code e st
    let rs ← argsCode es r.2
    pure (r.1 ++ push "$3" ++ rs.1, rs.2)

/-! ## Comparisons: the lines a test handler emits itself -/

/-- Opcode of an assembly line: its characters up to the first blank. -/
def mnemonic (line : String) : String :=
  String.mk (line.toList.takeWhile (fun c => c ≠ ' '))

/-- Comparison instructions of the target: `slt` and `sltu`. -/
def isComparison (line : String) : Bool :=
  mnemonic line = "slt" || mnemonic line = "sltu"

/-- Lines of the `==` computation once the left value is in `$5` and the right in `$3`. -/
def eqLines (op : String) : List String :=
  [op ++ " $6, $3, $5", op ++ " $7, $5, $3", "add $3, $6, $7", "sub $3, $11, $3"]

/-- Lines of the `!=` computation. -/
def neLines (op : String) : List String :=
  [op ++ " $6, $3, $5", op ++ " $7, $5, $3", "add $3, $6, $7"]

/-- Lines of the `<` computation. -/
def ltLines (op : String) : List String :=
  [op ++ " $3, $5, $3"]

/-- Lines of the `>` computation. -/
def gtLines (op : String) : List String :=
  [op ++ " $3, $3, $5"]

/-- Lines after the pop of the left value in the handlers `EQ`, `NE`, `LT`, `GT`. -/
def testTail (production op : String) : List String :=
  if production = "test expr EQ expr" then eqLines op
  else if production = "test expr NE expr" then neLines op
  else if production = "test expr LT expr" then ltLines op
  else gtLines op

/-- Lines of the strict comparison in the handlers `LE` (`<`) and `GE` (`>`). -/
def strictLines (production op : String) : List String :=
  if production = "test expr LE expr" then ltLines op else gtLines op

/-- Layout of the output of the test handlers `EQ`, `NE`, `LT`, `GT`, given the comparison
opcode and the code `o1`, `o2` of the two operands. -/
def testOutput (production op : String) (o1 o2 : List String) : List String :=
  o1 ++ push "$3" ++ o2 ++ pop "$5" ++ testTail production op

/-- Layout of the output of the test handlers `LE` and `GE`: the operands are emitted
twice, `o1`, `o2` for the strict comparison and `o3`, `o4` for the equality. -/
def testOutput2 (production op : String) (o1 o2 o3 o4 : List String) : List String :=
  o1 ++ push "$3" ++ o2 ++ pop "$5" ++ strictLines production op
    ++ push "$3" ++ o3 ++ push "$3" ++ o4
    ++ (pop "$5" ++ eqLines op ++ pop "$5" ++ ["add $3, $5, $3"])

/-! ## A reading of the target instructions used by the test handlers -/

/-- Instructions the comparison code is made of. -/
inductive Instr where
  | add (d s t : Register)
  | sub (d s t : Register)
  | slt (d s t : Register)
  | sltu (d s t : Register)
  | lw (t : Register) (i : Int) (s : Register)
  | sw (t : Register) (i : Int) (s : Register)
deriving DecidableEq, Repr

/-- Splits a list of characters at every occurrence of `c`. -/
def splitOnChar (c : Char) : List Char → List (List Char)
  | [] => [[]]
  | x :: xs =>
    if x = c then [] :: splitOnChar c xs
    else
      match splitOnChar c xs with
      | [] => [[x]]
      | w :: ws => (x :: w) :: ws

/-- Drops the comma that ends an operand. -/
def stripComma (w : List Char) : List Char :=
  if w.getLast? = some ',' then w.dropLast else w

def parseNat? (w : List Char) : Option Nat :=
  if w ≠ [] ∧ w.all Char.isDigit then
    some (w.foldl (fun n c => 10 * n + (c.toNat - '0'.toNat)) 0)
  else none

def parseInt? (w : List Char) : Option Int :=
  match w with
  | '-' :: ds => (parseNat? ds).map (fun n => -(n : Int))
  | _ => (parseNat? w).map Int.ofNat

/-- Operand `i(s)` of a load or store: offset and base register. -/
def parseMem? (w : List Char) : Option (Int × Register) :=
  match splitOnChar '(' w with
  | [off, rest] =>
    if rest.getLast? = some ')' then
      (parseInt? off).map (fun i => (i, String.mk rest.dropLast))
    else none
  | _ => none

/-- Reads one emitted line as an instruction. -/
def parseInstr (line : String) : Option Instr :=
  match (splitOnChar ' ' line.toList).map stripComma with
  | [op, a, b, c] =>
    if op = "add".toList then some (.add (String.mk a) (String.mk b) (String.mk c))
    else if op = "sub".toList then some (.sub (String.mk a) (String.mk b) (String.mk c))
    else if op = "slt".toList then some (.slt (String.mk a) (String.mk b) (String.mk c))
    else if op = "sltu".toList then some (.sltu (String.mk a) (String.mk b) (String.mk c))
    else none
  | [op, a, m] =>
    match parseMem? m with
    | some (i, s) =>
      if op = "lw".toList then some (.lw (String.mk a) i s)
      else if op = "sw".toList then some (.sw (String.mk a) i s)
      else none
    | none => none
  | _ => none

/-- Registers and memory of the target machine, with unbounded integers as values. -/
structure Machine where
  reg : Register → Int
  mem : Int → Int

def Machine.setReg (m : Machine) (d : Register) (v : Int) : Machine :=
  { m with reg := fun r => if r = d then v else m.reg r }

def Machine.setMem (m : Machine) (a : Int) (v : Int) : Machine :=
  { m with mem := fun b => if b = a then v else m.mem b }

/-- Effect of one instruction: `slt` compares with the order `lts`, `sltu` with `ltu`;
`add` and `sub` are integer arithmetic. -/
def exec (lts ltu : Int → Int → Bool) (m : Machine) : Instr → Machine
  | .add d s t => m.setReg d (m.reg s + m.reg t)
  | .sub d s t => m.setReg d (m.reg s - m.reg t)
  | .slt d s t => m.setReg d (if lts (m.reg s) (m.reg t) then 1 else 0)
  | .sltu d s t => m.setReg d (if ltu (m.reg s) (m.reg t) then 1 else 0)
  | .lw t i s => m.setReg t (m.mem (m.reg s + i))
  | .sw t i s => m.setMem (m.reg s + i) (m.reg t)

/-- Runs a sequence of emitted lines; `none` when a line is not one of the instructions
above. -/
def run (lts ltu : Int → Int → Bool) : List String → Machine → Option Machine
  | [], m => some m
  | line :: rest, m =>
    match parseInstr line with
    | some i => run lts ltu rest (exec lts ltu m i)
    | none => none

/-- The usual order of the integers as a comparison function. -/
def intLt (a b : Int) : Bool := decide (a < b)

/-- Bindings created by inserting `ps` as parameters starting at counter `c`. -/
def SymbolTable.paramsFrom (c : Int) : List (Identifier × WType) → List (Identifier × (WType × Int))
  | [] => []
  | p :: ps => (p.1, (p.2, c)) :: SymbolTable.paramsFrom (wrapInt (c + 4)) ps

/-- Bindings created by inserting `ls` as locals starting at counter `c`. -/
def SymbolTable.localsFrom (c : Int) : List (Identifier × WType) → List (Identifier × (WType × Int))
  | [] => []
  | p :: ps => (p.1, (p.2, c)) :: SymbolTable.localsFrom (wrapInt (c - 4)) ps

/-- The update `invertParamOffsets` applies to one binding, `K` being `4 + maxOffset`. -/
def SymbolTable.invertEntry (K : Int) (var : Identifier × (WType × Int)) : Identifier × (WType × Int) :=
  if var.2.2 > 0 then (var.1, (var.2.1, wrapInt (K - var.2.2))) else var

/-- The `i`-th of a sequence of pairwise distinct identifiers: the binary digits of
`i + 1`, lowest first, written `a` for 0 and `b` for 1 (`b`, `ab`, `bb`, `aab`, ...). -/
def ident (i : Nat) : Identifier :=
  String.mk ((Nat.digits 2 (i + 1)).map (fun d => if d = 0 then 'a' else 'b'))

/-- The declarations `int b`, `int ab`, `int bb`, ...: `n` pairwise distinct identifiers. -/
def manyDcls (n : Nat) : List (Identifier × WType) :=
  (List.range n).map (fun i => (ident i, "int"))

/-! ## Push and pop sequences in emitted output -/

/-- First line of a push sequence: `sw r, -4($30)` for some register text `r`. -/
def isPushHead (line : String) : Bool :=
  "sw ".toList.isPrefixOf line.toList && ", -4($30)".toList.isSuffixOf line.toList

/-- Second line of a pop sequence: `lw r, -4($30)` for some register text `r`. -/
def isPopTail (line : String) : Bool :=
  "lw ".toList.isPrefixOf line.toList && ", -4($30)".toList.isSuffixOf line.toList

/-- Number of push sequences (`sw r, -4($30)` followed by `sub $30, $30, $4`). -/
def pushCount : List String → Nat
  | a :: b :: rest =>
    (if isPushHead a && b == "sub $30, $30, $4" then 1 else 0) + pushCount (b :: rest)
  | _ => 0

/-- Number of pop sequences (`add $30, $30, $4` followed by `lw r, -4($30)`). -/
def popCount : List String → Nat
  | a :: b :: rest =>
    (if a == "add $30, $30, $4" && isPopTail b then 1 else 0) + popCount (b :: rest)
  | _ => 0

/-- A line that can start a push or pop sequence. -/
def opensSequence (line : String) : Bool :=
  isPushHead line || line == "add $30, $30, $4"

/-- The output does not end in the middle of a push or pop sequence. -/
def closed (out : List String) : Bool :=
  match out.getLast? with
  | none => true
  | some l => !opensSequence l

/-- The output has `n` more push sequences than pop sequences and does not end inside
one. -/
def Bal (n : Int) (out : List String) : Prop :=
  closed out = true ∧ (pushCount out : Int) - (popCount out : Int) = n

instance Bal.decidable (n : Int) (out : List String) : Decidable (Bal n out) := by
  unfold Bal; infer_instance

mutual
/-- Whether every node of the subtree satisfies `p`. -/
def TreeNode.allNodes (p : Production → Bool) : TreeNode → Bool
  | .mk _ _ prod _ cs => p prod && TreeNode.allNodesList p cs
/-- Whether every node of every subtree in the list satisfies `p`. -/
def TreeNode.allNodesList (p : Production → Bool) : List TreeNode → Bool
  | [] => true
  | c :: cs => TreeNode.allNodes p c && TreeNode.allNodesList p cs
end

/-- Productions whose handler allocates stack slots it does not free: the two initialised
declarations (one push each) and `main` (the two parameter slots). -/
def allocates (production : Production) : Bool :=
  production == "dcls dcls dcl BECOMES NUM SEMI"
    || production == "dcls dcls dcl BECOMES NULL SEMI"
    || production == "main INT WAIN LPAREN dcl COMMA dcl RPAREN LBRACE dcls statements RETURN expr SEMI RBRACE"

/-- No node of the subtree is an initialised declaration or `main`. -/
def TreeNode.allocationFree (root : TreeNode) : Bool :=
  root.allNodes (fun production => !allocates production)

/-- The property `Q` of the result when emission succeeds. -/
def Post (Q : List String × State → Prop) (r : Result) : Prop :=
  match r with
  | .ok a => Q a
  | .error _ => True

/-- A line that is no part of any push or pop sequence. -/
def plain (line : String) : Bool :=
  !isPushHead line && !isPopTail line && line != "sub $30, $30, $4"
    && line != "add $30, $30, $4"

/-! ## Example trees -/

/-- Terminal node for a token of kind `sym` with lexeme `lex`, annotated `ty`. -/
def leaf (sym lex : String) (ty : String := "") : TreeNode :=
  .mk ty sym "" ⟨sym, lex⟩ []

/-- Interior node for production `prod`, annotated `ty`. -/
def node (sym prod : String) (cs : List TreeNode) (ty : String := "") : TreeNode :=
  .mk ty sym prod {} cs

/-- Tree of the expression consisting of the literal `n`. -/
def exprNum (n : String) : TreeNode :=
  node "expr" "expr term"
    [node "term" "term factor" [node "factor" "factor NUM" [leaf "NUM" n "int"] "int"] "int"]
    "int"

/-- Tree of the term consisting of the literal `n`. -/
def termNum (n : String) (ty : String := "int") : TreeNode :=
  node "term" "term factor" [node "factor" "factor NUM" [leaf "NUM" n ty] ty] ty

/-- Tree of the expression consisting of the identifier `x`, annotated `ty`. -/
def exprId (x : String) (ty : String := "int") : TreeNode :=
  node "expr" "expr term"
    [node "term" "term factor" [node "factor" "factor ID" [leaf "ID" x ty] ty] ty] ty

/-- Tree of the term consisting of the identifier `x`, annotated `ty`. -/
def termId (x : String) (ty : String := "int") : TreeNode :=
  node "term" "term factor" [node "factor" "factor ID" [leaf "ID" x ty] ty] ty

/-- Globals inside a procedure with locals `p` and `q` of type `int*` at offsets 0 and -4. -/
def statePQ : State :=
  { g_tables := { s := [{ varTable := [("p", ("int*", 0)), ("q", ("int*", -4))],
                          localCtr := -8, paramCtr := 4 }] },
    labelCtr := 0 }

/-- Tree of `p + 1` with `p : int*`. -/
def plusPtrTree : TreeNode :=
  node "expr" "expr expr PLUS term" [exprId "p" "int*", leaf "PLUS" "+", termNum "1"] "int*"

/-- Tree of `p - q` with `p, q : int*`. -/
def minusPtrTree : TreeNode :=
  node "expr" "expr expr MINUS term" [exprId "p" "int*", leaf "MINUS" "-", termId "q" "int*"]
    "int"

/-- Tree of the argument list `1, 2`. -/
def argList12 : TreeNode :=
  node "arglist" "arglist expr COMMA arglist"
    [exprNum "1", leaf "COMMA" ",", node "arglist" "arglist expr" [exprNum "2"]]

/-- Tree of the call `f(1, 2)`. -/
def callF12 : TreeNode :=
  node "factor" "factor ID LPAREN arglist RPAREN"
    [leaf "ID" "f", leaf "LPAREN" "(", argList12, leaf "RPAREN" ")"] "int"

/-- Tree of the test `1 op 2` for the given test production and operator token. -/
def testTree (production kind lexeme : String) : TreeNode :=
  .mk "" "test" production {} [exprNum "1", .mk "" kind "" ⟨kind, lexeme⟩ [], exprNum "2"]

/-- Tree of the declaration `int x`. -/
def dclInt (x : String) : TreeNode :=
  node "dcl" "dcl type ID" [node "type" "type INT" [leaf "INT" "int"], leaf "ID" x "int"]

def emptyDcls : TreeNode := node "dcls" "dcls .EMPTY" [TreeNode.new ".EMPTY"]

def emptyStatements : TreeNode := node "statements" "statements .EMPTY" [TreeNode.new ".EMPTY"]

def emptyParams : TreeNode := node "params" "params .EMPTY" [TreeNode.new ".EMPTY"]

/-- Tree of `int name() { dcls return 0; }`. -/
def procTree (name : String) (dcls : TreeNode) : TreeNode :=
  node "procedure"
    "procedure INT ID LPAREN params RPAREN LBRACE dcls statements RETURN expr SEMI RBRACE"
    [leaf "INT" "int", leaf "ID" name, leaf "LPAREN" "(", emptyParams, leaf "RPAREN" ")",
     leaf "LBRACE" "\x7b", dcls, emptyStatements, leaf "RETURN" "return", exprNum "0",
     leaf "SEMI" ";", leaf "RBRACE" "\x7d"]

/-- Tree of `int wain(int a, int b) { statements return ret; }`. -/
def mainTree (statements ret : TreeNode) : TreeNode :=
  node "main"
    "main INT WAIN LPAREN dcl COMMA dcl RPAREN LBRACE dcls statements RETURN expr SEMI RBRACE"
    [leaf "INT" "int", leaf "WAIN" "wain", leaf "LPAREN" "(", dclInt "a", leaf "COMMA" ",",
     dclInt "b", leaf "RPAREN" ")", leaf "LBRACE" "\x7b", emptyDcls, statements,
     leaf "RETURN" "return", ret, leaf "SEMI" ";", leaf "RBRACE" "\x7d"]

/-- Tree of the program `int wain(int a, int b) { return a; }`. -/
def minimalProgram : TreeNode :=
  node "start" "start BOF procedures EOF"
    [leaf "BOF" "BOF", node "procedures" "procedures main" [mainTree emptyStatements (exprId "a")],
     leaf "EOF" "EOF"]

/-- Tree of the statement `if (a < b) {} else {}`. -/
def ifTree : TreeNode :=
  node "statement"
    "statement IF LPAREN test RPAREN LBRACE statements RBRACE ELSE LBRACE statements RBRACE"
    [leaf "IF" "if", leaf "LPAREN" "(",
     node "test" "test expr LT expr" [exprId "a", leaf "LT" "<", exprId "b"],
     leaf "RPAREN" ")", leaf "LBRACE" "\x7b", emptyStatements, leaf "RBRACE" "\x7d",
     leaf "ELSE" "else", leaf "LBRACE" "\x7b", emptyStatements, leaf "RBRACE" "\x7d"]

/-- Tree of the program
`int else0() { return 0; } int wain(int a, int b) { if (a < b) {} else {} return a; }`. -/
def else0Program : TreeNode :=
  node "start" "start BOF procedures EOF"
    [leaf "BOF" "BOF",
     node "procedures" "procedures procedure procedures"
       [procTree "else0" emptyDcls,
        node "procedures" "procedures main"
          [mainTree (node "statements" "statements statements statement"
            [emptyStatements, ifTree]) (exprId "a")]],
     leaf "EOF" "EOF"]

/-- Label definitions (`<name>:` lines) of an output that define `name`. -/
def labelDefCount (name : String) (out : List String) : Nat :=
  out.count (name ++ ":")

/-- Globals inside `wain(int a, int b)` once both parameters are declared. -/
def stateAB (labelCtr : Nat) : State :=
  { g_tables := { s := [{ varTable := [("a", ("int", 0)), ("b", ("int", -4))],
                          localCtr := -8, paramCtr := 4 }] },
    labelCtr := labelCtr }

/-- Lines the emitter produces for `else0Program`. -/
def else0ProgramOutput : List String :=
  ["Felse0:", "sub $29, $30, $4",
   "sw $1, -4($30)", "sub $30, $30, $4", "sw $2, -4($30)", "sub $30, $30, $4",
   "sw $5, -4($30)", "sub $30, $30, $4", "sw $6, -4($30)", "sub $30, $30, $4",
   "sw $7, -4($30)", "sub $30, $30, $4",
   "lis $3", ".word 0",
   "add $30, $30, $4", "lw $1, -4($30)", "add $30, $30, $4", "lw $2, -4($30)",
   "add $30, $30, $4", "lw $5, -4($30)", "add $30, $30, $4", "lw $6, -4($30)",
   "add $30, $30, $4", "lw $7, -4($30)",
   "jr $31",
   "Fwain:", "sub $29, $30, $4",
   "sw $29, -4($30)", "sub $30, $30, $4", "sw $31, -4($30)", "sub $30, $30, $4",
   "sw $2, -4($30)", "sub $30, $30, $4", "lis $2", ".word 0",
   "lis $5", ".word init", "jalr $5",
   "add $30, $30, $4", "lw $2, -4($30)", "add $30, $30, $4", "lw $31, -4($30)",
   "add $30, $30, $4", "lw $29, -4($30)",
   "sw $1, -4($30)", "sub $30, $30, $4", "sw $2, -4($30)", "sub $30, $30, $4",
   "lw $3, 0($29)", "sw $3, -4($30)", "sub $30, $30, $4",
   "lw $3, -4($29)", "add $30, $30, $4", "lw $5, -4($30)", "slt $3, $5, $3",
   "beq $3, $0, Felse0", "beq $0, $0, Fendif1", "Felse0:", "Fendif1:",
   "lw $3, 0($29)", "jr $31"]

/-- Tree of the declarations `int x = 5;` (after no other declaration). -/
def dclsInitTree : TreeNode :=
  node "dcls" "dcls dcls dcl BECOMES NUM SEMI"
    [emptyDcls, dclInt "x", leaf "BECOMES" "=", leaf "NUM" "5" "int", leaf "SEMI" ";"]

/-- Globals on entry to a procedure body: one fresh scope. -/
def stateFresh : State :=
  { g_tables := { s := [{ varTable := [], localCtr := 0, paramCtr := 4 }] }, labelCtr := 0 }

/-! ## The entry of `wain` -/

/-- Lines `main` emits before pushing the parameters: the label, the frame pointer and the
call of `init`, which depends on the type `ty` of the first parameter. -/
def wainPrologue (ty : WType) : List String :=
  if ty = INT_STAR then
    ["Fwain:", "sub $29, $30, $4"] ++ push "$29" ++ push "$31"
      ++ ["lis $5", ".word init", "jalr $5"] ++ pop "$31" ++ pop "$29"
  else if ty = INT then
    ["Fwain:", "sub $29, $30, $4"] ++ push "$29" ++ push "$31" ++ push "$2"
      ++ ["lis $2", ".word 0"] ++ ["lis $5", ".word init", "jalr $5"]
      ++ pop "$2" ++ pop "$31" ++ pop "$29"
  else ["Fwain:", "sub $29, $30, $4"]

/-- Globals after `main` has declared its parameters `a : ta` and `b : tb` in the scope it
pushed on `st`. -/
def stateWain (st : State) (a b : Identifier) (ta tb : WType) : State :=
  { st with g_tables :=
      { s := { varTable := [(a, (ta, 0)), (b, (tb, -4))], localCtr := -8, paramCtr := 4 }
          :: st.g_tables.s } }

/-- Lines the emitter produces for the `main` node of
`int wain(int a, int b) { return a; }`. -/
def minimalMainOutput : List String :=
  ["Fwain:", "sub $29, $30, $4"]
    ++ push "$29" ++ push "$31" ++ push "$2"
    ++ ["lis $2", ".word 0", "lis $5", ".word init", "jalr $5"]
    ++ pop "$2" ++ pop "$31" ++ pop "$29"
    ++ push "$1" ++ push "$2"
    ++ ["lw $3, 0($29)", "jr $31"]

/-- Machine on entry to the body of `wain`: `$4 = 4`, `$30 = 100`, `$29 = $30 - 4`, and the
two arguments 7 and 9 in `$1` and `$2`. -/
def wainEntryMachine : Machine :=
  { reg := fun x =>
      if x = "$4" then 4 else if x = "$30" then 100 else if x = "$29" then 96
      else if x = "$1" then 7 else if x = "$2" then 9 else 0,
    mem := fun _ => 0 }

/-! ## Label allocation -/

/-- Productions whose handler takes labels from `labelCtr`: `if` and `while` (two each)
and `delete` (one). -/
def allocatesLabel (production : Production) : Bool :=
  production == "statement IF LPAREN test RPAREN LBRACE statements RBRACE ELSE LBRACE statements RBRACE"
    || production == "statement WHILE LPAREN test RPAREN LBRACE statements RBRACE"
    || production == "statement DELETE LBRACK RBRACK expr SEMI"

/-- No node of the subtree is an `if`, `while` or `delete` statement. -/
def TreeNode.labelFree (root : TreeNode) : Bool :=
  root.allNodes (fun production => !allocatesLabel production)

/-- Tree of the test `a < b`. -/
def testAB : TreeNode :=
  node "test" "test expr LT expr" [exprId "a", leaf "LT" "<", exprId "b"]

/-- Tree of the statement list `if (a < b) {} else {} if (a < b) {} else {}`. -/
def twoIfs : TreeNode :=
  node "statements" "statements statements statement"
    [node "statements" "statements statements statement" [emptyStatements, ifTree], ifTree]

/-- Lines the emitter produces for `twoIfs` from label counter 0. -/
def twoIfsOutput : List String :=
  ["lw $3, 0($29)", "sw $3, -4($30)", "sub $30, $30, $4",
   "lw $3, -4($29)", "add $30, $30, $4", "lw $5, -4($30)", "slt $3, $5, $3",
   "beq $3, $0, Felse0", "beq $0, $0, Fendif1", "Felse0:", "Fendif1:",
   "lw $3, 0($29)", "sw $3, -4($30)", "sub $30, $30, $4",
   "lw $3, -4($29)", "add $30, $30, $4", "lw $5, -4($30)", "slt $3, $5, $3",
   "beq $3, $0, Felse2", "beq $0, $0, Fendif3", "Felse2:", "Fendif3:"]

/-! ## Example symbol tables and lookups -/

/-- A table in which `x` is bound as an `int` local at offset 0. -/
def tableX : SymbolTable :=
  { varTable := [("x", ("int", 0))], localCtr := -4, paramCtr := 4 }

/-- A stack whose top scope is empty and whose scope below binds `x`. -/
def stackXBelow : SymbolTableStack :=
  { s := [{}, tableX] }

/-- The node `lvalue ID` for the identifier `x`. -/
def lvalueId (x : String) (ty : String := "int") : TreeNode :=
  node "lvalue" "lvalue ID" [leaf "ID" x ty] ty

/-! ## Parse-tree loader -/

/-- Function `splitString(s)` with its default delimiter `" "`: the pieces of `s` between
consecutive spaces (a piece may be empty; the result is never empty). -/
def splitString (s : String) : List String :=
  (splitOnChar ' ' s.toList).map String.mk

/-- Function `joinVector(v)` with its default separator `" "`: every element followed by a
space, and the last character removed when the result is not empty. -/
def joinVector (v : List String) : String :=
  let out := v.foldl (fun out s => out ++ s ++ " ") ""
  if out.length > 0 then String.mk out.toList.dropLast else out

/-- The start of `loadParseTree` on a line that was read: `splitString`, then the
`// Get type` block. Returns `type`, `parsedLine` and `line` as they are afterwards.
`*(parsedLine.end() - 2)` is outside a vector of fewer than two elements. -/
def stripType (line : String) : Except Err (WType × List String × String) :=
  let parsedLine := splitString line
  if parsedLine.length < 2 then .error .undefined
  else if parsedLine.getD (parsedLine.length - 2) "" = ":" then
    .ok (parsedLine.getD (parsedLine.length - 1) "", parsedLine.take (parsedLine.length - 2),
      joinVector (parsedLine.take (parsedLine.length - 2)))
  else .ok ("", parsedLine, line)

mutual

/-- Function `loadParseTree`. The stream is the list of the lines `getline` will return;
the result is the loaded node and the lines left in the stream, with the fact that a line
was consumed. `isProduction` stands for the membership test of the production registry. -/
def loadParseTreeCert (isProduction : String → Bool) (stream : List String) :
    Except Err {r : TreeNode × List String // r.2.length < stream.length} :=
  match stream with
  | [] => .error .thrown
  | line :: stream1 =>
    match stripType line with
    | .error e => .error e
    | .ok (type, parsedLine, line1) =>
      if isProduction line1 then
        match parsedLine with
        | [] => .error .undefined
        | sym :: rhs =>
          match loadChildrenCert isProduction rhs stream1 with
          | .error e => .error e
          | .ok r => .ok ⟨(TreeNode.mk type sym line1 {} r.1.1, r.1.2),
              Nat.lt_succ_of_le r.2⟩
      else
        match parsedLine with
        | kind :: lexeme :: _ =>
          .ok ⟨(TreeNode.mk type kind "" ⟨kind, lexeme⟩ [], stream1), Nat.lt_succ_self _⟩
        | _ => .error .undefined
termination_by (stream.length, 0)
decreasing_by
  all_goals simp_wf
  all_goals exact Prod.Lex.left _ _ (Nat.lt_succ_self _)

/-- The loop `for (size_t i = 1; i < parsedLine.size(); ++i)` of `loadParseTree` over the
right-hand side symbols: a sentinel leaf for `.EMPTY`, a loaded subtree otherwise. -/
def loadChildrenCert (isProduction : String → Bool) (rhs : List String) (stream : List String) :
    Except Err {r : List TreeNode × List String // r.2.length ≤ stream.length} :=
  match rhs with
  | [] => .ok ⟨([], stream), Nat.le_refl _⟩
  | sym :: rest =>
    if sym = ".EMPTY" then
      match loadChildrenCert isProduction rest stream with
      | .error e => .error e
      | .ok r => .ok ⟨(TreeNode.new ".EMPTY" :: r.1.1, r.1.2), r.2⟩
    else
      match loadParseTreeCert isProduction stream with
      | .error e => .error e
      | .ok c =>
        match loadChildrenCert isProduction rest c.1.2 with
        | .error e => .error e
        | .ok r => .ok ⟨(c.1.1 :: r.1.1, r.1.2), Nat.le_trans r.2 (Nat.le_of_lt c.2)⟩
termination_by (stream.length, rhs.length + 1)
decreasing_by
  all_goals simp_wf
  · exact Prod.Lex.right _ (Nat.lt_succ_self _)
  · exact Prod.Lex.right _ (Nat.succ_pos _)
  · exact Prod.Lex.left _ _ c.2

end

/-- Function `loadParseTree`: the loaded node and the lines left in the stream. -/
def loadParseTree (isProduction : String → Bool) (stream : List String) :
    Except Err (TreeNode × List String) :=
  (loadParseTreeCert isProduction stream).map Subtype.val

/-- The children loop of `loadParseTree`: the loaded children and the lines left. -/
def loadChildren (isProduction : String → Bool) (rhs : List String) (stream : List String) :
    Except Err (List TreeNode × List String) :=
  (loadChildrenCert isProduction rhs stream).map Subtype.val

/-- The type `loadParseTree` takes from a line: the last word when the word before it is
`:`, and the empty type otherwise. -/
def typeOfLine (line : String) : WType :=
  match stripType line with
  | .ok (type, _, _) => type
  | .error _ => ""

mutual
/-- The type annotations of all nodes of the subtree. -/
def TreeNode.types : TreeNode → List WType
  | .mk ty _ _ _ cs => ty :: TreeNode.typesList cs
/-- The type annotations of all nodes of the subtrees in the list. -/
def TreeNode.typesList : List TreeNode → List WType
  | [] => []
  | c :: cs => TreeNode.types c ++ TreeNode.typesList cs
end

/-- Modelled from the spec: the production registry `WLP4_PRODUCTIONS`, which the source
loads from `WLP4_CFG` of `wlp4data.h` (not among the sources). The spec describes it as
the set of the legal productions of the grammar; these are the productions `codeN`
dispatches on. -/
def wlp4Productions : List Production :=
  ["start BOF procedures EOF", "procedures main",
   "main INT WAIN LPAREN dcl COMMA dcl RPAREN LBRACE dcls statements RETURN expr SEMI RBRACE",
   "type INT", "dcl type ID", "dcls .EMPTY", "statements .EMPTY", "expr term", "term factor",
   "factor NUM", "factor ID", "factor LPAREN expr RPAREN", "dcls dcls dcl BECOMES NUM SEMI",
   "statements statements statement", "statement lvalue BECOMES expr SEMI", "lvalue ID",
   "lvalue LPAREN lvalue RPAREN", "expr expr PLUS term", "expr expr MINUS term",
   "term term STAR factor", "term term SLASH factor", "term term PCT factor",
   "statement IF LPAREN test RPAREN LBRACE statements RBRACE ELSE LBRACE statements RBRACE",
   "statement WHILE LPAREN test RPAREN LBRACE statements RBRACE",
   "test expr EQ expr", "test expr NE expr", "test expr LT expr", "test expr LE expr",
   "test expr GE expr", "test expr GT expr", "statement PRINTLN LPAREN expr RPAREN SEMI",
   "procedures procedure procedures",
   "procedure INT ID LPAREN params RPAREN LBRACE dcls statements RETURN expr SEMI RBRACE",
   "params .EMPTY", "params paramlist", "paramlist dcl", "paramlist dcl COMMA paramlist",
   "factor ID LPAREN RPAREN", "factor ID LPAREN arglist RPAREN", "arglist expr",
   "arglist expr COMMA arglist", "type INT STAR", "dcls dcls dcl BECOMES NULL SEMI",
   "factor NULL", "factor AMP lvalue", "factor STAR factor", "lvalue STAR factor",
   "factor NEW INT LBRACK expr RBRACK", "statement DELETE LBRACK RBRACK expr SEMI"]

/-- Function `isProduction` over `wlp4Productions`. -/
def isProduction (s : String) : Bool :=
  wlp4Productions.contains s

/-- The serialized tree of the expression `5`, followed by one more line. -/
def exprNumLines : List String :=
  ["expr term : int", "term factor : int", "factor NUM : int", "NUM 5 : int", "EOF EOF"]

/-! ## Nodes without a handler -/

/-- A node with a production that `codeN` has no branch for. -/
def unhandledTree : TreeNode :=
  node "block" "block LBRACE statements RBRACE"
    [leaf "LBRACE" "\x7b", emptyStatements, leaf "RBRACE" "\x7d"]

/-- Tree of `p + q` with `p, q : int*`, a sum the typing table has no row for. -/
def plusPtrPtrTree : TreeNode :=
  node "expr" "expr expr PLUS term" [exprId "p" "int*", leaf "PLUS" "+", termId "q" "int*"]
    "int*"

/-- Tree of `1 - q` with `q : int*`, a difference the typing table has no row for. -/
def minusIntPtrTree : TreeNode :=
  node "expr" "expr expr MINUS term" [exprNum "1", leaf "MINUS" "-", termId "q" "int*"] "int"

/-! ## Shape of loaded trees -/

mutual
/-- All nodes of the subtree, the root first. -/
def TreeNode.nodes : TreeNode → List TreeNode
  | .mk ty sym prod tok cs => .mk ty sym prod tok cs :: TreeNode.nodesList cs
/-- All nodes of the subtrees in the list. -/
def TreeNode.nodesList : List TreeNode → List TreeNode
  | [] => []
  | c :: cs => TreeNode.nodes c ++ TreeNode.nodesList cs
end

/-- What `loadParseTree` establishes at a node: a terminal node has no children; the
production of an interior node is in the registry, its first word is the node's symbol,
there is one child per right-hand side symbol, and the child at an `.EMPTY` symbol is the
sentinel leaf. -/
def TreeNode.loadedShape (isProduction : String → Bool) (t : TreeNode) : Prop :=
  (t.production = "" → t.children = []) ∧
  (t.production ≠ "" →
    isProduction t.production = true ∧
    ∃ rhs, splitString t.production = t.symbol :: rhs ∧ t.children.length = rhs.length ∧
      ∀ (i : Nat) (c : TreeNode), t.children[i]? = some c → rhs[i]? = some ".EMPTY" →
        c = TreeNode.new ".EMPTY")

/-- Words of a line joined by single spaces, on character lists. -/
def joinChars : List (List Char) → List Char
  | [] => []
  | [w] => w
  | w :: ws => w ++ ' ' :: joinChars ws

/-! ## Spaces in input lines -/

/-- A run of `n` space characters. -/
def spaces (n : Nat) : String :=
  String.mk (List.replicate n ' ')

/-- Function `main`: the tree is loaded from the input lines and the assembly text is
returned (written to standard output). -/
def main (isProduction : String → Bool) (stream : List String) : Except Err String := do
  let r ← loadParseTree isProduction stream
  emit r.1

/-- Two lines that `loadParseTree` reads as the same terminal node: they are equal, or
both are split into a kind, a lexeme and further words, with the same type, kind and
lexeme, and neither is a production. -/
def SameTerminal (isProduction : String → Bool) (l1 l2 : String) : Prop :=
  l1 = l2 ∨
  ∃ (type kind lexeme : String) (more1 more2 : List String) (line1 line2 : String),
    stripType l1 = .ok (type, kind :: lexeme :: more1, line1) ∧
    stripType l2 = .ok (type, kind :: lexeme :: more2, line2) ∧
    isProduction line1 = false ∧ isProduction line2 = false

/-- Two results of the loader that agree: the same error, or the same loaded value with
lines left that are pairwise read as the same terminal node. -/
def SameLoad {α : Type} (isProduction : String → Bool)
    (x y : Except Err (α × List String)) : Prop :=
  match x, y with
  | .ok a, .ok b => a.1 = b.1 ∧ List.Forall₂ (SameTerminal isProduction) a.2 b.2
  | .error e1, .error e2 => e1 = e2
  | _, _ => False

/-- A terminal line `KIND LEXEME : TYPE` or `KIND LEXEME` (no production, with or without
the spaces), and the same line with `n` additional spaces after the lexeme. -/
def TrailingSpaces (isProduction : String → Bool) (l1 l2 : String) : Prop :=
  l1 = l2 ∨
  ∃ (kind lexeme : String) (n : Nat), ' ' ∉ kind.data ∧ ' ' ∉ lexeme.data ∧
    isProduction (kind ++ " " ++ lexeme ++ spaces 0) = false ∧
    isProduction (kind ++ " " ++ lexeme ++ spaces n) = false ∧
    ((∃ ty : String, ' ' ∉ ty.data ∧ l1 = kind ++ " " ++ lexeme ++ spaces 0 ++ " : " ++ ty ∧
        l2 = kind ++ " " ++ lexeme ++ spaces n ++ " : " ++ ty) ∨
      (kind ≠ ":" ∧ lexeme ≠ ":" ∧ l1 = kind ++ " " ++ lexeme ++ spaces 0 ∧
        l2 = kind ++ " " ++ lexeme ++ spaces n))
/-- The serialized tree of `int wain(int a, int b) { return a; }`. -/
def minimalProgramLines : List String :=
  ["start BOF procedures EOF", "BOF BOF", "procedures main",
   "main INT WAIN LPAREN dcl COMMA dcl RPAREN LBRACE dcls statements RETURN expr SEMI RBRACE",
   "INT int", "WAIN wain", "LPAREN (",
   "dcl type ID", "type INT", "INT int", "ID a : int", "COMMA ,",
   "dcl type ID", "type INT", "INT int", "ID b : int", "RPAREN )", "LBRACE \x7b",
   "dcls .EMPTY", "statements .EMPTY", "RETURN return",
   "expr term : int", "term factor : int", "factor ID : int", "ID a : int",
   "SEMI ;", "RBRACE \x7d", "EOF EOF"]

/-! ## Well-formed trees -/

/-- The nonterminal symbols: the left-hand sides of the productions. -/
def nonterminals : List Symbol :=
  ["start", "procedures", "procedure", "main", "params", "paramlist", "type", "dcls", "dcl",
   "statements", "statement", "test", "expr", "term", "factor", "arglist", "lvalue"]

mutual
/-- Invariants (a), (b), (c) of the data model at every node of the subtree: the production
of an interior node belongs to the registry, its first word is the node's symbol, and the
symbols of the children are the right-hand side symbols in order; a terminal node has no
children and a symbol that is no nonterminal. -/
def TreeNode.wellFormed : TreeNode → Bool
  | .mk _ sym prod _ cs =>
    if prod = "" then cs.isEmpty && !nonterminals.contains sym
    else wlp4Productions.contains prod
      && (splitString prod == sym :: cs.map TreeNode.symbol)
      && TreeNode.wellFormedList cs
/-- Every subtree in the list is well-formed. -/
def TreeNode.wellFormedList : List TreeNode → Bool
  | [] => true
  | c :: cs => TreeNode.wellFormed c && TreeNode.wellFormedList cs
end

/-- A set `S` of symbols is closed for the property `p` of productions: every production
whose left-hand side is in `S` has `p` and only symbols of `S` on its right-hand side. -/
def closedUnder (S : Symbol → Bool) (p : Production → Bool) : Bool :=
  wlp4Productions.all (fun prod =>
    match splitString prod with
    | sym :: rhs => !S sym || (p prod && rhs.all S)
    | [] => true)

/-- Symbols below which no statement occurs: all but `start`, `procedures`, `procedure`,
`main`, `statements` and `statement`. -/
def statementFree (sym : Symbol) : Bool :=
  !(["start", "procedures", "procedure", "main", "statements", "statement"].contains sym)

/-- Every prefix of the output has at most `k` more pop sequences than push sequences. -/
def PB (k : Nat) (out : List String) : Prop :=
  ∀ p ∈ out.inits, popCount p ≤ pushCount p + k

instance PB.decidable (k : Nat) (out : List String) : Decidable (PB k out) := by
  unfold PB; infer_instance

/-- Mnemonics of the emitted instructions that write their first operand. -/
def writers : List String :=
  ["add", "sub", "slt", "sltu", "lis", "lw", "mflo", "mfhi"]

/-- The line is an instruction whose destination register is `$30`. -/
def writesSP (line : String) : Bool :=
  match splitOnChar ' ' line.toList with
  | op :: d :: _ => writers.contains (String.mk op) && stripComma d == "$30".toList
  | _ => false

/-- The lines that write `$30` are the `sub $30, $30, $4` of the push sequences and the
`add $30, $30, $4` of the pop sequences, and no others. -/
def SPok (out : List String) : Prop :=
  out.count "sub $30, $30, $4" = pushCount out ∧ out.count "add $30, $30, $4" = popCount out
    ∧ ∀ l ∈ out, writesSP l = true → l = "sub $30, $30, $4" ∨ l = "add $30, $30, $4"

instance SPok.decidable (out : List String) : Decidable (SPok out) := by
  unfold SPok; infer_instance

/-- The output has `n` more push sequences than pop sequences, no prefix of it has more
pop sequences than push sequences beyond `-n`, and `$30` is written by these sequences
only. -/
def Good (n : Int) (out : List String) : Prop :=
  Bal n out ∧ PB (-n).toNat out ∧ SPok out

instance Good.decidable (n : Int) (out : List String) : Decidable (Good n out) := by
  unfold Good; infer_instance

/-- A line outside the push and pop sequences that does not write `$30`. -/
def quiet (line : String) : Bool :=
  plain line && !writesSP line

/-- Sum of the changes the lines themselves make to `$30`, read in order with no call and
no branch followed: each `sub $30, $30, $4` lowers it by 4 (the content of `$4`) and each
`add $30, $30, $4` raises it by 4. -/
def spEffect : List String → Int
  | [] => 0
  | l :: rest =>
    (if l = "sub $30, $30, $4" then -4 else if l = "add $30, $30, $4" then 4 else 0)
      + spEffect rest

mutual
/-- Number of nodes of the subtree whose production satisfies `p`. -/
def TreeNode.countNodes (p : Production → Bool) : TreeNode → Nat
  | .mk _ _ prod _ cs => (if p prod then 1 else 0) + TreeNode.countNodesList p cs
/-- Number of nodes of the subtrees in the list whose production satisfies `p`. -/
def TreeNode.countNodesList (p : Production → Bool) : List TreeNode → Nat
  | [] => 0
  | c :: cs => TreeNode.countNodes p c + TreeNode.countNodesList p cs
end

/-- Productions of an initialised local declaration. -/
def initialised (production : Production) : Bool :=
  production == "dcls dcls dcl BECOMES NUM SEMI"
    || production == "dcls dcls dcl BECOMES NULL SEMI"

/-- Symbols below which no initialised declaration and no `main` occurs: all but `start`,
`procedures`, `procedure`, `main` and `dcls`. -/
def allocFreeLevel (sym : Symbol) : Bool :=
  !(["start", "procedures", "procedure", "main", "dcls"].contains sym)

/-- Tree of the procedure `int f() { int x = 5; return 0; }`. -/
def procWithLocal : TreeNode := procTree "f" dclsInitTree

/-- Lines between the label and the `jr $31` of the code of `procWithLocal`. -/
def procWithLocalBody : List String :=
  ["sub $29, $30, $4", "lis $3", ".word 5", "sw $3, -4($30)", "sub $30, $30, $4",
   "sw $1, -4($30)", "sub $30, $30, $4", "sw $2, -4($30)", "sub $30, $30, $4",
   "sw $5, -4($30)", "sub $30, $30, $4", "sw $6, -4($30)", "sub $30, $30, $4",
   "sw $7, -4($30)", "sub $30, $30, $4",
   "lis $3", ".word 0",
   "add $30, $30, $4", "lw $1, -4($30)", "add $30, $30, $4", "lw $2, -4($30)",
   "add $30, $30, $4", "lw $5, -4($30)", "add $30, $30, $4", "lw $6, -4($30)",
   "add $30, $30, $4", "lw $7, -4($30)"]

/-! ## Label accounting -/

def isIf (production : Production) : Bool :=
  production == "statement IF LPAREN test RPAREN LBRACE statements RBRACE ELSE LBRACE statements RBRACE"

def isWhile (production : Production) : Bool :=
  production == "statement WHILE LPAREN test RPAREN LBRACE statements RBRACE"

def isDelete (production : Production) : Bool :=
  production == "statement DELETE LBRACK RBRACK expr SEMI"

/-- Labels a subtree takes from the counter: two for each `if` node, two for each `while`
node and one for each `delete` node. -/
def TreeNode.labelCount (root : TreeNode) : Nat :=
  2 * root.countNodes isIf + 2 * root.countNodes isWhile + root.countNodes isDelete

/-- A label definition: every label the emitter defines starts with `F`, and no other
emitted line does. -/
def isLabelLine (line : String) : Bool :=
  line.toList.head? == some 'F'

/-- The label definitions of the output, in order. -/
def labelDefs (out : List String) : List String :=
  out.filter isLabelLine

/-- Names of the control-flow labels. -/
def controlKinds : List String :=
  ["Felse", "Fendif", "Floop", "Fendwhile", "FskipDelete"]

/-- Definitions of control-flow labels with the given names and the consecutive suffixes
`c`, `c + 1`, ... -/
def controlLabels : List String → Nat → List String
  | [], _ => []
  | kind :: rest, c => (kind ++ toString c ++ ":") :: controlLabels rest (c + 1)

mutual
/-- Definitions of the entry labels of the procedures in the subtree: `F<name>:` for a
user procedure and `Fwain:` for `wain`. -/
def TreeNode.entryLabels : TreeNode → List String
  | .mk _ _ prod _ cs =>
    (if prod = "procedure INT ID LPAREN params RPAREN LBRACE dcls statements RETURN expr SEMI RBRACE" then
      match cs with
      | _ :: id :: _ => ["F" ++ id.token.lexeme ++ ":"]
      | _ => []
    else if prod = "main INT WAIN LPAREN dcl COMMA dcl RPAREN LBRACE dcls statements RETURN expr SEMI RBRACE" then
      ["Fwain:"]
    else []) ++ TreeNode.entryLabelsList cs
/-- Entry labels of the subtrees in the list. -/
def TreeNode.entryLabelsList : List TreeNode → List String
  | [] => []
  | c :: cs => TreeNode.entryLabels c ++ TreeNode.entryLabelsList cs
end

/-- Productions whose handler defines a label. -/
def definesLabel (production : Production) : Bool :=
  allocatesLabel production
    || production == "procedure INT ID LPAREN params RPAREN LBRACE dcls statements RETURN expr SEMI RBRACE"
    || production == "main INT WAIN LPAREN dcl COMMA dcl RPAREN LBRACE dcls statements RETURN expr SEMI RBRACE"

/-- No node of the subtree has a handler that defines a label. -/
def TreeNode.definitionFree (root : TreeNode) : Bool :=
  root.allNodes (fun production => !definesLabel production)

/-- The output contains no label definition. -/
def NoF (out : List String) : Prop :=
  labelDefs out = []

instance NoF.decidable (out : List String) : Decidable (NoF out) := by
  unfold NoF; infer_instance

/-- Labels the subtrees of a list take from the counter. -/
def TreeNode.labelCountList (cs : List TreeNode) : Nat :=
  2 * TreeNode.countNodesList isIf cs + 2 * TreeNode.countNodesList isWhile cs
    + TreeNode.countNodesList isDelete cs

/-- The label definitions of the output are, up to order, the lines of `m`. -/
def Defs (m : Multiset String) (out : List String) : Prop :=
  (↑(labelDefs out) : Multiset String) = m

/-- Label accounting of one emission that started with the counter at `c`: the counter
has advanced by the label count of the subtree, and the label definitions of the output
are the entry labels of the subtree and one control-flow label for each of the suffixes
`c`, `c + 1`, ... taken. -/
def Accounted (root : TreeNode) (c : Nat) (r : List String × State) : Prop :=
  r.2.labelCtr = c + root.labelCount ∧
  ∃ kinds : List String, kinds.length = root.labelCount ∧ (∀ x ∈ kinds, x ∈ controlKinds) ∧
    Defs (↑root.entryLabels + ↑(controlLabels kinds c)) r.1

/-! ## Trees the loader accepts outside the grammar -/

/-- State of the target machine while it runs emitted lines: the index of the next line in
the program text, the registers and the memory. -/
structure Cpu where
  pc : Nat
  m : Machine

/-- Value of the operand of a `.word` line: a decimal number, or for a label the index of
the line that defines it. -/
def wordValue (prog : List String) (w : String) : Option Int :=
  match parseInt? w.toList with
  | some n => some n
  | none => if (w ++ ":") ∈ prog then some (prog.indexOf (w ++ ":") : Nat) else none

/-- One step of the target machine on the program text `prog`: `add`, `sub`, `slt`,
`sltu`, `lw` and `sw` as in `exec`; `lis $d` loads the value of the `.word` line that
follows and skips it; `jalr $s` stores the index of the next line in `$31` and continues
at the line whose index is in `$s`; `jr $s` continues at the line whose index is in `$s`; a
label definition is passed over. Any other line stops the run. -/
def stepLine (prog : List String) (s : Cpu) : Option Cpu :=
  match prog[s.pc]? with
  | none => none
  | some line =>
    match parseInstr line with
    | some i => some { pc := s.pc + 1, m := exec intLt intLt s.m i }
    | none =>
      match splitOnChar ' ' line.toList with
      | [op, a] =>
        if op = "lis".toList then
          match prog[s.pc + 1]? with
          | some next =>
            match splitOnChar ' ' next.toList with
            | [w, v] =>
              if w = ".word".toList then
                (wordValue prog (String.mk v)).map
                  (fun n => { pc := s.pc + 2, m := s.m.setReg (String.mk a) n })
              else none
            | _ => none
          | none => none
        else if op = "jalr".toList then
          some { pc := (s.m.reg (String.mk a)).toNat,
                 m := s.m.setReg "$31" ((s.pc + 1 : Nat) : Int) }
        else if op = "jr".toList then
          some { pc := (s.m.reg (String.mk a)).toNat, m := s.m }
        else none
      | [label] => if label.getLast? = some ':' then some { s with pc := s.pc + 1 } else none
      | _ => none

/-- Runs the machine until the line with index `stop` is the next one, for at most `fuel`
steps. -/
def runUntil (prog : List String) (stop : Nat) : Nat → Cpu → Option Cpu
  | 0, s => if s.pc = stop then some s else none
  | fuel + 1, s =>
    if s.pc = stop then some s
    else
      match stepLine prog s with
      | some s1 => runUntil prog stop fuel s1
      | none => none

/-- Tree of the expression `f()`. -/
def exprCall (f : String) : TreeNode :=
  node "expr" "expr term"
    [node "term" "term factor"
      [node "factor" "factor ID LPAREN RPAREN"
        [leaf "ID" f, leaf "LPAREN" "(", leaf "RPAREN" ")"] "int"] "int"] "int"

/-- Tree of the procedure `int h() { return f(); }`: no declaration of its own. -/
def callerTree : TreeNode :=
  node "procedure"
    "procedure INT ID LPAREN params RPAREN LBRACE dcls statements RETURN expr SEMI RBRACE"
    [leaf "INT" "int", leaf "ID" "h", leaf "LPAREN" "(", emptyParams, leaf "RPAREN" ")",
     leaf "LBRACE" "\x7b", emptyDcls, emptyStatements, leaf "RETURN" "return", exprCall "f",
     leaf "SEMI" ";", leaf "RBRACE" "\x7d"]

/-- Lines the emitter produces for `callerTree`. -/
def callerOutput : List String :=
  ["Fh:", "sub $29, $30, $4",
   "sw $1, -4($30)", "sub $30, $30, $4", "sw $2, -4($30)", "sub $30, $30, $4",
   "sw $5, -4($30)", "sub $30, $30, $4", "sw $6, -4($30)", "sub $30, $30, $4",
   "sw $7, -4($30)", "sub $30, $30, $4",
   "sw $29, -4($30)", "sub $30, $30, $4", "sw $31, -4($30)", "sub $30, $30, $4",
   "lis $5", ".word Ff", "jalr $5",
   "add $30, $30, $4", "lw $31, -4($30)", "add $30, $30, $4", "lw $29, -4($30)",
   "add $30, $30, $4", "lw $1, -4($30)", "add $30, $30, $4", "lw $2, -4($30)",
   "add $30, $30, $4", "lw $5, -4($30)", "add $30, $30, $4", "lw $6, -4($30)",
   "add $30, $30, $4", "lw $7, -4($30)",
   "jr $31"]

/-- Machine on entry to the body of `callerTree` in the text `callerOutput` followed by
the code of `procWithLocal`: the next line is the one after the label, `$4` holds 4 and
the stack pointer `$30` holds 1000. -/
def callerEntry : Cpu :=
  { pc := 1, m := { reg := fun r => if r = "$4" then 4 else if r = "$30" then 1000 else 0,
                    mem := fun _ => 0 } }

/-! ## Unfolding lemmas for the emitter -/

theorem TreeNode.child_eq_ok {root c : TreeNode} {i : Nat} (h : root.children[i]? = some c) :
    root.child i = .ok ⟨c, TreeNode.sizeOf_lt_of_mem_children (List.getElem?_mem h)⟩ := by
  unfold TreeNode.child
  split
  · rename_i c2 h2
    have hc : c2 = c := by rw [h] at h2; exact (Option.some.inj h2).symm
    subst hc; rfl
  · rename_i h2; rw [h] at h2; cases h2

theorem TreeNode.child_eq_error {root : TreeNode} {i : Nat} (h : root.children[i]? = none) :
    root.child i = .error .undefined := by
  unfold TreeNode.child
  split
  · rename_i c2 h2; rw [h] at h2; cases h2
  · rfl

theorem ok_bind {α β : Type} (a : α) (f : α → Except Err β) : (Except.ok a >>= f) = f a := rfl

theorem error_bind {α β : Type} (e : Err) (f : α → Except Err β) :
    (Except.error e >>= f) = Except.error e := rfl

theorem code_eq_codeN {root : TreeNode} (st : State) (h : root.production ≠ "") :
    code root st = codeN root st := by
  rw [code]; simp [TreeNode.N, h]

theorem code_eq_codeT {root : TreeNode} (st : State) (h : root.production = "") :
    code root st = codeT root st := by
  rw [code]; simp [TreeNode.N, h]

theorem getProduction_eq_ok {root : TreeNode} (h : root.production ≠ "") :
    root.getProduction = .ok root.production := by
  simp [TreeNode.getProduction, TreeNode.N, h]

theorem getToken_eq_ok {root : TreeNode} (h : root.production = "") :
    root.getToken = .ok root.token := by
  simp [TreeNode.getToken, TreeNode.T, TreeNode.N, h]

theorem getToken_eq_error {root : TreeNode} (h : root.production ≠ "") :
    root.getToken = .error .thrown := by
  simp [TreeNode.getToken, TreeNode.T, TreeNode.N, h]

theorem code_NUM {root : TreeNode} (st : State) (hp : root.production = "")
    (hs : root.symbol = "NUM") :
    code root st = .ok (["lis $3", ".word " ++ root.token.lexeme], st) := by
  rw [code_eq_codeT st hp, codeT, getToken_eq_ok hp, ok_bind]
  simp only [TreeNode.getSymbol, hs, ↓reduceIte]
  rfl

theorem code_NULL {root : TreeNode} (st : State) (hp : root.production = "")
    (hs : root.symbol = "NULL") :
    code root st = .ok (["lis $3", ".word 69"], st) := by
  rw [code_eq_codeT st hp, codeT, getToken_eq_ok hp, ok_bind]
  simp only [TreeNode.getSymbol, hs, String.reduceEq, ↓reduceIte]
  rfl

theorem code_ID {root : TreeNode} (st : State) {off : String} (hp : root.production = "")
    (hs : root.symbol = "ID") (hoff : st.g_tables.getOffset root.token.lexeme = .ok off) :
    code root st = .ok (["lw $3, " ++ off ++ "($29)"], st) := by
  rw [code_eq_codeT st hp, codeT, getToken_eq_ok hp, ok_bind]
  simp only [TreeNode.getSymbol, hs, String.reduceEq, ↓reduceIte, hoff, ok_bind]
  rfl

theorem code_other_terminal {root : TreeNode} (st : State) (hp : root.production = "")
    (h1 : root.symbol ≠ "NUM") (h2 : root.symbol ≠ "NULL") (h3 : root.symbol ≠ "ID") :
    code root st = .ok ([], st) := by
  rw [code_eq_codeT st hp, codeT, getToken_eq_ok hp, ok_bind]
  simp only [TreeNode.getSymbol, h1, h2, h3, ↓reduceIte]
  rfl

/-! ### Handlers that return the code of one child -/

theorem code_start {root c : TreeNode} (st : State)
    (hp : root.production = "start BOF procedures EOF") (h : root.children[1]? = some c) :
    code root st = code c st := by
  rw [code_eq_codeN st (by rw [hp]; decide), codeN, getProduction_eq_ok (by rw [hp]; decide),
    ok_bind, hp]
  simp only [↓reduceIte, String.reduceEq]
  rw [TreeNode.child_eq_ok h, ok_bind]

@[simp] theorem code_mk_start (ty sym : String) (tok : Token) (x c : TreeNode)
    (rest : List TreeNode) (st : State) :
    code (.mk ty sym "start BOF procedures EOF" tok (x :: c :: rest)) st = code c st :=
  code_start st (by rfl) (by simp [TreeNode.children])

theorem code_procedures_main {root c : TreeNode} (st : State)
    (hp : root.production = "procedures main") (h : root.children[0]? = some c) :
    code root st = code c st := by
  rw [code_eq_codeN st (by rw [hp]; decide), codeN, getProduction_eq_ok (by rw [hp]; decide),
    ok_bind, hp]
  simp only [↓reduceIte, String.reduceEq]
  rw [TreeNode.child_eq_ok h, ok_bind]

@[simp] theorem code_mk_procedures_main (ty sym : String) (tok : Token) (c : TreeNode)
    (rest : List TreeNode) (st : State) :
    code (.mk ty sym "procedures main" tok (c :: rest)) st = code c st :=
  code_procedures_main st (by rfl) (by simp [TreeNode.children])

theorem code_expr_term {root c : TreeNode} (st : State)
    (hp : root.production = "expr term") (h : root.children[0]? = some c) :
    code root st = code c st := by
  rw [code_eq_codeN st (by rw [hp]; decide), codeN, getProduction_eq_ok (by rw [hp]; decide),
    ok_bind, hp]
  simp only [↓reduceIte, String.reduceEq]
  rw [TreeNode.child_eq_ok h, ok_bind]

@[simp] theorem code_mk_expr_term (ty sym : String) (tok : Token) (c : TreeNode)
    (rest : List TreeNode) (st : State) :
    code (.mk ty sym "expr term" tok (c :: rest)) st = code c st :=
  code_expr_term st (by rfl) (by simp [TreeNode.children])

theorem code_term_factor {root c : TreeNode} (st : State)
    (hp : root.production = "term factor") (h : root.children[0]? = some c) :
    code root st = code c st := by
  rw [code_eq_codeN st (by rw [hp]; decide), codeN, getProduction_eq_ok (by rw [hp]; decide),
    ok_bind, hp]
  simp only [↓reduceIte, String.reduceEq]
  rw [TreeNode.child_eq_ok h, ok_bind]

@[simp] theorem code_mk_term_factor (ty sym : String) (tok : Token) (c : TreeNode)
    (rest : List TreeNode) (st : State) :
    code (.mk ty sym "term factor" tok (c :: rest)) st = code c st :=
  code_term_factor st (by rfl) (by simp [TreeNode.children])

theorem code_factor_NUM {root c : TreeNode} (st : State)
    (hp : root.production = "factor NUM") (h : root.children[0]? = some c) :
    code root st = code c st := by
  rw [code_eq_codeN st (by rw [hp]; decide), codeN, getProduction_eq_ok (by rw [hp]; decide),
    ok_bind, hp]
  simp only [↓reduceIte, String.reduceEq]
  rw [TreeNode.child_eq_ok h, ok_bind]

@[simp] theorem code_mk_factor_NUM (ty sym : String) (tok : Token) (c : TreeNode)
    (rest : List TreeNode) (st : State) :
    code (.mk ty sym "factor NUM" tok (c :: rest)) st = code c st :=
  code_factor_NUM st (by rfl) (by simp [TreeNode.children])

theorem code_factor_ID {root c : TreeNode} (st : State)
    (hp : root.production = "factor ID") (h : root.children[0]? = some c) :
    code root st = code c st := by
  rw [code_eq_codeN st (by rw [hp]; decide), codeN, getProduction_eq_ok (by rw [hp]; decide),
    ok_bind, hp]
  simp only [↓reduceIte, String.reduceEq]
  rw [TreeNode.child_eq_ok h, ok_bind]

@[simp] theorem code_mk_factor_ID (ty sym : String) (tok : Token) (c : TreeNode)
    (rest : List TreeNode) (st : State) :
    code (.mk ty sym "factor ID" tok (c :: rest)) st = code c st :=
  code_factor_ID st (by rfl) (by simp [TreeNode.children])

theorem code_factor_NULL {root c : TreeNode} (st : State)
    (hp : root.production = "factor NULL") (h : root.children[0]? = some c) :
    code root st = code c st := by
  rw [code_eq_codeN st (by rw [hp]; decide), codeN, getProduction_eq_ok (by rw [hp]; decide),
    ok_bind, hp]
  simp only [↓reduceIte, String.reduceEq]
  rw [TreeNode.child_eq_ok h, ok_bind]

@[simp] theorem code_mk_factor_NULL (ty sym : String) (tok : Token) (c : TreeNode)
    (rest : List TreeNode) (st : State) :
    code (.mk ty sym "factor NULL" tok (c :: rest)) st = code c st :=
  code_factor_NULL st (by rfl) (by simp [TreeNode.children])

theorem code_factor_paren {root c : TreeNode} (st : State)
    (hp : root.production = "factor LPAREN expr RPAREN") (h : root.children[1]? = some c) :
    code root st = code c st := by
  rw [code_eq_codeN st (by rw [hp]; decide), codeN, getProduction_eq_ok (by rw [hp]; decide),
    ok_bind, hp]
  simp only [↓reduceIte, String.reduceEq]
  rw [TreeNode.child_eq_ok h, ok_bind]

@[simp] theorem code_mk_factor_paren (ty sym : String) (tok : Token) (x c : TreeNode)
    (rest : List TreeNode) (st : State) :
    code (.mk ty sym "factor LPAREN expr RPAREN" tok (x :: c :: rest)) st = code c st :=
  code_factor_paren st (by rfl) (by simp [TreeNode.children])

theorem code_lvalue_paren {root c : TreeNode} (st : State)
    (hp : root.production = "lvalue LPAREN lvalue RPAREN") (h : root.children[1]? = some c) :
    code root st = code c st := by
  rw [code_eq_codeN st (by rw [hp]; decide), codeN, getProduction_eq_ok (by rw [hp]; decide),
    ok_bind, hp]
  simp only [↓reduceIte, String.reduceEq]
  rw [TreeNode.child_eq_ok h, ok_bind]

@[simp] theorem code_mk_lvalue_paren (ty sym : String) (tok : Token) (x c : TreeNode)
    (rest : List TreeNode) (st : State) :
    code (.mk ty sym "lvalue LPAREN lvalue RPAREN" tok (x :: c :: rest)) st = code c st :=
  code_lvalue_paren st (by rfl) (by simp [TreeNode.children])

theorem code_factor_AMP {root c : TreeNode} (st : State)
    (hp : root.production = "factor AMP lvalue") (h : root.children[1]? = some c) :
    code root st = code c st := by
  rw [code_eq_codeN st (by rw [hp]; decide), codeN, getProduction_eq_ok (by rw [hp]; decide),
    ok_bind, hp]
  simp only [↓reduceIte, String.reduceEq]
  rw [TreeNode.child_eq_ok h, ok_bind]

@[simp] theorem code_mk_factor_AMP (ty sym : String) (tok : Token) (x c : TreeNode)
    (rest : List TreeNode) (st : State) :
    code (.mk ty sym "factor AMP lvalue" tok (x :: c :: rest)) st = code c st :=
  code_factor_AMP st (by rfl) (by simp [TreeNode.children])

theorem code_lvalue_STAR {root c : TreeNode} (st : State)
    (hp : root.production = "lvalue STAR factor") (h : root.children[1]? = some c) :
    code root st = code c st := by
  rw [code_eq_codeN st (by rw [hp]; decide), codeN, getProduction_eq_ok (by rw [hp]; decide),
    ok_bind, hp]
  simp only [↓reduceIte, String.reduceEq]
  rw [TreeNode.child_eq_ok h, ok_bind]
  cases code c st with
  | error e => rfl
  | ok r => rfl

@[simp] theorem code_mk_NUM (ty : String) (tok : Token) (cs : List TreeNode) (st : State) :
    code (.mk ty "NUM" "" tok cs) st = .ok (["lis $3", ".word " ++ tok.lexeme], st) :=
  code_NUM st (by rfl) (by rfl)

@[simp] theorem code_mk_NULL (ty : String) (tok : Token) (cs : List TreeNode) (st : State) :
    code (.mk ty "NULL" "" tok cs) st = .ok (["lis $3", ".word 69"], st) :=
  code_NULL st (by rfl) (by rfl)

@[simp] theorem code_mk_ID (ty : String) (tok : Token) (cs : List TreeNode) (st : State) :
    code (.mk ty "ID" "" tok cs) st = (do
      let off ← st.g_tables.getOffset tok.lexeme
      pure (["lw $3, " ++ off ++ "($29)"], st)) := by
  rw [code_eq_codeT st (by rfl), codeT, getToken_eq_ok (by rfl), ok_bind]
  simp only [TreeNode.getSymbol, TreeNode.symbol, String.reduceEq, ↓reduceIte]
  rfl

/-! ### Handlers with an output of their own -/

theorem code_type_INT {root : TreeNode} (st : State) (hp : root.production = "type INT") :
    code root st = .ok ([], st) := by
  rw [code_eq_codeN st (by rw [hp]; decide), codeN, getProduction_eq_ok (by rw [hp]; decide),
    ok_bind, hp]
  simp only [↓reduceIte, String.reduceEq]
  rfl

@[simp] theorem code_mk_type_INT (ty sym : String) (tok : Token) (cs : List TreeNode) (st : State) :
    code (.mk ty sym "type INT" tok cs) st = .ok ([], st) :=
  code_type_INT st (by rfl)

theorem code_dcls_EMPTY {root : TreeNode} (st : State) (hp : root.production = "dcls .EMPTY") :
    code root st = .ok ([], st) := by
  rw [code_eq_codeN st (by rw [hp]; decide), codeN, getProduction_eq_ok (by rw [hp]; decide),
    ok_bind, hp]
  simp only [↓reduceIte, String.reduceEq]
  rfl

@[simp] theorem code_mk_dcls_EMPTY (ty sym : String) (tok : Token) (cs : List TreeNode) (st : State) :
    code (.mk ty sym "dcls .EMPTY" tok cs) st = .ok ([], st) :=
  code_dcls_EMPTY st (by rfl)

theorem code_statements_EMPTY {root : TreeNode} (st : State) (hp : root.production = "statements .EMPTY") :
    code root st = .ok ([], st) := by
  rw [code_eq_codeN st (by rw [hp]; decide), codeN, getProduction_eq_ok (by rw [hp]; decide),
    ok_bind, hp]
  simp only [↓reduceIte, String.reduceEq]
  rfl

@[simp] theorem code_mk_statements_EMPTY (ty sym : String) (tok : Token) (cs : List TreeNode) (st : State) :
    code (.mk ty sym "statements .EMPTY" tok cs) st = .ok ([], st) :=
  code_statements_EMPTY st (by rfl)

theorem code_params_EMPTY {root : TreeNode} (st : State) (hp : root.production = "params .EMPTY") :
    code root st = .ok ([], st) := by
  rw [code_eq_codeN st (by rw [hp]; decide), codeN, getProduction_eq_ok (by rw [hp]; decide),
    ok_bind, hp]
  simp only [↓reduceIte, String.reduceEq]
  rfl

@[simp] theorem code_mk_params_EMPTY (ty sym : String) (tok : Token) (cs : List TreeNode) (st : State) :
    code (.mk ty sym "params .EMPTY" tok cs) st = .ok ([], st) :=
  code_params_EMPTY st (by rfl)

theorem code_arglist_expr {root : TreeNode} (st : State) (hp : root.production = "arglist expr") :
    code root st = .ok ([], st) := by
  rw [code_eq_codeN st (by rw [hp]; decide), codeN, getProduction_eq_ok (by rw [hp]; decide),
    ok_bind, hp]
  simp only [↓reduceIte, String.reduceEq]
  rfl

@[simp] theorem code_mk_arglist_expr (ty sym : String) (tok : Token) (cs : List TreeNode) (st : State) :
    code (.mk ty sym "arglist expr" tok cs) st = .ok ([], st) :=
  code_arglist_expr st (by rfl)

theorem code_arglist_cons {root : TreeNode} (st : State) (hp : root.production = "arglist expr COMMA arglist") :
    code root st = .ok ([], st) := by
  rw [code_eq_codeN st (by rw [hp]; decide), codeN, getProduction_eq_ok (by rw [hp]; decide),
    ok_bind, hp]
  simp only [↓reduceIte, String.reduceEq]
  rfl

@[simp] theorem code_mk_arglist_cons (ty sym : String) (tok : Token) (cs : List TreeNode) (st : State) :
    code (.mk ty sym "arglist expr COMMA arglist" tok cs) st = .ok ([], st) :=
  code_arglist_cons st (by rfl)

theorem code_type_INT_STAR {root : TreeNode} (st : State) (hp : root.production = "type INT STAR") :
    code root st = .ok ([], st) := by
  rw [code_eq_codeN st (by rw [hp]; decide), codeN, getProduction_eq_ok (by rw [hp]; decide),
    ok_bind, hp]
  simp only [↓reduceIte, String.reduceEq]
  rfl

@[simp] theorem code_mk_type_INT_STAR (ty sym : String) (tok : Token) (cs : List TreeNode) (st : State) :
    code (.mk ty sym "type INT STAR" tok cs) st = .ok ([], st) :=
  code_type_INT_STAR st (by rfl)

theorem code_dcl {root c1 : TreeNode} (st : State)
    (hp : root.production = "dcl type ID")
    (h1 : root.children[1]? = some c1) :
    code root st = (do
      let tok ← c1.getToken
      let tables ← st.g_tables.insertLocalVariable tok.lexeme c1.getType
      pure ([], { st with g_tables := tables })) := by
  rw [code_eq_codeN st (by rw [hp]; decide), codeN, getProduction_eq_ok (by rw [hp]; decide),
    ok_bind, hp]
  simp only [↓reduceIte, String.reduceEq]
  rw [TreeNode.child_eq_ok h1, ok_bind]

@[simp] theorem code_mk_dcl (ty sym : String) (tok : Token) (c0 c1 : TreeNode)
    (rest : List TreeNode) (st : State) :
    code (.mk ty sym "dcl type ID" tok (c0 :: c1 :: rest)) st = (do
      let tok ← c1.getToken
      let tables ← st.g_tables.insertLocalVariable tok.lexeme c1.getType
      pure ([], { st with g_tables := tables })) :=
  code_dcl st (by rfl) (by simp [TreeNode.children])

theorem code_statements {root c0 c1 : TreeNode} (st : State)
    (hp : root.production = "statements statements statement")
    (h0 : root.children[0]? = some c0) (h1 : root.children[1]? = some c1) :
    code root st = (do
      let r1 ← code c0 st
      let r2 ← code c1 r1.2
      pure (r1.1 ++ r2.1, r2.2)) := by
  rw [code_eq_codeN st (by rw [hp]; decide), codeN, getProduction_eq_ok (by rw [hp]; decide),
    ok_bind, hp]
  simp only [↓reduceIte, String.reduceEq]
  rw [TreeNode.child_eq_ok h0, ok_bind, TreeNode.child_eq_ok h1, ok_bind]

@[simp] theorem code_mk_statements (ty sym : String) (tok : Token) (c0 c1 : TreeNode)
    (rest : List TreeNode) (st : State) :
    code (.mk ty sym "statements statements statement" tok (c0 :: c1 :: rest)) st = (do
      let r1 ← code c0 st
      let r2 ← code c1 r1.2
      pure (r1.1 ++ r2.1, r2.2)) :=
  code_statements st (by rfl) (by simp [TreeNode.children]) (by simp [TreeNode.children])

theorem code_procedures {root c0 c1 : TreeNode} (st : State)
    (hp : root.production = "procedures procedure procedures")
    (h0 : root.children[0]? = some c0) (h1 : root.children[1]? = some c1) :
    code root st = (do
      let r1 ← code c0 st
      let r2 ← code c1 r1.2
      pure (r1.1 ++ r2.1, r2.2)) := by
  rw [code_eq_codeN st (by rw [hp]; decide), codeN, getProduction_eq_ok (by rw [hp]; decide),
    ok_bind, hp]
  simp only [↓reduceIte, String.reduceEq]
  rw [TreeNode.child_eq_ok h0, ok_bind, TreeNode.child_eq_ok h1, ok_bind]

@[simp] theorem code_mk_procedures (ty sym : String) (tok : Token) (c0 c1 : TreeNode)
    (rest : List TreeNode) (st : State) :
    code (.mk ty sym "procedures procedure procedures" tok (c0 :: c1 :: rest)) st = (do
      let r1 ← code c0 st
      let r2 ← code c1 r1.2
      pure (r1.1 ++ r2.1, r2.2)) :=
  code_procedures st (by rfl) (by simp [TreeNode.children]) (by simp [TreeNode.children])

theorem code_dcls_NUM {root c0 c1 c3 : TreeNode} (st : State)
    (hp : root.production = "dcls dcls dcl BECOMES NUM SEMI")
    (h0 : root.children[0]? = some c0) (h1 : root.children[1]? = some c1) (h3 : root.children[3]? = some c3) :
    code root st = (do
      let r1 ← code c0 st
      let r2 ← code c1 r1.2
      let r3 ← code c3 r2.2
      pure (r1.1 ++ r2.1 ++ r3.1 ++ push "$3", r3.2)) := by
  rw [code_eq_codeN st (by rw [hp]; decide), codeN, getProduction_eq_ok (by rw [hp]; decide),
    ok_bind, hp]
  simp only [↓reduceIte, String.reduceEq]
  rw [TreeNode.child_eq_ok h0, ok_bind, TreeNode.child_eq_ok h1, ok_bind, TreeNode.child_eq_ok h3, ok_bind]

@[simp] theorem code_mk_dcls_NUM (ty sym : String) (tok : Token) (c0 c1 c2 c3 : TreeNode)
    (rest : List TreeNode) (st : State) :
    code (.mk ty sym "dcls dcls dcl BECOMES NUM SEMI" tok (c0 :: c1 :: c2 :: c3 :: rest)) st = (do
      let r1 ← code c0 st
      let r2 ← code c1 r1.2
      let r3 ← code c3 r2.2
      pure (r1.1 ++ r2.1 ++ r3.1 ++ push "$3", r3.2)) :=
  code_dcls_NUM st (by rfl) (by simp [TreeNode.children]) (by simp [TreeNode.children]) (by simp [TreeNode.children])

theorem code_dcls_NULL {root c0 c1 c3 : TreeNode} (st : State)
    (hp : root.production = "dcls dcls dcl BECOMES NULL SEMI")
    (h0 : root.children[0]? = some c0) (h1 : root.children[1]? = some c1) (h3 : root.children[3]? = some c3) :
    code root st = (do
      let r1 ← code c0 st
      let r2 ← code c1 r1.2
      let r3 ← code c3 r2.2
      pure (r1.1 ++ r2.1 ++ r3.1 ++ push "$3", r3.2)) := by
  rw [code_eq_codeN st (by rw [hp]; decide), codeN, getProduction_eq_ok (by rw [hp]; decide),
    ok_bind, hp]
  simp only [↓reduceIte, String.reduceEq]
  rw [TreeNode.child_eq_ok h0, ok_bind, TreeNode.child_eq_ok h1, ok_bind, TreeNode.child_eq_ok h3, ok_bind]

@[simp] theorem code_mk_dcls_NULL (ty sym : String) (tok : Token) (c0 c1 c2 c3 : TreeNode)
    (rest : List TreeNode) (st : State) :
    code (.mk ty sym "dcls dcls dcl BECOMES NULL SEMI" tok (c0 :: c1 :: c2 :: c3 :: rest)) st = (do
      let r1 ← code c0 st
      let r2 ← code c1 r1.2
      let r3 ← code c3 r2.2
      pure (r1.1 ++ r2.1 ++ r3.1 ++ push "$3", r3.2)) :=
  code_dcls_NULL st (by rfl) (by simp [TreeNode.children]) (by simp [TreeNode.children]) (by simp [TreeNode.children])

theorem code_if {root c2 c5 c9 : TreeNode} (st : State)
    (hp : root.production = "statement IF LPAREN test RPAREN LBRACE statements RBRACE ELSE LBRACE statements RBRACE")
    (h2 : root.children[2]? = some c2) (h5 : root.children[5]? = some c5) (h9 : root.children[9]? = some c9) :
    code root st = (do
      let r1 ← code c2 { st with labelCtr := st.labelCtr + 1 + 1 }
      let r2 ← code c5 r1.2
      let r3 ← code c9 r2.2
      pure (r1.1 ++ ["beq $3, $0, " ++ ("Felse" ++ toString st.labelCtr)] ++ r2.1
        ++ ["beq $0, $0, " ++ ("Fendif" ++ toString (st.labelCtr + 1))]
        ++ [("Felse" ++ toString st.labelCtr) ++ ":"] ++ r3.1
        ++ [("Fendif" ++ toString (st.labelCtr + 1)) ++ ":"], r3.2)) := by
  rw [code_eq_codeN st (by rw [hp]; decide), codeN, getProduction_eq_ok (by rw [hp]; decide),
    ok_bind, hp]
  simp only [↓reduceIte, String.reduceEq]
  rw [TreeNode.child_eq_ok h2, ok_bind, TreeNode.child_eq_ok h5, ok_bind, TreeNode.child_eq_ok h9, ok_bind]

@[simp] theorem code_mk_if (ty sym : String) (tok : Token) (c0 c1 c2 c3 c4 c5 c6 c7 c8 c9 : TreeNode)
    (rest : List TreeNode) (st : State) :
    code (.mk ty sym "statement IF LPAREN test RPAREN LBRACE statements RBRACE ELSE LBRACE statements RBRACE" tok (c0 :: c1 :: c2 :: c3 :: c4 :: c5 :: c6 :: c7 :: c8 :: c9 :: rest)) st = (do
      let r1 ← code c2 { st with labelCtr := st.labelCtr + 1 + 1 }
      let r2 ← code c5 r1.2
      let r3 ← code c9 r2.2
      pure (r1.1 ++ ["beq $3, $0, " ++ ("Felse" ++ toString st.labelCtr)] ++ r2.1
        ++ ["beq $0, $0, " ++ ("Fendif" ++ toString (st.labelCtr + 1))]
        ++ [("Felse" ++ toString st.labelCtr) ++ ":"] ++ r3.1
        ++ [("Fendif" ++ toString (st.labelCtr + 1)) ++ ":"], r3.2)) :=
  code_if st (by rfl) (by simp [TreeNode.children]) (by simp [TreeNode.children]) (by simp [TreeNode.children])

theorem code_procedure {root c1 c3 c6 c7 c9 : TreeNode} (st : State)
    (hp : root.production = "procedure INT ID LPAREN params RPAREN LBRACE dcls statements RETURN expr SEMI RBRACE")
    (h1 : root.children[1]? = some c1) (h3 : root.children[3]? = some c3) (h6 : root.children[6]? = some c6) (h7 : root.children[7]? = some c7) (h9 : root.children[9]? = some c9) :
    code root st = (do
      let tok ← c1.getToken
      let r1 ← code c3 { st with g_tables := st.g_tables.push }
      let r2 ← code c6 r1.2
      let r3 ← code c7 r2.2
      let r4 ← code c9 r3.2
      let tables ← r4.2.g_tables.pop
      pure ([("F" ++ tok.lexeme) ++ ":", "sub $29, $30, $4"] ++ r1.1 ++ r2.1
        ++ (push "$1" ++ push "$2" ++ push "$5" ++ push "$6" ++ push "$7")
        ++ r3.1 ++ r4.1
        ++ (pop "$1" ++ pop "$2" ++ pop "$5" ++ pop "$6" ++ pop "$7")
        ++ ["jr $31"], { r4.2 with g_tables := tables })) := by
  rw [code_eq_codeN st (by rw [hp]; decide), codeN, getProduction_eq_ok (by rw [hp]; decide),
    ok_bind, hp]
  simp only [↓reduceIte, String.reduceEq]
  rw [TreeNode.child_eq_ok h3, ok_bind, TreeNode.child_eq_ok h6, ok_bind, TreeNode.child_eq_ok h7, ok_bind, TreeNode.child_eq_ok h9, ok_bind, TreeNode.child_eq_ok h1, ok_bind]

@[simp] theorem code_mk_procedure (ty sym : String) (tok : Token) (c0 c1 c2 c3 c4 c5 c6 c7 c8 c9 : TreeNode)
    (rest : List TreeNode) (st : State) :
    code (.mk ty sym "procedure INT ID LPAREN params RPAREN LBRACE dcls statements RETURN expr SEMI RBRACE" tok (c0 :: c1 :: c2 :: c3 :: c4 :: c5 :: c6 :: c7 :: c8 :: c9 :: rest)) st = (do
      let tok ← c1.getToken
      let r1 ← code c3 { st with g_tables := st.g_tables.push }
      let r2 ← code c6 r1.2
      let r3 ← code c7 r2.2
      let r4 ← code c9 r3.2
      let tables ← r4.2.g_tables.pop
      pure ([("F" ++ tok.lexeme) ++ ":", "sub $29, $30, $4"] ++ r1.1 ++ r2.1
        ++ (push "$1" ++ push "$2" ++ push "$5" ++ push "$6" ++ push "$7")
        ++ r3.1 ++ r4.1
        ++ (pop "$1" ++ pop "$2" ++ pop "$5" ++ pop "$6" ++ pop "$7")
        ++ ["jr $31"], { r4.2 with g_tables := tables })) :=
  code_procedure st (by rfl) (by simp [TreeNode.children]) (by simp [TreeNode.children]) (by simp [TreeNode.children]) (by simp [TreeNode.children]) (by simp [TreeNode.children])

/-- Unfolds `code` at the `main` production (`wain`). -/
theorem code_main (root c3 c5 c8 c9 c11 id1 : TreeNode) (st : State)
    (hp : root.production = "main INT WAIN LPAREN dcl COMMA dcl RPAREN LBRACE dcls statements RETURN expr SEMI RBRACE")
    (h3 : root.children[3]? = some c3) (h5 : root.children[5]? = some c5)
    (h8 : root.children[8]? = some c8) (h9 : root.children[9]? = some c9)
    (h11 : root.children[11]? = some c11) (hid : c3.children[1]? = some id1) :
    code root st = (do
      let r1 ← code c3 { st with g_tables := st.g_tables.push }
      let r2 ← code c5 r1.2
      let r3 ← code c8 r2.2
      let r4 ← code c9 r3.2
      let r5 ← code c11 r4.2
      pure ((if id1.getType = INT_STAR then
          ["Fwain:", "sub $29, $30, $4"] ++ push "$29" ++ push "$31"
            ++ ["lis $5", ".word init", "jalr $5"] ++ pop "$31" ++ pop "$29"
        else if id1.getType = INT then
          ["Fwain:", "sub $29, $30, $4"] ++ push "$29" ++ push "$31" ++ push "$2"
            ++ ["lis $2", ".word 0"] ++ ["lis $5", ".word init", "jalr $5"]
            ++ pop "$2" ++ pop "$31" ++ pop "$29"
        else ["Fwain:", "sub $29, $30, $4"])
        ++ push "$1" ++ r1.1 ++ push "$2" ++ r2.1 ++ r3.1 ++ r4.1 ++ r5.1 ++ ["jr $31"],
        r5.2)) := by
  rw [code_eq_codeN st (by rw [hp]; decide), codeN, getProduction_eq_ok (by rw [hp]; decide),
    ok_bind, hp]
  simp only [↓reduceIte, String.reduceEq]
  rw [TreeNode.child_eq_ok h3, ok_bind, TreeNode.child_eq_ok h5, ok_bind,
    TreeNode.child_eq_ok h8, ok_bind, TreeNode.child_eq_ok h9, ok_bind,
    TreeNode.child_eq_ok h11, ok_bind]
  simp only [TreeNode.child_eq_ok hid, ok_bind]

/-- Unfolds `codeN` at `expr expr PLUS term`. -/
theorem codeN_plus {root e t : TreeNode} (st : State)
    (hp : root.production = "expr expr PLUS term")
    (h0 : root.children[0]? = some e) (h2 : root.children[2]? = some t) :
    codeN root st =
      (if e.getType = INT ∧ t.getType = INT then do
        let r1 ← code e st
        let r2 ← code t r1.2
        pure (r1.1 ++ push "$3" ++ r2.1 ++ pop "$5" ++ ["add $3, $5, $3"], r2.2)
      else if e.getType = INT_STAR ∧ t.getType = INT then do
        let r1 ← code e st
        let r2 ← code t r1.2
        pure (r1.1 ++ push "$3" ++ r2.1 ++ ["mult $3, $4", "mflo $3"] ++ pop "$5"
          ++ ["add $3, $5, $3"], r2.2)
      else if e.getType = INT ∧ t.getType = INT_STAR then do
        let r1 ← code e st
        let r2 ← code t r1.2
        pure (r1.1 ++ ["mult $3, $4", "mflo $3"] ++ push "$3" ++ r2.1 ++ pop "$5"
          ++ ["add $3, $5, $3"], r2.2)
      else
        pure ([], st)) := by
  rw [codeN, getProduction_eq_ok (by rw [hp]; decide), ok_bind, hp]
  simp only [↓reduceIte, String.reduceEq]
  rw [TreeNode.child_eq_ok h0, ok_bind, TreeNode.child_eq_ok h2, ok_bind]

/-- Unfolds `codeN` at `expr expr MINUS term`. -/
theorem codeN_minus {root e t : TreeNode} (st : State)
    (hp : root.production = "expr expr MINUS term")
    (h0 : root.children[0]? = some e) (h2 : root.children[2]? = some t) :
    codeN root st =
      (if e.getType = INT ∧ t.getType = INT then do
        let r1 ← code e st
        let r2 ← code t r1.2
        pure (r1.1 ++ push "$3" ++ r2.1 ++ pop "$5" ++ ["sub $3, $5, $3"], r2.2)
      else if e.getType = INT_STAR ∧ t.getType = INT then do
        let r1 ← code e st
        let r2 ← code t r1.2
        pure (r1.1 ++ push "$3" ++ r2.1 ++ ["mult $3, $4", "mflo $3"] ++ pop "$5"
          ++ ["sub $3, $5, $3"], r2.2)
      else if e.getType = INT_STAR ∧ t.getType = INT_STAR then do
        let r1 ← code e st
        let r2 ← code t r1.2
        pure (r1.1 ++ push "$3" ++ r2.1 ++ pop "$5"
          ++ ["sub $3, $5, $3", "div $3, $4", "mflo $3"], r2.2)
      else
        pure ([], st)) := by
  rw [codeN, getProduction_eq_ok (by rw [hp]; decide), ok_bind, hp]
  simp only [↓reduceIte, String.reduceEq]
  rw [TreeNode.child_eq_ok h0, ok_bind, TreeNode.child_eq_ok h2, ok_bind]

theorem code_test_EQ {root e1 e2 : TreeNode} {st s1 s2 : State} {o1 o2 : List String}
    (hp : root.production = "test expr EQ expr")
    (h0 : root.children[0]? = some e1) (h2 : root.children[2]? = some e2)
    (he1 : code e1 st = .ok (o1, s1)) (he2 : code e2 s1 = .ok (o2, s2)) :
    code root st = .ok (o1 ++ push "$3" ++ o2 ++ pop "$5" ++ eqLines (comparisonOp e1.getType), s2) := by
  rw [code_eq_codeN st (by rw [hp]; decide), codeN, getProduction_eq_ok (by rw [hp]; decide),
    ok_bind, hp]
  simp only [↓reduceIte, String.reduceEq]
  rw [TreeNode.child_eq_ok h0, ok_bind, TreeNode.child_eq_ok h2, ok_bind]
  simp only [he1, he2, ok_bind]
  rfl

theorem code_test_NE {root e1 e2 : TreeNode} {st s1 s2 : State} {o1 o2 : List String}
    (hp : root.production = "test expr NE expr")
    (h0 : root.children[0]? = some e1) (h2 : root.children[2]? = some e2)
    (he1 : code e1 st = .ok (o1, s1)) (he2 : code e2 s1 = .ok (o2, s2)) :
    code root st = .ok (o1 ++ push "$3" ++ o2 ++ pop "$5" ++ neLines (comparisonOp e1.getType), s2) := by
  rw [code_eq_codeN st (by rw [hp]; decide), codeN, getProduction_eq_ok (by rw [hp]; decide),
    ok_bind, hp]
  simp only [↓reduceIte, String.reduceEq]
  rw [TreeNode.child_eq_ok h0, ok_bind, TreeNode.child_eq_ok h2, ok_bind]
  simp only [he1, he2, ok_bind]
  rfl

theorem code_test_LT {root e1 e2 : TreeNode} {st s1 s2 : State} {o1 o2 : List String}
    (hp : root.production = "test expr LT expr")
    (h0 : root.children[0]? = some e1) (h2 : root.children[2]? = some e2)
    (he1 : code e1 st = .ok (o1, s1)) (he2 : code e2 s1 = .ok (o2, s2)) :
    code root st = .ok (o1 ++ push "$3" ++ o2 ++ pop "$5" ++ ltLines (comparisonOp e1.getType), s2) := by
  rw [code_eq_codeN st (by rw [hp]; decide), codeN, getProduction_eq_ok (by rw [hp]; decide),
    ok_bind, hp]
  simp only [↓reduceIte, String.reduceEq]
  rw [TreeNode.child_eq_ok h0, ok_bind, TreeNode.child_eq_ok h2, ok_bind]
  simp only [he1, he2, ok_bind]
  rfl

theorem code_test_GT {root e1 e2 : TreeNode} {st s1 s2 : State} {o1 o2 : List String}
    (hp : root.production = "test expr GT expr")
    (h0 : root.children[0]? = some e1) (h2 : root.children[2]? = some e2)
    (he1 : code e1 st = .ok (o1, s1)) (he2 : code e2 s1 = .ok (o2, s2)) :
    code root st = .ok (o1 ++ push "$3" ++ o2 ++ pop "$5" ++ gtLines (comparisonOp e1.getType), s2) := by
  rw [code_eq_codeN st (by rw [hp]; decide), codeN, getProduction_eq_ok (by rw [hp]; decide),
    ok_bind, hp]
  simp only [↓reduceIte, String.reduceEq]
  rw [TreeNode.child_eq_ok h0, ok_bind, TreeNode.child_eq_ok h2, ok_bind]
  simp only [he1, he2, ok_bind]
  rfl

theorem code_test_LE {root e1 e2 : TreeNode} {st s1 s2 s3 s4 : State}
    {o1 o2 o3 o4 : List String}
    (hp : root.production = "test expr LE expr")
    (h0 : root.children[0]? = some e1) (h2 : root.children[2]? = some e2)
    (he1 : code e1 st = .ok (o1, s1)) (he2 : code e2 s1 = .ok (o2, s2))
    (he3 : code e1 s2 = .ok (o3, s3)) (he4 : code e2 s3 = .ok (o4, s4)) :
    code root st = .ok (o1 ++ push "$3" ++ o2 ++ pop "$5" ++ ltLines (comparisonOp e1.getType)
      ++ push "$3" ++ o3 ++ push "$3" ++ o4 ++ pop "$5" ++ eqLines (comparisonOp e1.getType)
      ++ pop "$5" ++ ["add $3, $5, $3"], s4) := by
  rw [code_eq_codeN st (by rw [hp]; decide), codeN, getProduction_eq_ok (by rw [hp]; decide),
    ok_bind, hp]
  simp only [↓reduceIte, String.reduceEq]
  rw [TreeNode.child_eq_ok h0, ok_bind, TreeNode.child_eq_ok h2, ok_bind]
  simp only [he1, he2, he3, he4, ok_bind]
  rfl

theorem code_test_GE {root e1 e2 : TreeNode} {st s1 s2 s3 s4 : State}
    {o1 o2 o3 o4 : List String}
    (hp : root.production = "test expr GE expr")
    (h0 : root.children[0]? = some e1) (h2 : root.children[2]? = some e2)
    (he1 : code e1 st = .ok (o1, s1)) (he2 : code e2 s1 = .ok (o2, s2))
    (he3 : code e1 s2 = .ok (o3, s3)) (he4 : code e2 s3 = .ok (o4, s4)) :
    code root st = .ok (o1 ++ push "$3" ++ o2 ++ pop "$5" ++ gtLines (comparisonOp e1.getType)
      ++ push "$3" ++ o3 ++ push "$3" ++ o4 ++ pop "$5" ++ eqLines (comparisonOp e1.getType)
      ++ pop "$5" ++ ["add $3, $5, $3"], s4) := by
  rw [code_eq_codeN st (by rw [hp]; decide), codeN, getProduction_eq_ok (by rw [hp]; decide),
    ok_bind, hp]
  simp only [↓reduceIte, String.reduceEq]
  rw [TreeNode.child_eq_ok h0, ok_bind, TreeNode.child_eq_ok h2, ok_bind]
  simp only [he1, he2, he3, he4, ok_bind]
  rfl

theorem comparisonOp_cases (ty : WType) :
    comparisonOp ty = "slt" ∨ comparisonOp ty = "sltu" := by
  unfold comparisonOp
  by_cases h : ty = INT_STAR
  · right; simp [h]
  · left; simp [h]

/-! ### The loop over the arguments of a call -/

theorem foldlM_attach_eq {α β : Type} (l : List α) (f : β → α → Except Err β) (init : β) :
    l.attach.foldlM (fun acc e => f acc e.1) init = l.foldlM f init := by
  induction l generalizing init with
  | nil => rfl
  | cons a l ih =>
    rw [List.attach_cons, List.foldlM_cons, List.foldlM_cons]
    simp only [List.foldlM_map]
    congr 1
    funext b
    exact ih b

theorem foldlM_args_eq (es : List TreeNode) (acc : List String) (st : State) :
    es.foldlM (fun (acc : List String × State) e => do
        let r1 ← code e acc.2
        pure (acc.1 ++ r1.1 ++ push "$3", r1.2)) (acc, st)
      = (do
        let r ← argsCode es st
        pure (acc ++ r.1, r.2)) := by
  induction es generalizing acc st with
  | nil => simp [argsCode, ok_bind]; rfl
  | cons e es ih =>
    rw [List.foldlM_cons, argsCode]
    cases h : code e st with
    | error err => rfl
    | ok r =>
      simp only [ok_bind, pure_bind]
      rw [ih]
      cases h2 : argsCode es r.2 with
      | error err => rfl
      | ok rs =>
        simp only [ok_bind, pure_bind]
        show Except.ok _ = Except.ok _
        simp [List.append_assoc]

/-- Unfolds `codeN` at `factor ID LPAREN arglist RPAREN`. -/
theorem codeN_call {root idNode arglist : TreeNode} (st : State)
    (hp : root.production = "factor ID LPAREN arglist RPAREN")
    (h0 : root.children[0]? = some idNode) (h2 : root.children[2]? = some arglist)
    (hid : idNode.production = "") :
    codeN root st = (do
      let r ← argsCode (arglist.getChildSymbolNodes "expr") st
      pure (push "$29" ++ push "$31" ++ r.1
        ++ ["lis $5", ".word " ++ ("F" ++ idNode.token.lexeme), "jalr $5"]
        ++ (List.replicate (arglist.getChildSymbolNodes "expr").length (pop "$5")).flatten
        ++ pop "$31" ++ pop "$29", r.2)) := by
  rw [codeN, getProduction_eq_ok (by rw [hp]; decide), ok_bind, hp]
  simp only [↓reduceIte, String.reduceEq]
  rw [TreeNode.child_eq_ok h2, ok_bind, TreeNode.child_eq_ok h0, ok_bind,
    getToken_eq_ok hid, ok_bind]
  rw [foldlM_attach_eq (arglist.getChildSymbolNodes "expr")
    (fun (acc : List String × State) e => do
        let r1 ← code e acc.2
        pure (acc.1 ++ r1.1 ++ push "$3", r1.2))]
  rw [foldlM_args_eq]
  cases argsCode (arglist.getChildSymbolNodes "expr") st with
  | error err => rfl
  | ok r => rfl

/-- Unfolds `codeN` at `factor ID LPAREN RPAREN`. -/
theorem codeN_call0 {root idNode : TreeNode} (st : State)
    (hp : root.production = "factor ID LPAREN RPAREN")
    (h0 : root.children[0]? = some idNode) (hid : idNode.production = "") :
    codeN root st = .ok (push "$29" ++ push "$31"
        ++ ["lis $5", ".word " ++ ("F" ++ idNode.token.lexeme), "jalr $5"]
        ++ pop "$31" ++ pop "$29", st) := by
  rw [codeN, getProduction_eq_ok (by rw [hp]; decide), ok_bind, hp]
  simp only [↓reduceIte, String.reduceEq]
  rw [TreeNode.child_eq_ok h0, ok_bind, getToken_eq_ok hid, ok_bind]
  rfl

/-! ## The emitter on the example trees -/

theorem code_exprNum (n : String) (st : State) :
    code (exprNum n) st = .ok (["lis $3", ".word " ++ n], st) := by
  simp only [exprNum, node, leaf, code_mk_expr_term, code_mk_term_factor, code_mk_factor_NUM,
    code_mk_NUM]

theorem code_termNum (n ty : String) (st : State) :
    code (termNum n ty) st = .ok (["lis $3", ".word " ++ n], st) := by
  simp only [termNum, node, leaf, code_mk_term_factor, code_mk_factor_NUM, code_mk_NUM]

theorem code_exprId_p : code (exprId "p" "int*") statePQ = .ok (["lw $3, 0($29)"], statePQ) := by
  simp only [exprId, node, leaf, code_mk_expr_term, code_mk_term_factor, code_mk_factor_ID,
    code_mk_ID]
  rfl

theorem code_termId_q : code (termId "q" "int*") statePQ = .ok (["lw $3, -4($29)"], statePQ) := by
  simp only [termId, node, leaf, code_mk_term_factor, code_mk_factor_ID, code_mk_ID]
  rfl

theorem argsCode_12 (st : State) :
    argsCode [exprNum "1", exprNum "2"] st = .ok (["lis $3", ".word 1", "sw $3, -4($30)",
      "sub $30, $30, $4", "lis $3", ".word 2", "sw $3, -4($30)", "sub $30, $30, $4"], st) := by
  simp only [argsCode, code_exprNum, ok_bind]
  rfl

theorem code_procTree_f :
    code (procTree "f" emptyDcls) {} = .ok (["Ff:", "sub $29, $30, $4",
      "sw $1, -4($30)", "sub $30, $30, $4", "sw $2, -4($30)", "sub $30, $30, $4",
      "sw $5, -4($30)", "sub $30, $30, $4", "sw $6, -4($30)", "sub $30, $30, $4",
      "sw $7, -4($30)", "sub $30, $30, $4",
      "lis $3", ".word 0",
      "add $30, $30, $4", "lw $1, -4($30)", "add $30, $30, $4", "lw $2, -4($30)",
      "add $30, $30, $4", "lw $5, -4($30)", "add $30, $30, $4", "lw $6, -4($30)",
      "add $30, $30, $4", "lw $7, -4($30)",
      "jr $31"], {}) := by
  simp only [procTree, emptyDcls, emptyStatements, emptyParams, node, leaf, TreeNode.new,
    code_mk_procedure, code_mk_params_EMPTY, code_mk_dcls_EMPTY, code_mk_statements_EMPTY,
    code_exprNum, getToken_eq_ok, TreeNode.production, ok_bind]
  rfl

/-- Globals after the two declarations of `wain(int a, int b)` from an empty stack. -/
theorem code_dcls_ab :
    code (dclInt "a") { g_tables := SymbolTableStack.push {}, labelCtr := 0 }
      = .ok ([], { g_tables := { s := [{ varTable := [("a", ("int", 0))],
                                          localCtr := -4, paramCtr := 4 }] },
                   labelCtr := 0 }) ∧
    code (dclInt "b") { g_tables := { s := [{ varTable := [("a", ("int", 0))],
                                              localCtr := -4, paramCtr := 4 }] },
                        labelCtr := 0 }
      = .ok ([], { g_tables := { s := [{ varTable := [("a", ("int", 0)), ("b", ("int", -4))],
                                          localCtr := -8, paramCtr := 4 }] },
                   labelCtr := 0 }) := by
  constructor <;>
  · simp only [dclInt, node, leaf, code_mk_dcl, getToken_eq_ok, TreeNode.production, ok_bind]
    rfl

theorem code_exprId_a (n : Nat) :
    code (exprId "a") (stateAB n) = .ok (["lw $3, 0($29)"], stateAB n) := by
  simp only [exprId, node, leaf, code_mk_expr_term, code_mk_term_factor, code_mk_factor_ID,
    code_mk_ID]
  rfl

theorem code_exprId_b (n : Nat) :
    code (exprId "b") (stateAB n) = .ok (["lw $3, -4($29)"], stateAB n) := by
  simp only [exprId, node, leaf, code_mk_expr_term, code_mk_term_factor, code_mk_factor_ID,
    code_mk_ID]
  rfl

theorem code_mainTree (statements : TreeNode) (out : List String) (n : Nat)
    (h : code statements (stateAB 0) = .ok (out, stateAB n)) :
    code (mainTree statements (exprId "a")) {} = .ok (["Fwain:", "sub $29, $30, $4",
      "sw $29, -4($30)", "sub $30, $30, $4", "sw $31, -4($30)", "sub $30, $30, $4",
      "sw $2, -4($30)", "sub $30, $30, $4", "lis $2", ".word 0",
      "lis $5", ".word init", "jalr $5",
      "add $30, $30, $4", "lw $2, -4($30)", "add $30, $30, $4", "lw $31, -4($30)",
      "add $30, $30, $4", "lw $29, -4($30)",
      "sw $1, -4($30)", "sub $30, $30, $4", "sw $2, -4($30)", "sub $30, $30, $4"]
      ++ out ++ ["lw $3, 0($29)", "jr $31"], stateAB n) := by
  rw [code_main (mainTree statements (exprId "a")) (dclInt "a") (dclInt "b") emptyDcls
    statements (exprId "a") (leaf "ID" "a" "int") {} (by rfl)
    (by simp [mainTree, node, TreeNode.children]) (by simp [mainTree, node, TreeNode.children])
    (by simp [mainTree, node, TreeNode.children]) (by simp [mainTree, node, TreeNode.children])
    (by simp [mainTree, node, TreeNode.children]) (by simp [dclInt, node, TreeNode.children])]
  have h1 := code_dcls_ab.1
  have h2 := code_dcls_ab.2
  have h3 : code emptyDcls (stateAB 0) = .ok ([], stateAB 0) := by
    simp only [emptyDcls, node, code_mk_dcls_EMPTY]
  have ha := code_exprId_a n
  simp only [stateAB] at h h3 ha ⊢
  rw [h1, ok_bind, h2, ok_bind, h3, ok_bind, h, ok_bind, ha, ok_bind]
  have hty : (leaf "ID" "a" "int").getType = INT := by rfl
  have hne : INT ≠ INT_STAR := by decide
  rw [hty, if_neg hne, if_pos rfl]
  refine congrArg Except.ok (Prod.ext ?_ rfl)
  simp only [push, pop, List.append_assoc, List.cons_append, List.nil_append, List.append_nil,
    String.reduceAppend]

theorem code_procTree (name : String) (st : State) :
    code (procTree name emptyDcls) st = .ok ([("F" ++ name) ++ ":", "sub $29, $30, $4",
      "sw $1, -4($30)", "sub $30, $30, $4", "sw $2, -4($30)", "sub $30, $30, $4",
      "sw $5, -4($30)", "sub $30, $30, $4", "sw $6, -4($30)", "sub $30, $30, $4",
      "sw $7, -4($30)", "sub $30, $30, $4",
      "lis $3", ".word 0",
      "add $30, $30, $4", "lw $1, -4($30)", "add $30, $30, $4", "lw $2, -4($30)",
      "add $30, $30, $4", "lw $5, -4($30)", "add $30, $30, $4", "lw $6, -4($30)",
      "add $30, $30, $4", "lw $7, -4($30)",
      "jr $31"], st) := by
  simp only [procTree, emptyDcls, emptyStatements, emptyParams, node, leaf, TreeNode.new,
    code_mk_procedure, code_mk_params_EMPTY, code_mk_dcls_EMPTY, code_mk_statements_EMPTY,
    code_exprNum, getToken_eq_ok, TreeNode.production, ok_bind]
  rfl

theorem code_ifTree :
    code ifTree (stateAB 0) = .ok (["lw $3, 0($29)", "sw $3, -4($30)", "sub $30, $30, $4",
      "lw $3, -4($29)", "add $30, $30, $4", "lw $5, -4($30)", "slt $3, $5, $3",
      "beq $3, $0, Felse0", "beq $0, $0, Fendif1", "Felse0:", "Fendif1:"], stateAB 2) := by
  have ht : code (node "test" "test expr LT expr" [exprId "a", leaf "LT" "<", exprId "b"])
      (stateAB 2) = .ok (["lw $3, 0($29)", "sw $3, -4($30)", "sub $30, $30, $4",
        "lw $3, -4($29)", "add $30, $30, $4", "lw $5, -4($30)", "slt $3, $5, $3"],
        stateAB 2) := by
    rw [code_test_LT (by rfl) (by simp [node, TreeNode.children])
      (by simp [node, TreeNode.children]) (code_exprId_a 2) (code_exprId_b 2)]
    rfl
  have hs : code emptyStatements (stateAB 2) = .ok ([], stateAB 2) := by
    simp only [emptyStatements, node, code_mk_statements_EMPTY]
  rw [ifTree, node, code_mk_if]
  have e : ({ g_tables := (stateAB 0).g_tables, labelCtr := (stateAB 0).labelCtr + 1 + 1 }
      : State) = stateAB 2 := rfl
  rw [e, ht, ok_bind, hs, ok_bind, hs, ok_bind]
  rfl

/-! ## C1: call sites -/

theorem getChildSymbolNodes_leaf (sym : Symbol) (c : TreeNode) (h : c.children.isEmpty) :
    c.getChildSymbolNodes sym = [] := by
  cases c with
  | mk ty s p tok cs =>
    cases cs with
    | nil => simp [TreeNode.getChildSymbolNodes, TreeNode.getChildSymbolNodesList]
    | cons a b => simp [TreeNode.children] at h

/-- On a well-formed chain `getChildSymbolNodes("expr")` returns exactly the chain's
argument expressions: nothing nested inside an argument is collected. -/
theorem getChildSymbolNodes_argChain :
    ∀ (es : List TreeNode) (arglist : TreeNode), arglist.argChain = some es →
      arglist.getChildSymbolNodes "expr" = es
  | es, .mk ty sym prod tok [], h => by simp [TreeNode.argChain] at h
  | es, .mk ty sym prod tok [e], h => by
    simp only [TreeNode.argChain] at h
    split at h
    · rename_i hc
      cases h
      simp [TreeNode.getChildSymbolNodes, TreeNode.getChildSymbolNodesList, hc.2.2]
    · cases h
  | es, .mk ty sym prod tok [e, x], h => by simp [TreeNode.argChain] at h
  | es, .mk ty sym prod tok [e, comma, rest], h => by
    simp only [TreeNode.argChain] at h
    split at h
    · rename_i hc
      cases hr : rest.argChain with
      | none => simp [hr] at h
      | some es2 =>
        simp only [hr] at h
        cases h
        have ih := getChildSymbolNodes_argChain es2 rest hr
        have hrest : rest.symbol ≠ "expr" := by
          intro hs
          cases rest with
          | mk ty2 sym2 prod2 tok2 cs2 =>
            simp only [TreeNode.symbol] at hs
            subst hs
            cases cs2 with
            | nil => simp [TreeNode.argChain] at hr
            | cons a1 t1 =>
              cases t1 with
              | nil => simp [TreeNode.argChain] at hr
              | cons a2 t2 =>
                cases t2 with
                | nil => simp [TreeNode.argChain] at hr
                | cons a3 t3 =>
                  cases t3 with
                  | nil => simp [TreeNode.argChain] at hr
                  | cons a4 t4 => simp [TreeNode.argChain] at hr
        have hcomma : comma.symbol ≠ "expr" := by rw [hc.2.2.2.1]; decide
        simp [TreeNode.getChildSymbolNodes, TreeNode.getChildSymbolNodesList, hc.2.2.1,
          hcomma, hrest, getChildSymbolNodes_leaf _ comma hc.2.2.2.2, ih]
    · cases h
  | es, .mk ty sym prod tok (e :: x :: y :: z :: w), h => by simp [TreeNode.argChain] at h

/-- C1. A call node `factor ID LPAREN arglist RPAREN` whose `arglist` is a well-formed
chain of arguments `es = e1..en` emits push `$29`, push `$31`, then for each argument in
source order its code followed by push `$3` (`body`), then `lis $5`, `.word F<id>`,
`jalr $5`, then `n` times pop `$5`, then pop `$31`, pop `$29`. The collected arguments are
exactly the chain's expressions (`n >= 1`; nothing nested inside an argument is counted).
The zero-argument form `factor ID LPAREN RPAREN` emits the same frame with no argument. -/
theorem call_emits :
    (∀ (root idNode arglist : TreeNode) (es : List TreeNode) (st st1 : State)
        (body : List String),
      root.production = "factor ID LPAREN arglist RPAREN" →
      root.children[0]? = some idNode → idNode.production = "" →
      root.children[2]? = some arglist →
      arglist.argChain = some es →
      argsCode es st = .ok (body, st1) →
      1 ≤ es.length ∧ arglist.getChildSymbolNodes "expr" = es ∧
      code root st = .ok (push "$29" ++ push "$31" ++ body
        ++ ["lis $5", ".word " ++ ("F" ++ idNode.token.lexeme), "jalr $5"]
        ++ (List.replicate es.length (pop "$5")).flatten
        ++ pop "$31" ++ pop "$29", st1)) ∧
    (∀ (root idNode : TreeNode) (st : State),
      root.production = "factor ID LPAREN RPAREN" →
      root.children[0]? = some idNode → idNode.production = "" →
      code root st = .ok (push "$29" ++ push "$31"
        ++ ["lis $5", ".word " ++ ("F" ++ idNode.token.lexeme), "jalr $5"]
        ++ pop "$31" ++ pop "$29", st)) := by
  constructor
  · intro root idNode arglist es st st1 body hp h0 hid h2 hchain hargs
    have hne : root.production ≠ "" := by rw [hp]; decide
    have hes := getChildSymbolNodes_argChain es arglist hchain
    refine ⟨?_, hes, ?_⟩
    · cases arglist with
      | mk ty sym prod tok cs =>
        match cs, hchain with
        | [], h => simp [TreeNode.argChain] at h
        | [e], h =>
          simp only [TreeNode.argChain] at h
          split at h
          · cases h; simp
          · cases h
        | [e, x], h => simp [TreeNode.argChain] at h
        | [e, comma, rest], h =>
          simp only [TreeNode.argChain] at h
          split at h
          · cases hr : rest.argChain with
            | none => simp [hr] at h
            | some es2 => simp only [hr] at h; cases h; simp
          · cases h
        | (e :: x :: y :: z :: w), h => simp [TreeNode.argChain] at h
    · rw [code_eq_codeN st hne, codeN_call st hp h0 h2 hid, hes, hargs, ok_bind]
      rfl
  · intro root idNode st hp h0 hid
    have hne : root.production ≠ "" := by rw [hp]; decide
    rw [code_eq_codeN st hne, codeN_call0 st hp h0 hid]

theorem call_emits_witness :
    code callF12 {} = .ok (["sw $29, -4($30)", "sub $30, $30, $4",
      "sw $31, -4($30)", "sub $30, $30, $4",
      "lis $3", ".word 1", "sw $3, -4($30)", "sub $30, $30, $4",
      "lis $3", ".word 2", "sw $3, -4($30)", "sub $30, $30, $4",
      "lis $5", ".word Ff", "jalr $5",
      "add $30, $30, $4", "lw $5, -4($30)", "add $30, $30, $4", "lw $5, -4($30)",
      "add $30, $30, $4", "lw $31, -4($30)", "add $30, $30, $4", "lw $29, -4($30)"], {}) :=
  (call_emits.1 callF12 (leaf "ID" "f") argList12 [exprNum "1", exprNum "2"] {} {} _
    (by rfl) (by simp [callF12, node, TreeNode.children]) (by rfl)
    (by simp [callF12, node, TreeNode.children])
    (by simp [argList12, node, leaf, exprNum, TreeNode.argChain, TreeNode.symbol,
      TreeNode.children])
    (argsCode_12 {})).2.2

/-! ## C2: parameter offsets after inversion -/

theorem wrapInt_of_range (x : Int) (h1 : -2147483648 ≤ x) (h2 : x < 2147483648) :
    wrapInt x = x := by
  unfold wrapInt
  omega

theorem wrapInt_wrapInt_add (a b : Int) : wrapInt (wrapInt a + b) = wrapInt (a + b) := by
  unfold wrapInt
  omega

theorem wrapInt_wrapInt (a : Int) : wrapInt (wrapInt a) = wrapInt a := by
  unfold wrapInt
  omega

theorem manyDcls_length (n : Nat) : (manyDcls n).length = n := by
  simp [manyDcls]

theorem ident_injective : Function.Injective ident := by
  have hleft : ∀ i, Nat.ofDigits 2 ((ident i).data.map (fun c => if c = 'a' then 0 else 1))
      = i + 1 := by
    intro i
    have e : (ident i).data.map (fun c => if c = 'a' then 0 else 1) = Nat.digits 2 (i + 1) := by
      show ((Nat.digits 2 (i + 1)).map (fun d => if d = 0 then 'a' else 'b')).map
        (fun c => if c = 'a' then 0 else 1) = Nat.digits 2 (i + 1)
      rw [List.map_map]
      conv_rhs => rw [← List.map_id (Nat.digits 2 (i + 1))]
      apply List.map_congr_left
      intro d hd
      have hlt : d < 2 := Nat.digits_lt_base (by decide) hd
      have h01 : d = 0 ∨ d = 1 := by omega
      rcases h01 with h | h <;> subst h <;> decide
    rw [e, Nat.ofDigits_digits]
  intro i j h
  have hi := hleft i
  rw [h, hleft j] at hi
  omega

theorem manyDcls_get (n k : Nat) (hk : k < (manyDcls n).length) :
    (manyDcls n)[k] = (ident k, "int") := by
  simp [manyDcls]

theorem manyDcls_nodup (n : Nat) : ((manyDcls n).map Prod.fst).Nodup := by
  have e : (manyDcls n).map Prod.fst = (List.range n).map ident := by
    simp [manyDcls, List.map_map, Function.comp_def]
  rw [e]
  exact List.Nodup.map ident_injective (List.nodup_range n)

namespace SymbolTable

theorem find_eq_none_iff (vt : List (Identifier × (WType × Int))) (id : Identifier) :
    find vt id = none ↔ id ∉ vt.map Prod.fst := by
  induction vt with
  | nil => simp [find]
  | cons kv rest ih =>
    obtain ⟨k, v⟩ := kv
    by_cases h : k = id
    · simp [find, h]
    · simp only [find, h, if_false, ih, List.map_cons, List.mem_cons, not_or]
      constructor
      · intro h2; exact ⟨fun h3 => h h3.symm, h2⟩
      · intro h2; exact h2.2

theorem find_of_mem_nodup (vt : List (Identifier × (WType × Int))) (id : Identifier)
    (v : WType × Int) (hd : (vt.map Prod.fst).Nodup) (hm : (id, v) ∈ vt) :
    find vt id = some v := by
  induction vt with
  | nil => simp at hm
  | cons kv rest ih =>
    obtain ⟨k, w⟩ := kv
    simp only [List.map_cons, List.nodup_cons] at hd
    simp only [List.mem_cons, Prod.mk.injEq] at hm
    rcases hm with ⟨h1, h2⟩ | hm
    · subst h1; subst h2; simp [find]
    · have hne : k ≠ id := by
        intro h; subst h
        exact hd.1 (List.mem_map_of_mem Prod.fst hm)
      simp only [find, hne, if_false]
      exact ih hd.2 hm

theorem paramsFrom_keys (c : Int) (ps : List (Identifier × WType)) :
    (paramsFrom c ps).map Prod.fst = ps.map Prod.fst := by
  induction ps generalizing c with
  | nil => rfl
  | cons p ps ih => simp [paramsFrom, ih]

theorem paramsFrom_length (c : Int) (ps : List (Identifier × WType)) :
    (paramsFrom c ps).length = ps.length := by
  induction ps generalizing c with
  | nil => rfl
  | cons p ps ih => simp [paramsFrom, ih]

theorem paramsFrom_pos (c : Int) (hc : 0 < c) (ps : List (Identifier × WType))
    (hb : c + 4 * (ps.length : Int) ≤ 2147483648) :
    ∀ var ∈ paramsFrom c ps, 0 < var.2.2 := by
  induction ps generalizing c with
  | nil => intro var h; simp [paramsFrom] at h
  | cons p ps ih =>
    intro var h
    simp only [paramsFrom, List.mem_cons] at h
    rcases h with h | h
    · subst h; exact hc
    · cases ps with
      | nil => simp [paramsFrom] at h
      | cons q qs =>
        simp only [List.length_cons, Nat.cast_add, Nat.cast_one] at hb
        rw [wrapInt_of_range (c + 4) (by omega) (by omega)] at h
        exact ih (c + 4) (by omega)
          (by simp only [List.length_cons, Nat.cast_add, Nat.cast_one]; omega) var h

theorem paramsFrom_mem (c : Int) (hc : wrapInt c = c) (ps : List (Identifier × WType))
    (i : Nat) (h : i < ps.length) :
    ((ps[i]).1, ((ps[i]).2, wrapInt (c + 4 * (i : Int)))) ∈ paramsFrom c ps := by
  induction ps generalizing c i with
  | nil => simp at h
  | cons p ps ih =>
    cases i with
    | zero => simp [paramsFrom, hc]
    | succ j =>
      have hj : j < ps.length := by simpa using h
      have hm := ih (wrapInt (c + 4)) (wrapInt_wrapInt _) j hj
      have e : wrapInt (wrapInt (c + 4) + 4 * (j : Int))
          = wrapInt (c + 4 * ((j + 1 : Nat) : Int)) := by
        rw [wrapInt_wrapInt_add]
        congr 1
        push_cast
        ring
      rw [e] at hm
      simp only [paramsFrom, List.getElem_cons_succ, List.mem_cons]
      exact Or.inr hm

theorem insertParameters_varTable (ps : List (Identifier × WType)) (t : SymbolTable)
    (hd : (ps.map Prod.fst).Nodup)
    (hdisj : ∀ id ∈ ps.map Prod.fst, id ∉ t.varTable.map Prod.fst) :
    (insertParameters t ps).varTable = t.varTable ++ paramsFrom t.paramCtr ps := by
  induction ps generalizing t with
  | nil => simp [insertParameters, paramsFrom]
  | cons p ps ih =>
    have hp : find t.varTable p.1 = none :=
      (find_eq_none_iff _ _).2 (hdisj p.1 (by simp))
    simp only [List.map_cons, List.nodup_cons] at hd
    have hstep : t.insertParameterVariable p.1 p.2 =
        { varTable := t.varTable ++ [(p.1, (p.2, t.paramCtr))],
          localCtr := t.localCtr, paramCtr := wrapInt (t.paramCtr + 4) } := by
      simp [insertParameterVariable, mapInsert, hp]
    have hih := ih (t.insertParameterVariable p.1 p.2) hd.2 (by
      intro id hid
      rw [hstep]
      simp only [List.map_append, List.map_cons, List.map_nil, List.mem_append,
        List.mem_singleton, not_or]
      refine ⟨hdisj id (by simp only [List.map_cons, List.mem_cons]; exact Or.inr hid), ?_⟩
      intro h; subst h; exact hd.1 hid)
    show (insertParameters (t.insertParameterVariable p.1 p.2) ps).varTable = _
    rw [hih, hstep]
    simp only [paramsFrom, List.append_assoc, List.singleton_append]

theorem invertEntry_fst (K : Int) (var : Identifier × (WType × Int)) :
    (invertEntry K var).1 = var.1 := by
  unfold invertEntry; split <;> rfl

theorem invertParamOffsets_varTable (t : SymbolTable) :
    t.invertParamOffsets.varTable = t.varTable.map (invertEntry
      (wrapInt (4 + wrapInt (wrapInt
        ((t.varTable.filter (fun var => decide (var.2.2 > 0))).length : Int) * 4)))) := rfl

theorem filter_pos_eq_self (vt : List (Identifier × (WType × Int)))
    (h : ∀ var ∈ vt, 0 < var.2.2) :
    vt.filter (fun var => decide (var.2.2 > 0)) = vt := by
  apply List.filter_eq_self.2
  intro var hv
  simpa using h var hv

theorem find_inverted (vt : List (Identifier × (WType × Int))) (K : Int) (id : Identifier)
    (v : WType × Int) (hd : (vt.map Prod.fst).Nodup) (hm : (id, v) ∈ vt) :
    find (vt.map (invertEntry K)) id = some (invertEntry K (id, v)).2 := by
  have hkeys : ((vt.map (invertEntry K)).map Prod.fst).Nodup := by
    rw [List.map_map]
    have e : (Prod.fst ∘ invertEntry K) = Prod.fst := by
      funext var; exact invertEntry_fst _ var
    rw [e]
    exact hd
  have hpair : invertEntry K (id, v) = (id, (invertEntry K (id, v)).2) :=
    Prod.ext (invertEntry_fst K (id, v)) rfl
  have hmem : (id, (invertEntry K (id, v)).2) ∈ vt.map (invertEntry K) := by
    rw [← hpair]
    exact List.mem_map_of_mem _ hm
  exact find_of_mem_nodup _ _ _ hkeys hmem

/-- Lookup of the `k`-th of the parameters `params` after insertion into a fresh table and
inversion: the binding inversion makes of the one insertion created. -/
theorem getVariable_inverted (params : List (Identifier × WType))
    (hd : (params.map Prod.fst).Nodup) (k : Nat) (hk : k < params.length) :
    ((insertParameters {} params).invertParamOffsets).getVariable (params[k]).1
      = .ok (invertEntry (wrapInt (4 + wrapInt (wrapInt
          (((paramsFrom 4 params).filter (fun var => decide (var.2.2 > 0))).length : Int) * 4)))
          ((params[k]).1, ((params[k]).2, wrapInt (4 + 4 * (k : Int))))).2 := by
  have hvt : (insertParameters {} params).varTable = paramsFrom 4 params := by
    rw [insertParameters_varTable params {} hd (by intro id _; simp)]
    rfl
  have hinv := invertParamOffsets_varTable (insertParameters {} params)
  rw [hvt] at hinv
  have hfind := find_inverted (paramsFrom 4 params) (wrapInt (4 + wrapInt (wrapInt
    (((paramsFrom 4 params).filter (fun var => decide (var.2.2 > 0))).length : Int) * 4)))
    (params[k]).1 ((params[k]).2, wrapInt (4 + 4 * (k : Int)))
    (by rw [paramsFrom_keys]; exact hd) (paramsFrom_mem 4 (by decide) params k hk)
  rw [← hinv] at hfind
  simp only [getVariable, hfind]

end SymbolTable

/-- C2, counterexample. With the `2^29` parameters `manyDcls (2^29)` the counter `paramCtr`
reaches `2^31` before the last insertion and wraps to `-2^31`: the last parameter is
bound to `-2147483648`, which inversion leaves alone since it is not positive, instead of
the offset 4 the claim gives the rightmost parameter. -/
theorem param_offset_wraps :
    (manyDcls 536870912).length = 536870912 ∧
    ((manyDcls 536870912).map Prod.fst).Nodup ∧
    ((insertParameters {} (manyDcls 536870912)).invertParamOffsets).getVariable
        (ident 536870911) = .ok ("int", -2147483648) ∧
    (-2147483648 : Int) ≠ 4 * ((536870912 : Int) - 536870912 + 1) ∧
    (SymbolTable.insertParameterVariable { paramCtr := 2147483644 } "p" "int").paramCtr
      = -2147483648 := by
  have hlen := manyDcls_length 536870912
  have hk : 536870911 < (manyDcls 536870912).length := by rw [hlen]; decide
  have h := SymbolTable.getVariable_inverted (manyDcls 536870912) (manyDcls_nodup _)
    536870911 hk
  rw [manyDcls_get 536870912 536870911 hk] at h
  have hw : wrapInt (4 + 4 * ((536870911 : Nat) : Int)) = -2147483648 := by decide
  rw [hw] at h
  have hn : ¬ ((-2147483648 : Int) > 0) := by decide
  refine ⟨hlen, manyDcls_nodup _, ?_, by decide, by decide⟩
  rw [h]
  simp only [SymbolTable.invertEntry, hn, if_false]

/-- C2, amended. For `1 <= N <= 2^29 - 2` parameters with pairwise distinct identifiers (no
`int` operation of the two calls overflows in this range), inserting them into a fresh
symbol table in declaration order and then inverting once binds the `i`-th declared
parameter (1-based) to offset `4 * (N - i + 1)`; hence the leftmost holds `4 * N`, the
rightmost holds `4`, and the offsets strictly decrease in declaration order. -/
theorem param_offsets_inverted (params : List (Identifier × WType))
    (hN : 1 ≤ params.length) (hB : params.length ≤ 536870910)
    (hd : (params.map Prod.fst).Nodup) :
    (∀ (i : Nat) (h1 : 1 ≤ i) (h2 : i ≤ params.length),
      ((insertParameters {} params).invertParamOffsets).getVariable
          (params.get ⟨i - 1, by omega⟩).1
        = .ok ((params.get ⟨i - 1, by omega⟩).2, 4 * ((params.length : Int) - i + 1))) ∧
    ((insertParameters {} params).invertParamOffsets).getVariable
        (params.get ⟨0, by omega⟩).1
      = .ok ((params.get ⟨0, by omega⟩).2, 4 * (params.length : Int)) ∧
    ((insertParameters {} params).invertParamOffsets).getVariable
        (params.get ⟨params.length - 1, by omega⟩).1
      = .ok ((params.get ⟨params.length - 1, by omega⟩).2, 4) ∧
    (∀ (i j : Nat), 1 ≤ i → i < j → j ≤ params.length →
      4 * ((params.length : Int) - j + 1) < 4 * ((params.length : Int) - i + 1)) := by
  have hmain : ∀ (k : Nat) (hk : k < params.length),
      ((insertParameters {} params).invertParamOffsets).getVariable (params.get ⟨k, hk⟩).1
        = .ok ((params.get ⟨k, hk⟩).2, 4 * ((params.length : Int) - k)) := by
    intro k hk
    have h := SymbolTable.getVariable_inverted params hd k hk
    have hpos := SymbolTable.paramsFrom_pos 4 (by omega) params (by omega)
    rw [SymbolTable.filter_pos_eq_self _ hpos, SymbolTable.paramsFrom_length,
      wrapInt_of_range (4 + 4 * (k : Int)) (by omega) (by omega)] at h
    have hp : (4 : Int) + 4 * (k : Int) > 0 := by omega
    have hval : wrapInt (wrapInt (4 + wrapInt (wrapInt (params.length : Int) * 4))
        - (4 + 4 * (k : Int))) = 4 * ((params.length : Int) - k) := by
      unfold wrapInt
      omega
    simp only [SymbolTable.invertEntry, hp, if_true, hval] at h
    simp only [List.get_eq_getElem]
    exact h
  refine ⟨?_, ?_, ?_, ?_⟩
  · intro i h1 h2
    have h := hmain (i - 1) (by omega)
    rw [h]
    congr 2
    have : ((i - 1 : Nat) : Int) = (i : Int) - 1 := by omega
    rw [this]; ring
  · have h := hmain 0 (by omega)
    rw [h]; simp
  · have h := hmain (params.length - 1) (by omega)
    rw [h]
    congr 2
    have : ((params.length - 1 : Nat) : Int) = (params.length : Int) - 1 := by omega
    rw [this]; ring
  · intro i j _ hij _
    omega

theorem param_offsets_inverted_witness :
    ((insertParameters {} [("a", "int"), ("b", "int"), ("c", "int")]).invertParamOffsets
        ).getVariable "a" = .ok ("int", 12) ∧
    ((insertParameters {} [("a", "int"), ("b", "int"), ("c", "int")]).invertParamOffsets
        ).getVariable "b" = .ok ("int", 8) ∧
    ((insertParameters {} [("a", "int"), ("b", "int"), ("c", "int")]).invertParamOffsets
        ).getVariable "c" = .ok ("int", 4) :=
  have h := param_offsets_inverted [("a", "int"), ("b", "int"), ("c", "int")]
    (by decide) (by decide) (by decide)
  ⟨h.1 1 (by decide) (by decide), h.1 2 (by decide) (by decide),
    h.1 3 (by decide) (by decide)⟩

/-! ## C3: register save and restore of a procedure -/

/-- C3 (code at a failing input). For `int f() { return 0; }` the registers saved with
pushes of `$1, $2, $5, $6, $7` are popped into `$1, $2, $5, $6, $7` in that same order,
not in the reverse order `$7, $6, $5, $2, $1` a stack restore needs. -/
theorem procedure_pops_in_push_order :
    code (procTree "f" emptyDcls) {} = .ok (["Ff:", "sub $29, $30, $4",
      "sw $1, -4($30)", "sub $30, $30, $4", "sw $2, -4($30)", "sub $30, $30, $4",
      "sw $5, -4($30)", "sub $30, $30, $4", "sw $6, -4($30)", "sub $30, $30, $4",
      "sw $7, -4($30)", "sub $30, $30, $4",
      "lis $3", ".word 0",
      "add $30, $30, $4", "lw $1, -4($30)", "add $30, $30, $4", "lw $2, -4($30)",
      "add $30, $30, $4", "lw $5, -4($30)", "add $30, $30, $4", "lw $6, -4($30)",
      "add $30, $30, $4", "lw $7, -4($30)",
      "jr $31"], {}) ∧
    code (procTree "f" emptyDcls) {} ≠ .ok (["Ff:", "sub $29, $30, $4"]
      ++ (push "$1" ++ push "$2" ++ push "$5" ++ push "$6" ++ push "$7")
      ++ ["lis $3", ".word 0"]
      ++ (pop "$7" ++ pop "$6" ++ pop "$5" ++ pop "$2" ++ pop "$1")
      ++ ["jr $31"], {}) := by
  refine ⟨code_procTree_f, ?_⟩
  rw [code_procTree_f]
  intro h
  have h2 := congrArg (fun r => match r with
    | Except.ok (o, _) => o[15]?
    | Except.error _ => none) h
  revert h2
  decide

/-! ## C4: push/pop balance -/

theorem closed_cons_cons (x y : String) (rest : List String) :
    closed (x :: y :: rest) = closed (y :: rest) := by
  simp [closed, List.getLast?_cons_cons]

theorem closed_append {a b : List String} (ha : closed a = true) (hb : closed b = true) :
    closed (a ++ b) = true := by
  cases b with
  | nil => simpa using ha
  | cons y ys =>
    have : (a ++ y :: ys).getLast? = (y :: ys).getLast? := by
      rw [List.getLast?_append]
      cases hl : (y :: ys).getLast? with
      | none => simp at hl
      | some v => simp
    simp only [closed, this] at hb ⊢
    exact hb

theorem pushCount_append {a : List String} (b : List String) (ha : closed a = true) :
    pushCount (a ++ b) = pushCount a + pushCount b := by
  induction a with
  | nil => simp [pushCount]
  | cons x rest ih =>
    cases rest with
    | nil =>
      have hx : isPushHead x = false := by
        simp only [closed, List.getLast?_singleton, opensSequence, Bool.not_eq_true',
          Bool.or_eq_false_iff] at ha
        exact ha.1
      cases b with
      | nil => simp [pushCount]
      | cons y ys => simp [pushCount, hx]
    | cons y rest2 =>
      rw [closed_cons_cons] at ha
      have h := ih ha
      simp only [List.cons_append] at h ⊢
      simp only [pushCount]
      rw [h]
      omega

theorem popCount_append {a : List String} (b : List String) (ha : closed a = true) :
    popCount (a ++ b) = popCount a + popCount b := by
  induction a with
  | nil => simp [popCount]
  | cons x rest ih =>
    cases rest with
    | nil =>
      have hx : (x == "add $30, $30, $4") = false := by
        simp only [closed, List.getLast?_singleton, opensSequence, Bool.not_eq_true',
          Bool.or_eq_false_iff] at ha
        exact ha.2
      cases b with
      | nil => simp [popCount]
      | cons y ys => simp [popCount, hx]
    | cons y rest2 =>
      rw [closed_cons_cons] at ha
      have h := ih ha
      simp only [List.cons_append] at h ⊢
      simp only [popCount]
      rw [h]
      omega

theorem Bal.append {n k : Int} {a b : List String} (ha : Bal n a) (hb : Bal k b) :
    Bal (n + k) (a ++ b) := by
  refine ⟨closed_append ha.1 hb.1, ?_⟩
  rw [pushCount_append b ha.1, popCount_append b ha.1]
  have h1 := ha.2
  have h2 := hb.2
  push_cast
  omega

theorem Bal.of_eq {n k : Int} {out : List String} (h : Bal n out) (e : n = k) : Bal k out :=
  e ▸ h

theorem Bal.nil : Bal 0 [] := by decide

theorem bal_push : ∀ r ∈ ["$1", "$2", "$3", "$5", "$6", "$7", "$29", "$31"],
    Bal 1 (push r) := by decide

theorem bal_pop : ∀ r ∈ ["$1", "$2", "$3", "$5", "$6", "$7", "$29", "$31"],
    Bal (-1) (pop r) := by decide

theorem bal_plain (ls : List String) (h : ∀ l ∈ ls, plain l = true) : Bal 0 ls := by
  induction ls with
  | nil => exact Bal.nil
  | cons x rest ih =>
    have hx := h x (by simp)
    have hr := ih (fun l hl => h l (by simp [hl]))
    simp only [plain, Bool.and_eq_true, Bool.not_eq_true', bne_iff_ne, ne_eq] at hx
    obtain ⟨⟨⟨h1, h2⟩, h3⟩, h4⟩ := hx
    have hsingle : Bal 0 [x] := by
      refine ⟨?_, by simp [pushCount, popCount]⟩
      simp [closed, opensSequence, h1, h4]
    have := Bal.append hsingle hr
    simpa using this

theorem plain_of_head (line : String) (c : Char)
    (h : line.toList.head? = some c) (hs : c ≠ 's') (ha : c ≠ 'a') (hl : c ≠ 'l') :
    plain line = true := by
  have e1 : line ≠ "sub $30, $30, $4" := by
    intro e; rw [e] at h
    have h2 : some 's' = some c := h
    exact hs (Option.some.inj h2).symm
  have e2 : line ≠ "add $30, $30, $4" := by
    intro e; rw [e] at h
    have h2 : some 'a' = some c := h
    exact ha (Option.some.inj h2).symm
  have hpre : ∀ (d : Char) (ds : List Char), c ≠ d →
      List.isPrefixOf (d :: ds) line.toList = false := by
    intro d ds hd
    cases hlist : line.toList with
    | nil => rfl
    | cons y ys =>
      rw [hlist] at h
      have hy : y = c := Option.some.inj h
      subst hy
      simp [List.isPrefixOf, Ne.symm hd]
  have h1 : "sw ".toList.isPrefixOf line.toList = false := hpre 's' _ hs
  have h2 : "lw ".toList.isPrefixOf line.toList = false := hpre 'l' _ hl
  have b1 : (line != "sub $30, $30, $4") = true := bne_iff_ne.2 e1
  have b2 : (line != "add $30, $30, $4") = true := bne_iff_ne.2 e2
  unfold plain isPushHead isPopTail
  rw [h1, h2, b1, b2]
  rfl

theorem post_pure {Q : List String × State → Prop} {a : List String × State} (h : Q a) :
    Post Q (pure a) := h

theorem post_bind {α : Type} {P : α → Prop} {Q : List String × State → Prop}
    {x : Except Err α} {f : α → Result}
    (hx : match x with | .ok a => P a | .error _ => True)
    (hf : ∀ a, P a → Post Q (f a)) : Post Q (x >>= f) := by
  cases x with
  | error e => exact True.intro
  | ok a => exact hf a hx

theorem post_bind_code {Q : List String × State → Prop} {P : List String × State → Prop}
    {x : Result} {f : List String × State → Result}
    (hx : Post P x) (hf : ∀ a, P a → Post Q (f a)) : Post Q (x >>= f) := by
  cases x with
  | error e => exact True.intro
  | ok a => exact hf a hx

theorem post_bind_any {α : Type} {Q : List String × State → Prop}
    {x : Except Err α} {f : α → Result} (hf : ∀ a, Post Q (f a)) : Post Q (x >>= f) := by
  cases x with
  | error e => exact True.intro
  | ok a => exact hf a

theorem post_child {Q : List String × State → Prop} {root : TreeNode} {i : Nat}
    {f : {c : TreeNode // sizeOf c < sizeOf root} → Result}
    (hf : ∀ c, c.1 ∈ root.children → Post Q (f c)) : Post Q (root.child i >>= f) := by
  unfold TreeNode.child
  split
  · rename_i c h
    exact hf _ (List.getElem?_mem h)
  · exact True.intro

mutual
theorem allNodes_of_mem_children (p : Production → Bool) :
    ∀ (root c : TreeNode), root.allNodes p = true → c ∈ root.children →
      c.allNodes p = true
  | .mk _ _ _ _ cs, c, h, hc => by
    simp only [TreeNode.allNodes, Bool.and_eq_true] at h
    exact allNodesList_of_mem p cs c h.2 hc
theorem allNodesList_of_mem (p : Production → Bool) :
    ∀ (cs : List TreeNode) (c : TreeNode), TreeNode.allNodesList p cs = true → c ∈ cs →
      c.allNodes p = true
  | [], c, _, hc => by simp at hc
  | d :: ds, c, h, hc => by
    simp only [TreeNode.allNodesList, Bool.and_eq_true] at h
    simp only [List.mem_cons] at hc
    rcases hc with hc | hc
    · subst hc; exact h.1
    · exact allNodesList_of_mem p ds c h.2 hc
end

mutual
theorem allNodes_of_mem_getChildSymbolNodes (p : Production → Bool) (sym : Symbol) :
    ∀ (root x : TreeNode), root.allNodes p = true → x ∈ root.getChildSymbolNodes sym →
      x.allNodes p = true
  | .mk _ _ _ _ cs, x, h, hx => by
    simp only [TreeNode.allNodes, Bool.and_eq_true] at h
    simp only [TreeNode.getChildSymbolNodes] at hx
    exact allNodesList_of_mem_getChildSymbolNodesList p sym cs x h.2 hx
theorem allNodesList_of_mem_getChildSymbolNodesList (p : Production → Bool) (sym : Symbol) :
    ∀ (cs : List TreeNode) (x : TreeNode), TreeNode.allNodesList p cs = true →
      x ∈ TreeNode.getChildSymbolNodesList sym cs → x.allNodes p = true
  | [], x, _, hx => by simp [TreeNode.getChildSymbolNodesList] at hx
  | d :: ds, x, h, hx => by
    simp only [TreeNode.allNodesList, Bool.and_eq_true] at h
    simp only [TreeNode.getChildSymbolNodesList, List.mem_append] at hx
    rcases hx with hx | hx
    · by_cases hd : d.symbol = sym
      · simp only [hd, if_true, List.mem_singleton] at hx
        subst hx; exact h.1
      · simp only [hd, if_false] at hx
        exact allNodes_of_mem_getChildSymbolNodes p sym d x h.1 hx
    · exact allNodesList_of_mem_getChildSymbolNodesList p sym ds x h.2 hx
end

theorem allNodes_production (p : Production → Bool) (root : TreeNode)
    (h : root.allNodes p = true) : p root.production = true := by
  cases root with
  | mk ty sym prod tok cs =>
    simp only [TreeNode.allNodes, Bool.and_eq_true] at h
    exact h.1

theorem head?_toList_append (pre x : String) (c : Char) (h : pre.toList.head? = some c) :
    (pre ++ x).toList.head? = some c := by
  show (pre ++ x).data.head? = some c
  rw [String.data_append]
  cases hp : pre.data with
  | nil =>
    have h2 : pre.data.head? = some c := h
    rw [hp] at h2; cases h2
  | cons y ys =>
    have h2 : pre.data.head? = some c := h
    rw [hp] at h2
    simpa using h2

theorem plain_append (pre x : String) (c : Char)
    (h : pre.toList.head? = some c) (hs : c ≠ 's') (ha : c ≠ 'a') (hl : c ≠ 'l') :
    plain (pre ++ x) = true :=
  plain_of_head (pre ++ x) c (head?_toList_append pre x c h) hs ha hl

theorem plain_append_append (pre x post : String) (c : Char)
    (h : pre.toList.head? = some c) (hs : c ≠ 's') (ha : c ≠ 'a') (hl : c ≠ 'l') :
    plain (pre ++ x ++ post) = true :=
  plain_of_head (pre ++ x ++ post) c
    (head?_toList_append (pre ++ x) post c (head?_toList_append pre x c h)) hs ha hl

theorem plain_cmp (type : WType) (args : String)
    (h1 : plain ("slt" ++ args) = true) (h2 : plain ("sltu" ++ args) = true) :
    plain (comparisonOp type ++ args) = true := by
  rcases comparisonOp_cases type with h | h
  · rw [h]; exact h1
  · rw [h]; exact h2

theorem plain_lw (off : String) : plain ("lw $3, " ++ off ++ "($29)") = true := by
  have hhead : ("lw $3, " ++ off ++ "($29)").toList.head? = some 'l' :=
    head?_toList_append _ _ 'l' (head?_toList_append _ _ 'l' (by decide))
  have e1 : "lw $3, " ++ off ++ "($29)" ≠ "sub $30, $30, $4" := by
    intro e; rw [e] at hhead; revert hhead; decide
  have e2 : "lw $3, " ++ off ++ "($29)" ≠ "add $30, $30, $4" := by
    intro e; rw [e] at hhead; revert hhead; decide
  have hsuf : ", -4($30)".toList.isSuffixOf ("lw $3, " ++ off ++ "($29)").toList = false := by
    have hr : "($29)".data.reverse = [')', '9', '2', '$', '('] := by decide
    have hp : ", -4($30)".data.reverse = [')', '0', '3', '$', '(', '4', '-', ' ', ','] := by
      decide
    show List.isSuffixOf ", -4($30)".data ("lw $3, " ++ off ++ "($29)").data = false
    simp only [List.isSuffixOf, String.data_append, List.reverse_append, hr, hp]
    simp [List.isPrefixOf]
  have hpre : "sw ".toList.isPrefixOf ("lw $3, " ++ off ++ "($29)").toList = false := by
    cases hlist : ("lw $3, " ++ off ++ "($29)").toList with
    | nil => rfl
    | cons y ys =>
      rw [hlist] at hhead
      have hy : y = 'l' := Option.some.inj hhead
      subst hy
      have hs : "sw ".toList = ['s', 'w', ' '] := by decide
      rw [hs]
      simp [List.isPrefixOf]
  have b1 : ("lw $3, " ++ off ++ "($29)" != "sub $30, $30, $4") = true := bne_iff_ne.2 e1
  have b2 : ("lw $3, " ++ off ++ "($29)" != "add $30, $30, $4") = true := bne_iff_ne.2 e2
  unfold plain isPushHead isPopTail
  rw [hpre, hsuf, b1, b2]
  simp only [Bool.and_false, Bool.false_and, Bool.not_false, Bool.and_true]

theorem bal_num (x : String) : Bal 0 ["lis $3", ".word " ++ x] :=
  bal_plain _ (by
    intro l hl
    simp only [List.mem_cons, List.mem_singleton, List.not_mem_nil, or_false] at hl
    rcases hl with h | h
    · rw [h]; decide
    · rw [h]; exact plain_append ".word " x '.' (by decide) (by decide) (by decide)
        (by decide))

theorem bal_lw (off : String) : Bal 0 ["lw $3, " ++ off ++ "($29)"] :=
  bal_plain _ (by
    intro l hl
    simp only [List.mem_singleton] at hl
    rw [hl]; exact plain_lw off)

theorem bal_lvalue (off : String) : Bal 0 ["lis $5", ".word " ++ off, "add $3, $29, $5"] :=
  bal_plain _ (by
    intro l hl
    simp only [List.mem_cons, List.mem_singleton, List.not_mem_nil, or_false] at hl
    rcases hl with h | h | h
    · rw [h]; decide
    · rw [h]; exact plain_append ".word " off '.' (by decide) (by decide) (by decide)
        (by decide)
    · rw [h]; decide)

theorem bal_call (label : String) : Bal 0 ["lis $5", ".word " ++ label, "jalr $5"] :=
  bal_plain _ (by
    intro l hl
    simp only [List.mem_cons, List.mem_singleton, List.not_mem_nil, or_false] at hl
    rcases hl with h | h | h
    · rw [h]; decide
    · rw [h]; exact plain_append ".word " label '.' (by decide) (by decide) (by decide)
        (by decide)
    · rw [h]; decide)

theorem bal_branch (pre label : String) (c : Char)
    (h : pre.toList.head? = some c) (hs : c ≠ 's') (ha : c ≠ 'a') (hl : c ≠ 'l') :
    Bal 0 [pre ++ label] :=
  bal_plain _ (by
    intro l hm
    simp only [List.mem_singleton] at hm
    rw [hm]; exact plain_append pre label c h hs ha hl)

theorem bal_label (pre x : String) (c : Char)
    (h : pre.toList.head? = some c) (hs : c ≠ 's') (ha : c ≠ 'a') (hl : c ≠ 'l') :
    Bal 0 [pre ++ x ++ ":"] :=
  bal_plain _ (by
    intro l hm
    simp only [List.mem_singleton] at hm
    rw [hm]; exact plain_append_append pre x ":" c h hs ha hl)

theorem bal_proc_label (x : String) : Bal 0 ["F" ++ x ++ ":", "sub $29, $30, $4"] :=
  bal_plain _ (by
    intro l hl
    simp only [List.mem_cons, List.mem_singleton, List.not_mem_nil, or_false] at hl
    rcases hl with h | h
    · rw [h]; exact plain_append_append "F" x ":" 'F' (by decide) (by decide) (by decide)
        (by decide)
    · rw [h]; decide)

theorem bal_delete_guard (label : String) :
    Bal 0 ["lis $5", ".word 69", "beq $3, $5, " ++ label] :=
  bal_plain _ (by
    intro l hl
    simp only [List.mem_cons, List.mem_singleton, List.not_mem_nil, or_false] at hl
    rcases hl with h | h | h
    · rw [h]; decide
    · rw [h]; decide
    · rw [h]; exact plain_append "beq $3, $5, " label 'b' (by decide) (by decide)
        (by decide) (by decide))

theorem bal_cmp1 (type : WType) (args : String)
    (h1 : plain ("slt" ++ args) = true) (h2 : plain ("sltu" ++ args) = true) :
    Bal 0 [comparisonOp type ++ args] :=
  bal_plain _ (by
    intro l hl
    simp only [List.mem_singleton] at hl
    rw [hl]; exact plain_cmp type args h1 h2)

theorem bal_cmp_ne (type : WType) :
    Bal 0 [comparisonOp type ++ " $6, $3, $5", comparisonOp type ++ " $7, $5, $3",
      "add $3, $6, $7"] :=
  bal_plain _ (by
    intro l hl
    simp only [List.mem_cons, List.mem_singleton, List.not_mem_nil, or_false] at hl
    rcases hl with h | h | h
    · rw [h]; exact plain_cmp type _ (by decide) (by decide)
    · rw [h]; exact plain_cmp type _ (by decide) (by decide)
    · rw [h]; decide)

theorem bal_cmp_eq (type : WType) :
    Bal 0 [comparisonOp type ++ " $6, $3, $5", comparisonOp type ++ " $7, $5, $3",
      "add $3, $6, $7", "sub $3, $11, $3"] :=
  bal_plain _ (by
    intro l hl
    simp only [List.mem_cons, List.mem_singleton, List.not_mem_nil, or_false] at hl
    rcases hl with h | h | h | h
    · rw [h]; exact plain_cmp type _ (by decide) (by decide)
    · rw [h]; exact plain_cmp type _ (by decide) (by decide)
    · rw [h]; decide
    · rw [h]; decide)

theorem bal_replicate_pop (n : Nat) :
    Bal (-(n : Int)) (List.replicate n (pop "$5")).flatten := by
  induction n with
  | zero => exact Bal.nil
  | succ k ih =>
    have h := Bal.append (bal_pop "$5" (by decide)) ih
    rw [List.replicate_succ, List.flatten_cons]
    exact h.of_eq (by push_cast; ring)

theorem post_argsCode (args : List TreeNode)
    (h : ∀ e ∈ args, ∀ st, Post (fun r => Bal 0 r.1) (code e st)) (st : State) :
    Post (fun r => Bal (args.length : Int) r.1) (argsCode args st) := by
  induction args generalizing st with
  | nil => exact Bal.nil
  | cons e es ih =>
    rw [argsCode]
    refine post_bind_code (h e (by simp) st) (fun r1 b1 => ?_)
    refine post_bind_code (ih (fun x hx => h x (by simp [hx])) r1.2) (fun r2 b2 => ?_)
    refine post_pure ?_
    exact ((b1.append (bal_push "$3" (by decide))).append b2).of_eq
      (by simp only [List.length_cons]; push_cast; ring)

theorem post_ite {Q : List String × State → Prop} {c : Prop} [Decidable c] {a b : Result}
    (ha : c → Post Q a) (hb : ¬c → Post Q b) : Post Q (if c then a else b) := by
  by_cases h : c
  · rw [if_pos h]; exact ha h
  · rw [if_neg h]; exact hb h

theorem post_pure_bal {out : List String} {st : State} (h : Bal 0 out) :
    Post (fun r => Bal 0 r.1) (pure (out, st)) := h

theorem post_foldlM_args (args : List TreeNode)
    (h : ∀ e ∈ args, ∀ st, Post (fun r => Bal 0 r.1) (code e st))
    {k : Int} {acc : List String} (hacc : Bal k acc) (st : State) :
    Post (fun r => Bal (k + (args.length : Int)) r.1)
      (args.attach.foldlM (fun (acc : List String × State) expr => do
        let r1 ← code expr.1 acc.2
        pure (acc.1 ++ r1.1 ++ push "$3", r1.2)) (acc, st)) := by
  rw [foldlM_attach_eq args (fun (acc : List String × State) e => do
        let r1 ← code e acc.2
        pure (acc.1 ++ r1.1 ++ push "$3", r1.2)), foldlM_args_eq]
  refine post_bind_code (post_argsCode args h st) (fun r br => ?_)
  exact hacc.append br

set_option maxHeartbeats 4000000 in
/-- Emission from a subtree without stack-allocating nodes is balanced (induction on the
size of the tree, one case per production of `codeN`). -/
theorem balanced_aux (n : Nat) : ∀ (root : TreeNode), sizeOf root < n →
    root.allocationFree = true → ∀ st, Post (fun r => Bal 0 r.1) (code root st) := by
  induction n with
  | zero => intro root h; omega
  | succ n ih =>
    intro root hsz hfree st
    have IH : ∀ (c : {c : TreeNode // sizeOf c < sizeOf root}), c.1 ∈ root.children →
        ∀ st, Post (fun r => Bal 0 r.1) (code c.1 st) := fun c hc st =>
      ih c.1 (by have := c.2; omega) (allNodes_of_mem_children _ root c.1 hfree hc) st
    rw [code]
    by_cases hN : root.N = true
    · rw [if_pos hN, codeN]
      have hne : root.production ≠ "" := by
        intro h; simp [TreeNode.N, h] at hN
      rw [getProduction_eq_ok hne, ok_bind]
      by_cases hp : root.production = "start BOF procedures EOF"
      · rw [if_pos hp]
        refine post_child (fun c0 hc0 => ?_)
        exact IH c0 hc0 _
      rw [if_neg hp]
      clear hp
      by_cases hp : root.production = "procedures main"
      · rw [if_pos hp]
        refine post_child (fun c0 hc0 => ?_)
        exact IH c0 hc0 _
      rw [if_neg hp]
      clear hp
      by_cases hp : root.production = "main INT WAIN LPAREN dcl COMMA dcl RPAREN LBRACE dcls statements RETURN expr SEMI RBRACE"
      · rw [if_pos hp]
        exfalso
        have h := allNodes_production _ root hfree
        rw [hp] at h
        revert h; decide
      rw [if_neg hp]
      clear hp
      by_cases hp : root.production = "type INT"
      · rw [if_pos hp]
        exact post_pure_bal Bal.nil
      rw [if_neg hp]
      clear hp
      by_cases hp : root.production = "dcl type ID"
      · rw [if_pos hp]
        refine post_child (fun c0 hc0 => ?_)
        refine post_bind_any (fun tok => ?_)
        refine post_bind_any (fun tables => ?_)
        exact post_pure_bal Bal.nil
      rw [if_neg hp]
      clear hp
      by_cases hp : root.production = "dcls .EMPTY"
      · rw [if_pos hp]
        exact post_pure_bal Bal.nil
      rw [if_neg hp]
      clear hp
      by_cases hp : root.production = "statements .EMPTY"
      · rw [if_pos hp]
        exact post_pure_bal Bal.nil
      rw [if_neg hp]
      clear hp
      by_cases hp : root.production = "expr term"
      · rw [if_pos hp]
        refine post_child (fun c0 hc0 => ?_)
        exact IH c0 hc0 _
      rw [if_neg hp]
      clear hp
      by_cases hp : root.production = "term factor"
      · rw [if_pos hp]
        refine post_child (fun c0 hc0 => ?_)
        exact IH c0 hc0 _
      rw [if_neg hp]
      clear hp
      by_cases hp : root.production = "factor NUM"
      · rw [if_pos hp]
        refine post_child (fun c0 hc0 => ?_)
        exact IH c0 hc0 _
      rw [if_neg hp]
      clear hp
      by_cases hp : root.production = "factor ID"
      · rw [if_pos hp]
        refine post_child (fun c0 hc0 => ?_)
        exact IH c0 hc0 _
      rw [if_neg hp]
      clear hp
      by_cases hp : root.production = "factor LPAREN expr RPAREN"
      · rw [if_pos hp]
        refine post_child (fun c0 hc0 => ?_)
        exact IH c0 hc0 _
      rw [if_neg hp]
      clear hp
      by_cases hp : root.production = "dcls dcls dcl BECOMES NUM SEMI"
      · rw [if_pos hp]
        exfalso
        have h := allNodes_production _ root hfree
        rw [hp] at h
        revert h; decide
      rw [if_neg hp]
      clear hp
      by_cases hp : root.production = "statements statements statement"
      · rw [if_pos hp]
        refine post_child (fun c0 hc0 => ?_)
        refine post_child (fun c1 hc1 => ?_)
        refine post_bind_code (IH c0 hc0 _) (fun r1 br1 => ?_)
        refine post_bind_code (IH c1 hc1 _) (fun r2 br2 => ?_)
        exact post_pure_bal ((br1.append br2).of_eq (by decide))
      rw [if_neg hp]
      clear hp
      by_cases hp : root.production = "statement lvalue BECOMES expr SEMI"
      · rw [if_pos hp]
        refine post_child (fun c0 hc0 => ?_)
        refine post_child (fun c1 hc1 => ?_)
        refine post_bind_code (IH c0 hc0 _) (fun r1 br1 => ?_)
        refine post_bind_code (IH c1 hc1 _) (fun r2 br2 => ?_)
        exact post_pure_bal (((((br1.append (bal_push "$3" (by decide))).append br2).append (bal_pop "$5" (by decide))).append (show Bal 0 ["sw $3, 0($5)"] from by decide)).of_eq (by decide))
      rw [if_neg hp]
      clear hp
      by_cases hp : root.production = "lvalue ID"
      · rw [if_pos hp]
        refine post_child (fun c0 hc0 => ?_)
        refine post_bind_any (fun tok => ?_)
        refine post_bind_any (fun off => ?_)
        exact post_pure_bal ((bal_lvalue _).of_eq (by decide))
      rw [if_neg hp]
      clear hp
      by_cases hp : root.production = "lvalue LPAREN lvalue RPAREN"
      · rw [if_pos hp]
        refine post_child (fun c0 hc0 => ?_)
        exact IH c0 hc0 _
      rw [if_neg hp]
      clear hp
      by_cases hp : root.production = "expr expr PLUS term"
      · rw [if_pos hp]
        refine post_child (fun c0 hc0 => ?_)
        refine post_child (fun c1 hc1 => ?_)
        refine post_ite (fun _ => ?_) (fun _ => ?_)
        · refine post_bind_code (IH c0 hc0 _) (fun r1 br1 => ?_)
          refine post_bind_code (IH c1 hc1 _) (fun r2 br2 => ?_)
          exact post_pure_bal (((((br1.append (bal_push "$3" (by decide))).append br2).append (bal_pop "$5" (by decide))).append (show Bal 0 ["add $3, $5, $3"] from by decide)).of_eq (by decide))
        · refine post_ite (fun _ => ?_) (fun _ => ?_)
          · refine post_bind_code (IH c0 hc0 _) (fun r1 br1 => ?_)
            refine post_bind_code (IH c1 hc1 _) (fun r2 br2 => ?_)
            exact post_pure_bal ((((((br1.append (bal_push "$3" (by decide))).append br2).append (show Bal 0 ["mult $3, $4", "mflo $3"] from by decide)).append (bal_pop "$5" (by decide))).append (show Bal 0 ["add $3, $5, $3"] from by decide)).of_eq (by decide))
          · refine post_ite (fun _ => ?_) (fun _ => ?_)
            · refine post_bind_code (IH c0 hc0 _) (fun r1 br1 => ?_)
              refine post_bind_code (IH c1 hc1 _) (fun r2 br2 => ?_)
              exact post_pure_bal ((((((br1.append (show Bal 0 ["mult $3, $4", "mflo $3"] from by decide)).append (bal_push "$3" (by decide))).append br2).append (bal_pop "$5" (by decide))).append (show Bal 0 ["add $3, $5, $3"] from by decide)).of_eq (by decide))
            · exact post_pure_bal Bal.nil
      rw [if_neg hp]
      clear hp
      by_cases hp : root.production = "expr expr MINUS term"
      · rw [if_pos hp]
        refine post_child (fun c0 hc0 => ?_)
        refine post_child (fun c1 hc1 => ?_)
        refine post_ite (fun _ => ?_) (fun _ => ?_)
        · refine post_bind_code (IH c0 hc0 _) (fun r1 br1 => ?_)
          refine post_bind_code (IH c1 hc1 _) (fun r2 br2 => ?_)
          exact post_pure_bal (((((br1.append (bal_push "$3" (by decide))).append br2).append (bal_pop "$5" (by decide))).append (show Bal 0 ["sub $3, $5, $3"] from by decide)).of_eq (by decide))
        · refine post_ite (fun _ => ?_) (fun _ => ?_)
          · refine post_bind_code (IH c0 hc0 _) (fun r1 br1 => ?_)
            refine post_bind_code (IH c1 hc1 _) (fun r2 br2 => ?_)
            exact post_pure_bal ((((((br1.append (bal_push "$3" (by decide))).append br2).append (show Bal 0 ["mult $3, $4", "mflo $3"] from by decide)).append (bal_pop "$5" (by decide))).append (show Bal 0 ["sub $3, $5, $3"] from by decide)).of_eq (by decide))
          · refine post_ite (fun _ => ?_) (fun _ => ?_)
            · refine post_bind_code (IH c0 hc0 _) (fun r1 br1 => ?_)
              refine post_bind_code (IH c1 hc1 _) (fun r2 br2 => ?_)
              exact post_pure_bal (((((br1.append (bal_push "$3" (by decide))).append br2).append (bal_pop "$5" (by decide))).append (show Bal 0 ["sub $3, $5, $3", "div $3, $4", "mflo $3"] from by decide)).of_eq (by decide))
            · exact post_pure_bal Bal.nil
      rw [if_neg hp]
      clear hp
      by_cases hp : root.production = "term term STAR factor"
      · rw [if_pos hp]
        refine post_child (fun c0 hc0 => ?_)
        refine post_child (fun c1 hc1 => ?_)
        refine post_bind_code (IH c0 hc0 _) (fun r1 br1 => ?_)
        refine post_bind_code (IH c1 hc1 _) (fun r2 br2 => ?_)
        exact post_pure_bal (((((br1.append (bal_push "$3" (by decide))).append br2).append (bal_pop "$5" (by decide))).append (show Bal 0 ["mult $5, $3", "mflo $3"] from by decide)).of_eq (by decide))
      rw [if_neg hp]
      clear hp
      by_cases hp : root.production = "term term SLASH factor"
      · rw [if_pos hp]
        refine post_child (fun c0 hc0 => ?_)
        refine post_child (fun c1 hc1 => ?_)
        refine post_bind_code (IH c0 hc0 _) (fun r1 br1 => ?_)
        refine post_bind_code (IH c1 hc1 _) (fun r2 br2 => ?_)
        exact post_pure_bal (((((br1.append (bal_push "$3" (by decide))).append br2).append (bal_pop "$5" (by decide))).append (show Bal 0 ["div $5, $3", "mflo $3"] from by decide)).of_eq (by decide))
      rw [if_neg hp]
      clear hp
      by_cases hp : root.production = "term term PCT factor"
      · rw [if_pos hp]
        refine post_child (fun c0 hc0 => ?_)
        refine post_child (fun c1 hc1 => ?_)
        refine post_bind_code (IH c0 hc0 _) (fun r1 br1 => ?_)
        refine post_bind_code (IH c1 hc1 _) (fun r2 br2 => ?_)
        exact post_pure_bal (((((br1.append (bal_push "$3" (by decide))).append br2).append (bal_pop "$5" (by decide))).append (show Bal 0 ["div $5, $3", "mfhi $3"] from by decide)).of_eq (by decide))
      rw [if_neg hp]
      clear hp
      by_cases hp : root.production = "statement IF LPAREN test RPAREN LBRACE statements RBRACE ELSE LBRACE statements RBRACE"
      · rw [if_pos hp]
        refine post_child (fun c0 hc0 => ?_)
        refine post_child (fun c1 hc1 => ?_)
        refine post_child (fun c2 hc2 => ?_)
        refine post_bind_code (IH c0 hc0 _) (fun r1 br1 => ?_)
        refine post_bind_code (IH c1 hc1 _) (fun r2 br2 => ?_)
        refine post_bind_code (IH c2 hc2 _) (fun r3 br3 => ?_)
        exact post_pure_bal (((((((br1.append (bal_branch "beq $3, $0, " _ 'b' (by decide) (by decide) (by decide) (by decide))).append br2).append (bal_branch "beq $0, $0, " _ 'b' (by decide) (by decide) (by decide) (by decide))).append (bal_label "Felse" _ 'F' (by decide) (by decide) (by decide) (by decide))).append br3).append (bal_label "Fendif" _ 'F' (by decide) (by decide) (by decide) (by decide))).of_eq (by decide))
      rw [if_neg hp]
      clear hp
      by_cases hp : root.production = "statement WHILE LPAREN test RPAREN LBRACE statements RBRACE"
      · rw [if_pos hp]
        refine post_child (fun c0 hc0 => ?_)
        refine post_child (fun c1 hc1 => ?_)
        refine post_bind_code (IH c0 hc0 _) (fun r1 br1 => ?_)
        refine post_bind_code (IH c1 hc1 _) (fun r2 br2 => ?_)
        exact post_pure_bal (((((((bal_label "Floop" _ 'F' (by decide) (by decide) (by decide) (by decide)).append br1).append (bal_branch "beq $3, $0, " _ 'b' (by decide) (by decide) (by decide) (by decide))).append br2).append (bal_branch "beq $0, $0, " _ 'b' (by decide) (by decide) (by decide) (by decide))).append (bal_label "Fendwhile" _ 'F' (by decide) (by decide) (by decide) (by decide))).of_eq (by decide))
      rw [if_neg hp]
      clear hp
      by_cases hp : root.production = "test expr EQ expr"
      · rw [if_pos hp]
        refine post_child (fun c0 hc0 => ?_)
        refine post_child (fun c1 hc1 => ?_)
        refine post_bind_code (IH c0 hc0 _) (fun r1 br1 => ?_)
        refine post_bind_code (IH c1 hc1 _) (fun r2 br2 => ?_)
        exact post_pure_bal (((((br1.append (bal_push "$3" (by decide))).append br2).append (bal_pop "$5" (by decide))).append (bal_cmp_eq _)).of_eq (by decide))
      rw [if_neg hp]
      clear hp
      by_cases hp : root.production = "test expr NE expr"
      · rw [if_pos hp]
        refine post_child (fun c0 hc0 => ?_)
        refine post_child (fun c1 hc1 => ?_)
        refine post_bind_code (IH c0 hc0 _) (fun r1 br1 => ?_)
        refine post_bind_code (IH c1 hc1 _) (fun r2 br2 => ?_)
        exact post_pure_bal (((((br1.append (bal_push "$3" (by decide))).append br2).append (bal_pop "$5" (by decide))).append (bal_cmp_ne _)).of_eq (by decide))
      rw [if_neg hp]
      clear hp
      by_cases hp : root.production = "test expr LT expr"
      · rw [if_pos hp]
        refine post_child (fun c0 hc0 => ?_)
        refine post_child (fun c1 hc1 => ?_)
        refine post_bind_code (IH c0 hc0 _) (fun r1 br1 => ?_)
        refine post_bind_code (IH c1 hc1 _) (fun r2 br2 => ?_)
        exact post_pure_bal (((((br1.append (bal_push "$3" (by decide))).append br2).append (bal_pop "$5" (by decide))).append (bal_cmp1 _ " $3, $5, $3" (by decide) (by decide))).of_eq (by decide))
      rw [if_neg hp]
      clear hp
      by_cases hp : root.production = "test expr LE expr"
      · rw [if_pos hp]
        refine post_child (fun c0 hc0 => ?_)
        refine post_child (fun c1 hc1 => ?_)
        refine post_bind_code (IH c0 hc0 _) (fun r1 br1 => ?_)
        refine post_bind_code (IH c1 hc1 _) (fun r2 br2 => ?_)
        refine post_bind_code (IH c0 hc0 _) (fun r3 br3 => ?_)
        refine post_bind_code (IH c1 hc1 _) (fun r4 br4 => ?_)
        exact post_pure_bal (((((((((((((br1.append (bal_push "$3" (by decide))).append br2).append (bal_pop "$5" (by decide))).append (bal_cmp1 _ " $3, $5, $3" (by decide) (by decide))).append (bal_push "$3" (by decide))).append br3).append (bal_push "$3" (by decide))).append br4).append (bal_pop "$5" (by decide))).append (bal_cmp_eq _)).append (bal_pop "$5" (by decide))).append (show Bal 0 ["add $3, $5, $3"] from by decide)).of_eq (by decide))
      rw [if_neg hp]
      clear hp
      by_cases hp : root.production = "test expr GE expr"
      · rw [if_pos hp]
        refine post_child (fun c0 hc0 => ?_)
        refine post_child (fun c1 hc1 => ?_)
        refine post_bind_code (IH c0 hc0 _) (fun r1 br1 => ?_)
        refine post_bind_code (IH c1 hc1 _) (fun r2 br2 => ?_)
        refine post_bind_code (IH c0 hc0 _) (fun r3 br3 => ?_)
        refine post_bind_code (IH c1 hc1 _) (fun r4 br4 => ?_)
        exact post_pure_bal (((((((((((((br1.append (bal_push "$3" (by decide))).append br2).append (bal_pop "$5" (by decide))).append (bal_cmp1 _ " $3, $3, $5" (by decide) (by decide))).append (bal_push "$3" (by decide))).append br3).append (bal_push "$3" (by decide))).append br4).append (bal_pop "$5" (by decide))).append (bal_cmp_eq _)).append (bal_pop "$5" (by decide))).append (show Bal 0 ["add $3, $5, $3"] from by decide)).of_eq (by decide))
      rw [if_neg hp]
      clear hp
      by_cases hp : root.production = "test expr GT expr"
      · rw [if_pos hp]
        refine post_child (fun c0 hc0 => ?_)
        refine post_child (fun c1 hc1 => ?_)
        refine post_bind_code (IH c0 hc0 _) (fun r1 br1 => ?_)
        refine post_bind_code (IH c1 hc1 _) (fun r2 br2 => ?_)
        exact post_pure_bal (((((br1.append (bal_push "$3" (by decide))).append br2).append (bal_pop "$5" (by decide))).append (bal_cmp1 _ " $3, $3, $5" (by decide) (by decide))).of_eq (by decide))
      rw [if_neg hp]
      clear hp
      by_cases hp : root.production = "statement PRINTLN LPAREN expr RPAREN SEMI"
      · rw [if_pos hp]
        refine post_child (fun c0 hc0 => ?_)
        refine post_bind_code (IH c0 hc0 _) (fun r1 br1 => ?_)
        exact post_pure_bal ((((((((br1.append (bal_push "$3" (by decide))).append (bal_pop "$1" (by decide))).append (bal_push "$31" (by decide))).append (bal_push "$29" (by decide))).append (show Bal 0 ["jalr $10"] from by decide)).append (bal_pop "$29" (by decide))).append (bal_pop "$31" (by decide))).of_eq (by decide))
      rw [if_neg hp]
      clear hp
      by_cases hp : root.production = "procedures procedure procedures"
      · rw [if_pos hp]
        refine post_child (fun c0 hc0 => ?_)
        refine post_child (fun c1 hc1 => ?_)
        refine post_bind_code (IH c0 hc0 _) (fun r1 br1 => ?_)
        refine post_bind_code (IH c1 hc1 _) (fun r2 br2 => ?_)
        exact post_pure_bal ((br1.append br2).of_eq (by decide))
      rw [if_neg hp]
      clear hp
      by_cases hp : root.production = "procedure INT ID LPAREN params RPAREN LBRACE dcls statements RETURN expr SEMI RBRACE"
      · rw [if_pos hp]
        refine post_child (fun c0 hc0 => ?_)
        refine post_child (fun c1 hc1 => ?_)
        refine post_child (fun c2 hc2 => ?_)
        refine post_child (fun c3 hc3 => ?_)
        refine post_child (fun c4 hc4 => ?_)
        refine post_bind_any (fun tok => ?_)
        refine post_bind_code (IH c0 hc0 _) (fun r1 br1 => ?_)
        refine post_bind_code (IH c1 hc1 _) (fun r2 br2 => ?_)
        refine post_bind_code (IH c2 hc2 _) (fun r3 br3 => ?_)
        refine post_bind_code (IH c3 hc3 _) (fun r4 br4 => ?_)
        refine post_bind_any (fun tables => ?_)
        exact post_pure_bal (((((((((bal_proc_label _).append br1).append br2).append (((((bal_push "$1" (by decide)).append (bal_push "$2" (by decide))).append (bal_push "$5" (by decide))).append (bal_push "$6" (by decide))).append (bal_push "$7" (by decide)))).append br3).append br4).append (((((bal_pop "$1" (by decide)).append (bal_pop "$2" (by decide))).append (bal_pop "$5" (by decide))).append (bal_pop "$6" (by decide))).append (bal_pop "$7" (by decide)))).append (show Bal 0 ["jr $31"] from by decide)).of_eq (by decide))
      rw [if_neg hp]
      clear hp
      by_cases hp : root.production = "params .EMPTY"
      · rw [if_pos hp]
        exact post_pure_bal Bal.nil
      rw [if_neg hp]
      clear hp
      by_cases hp : root.production = "params paramlist"
      · rw [if_pos hp]
        refine post_child (fun c0 hc0 => ?_)
        refine post_bind_code (IH c0 hc0 _) (fun r1 br1 => ?_)
        refine post_bind_any (fun tables => ?_)
        exact post_pure_bal (br1.of_eq (by decide))
      rw [if_neg hp]
      clear hp
      by_cases hp : root.production = "paramlist dcl"
      · rw [if_pos hp]
        refine post_child (fun c0 hc0 => ?_)
        refine post_child (fun c1 hc1 => ?_)
        refine post_bind_any (fun tok => ?_)
        refine post_bind_any (fun tables => ?_)
        exact post_pure_bal Bal.nil
      rw [if_neg hp]
      clear hp
      by_cases hp : root.production = "paramlist dcl COMMA paramlist"
      · rw [if_pos hp]
        refine post_child (fun c0 hc0 => ?_)
        refine post_child (fun c1 hc1 => ?_)
        refine post_child (fun c2 hc2 => ?_)
        refine post_bind_any (fun tok => ?_)
        refine post_bind_any (fun tables => ?_)
        exact IH c1 hc1 _
      rw [if_neg hp]
      clear hp
      by_cases hp : root.production = "factor ID LPAREN RPAREN"
      · rw [if_pos hp]
        refine post_child (fun c0 hc0 => ?_)
        refine post_bind_any (fun tok => ?_)
        exact post_pure_bal ((((((bal_push "$29" (by decide)).append (bal_push "$31" (by decide))).append (bal_call _)).append (bal_pop "$31" (by decide))).append (bal_pop "$29" (by decide))).of_eq (by decide))
      rw [if_neg hp]
      clear hp
      by_cases hp : root.production = "factor ID LPAREN arglist RPAREN"
      · rw [if_pos hp]
        refine post_child (fun c0 hc0 => ?_)
        refine post_child (fun c1 hc1 => ?_)
        refine post_bind_any (fun tok => ?_)
        refine post_bind_code (post_foldlM_args _ (fun e he st1 => ih e
          (by have h1 := TreeNode.sizeOf_lt_of_mem_getChildSymbolNodes "expr" _ _ he
              have h2 := c0.2
              omega)
          (allNodes_of_mem_getChildSymbolNodes _ "expr" _ e
            (allNodes_of_mem_children _ root c0.1 hfree hc0) he) st1)
          ((bal_push "$29" (by decide)).append (bal_push "$31" (by decide))) st)
          (fun r br => ?_)
        exact post_pure_bal (((((br.append (bal_call _)).append (bal_replicate_pop _)).append
          (bal_pop "$31" (by decide))).append (bal_pop "$29" (by decide))).of_eq
          (by omega))
      rw [if_neg hp]
      clear hp
      by_cases hp : root.production = "arglist expr"
      · rw [if_pos hp]
        exact post_pure_bal Bal.nil
      rw [if_neg hp]
      clear hp
      by_cases hp : root.production = "arglist expr COMMA arglist"
      · rw [if_pos hp]
        exact post_pure_bal Bal.nil
      rw [if_neg hp]
      clear hp
      by_cases hp : root.production = "type INT STAR"
      · rw [if_pos hp]
        exact post_pure_bal Bal.nil
      rw [if_neg hp]
      clear hp
      by_cases hp : root.production = "dcls dcls dcl BECOMES NULL SEMI"
      · rw [if_pos hp]
        exfalso
        have h := allNodes_production _ root hfree
        rw [hp] at h
        revert h; decide
      rw [if_neg hp]
      clear hp
      by_cases hp : root.production = "factor NULL"
      · rw [if_pos hp]
        refine post_child (fun c0 hc0 => ?_)
        exact IH c0 hc0 _
      rw [if_neg hp]
      clear hp
      by_cases hp : root.production = "factor AMP lvalue"
      · rw [if_pos hp]
        refine post_child (fun c0 hc0 => ?_)
        exact IH c0 hc0 _
      rw [if_neg hp]
      clear hp
      by_cases hp : root.production = "factor STAR factor"
      · rw [if_pos hp]
        refine post_child (fun c0 hc0 => ?_)
        refine post_bind_code (IH c0 hc0 _) (fun r1 br1 => ?_)
        exact post_pure_bal ((br1.append (show Bal 0 ["lw $3, 0($3)"] from by decide)).of_eq (by decide))
      rw [if_neg hp]
      clear hp
      by_cases hp : root.production = "lvalue STAR factor"
      · rw [if_pos hp]
        refine post_child (fun c0 hc0 => ?_)
        refine post_bind_code (IH c0 hc0 _) (fun r1 br1 => ?_)
        exact post_pure_bal (br1.of_eq (by decide))
      rw [if_neg hp]
      clear hp
      by_cases hp : root.production = "factor NEW INT LBRACK expr RBRACK"
      · rw [if_pos hp]
        refine post_child (fun c0 hc0 => ?_)
        refine post_bind_code (IH c0 hc0 _) (fun r1 br1 => ?_)
        exact post_pure_bal (((((((((br1.append (bal_push "$3" (by decide))).append (bal_pop "$1" (by decide))).append (bal_push "$31" (by decide))).append (bal_push "$29" (by decide))).append (show Bal 0 ["lis $5", ".word new", "jalr $5"] from by decide)).append (bal_pop "$29" (by decide))).append (bal_pop "$31" (by decide))).append (show Bal 0 ["bne $3, $0, 2", "lis $3", ".word 69"] from by decide)).of_eq (by decide))
      rw [if_neg hp]
      clear hp
      by_cases hp : root.production = "statement DELETE LBRACK RBRACK expr SEMI"
      · rw [if_pos hp]
        refine post_child (fun c0 hc0 => ?_)
        refine post_bind_code (IH c0 hc0 _) (fun r1 br1 => ?_)
        exact post_pure_bal ((((((((((br1.append (bal_delete_guard _)).append (bal_push "$3" (by decide))).append (bal_pop "$1" (by decide))).append (bal_push "$31" (by decide))).append (bal_push "$29" (by decide))).append (show Bal 0 ["lis $5", ".word delete", "jalr $5"] from by decide)).append (bal_pop "$29" (by decide))).append (bal_pop "$31" (by decide))).append (bal_label "FskipDelete" _ 'F' (by decide) (by decide) (by decide) (by decide))).of_eq (by decide))
      rw [if_neg hp]
      clear hp
      exact Bal.nil
    · rw [if_neg hN, codeT]
      refine post_bind_any (fun tok => ?_)
      refine post_ite (fun _ => ?_) (fun _ => ?_)
      · exact post_pure_bal ((bal_num _).of_eq (by decide))
      · refine post_ite (fun _ => ?_) (fun _ => ?_)
        · exact post_pure_bal ((show Bal 0 ["lis $3", ".word 69"] from by decide).of_eq (by decide))
        · refine post_ite (fun _ => ?_) (fun _ => ?_)
          · refine post_bind_any (fun off => ?_)
            exact post_pure_bal ((bal_lw _).of_eq (by decide))
          · exact post_pure_bal Bal.nil

/-- C4 (amended). For every node whose subtree contains no initialised declaration and no
`main` node, whenever emission succeeds the output contains as many push sequences
(`sw r, -4($30)` then `sub $30, $30, $4`) as pop sequences (`add $30, $30, $4` then
`lw r, -4($30)`). -/
theorem balanced_without_allocation (root : TreeNode) (st st1 : State) (out : List String)
    (hfree : root.allocationFree = true) (h : code root st = .ok (out, st1)) :
    pushCount out = popCount out := by
  have hb := balanced_aux (sizeOf root + 1) root (Nat.lt_succ_self _) hfree st
  rw [h] at hb
  have h2 : (pushCount out : Int) - (popCount out : Int) = 0 := hb.2
  omega

theorem balanced_without_allocation_witness :
    pushCount ["lw $3, 0($29)", "sw $3, -4($30)", "sub $30, $30, $4",
      "lw $3, -4($29)", "add $30, $30, $4", "lw $5, -4($30)", "slt $3, $5, $3",
      "beq $3, $0, Felse0", "beq $0, $0, Fendif1", "Felse0:", "Fendif1:"]
    = popCount ["lw $3, 0($29)", "sw $3, -4($30)", "sub $30, $30, $4",
      "lw $3, -4($29)", "add $30, $30, $4", "lw $5, -4($30)", "slt $3, $5, $3",
      "beq $3, $0, Felse0", "beq $0, $0, Fendif1", "Felse0:", "Fendif1:"] :=
  balanced_without_allocation ifTree (stateAB 0) (stateAB 2) _ (by decide) code_ifTree

/-- C4 (counterexample). The interior node of the declaration `int x = 5;`, emitted inside a
fresh scope, outputs one push sequence and no pop sequence. -/
theorem initialised_dcl_unbalanced :
    dclsInitTree.N = true ∧
    code dclsInitTree stateFresh
      = .ok (["lis $3", ".word 5", "sw $3, -4($30)", "sub $30, $30, $4"],
          { g_tables := { s := [{ varTable := [("x", ("int", 0))], localCtr := -4,
                                   paramCtr := 4 }] }, labelCtr := 0 }) ∧
    pushCount ["lis $3", ".word 5", "sw $3, -4($30)", "sub $30, $30, $4"] = 1 ∧
    popCount ["lis $3", ".word 5", "sw $3, -4($30)", "sub $30, $30, $4"] = 0 := by
  refine ⟨by decide, ?_, by decide, by decide⟩
  have hd : code emptyDcls stateFresh = .ok ([], stateFresh) := by
    simp only [emptyDcls, node, code_mk_dcls_EMPTY]
  have hx : code (dclInt "x") stateFresh
      = .ok ([], { g_tables := { s := [{ varTable := [("x", ("int", 0))], localCtr := -4,
                                          paramCtr := 4 }] }, labelCtr := 0 }) := by
    simp only [dclInt, node, leaf, code_mk_dcl, getToken_eq_ok, TreeNode.production, ok_bind]
    rfl
  rw [dclsInitTree, node, code_mk_dcls_NUM, hd, ok_bind, hx, ok_bind, leaf, code_mk_NUM,
    ok_bind]
  rfl

/-! ## C5: scope balance -/

/-- C5 (code at a failing input). For `int wain(int a, int b) { return a; }` emission from
an empty symbol-table stack (depth 0) succeeds and leaves the stack at depth 1: the scope
pushed for `wain` is not popped. -/
theorem main_scope_not_popped :
    code minimalProgram {} = .ok (["Fwain:", "sub $29, $30, $4",
      "sw $29, -4($30)", "sub $30, $30, $4", "sw $31, -4($30)", "sub $30, $30, $4",
      "sw $2, -4($30)", "sub $30, $30, $4", "lis $2", ".word 0",
      "lis $5", ".word init", "jalr $5",
      "add $30, $30, $4", "lw $2, -4($30)", "add $30, $30, $4", "lw $31, -4($30)",
      "add $30, $30, $4", "lw $29, -4($30)",
      "sw $1, -4($30)", "sub $30, $30, $4", "sw $2, -4($30)", "sub $30, $30, $4",
      "lw $3, 0($29)", "jr $31"], stateAB 0) ∧
    ({} : State).g_tables.s.length = 0 ∧ (stateAB 0).g_tables.s.length = 1 := by
  have hs : code emptyStatements (stateAB 0) = .ok ([], stateAB 0) := by
    simp only [emptyStatements, node, code_mk_statements_EMPTY]
  refine ⟨?_, rfl, rfl⟩
  simp only [minimalProgram, node, leaf, code_mk_start, code_mk_procedures_main]
  exact code_mainTree emptyStatements [] 0 hs

/-! ## C6: label uniqueness -/

/-- C6 (code at a failing input). For the program
`int else0() { return 0; } int wain(int a, int b) { if (a < b) {} else {} return a; }`,
whose procedure names are pairwise distinct, the label `Felse0` is defined twice in the
emitted output: once for the procedure `else0` and once for the first `if`. -/
theorem label_defined_twice :
    code else0Program {} = .ok (else0ProgramOutput, stateAB 2) ∧
      labelDefCount "Felse0" else0ProgramOutput = 2 := by
  have hstm : code (node "statements" "statements statements statement"
      [emptyStatements, ifTree]) (stateAB 0) = .ok (["lw $3, 0($29)", "sw $3, -4($30)",
        "sub $30, $30, $4", "lw $3, -4($29)", "add $30, $30, $4", "lw $5, -4($30)",
        "slt $3, $5, $3", "beq $3, $0, Felse0", "beq $0, $0, Fendif1", "Felse0:", "Fendif1:"],
        stateAB 2) := by
    have hs : code emptyStatements (stateAB 0) = .ok ([], stateAB 0) := by
      simp only [emptyStatements, node, code_mk_statements_EMPTY]
    rw [node, code_mk_statements, hs, ok_bind, code_ifTree, ok_bind]
    rfl
  have hmain := code_mainTree _ _ 2 hstm
  refine ⟨?_, by decide⟩
  rw [else0Program, node, code_mk_start, node, code_mk_procedures, code_procTree, ok_bind,
    node, code_mk_procedures_main, hmain, ok_bind]
  rfl

/-! ## C7, C8: pointer-aware addition and subtraction -/

/-- C7. For an `expr expr PLUS term` node with left operand `e` and right operand `t`
whose code is `o1` and `o2`: with both operands `int` the output is `o1`, push `$3`,
`o2`, pop `$5`, `add $3, $5, $3`; with `int* + int` the lines `mult $3, $4`, `mflo $3`
come after `o2` and before the pop; with `int + int*` they come after `o1` and before
the push. In all three cases `o1` precedes `o2` and the last line is `add $3, $5, $3`. -/
theorem plus_emits (root e t : TreeNode) (st s1 s2 : State) (o1 o2 : List String)
    (hp : root.production = "expr expr PLUS term")
    (h0 : root.children[0]? = some e) (h2 : root.children[2]? = some t)
    (he : code e st = .ok (o1, s1)) (ht : code t s1 = .ok (o2, s2)) :
    (e.getType = INT → t.getType = INT →
      code root st = .ok (o1 ++ push "$3" ++ o2 ++ pop "$5" ++ ["add $3, $5, $3"], s2)) ∧
    (e.getType = INT_STAR → t.getType = INT →
      code root st = .ok (o1 ++ push "$3" ++ o2 ++ ["mult $3, $4", "mflo $3"] ++ pop "$5"
        ++ ["add $3, $5, $3"], s2)) ∧
    (e.getType = INT → t.getType = INT_STAR →
      code root st = .ok (o1 ++ ["mult $3, $4", "mflo $3"] ++ push "$3" ++ o2 ++ pop "$5"
        ++ ["add $3, $5, $3"], s2)) := by
  have hne : root.production ≠ "" := by rw [hp]; decide
  rw [code_eq_codeN st hne, codeN_plus st hp h0 h2]
  refine ⟨?_, ?_, ?_⟩
  · intro h1 h2
    simp only [h1, h2, and_self, ↓reduceIte, he, ht, ok_bind]; rfl
  · intro h1 h2
    have hne1 : INT_STAR ≠ INT := by decide
    simp only [h1, h2, hne1, false_and, and_self, ↓reduceIte, he, ht, ok_bind]; rfl
  · intro h1 h2
    have hne1 : INT_STAR ≠ INT := by decide
    have hne2 : INT ≠ INT_STAR := by decide
    simp only [h1, h2, hne1, hne2, and_false, false_and, and_self, ↓reduceIte, he, ht, ok_bind]
    rfl

theorem plus_emits_witness :
    code plusPtrTree statePQ = .ok (["lw $3, 0($29)", "sw $3, -4($30)", "sub $30, $30, $4",
      "lis $3", ".word 1", "mult $3, $4", "mflo $3", "add $30, $30, $4", "lw $5, -4($30)",
      "add $3, $5, $3"], statePQ) :=
  (plus_emits plusPtrTree (exprId "p" "int*") (termNum "1") statePQ statePQ statePQ
    ["lw $3, 0($29)"] ["lis $3", ".word 1"] (by rfl) (by simp [plusPtrTree, node, TreeNode.children])
    (by simp [plusPtrTree, node, TreeNode.children]) code_exprId_p
    (code_termNum "1" "int" statePQ)).2.1 (by rfl) (by rfl)

/-- C8. For an `expr expr MINUS term` node with left operand `e` and right operand `t`
whose code is `o1` and `o2`: with both `int` the output is `o1`, push `$3`, `o2`,
pop `$5`, `sub $3, $5, $3`; with `int* - int` the lines `mult $3, $4`, `mflo $3` are
inserted after `o2`; with both `int*` the output is `o1`, push `$3`, `o2`, pop `$5`
and ends with `sub $3, $5, $3`, `div $3, $4`, `mflo $3`. -/
theorem minus_emits (root e t : TreeNode) (st s1 s2 : State) (o1 o2 : List String)
    (hp : root.production = "expr expr MINUS term")
    (h0 : root.children[0]? = some e) (h2 : root.children[2]? = some t)
    (he : code e st = .ok (o1, s1)) (ht : code t s1 = .ok (o2, s2)) :
    (e.getType = INT → t.getType = INT →
      code root st = .ok (o1 ++ push "$3" ++ o2 ++ pop "$5" ++ ["sub $3, $5, $3"], s2)) ∧
    (e.getType = INT_STAR → t.getType = INT →
      code root st = .ok (o1 ++ push "$3" ++ o2 ++ ["mult $3, $4", "mflo $3"] ++ pop "$5"
        ++ ["sub $3, $5, $3"], s2)) ∧
    (e.getType = INT_STAR → t.getType = INT_STAR →
      code root st = .ok (o1 ++ push "$3" ++ o2 ++ pop "$5"
        ++ ["sub $3, $5, $3", "div $3, $4", "mflo $3"], s2)) := by
  have hne : root.production ≠ "" := by rw [hp]; decide
  rw [code_eq_codeN st hne, codeN_minus st hp h0 h2]
  have hne1 : INT_STAR ≠ INT := by decide
  refine ⟨?_, ?_, ?_⟩
  · intro h1 h2
    simp only [h1, h2, and_self, ↓reduceIte, he, ht, ok_bind]; rfl
  · intro h1 h2
    simp only [h1, h2, hne1, false_and, and_self, ↓reduceIte, he, ht, ok_bind]; rfl
  · intro h1 h2
    simp only [h1, h2, hne1, and_false, false_and, and_self, ↓reduceIte, he, ht, ok_bind]
    rfl

theorem minus_emits_witness :
    code minusPtrTree statePQ = .ok (["lw $3, 0($29)", "sw $3, -4($30)", "sub $30, $30, $4",
      "lw $3, -4($29)", "add $30, $30, $4", "lw $5, -4($30)",
      "sub $3, $5, $3", "div $3, $4", "mflo $3"], statePQ) :=
  (minus_emits minusPtrTree (exprId "p" "int*") (termId "q" "int*") statePQ statePQ statePQ
    ["lw $3, 0($29)"] ["lw $3, -4($29)"] (by rfl)
    (by simp [minusPtrTree, node, TreeNode.children])
    (by simp [minusPtrTree, node, TreeNode.children]) code_exprId_p
    code_termId_q).2.2 (by rfl) (by rfl)

/-! ## C9: comparison opcode of the test handlers -/

/-- C9. For each of the six comparison productions the handler computes one opcode
`op = comparisonOp (type of the left operand)` and every comparison instruction among the
lines it emits itself (the output layout with the operand code erased) has that opcode:
`slt` when both operands are annotated `int`, `sltu` when the operands are `int*`. The
first part covers `EQ`, `NE`, `LT`, `GT`, the second `LE` and `GE` (operands emitted
twice). -/
theorem test_comparison_opcode :
    (∀ (root e1 e2 : TreeNode) (st s1 s2 : State) (o1 o2 : List String),
      root.production ∈ ["test expr EQ expr", "test expr NE expr", "test expr LT expr",
        "test expr GT expr"] →
      root.children[0]? = some e1 → root.children[2]? = some e2 →
      code e1 st = .ok (o1, s1) → code e2 s1 = .ok (o2, s2) →
      code root st = .ok (testOutput root.production (comparisonOp e1.getType) o1 o2, s2) ∧
      (∀ l ∈ testOutput root.production (comparisonOp e1.getType) [] [],
        isComparison l = true → mnemonic l = comparisonOp e1.getType) ∧
      (∃ l ∈ testOutput root.production (comparisonOp e1.getType) [] [],
        isComparison l = true) ∧
      (e1.getType = INT → e2.getType = INT → comparisonOp e1.getType = "slt") ∧
      (e1.getType = INT_STAR → e2.getType = INT_STAR → comparisonOp e1.getType = "sltu")) ∧
    (∀ (root e1 e2 : TreeNode) (st s1 s2 s3 s4 : State) (o1 o2 o3 o4 : List String),
      root.production ∈ ["test expr LE expr", "test expr GE expr"] →
      root.children[0]? = some e1 → root.children[2]? = some e2 →
      code e1 st = .ok (o1, s1) → code e2 s1 = .ok (o2, s2) →
      code e1 s2 = .ok (o3, s3) → code e2 s3 = .ok (o4, s4) →
      code root st
        = .ok (testOutput2 root.production (comparisonOp e1.getType) o1 o2 o3 o4, s4) ∧
      (∀ l ∈ testOutput2 root.production (comparisonOp e1.getType) [] [] [] [],
        isComparison l = true → mnemonic l = comparisonOp e1.getType) ∧
      (∃ l ∈ testOutput2 root.production (comparisonOp e1.getType) [] [] [] [],
        isComparison l = true) ∧
      (e1.getType = INT → e2.getType = INT → comparisonOp e1.getType = "slt") ∧
      (e1.getType = INT_STAR → e2.getType = INT_STAR → comparisonOp e1.getType = "sltu")) := by
  have hint : comparisonOp INT = "slt" := by decide
  have hptr : comparisonOp INT_STAR = "sltu" := by decide
  constructor
  · intro root e1 e2 st s1 s2 o1 o2 hprod h0 h2 he1 he2
    refine ⟨?_, ?_, ?_, fun h _ => by rw [h, hint], fun h _ => by rw [h, hptr]⟩
    · simp only [List.mem_cons, List.mem_singleton, List.not_mem_nil, or_false] at hprod
      rcases hprod with hp | hp | hp | hp
      · rw [code_test_EQ hp h0 h2 he1 he2, hp]; rfl
      · rw [code_test_NE hp h0 h2 he1 he2, hp]; rfl
      · rw [code_test_LT hp h0 h2 he1 he2, hp]; rfl
      · rw [code_test_GT hp h0 h2 he1 he2, hp]; rfl
    · simp only [List.mem_cons, List.mem_singleton, List.not_mem_nil, or_false] at hprod
      rcases comparisonOp_cases e1.getType with hop | hop <;> rw [hop] <;>
        rcases hprod with hp | hp | hp | hp <;> rw [hp] <;> decide
    · simp only [List.mem_cons, List.mem_singleton, List.not_mem_nil, or_false] at hprod
      rcases comparisonOp_cases e1.getType with hop | hop <;> rw [hop] <;>
        rcases hprod with hp | hp | hp | hp <;> rw [hp] <;> decide
  · intro root e1 e2 st s1 s2 s3 s4 o1 o2 o3 o4 hprod h0 h2 he1 he2 he3 he4
    refine ⟨?_, ?_, ?_, fun h _ => by rw [h, hint], fun h _ => by rw [h, hptr]⟩
    · simp only [List.mem_cons, List.mem_singleton, List.not_mem_nil, or_false] at hprod
      rcases hprod with hp | hp
      · rw [code_test_LE hp h0 h2 he1 he2 he3 he4, hp]
        simp only [testOutput2, strictLines, String.reduceEq, ↓reduceIte, List.append_assoc]
      · rw [code_test_GE hp h0 h2 he1 he2 he3 he4, hp]
        simp only [testOutput2, strictLines, String.reduceEq, ↓reduceIte, List.append_assoc]
    · simp only [List.mem_cons, List.mem_singleton, List.not_mem_nil, or_false] at hprod
      rcases comparisonOp_cases e1.getType with hop | hop <;> rw [hop] <;>
        rcases hprod with hp | hp <;> rw [hp] <;> decide
    · simp only [List.mem_cons, List.mem_singleton, List.not_mem_nil, or_false] at hprod
      rcases comparisonOp_cases e1.getType with hop | hop <;> rw [hop] <;>
        rcases hprod with hp | hp <;> rw [hp] <;> decide

theorem test_comparison_opcode_witness :
    code (testTree "test expr LE expr" "LE" "<=") {}
      = .ok (["lis $3", ".word 1", "sw $3, -4($30)", "sub $30, $30, $4", "lis $3", ".word 2",
          "add $30, $30, $4", "lw $5, -4($30)", "slt $3, $5, $3",
          "sw $3, -4($30)", "sub $30, $30, $4",
          "lis $3", ".word 1", "sw $3, -4($30)", "sub $30, $30, $4", "lis $3", ".word 2",
          "add $30, $30, $4", "lw $5, -4($30)",
          "slt $6, $3, $5", "slt $7, $5, $3", "add $3, $6, $7", "sub $3, $11, $3",
          "add $30, $30, $4", "lw $5, -4($30)", "add $3, $5, $3"], {}) ∧
    code (testTree "test expr LT expr" "LT" "<") {}
      = .ok (["lis $3", ".word 1", "sw $3, -4($30)", "sub $30, $30, $4", "lis $3", ".word 2",
          "add $30, $30, $4", "lw $5, -4($30)", "slt $3, $5, $3"], {}) :=
  ⟨(test_comparison_opcode.2 (testTree "test expr LE expr" "LE" "<=") (exprNum "1")
      (exprNum "2") {} {} {} {} {} _ _ _ _ (by decide)
      (by simp [testTree, TreeNode.children]) (by simp [testTree, TreeNode.children])
      (code_exprNum "1" {}) (code_exprNum "2" {}) (code_exprNum "1" {})
      (code_exprNum "2" {})).1,
   (test_comparison_opcode.1 (testTree "test expr LT expr" "LT" "<") (exprNum "1")
      (exprNum "2") {} {} {} _ _ (by decide)
      (by simp [testTree, TreeNode.children]) (by simp [testTree, TreeNode.children])
      (code_exprNum "1" {}) (code_exprNum "2" {})).1⟩

/-! ## C10: the test handlers leave a 0/1 result -/

theorem run_cons {lts ltu : Int → Int → Bool} {line : String} (i : Instr) (rest : List String)
    (m : Machine) (h : parseInstr line = some i) :
    run lts ltu (line :: rest) m = run lts ltu rest (exec lts ltu m i) := by
  simp only [run, h]

theorem run_append (lts ltu : Int → Int → Bool) (xs ys : List String) (m : Machine) :
    run lts ltu (xs ++ ys) m = (run lts ltu xs m).bind (run lts ltu ys) := by
  induction xs generalizing m with
  | nil => rfl
  | cons x xs ih =>
    simp only [List.cons_append, run]
    cases parseInstr x with
    | none => rfl
    | some i => exact ih _

theorem code_dcl_insert {d id : TreeNode} (st : State) (t : SymbolTable) (rest : List SymbolTable)
    (hp : d.production = "dcl type ID") (h1 : d.children[1]? = some id)
    (hid : id.production = "") (hs : st.g_tables.s = t :: rest) :
    code d st = .ok ([], { st with g_tables :=
      { s := t.insertLocalVariable id.token.lexeme id.type :: rest } }) := by
  rw [code_dcl st hp h1, getToken_eq_ok hid, ok_bind]
  simp only [SymbolTableStack.insertLocalVariable, SymbolTableStack.current, hs, ok_bind,
    SymbolTableStack.setCurrent, List.tail_cons, TreeNode.getType]
  rfl

theorem wain_params_bound (root d1 d2 dcls stmts ret id1 id2 : TreeNode) (st : State)
    (hp : root.production = "main INT WAIN LPAREN dcl COMMA dcl RPAREN LBRACE dcls statements RETURN expr SEMI RBRACE")
    (h3 : root.children[3]? = some d1) (h5 : root.children[5]? = some d2)
    (h8 : root.children[8]? = some dcls) (h9 : root.children[9]? = some stmts)
    (h11 : root.children[11]? = some ret)
    (hd1 : d1.production = "dcl type ID") (hd2 : d2.production = "dcl type ID")
    (hi1 : d1.children[1]? = some id1) (hi2 : d2.children[1]? = some id2)
    (ht1 : id1.production = "") (ht2 : id2.production = "")
    (hne : id1.token.lexeme ≠ id2.token.lexeme) :
    code root st = (do
      let r3 ← code dcls (stateWain st id1.token.lexeme id2.token.lexeme id1.type id2.type)
      let r4 ← code stmts r3.2
      let r5 ← code ret r4.2
      pure (wainPrologue id1.type ++ push "$1" ++ push "$2" ++ r3.1 ++ r4.1 ++ r5.1
        ++ ["jr $31"], r5.2)) := by
  rw [code_main root d1 d2 dcls stmts ret id1 st hp h3 h5 h8 h9 h11 hi1]
  rw [code_dcl_insert _ {} st.g_tables.s hd1 hi1 ht1 rfl, ok_bind]
  rw [code_dcl_insert _ _ st.g_tables.s hd2 hi2 ht2 rfl, ok_bind]
  have e : ({ g_tables := { s := (SymbolTable.insertLocalVariable
        (SymbolTable.insertLocalVariable {} id1.token.lexeme id1.type)
        id2.token.lexeme id2.type) :: st.g_tables.s }, labelCtr := st.labelCtr } : State)
      = stateWain st id1.token.lexeme id2.token.lexeme id1.type id2.type := by
    simp only [stateWain, SymbolTable.insertLocalVariable, SymbolTable.mapInsert,
      SymbolTable.find, hne, ↓reduceIte, List.nil_append, List.cons_append]
    rfl
  dsimp only at e ⊢
  rw [e]
  simp only [List.append_nil, wainPrologue, TreeNode.getType]

theorem stateWain_lookup (st : State) (a b : Identifier) (ta tb : WType) (hne : a ≠ b) :
    (stateWain st a b ta tb).g_tables.getVariable a = .ok (ta, 0) ∧
    (stateWain st a b ta tb).g_tables.getVariable b = .ok (tb, -4) := by
  constructor
  · simp only [stateWain, SymbolTableStack.getVariable, SymbolTableStack.current, ok_bind,
      SymbolTable.getVariable, SymbolTable.find, ↓reduceIte]
  · simp only [stateWain, SymbolTableStack.getVariable, SymbolTableStack.current, ok_bind,
      SymbolTable.getVariable, SymbolTable.find, hne, ↓reduceIte]

theorem run_push (lts ltu : Int → Int → Bool) (reg : Register) (m : Machine)
    (h : parseInstr ("sw " ++ reg ++ ", -4($30)") = some (.sw reg (-4) "$30")) :
    run lts ltu (push reg) m
      = some ((m.setMem (m.reg "$30" + -4) (m.reg reg)).setReg "$30"
          (m.reg "$30" - m.reg "$4")) := by
  rw [push, run_cons (.sw reg (-4) "$30") _ _ h,
    run_cons (.sub "$30" "$30" "$4") _ _ (by decide)]
  rfl

/-- C11 (minimal return). The `main` node of `int wain(int a, int b) { return a; }`, emitted
from an empty symbol-table stack, gives exactly `Fwain:`, `sub $29, $30, $4`, push `$29`,
push `$31`, push `$2`, `lis $2`, `.word 0`, `lis $5`, `.word init`, `jalr $5`, pop `$2`,
pop `$31`, pop `$29`, push `$1`, push `$2`, `lw $3, 0($29)`, `jr $31`. For every `main` node
whose two parameter declarations name distinct identifiers, the declarations, statements
and return expression are emitted in a scope that binds the first parameter to offset 0
and the second to offset -4, after the prologue, push `$1` and push `$2`. On the machine,
with `$29 = $30 - 4` and `$4 = 4`, these two pushes store `$1` at `0($29)` and `$2` at
`-4($29)`. -/
theorem wain_minimal_return :
    code (mainTree emptyStatements (exprId "a")) {} = .ok (minimalMainOutput, stateAB 0) ∧
    (∀ (root d1 d2 dcls stmts ret id1 id2 : TreeNode) (st : State),
      root.production = "main INT WAIN LPAREN dcl COMMA dcl RPAREN LBRACE dcls statements RETURN expr SEMI RBRACE" →
      root.children[3]? = some d1 → root.children[5]? = some d2 →
      root.children[8]? = some dcls → root.children[9]? = some stmts →
      root.children[11]? = some ret →
      d1.production = "dcl type ID" → d2.production = "dcl type ID" →
      d1.children[1]? = some id1 → d2.children[1]? = some id2 →
      id1.production = "" → id2.production = "" →
      id1.token.lexeme ≠ id2.token.lexeme →
      (stateWain st id1.token.lexeme id2.token.lexeme id1.type id2.type).g_tables.getVariable
          id1.token.lexeme = .ok (id1.type, 0) ∧
      (stateWain st id1.token.lexeme id2.token.lexeme id1.type id2.type).g_tables.getVariable
          id2.token.lexeme = .ok (id2.type, -4) ∧
      code root st = (do
        let r3 ← code dcls (stateWain st id1.token.lexeme id2.token.lexeme id1.type id2.type)
        let r4 ← code stmts r3.2
        let r5 ← code ret r4.2
        pure (wainPrologue id1.type ++ push "$1" ++ push "$2" ++ r3.1 ++ r4.1 ++ r5.1
          ++ ["jr $31"], r5.2))) ∧
    (∀ (lts ltu : Int → Int → Bool) (m : Machine),
      m.reg "$4" = 4 → m.reg "$29" = m.reg "$30" - 4 →
      ∃ m1, run lts ltu (push "$1" ++ push "$2") m = some m1 ∧
        m1.mem (m1.reg "$29" + 0) = m.reg "$1" ∧ m1.mem (m1.reg "$29" + -4) = m.reg "$2") := by
  refine ⟨?_, ?_, ?_⟩
  · have h := code_mainTree emptyStatements [] 0
      (by simp only [emptyStatements, node, code_mk_statements_EMPTY])
    rw [h]
    rfl
  · intro root d1 d2 dcls stmts ret id1 id2 st hp h3 h5 h8 h9 h11 hd1 hd2 hi1 hi2 ht1 ht2 hne
    exact ⟨(stateWain_lookup st _ _ _ _ hne).1, (stateWain_lookup st _ _ _ _ hne).2,
      wain_params_bound root d1 d2 dcls stmts ret id1 id2 st hp h3 h5 h8 h9 h11 hd1 hd2 hi1 hi2
        ht1 ht2 hne⟩
  · intro lts ltu m h4 h29
    refine ⟨_, by rw [run_append, run_push lts ltu "$1" m (by decide), Option.some_bind,
      run_push lts ltu "$2" _ (by decide)], ?_, ?_⟩
    · simp only [Machine.setReg, Machine.setMem, String.reduceEq, ↓reduceIte, h4, h29]
      rw [if_neg (by omega), if_pos (by omega)]
    · simp only [Machine.setReg, Machine.setMem, String.reduceEq, ↓reduceIte, h4, h29]

theorem wain_minimal_return_witness :
    ((stateWain {} "a" "b" "int" "int").g_tables.getVariable "a" = .ok ("int", 0) ∧
      (stateWain {} "a" "b" "int" "int").g_tables.getVariable "b" = .ok ("int", -4)) ∧
    ∃ m1, run intLt intLt (push "$1" ++ push "$2") wainEntryMachine = some m1 ∧
      m1.mem (m1.reg "$29" + 0) = wainEntryMachine.reg "$1" ∧
      m1.mem (m1.reg "$29" + -4) = wainEntryMachine.reg "$2" :=
  have h := wain_minimal_return.2.1 (mainTree emptyStatements (exprId "a")) (dclInt "a")
    (dclInt "b") emptyDcls emptyStatements (exprId "a") (leaf "ID" "a" "int")
    (leaf "ID" "b" "int") {} (by rfl)
    (by simp [mainTree, node, TreeNode.children]) (by simp [mainTree, node, TreeNode.children])
    (by simp [mainTree, node, TreeNode.children]) (by simp [mainTree, node, TreeNode.children])
    (by simp [mainTree, node, TreeNode.children]) (by rfl) (by rfl)
    (by simp [dclInt, node, TreeNode.children]) (by simp [dclInt, node, TreeNode.children])
    (by rfl) (by rfl) (by decide)
  ⟨⟨h.1, h.2.1⟩, wain_minimal_return.2.2 intLt intLt wainEntryMachine (by rfl) (by rfl)⟩

/-! ## C12: labels of `if` statements -/

theorem post_argsCode_label (args : List TreeNode)
    (h : ∀ e ∈ args, ∀ st, Post (fun r => r.2.labelCtr = st.labelCtr) (code e st))
    (st : State) :
    Post (fun r => r.2.labelCtr = st.labelCtr) (argsCode args st) := by
  induction args generalizing st with
  | nil => exact rfl
  | cons e es ih =>
    rw [argsCode]
    refine post_bind_code (h e (by simp) st) (fun r1 b1 => ?_)
    refine post_bind_code (ih (fun x hx => h x (by simp [hx])) r1.2) (fun r2 b2 => ?_)
    exact post_pure (b2.trans b1)

theorem post_foldlM_label (args : List TreeNode)
    (h : ∀ e ∈ args, ∀ st, Post (fun r => r.2.labelCtr = st.labelCtr) (code e st))
    (acc : List String) (st : State) :
    Post (fun r => r.2.labelCtr = st.labelCtr)
      (args.attach.foldlM (fun (acc : List String × State) expr => do
        let r1 ← code expr.1 acc.2
        pure (acc.1 ++ r1.1 ++ push "$3", r1.2)) (acc, st)) := by
  rw [foldlM_attach_eq args (fun (acc : List String × State) e => do
        let r1 ← code e acc.2
        pure (acc.1 ++ r1.1 ++ push "$3", r1.2)), foldlM_args_eq]
  refine post_bind_code (post_argsCode_label args h st) (fun r br => ?_)
  exact post_pure br

set_option maxHeartbeats 4000000 in
/-- Emission from a subtree without `if`, `while` and `delete` nodes leaves the label
counter as it was (induction on the size of the tree, one case per production of
`codeN`). -/
theorem labelFree_aux (n : Nat) : ∀ (root : TreeNode), sizeOf root < n →
    root.labelFree = true → ∀ st, Post (fun r => r.2.labelCtr = st.labelCtr) (code root st) := by
  induction n with
  | zero => intro root h; omega
  | succ n ih =>
    intro root hsz hfree st
    have IH : ∀ (c : {c : TreeNode // sizeOf c < sizeOf root}), c.1 ∈ root.children →
        ∀ st, Post (fun r => r.2.labelCtr = st.labelCtr) (code c.1 st) := fun c hc st =>
      ih c.1 (by have := c.2; omega) (allNodes_of_mem_children _ root c.1 hfree hc) st
    rw [code]
    by_cases hN : root.N = true
    · rw [if_pos hN, codeN]
      have hne : root.production ≠ "" := by
        intro h; simp [TreeNode.N, h] at hN
      rw [getProduction_eq_ok hne, ok_bind]
      by_cases hp : root.production = "start BOF procedures EOF"
      · rw [if_pos hp]
        refine post_child (fun c0 hc0 => ?_)
        exact IH c0 hc0 _
      rw [if_neg hp]
      clear hp
      by_cases hp : root.production = "procedures main"
      · rw [if_pos hp]
        refine post_child (fun c0 hc0 => ?_)
        exact IH c0 hc0 _
      rw [if_neg hp]
      clear hp
      by_cases hp : root.production = "main INT WAIN LPAREN dcl COMMA dcl RPAREN LBRACE dcls statements RETURN expr SEMI RBRACE"
      · rw [if_pos hp]
        refine post_child (fun c0 hc0 => ?_)
        refine post_child (fun c1 hc1 => ?_)
        refine post_child (fun c2 hc2 => ?_)
        refine post_child (fun c3 hc3 => ?_)
        refine post_child (fun c4 hc4 => ?_)
        refine post_child (fun c5 hc5 => ?_)
        refine post_bind_code (IH c0 hc0 _) (fun r1 br1 => ?_)
        refine post_bind_code (IH c1 hc1 _) (fun r2 br2 => ?_)
        refine post_bind_code (IH c2 hc2 _) (fun r3 br3 => ?_)
        refine post_bind_code (IH c3 hc3 _) (fun r4 br4 => ?_)
        refine post_bind_code (IH c4 hc4 _) (fun r5 br5 => ?_)
        exact post_pure (br5.trans (br4.trans (br3.trans (br2.trans br1))))
      rw [if_neg hp]
      clear hp
      by_cases hp : root.production = "type INT"
      · rw [if_pos hp]
        exact post_pure rfl
      rw [if_neg hp]
      clear hp
      by_cases hp : root.production = "dcl type ID"
      · rw [if_pos hp]
        refine post_child (fun c0 hc0 => ?_)
        refine post_bind_any (fun tok => ?_)
        refine post_bind_any (fun tables => ?_)
        exact post_pure rfl
      rw [if_neg hp]
      clear hp
      by_cases hp : root.production = "dcls .EMPTY"
      · rw [if_pos hp]
        exact post_pure rfl
      rw [if_neg hp]
      clear hp
      by_cases hp : root.production = "statements .EMPTY"
      · rw [if_pos hp]
        exact post_pure rfl
      rw [if_neg hp]
      clear hp
      by_cases hp : root.production = "expr term"
      · rw [if_pos hp]
        refine post_child (fun c0 hc0 => ?_)
        exact IH c0 hc0 _
      rw [if_neg hp]
      clear hp
      by_cases hp : root.production = "term factor"
      · rw [if_pos hp]
        refine post_child (fun c0 hc0 => ?_)
        exact IH c0 hc0 _
      rw [if_neg hp]
      clear hp
      by_cases hp : root.production = "factor NUM"
      · rw [if_pos hp]
        refine post_child (fun c0 hc0 => ?_)
        exact IH c0 hc0 _
      rw [if_neg hp]
      clear hp
      by_cases hp : root.production = "factor ID"
      · rw [if_pos hp]
        refine post_child (fun c0 hc0 => ?_)
        exact IH c0 hc0 _
      rw [if_neg hp]
      clear hp
      by_cases hp : root.production = "factor LPAREN expr RPAREN"
      · rw [if_pos hp]
        refine post_child (fun c0 hc0 => ?_)
        exact IH c0 hc0 _
      rw [if_neg hp]
      clear hp
      by_cases hp : root.production = "dcls dcls dcl BECOMES NUM SEMI"
      · rw [if_pos hp]
        refine post_child (fun c0 hc0 => ?_)
        refine post_child (fun c1 hc1 => ?_)
        refine post_child (fun c2 hc2 => ?_)
        refine post_bind_code (IH c0 hc0 _) (fun r1 br1 => ?_)
        refine post_bind_code (IH c1 hc1 _) (fun r2 br2 => ?_)
        refine post_bind_code (IH c2 hc2 _) (fun r3 br3 => ?_)
        exact post_pure (br3.trans (br2.trans br1))
      rw [if_neg hp]
      clear hp
      by_cases hp : root.production = "statements statements statement"
      · rw [if_pos hp]
        refine post_child (fun c0 hc0 => ?_)
        refine post_child (fun c1 hc1 => ?_)
        refine post_bind_code (IH c0 hc0 _) (fun r1 br1 => ?_)
        refine post_bind_code (IH c1 hc1 _) (fun r2 br2 => ?_)
        exact post_pure (br2.trans br1)
      rw [if_neg hp]
      clear hp
      by_cases hp : root.production = "statement lvalue BECOMES expr SEMI"
      · rw [if_pos hp]
        refine post_child (fun c0 hc0 => ?_)
        refine post_child (fun c1 hc1 => ?_)
        refine post_bind_code (IH c0 hc0 _) (fun r1 br1 => ?_)
        refine post_bind_code (IH c1 hc1 _) (fun r2 br2 => ?_)
        exact post_pure (br2.trans br1)
      rw [if_neg hp]
      clear hp
      by_cases hp : root.production = "lvalue ID"
      · rw [if_pos hp]
        refine post_child (fun c0 hc0 => ?_)
        refine post_bind_any (fun tok => ?_)
        refine post_bind_any (fun off => ?_)
        exact post_pure rfl
      rw [if_neg hp]
      clear hp
      by_cases hp : root.production = "lvalue LPAREN lvalue RPAREN"
      · rw [if_pos hp]
        refine post_child (fun c0 hc0 => ?_)
        exact IH c0 hc0 _
      rw [if_neg hp]
      clear hp
      by_cases hp : root.production = "expr expr PLUS term"
      · rw [if_pos hp]
        refine post_child (fun c0 hc0 => ?_)
        refine post_child (fun c1 hc1 => ?_)
        refine post_ite (fun _ => ?_) (fun _ => ?_)
        · refine post_bind_code (IH c0 hc0 _) (fun r1 br1 => ?_)
          refine post_bind_code (IH c1 hc1 _) (fun r2 br2 => ?_)
          exact post_pure (br2.trans br1)
        · refine post_ite (fun _ => ?_) (fun _ => ?_)
          · refine post_bind_code (IH c0 hc0 _) (fun r1 br1 => ?_)
            refine post_bind_code (IH c1 hc1 _) (fun r2 br2 => ?_)
            exact post_pure (br2.trans br1)
          · refine post_ite (fun _ => ?_) (fun _ => ?_)
            · refine post_bind_code (IH c0 hc0 _) (fun r1 br1 => ?_)
              refine post_bind_code (IH c1 hc1 _) (fun r2 br2 => ?_)
              exact post_pure (br2.trans br1)
            · exact post_pure rfl
      rw [if_neg hp]
      clear hp
      by_cases hp : root.production = "expr expr MINUS term"
      · rw [if_pos hp]
        refine post_child (fun c0 hc0 => ?_)
        refine post_child (fun c1 hc1 => ?_)
        refine post_ite (fun _ => ?_) (fun _ => ?_)
        · refine post_bind_code (IH c0 hc0 _) (fun r1 br1 => ?_)
          refine post_bind_code (IH c1 hc1 _) (fun r2 br2 => ?_)
          exact post_pure (br2.trans br1)
        · refine post_ite (fun _ => ?_) (fun _ => ?_)
          · refine post_bind_code (IH c0 hc0 _) (fun r1 br1 => ?_)
            refine post_bind_code (IH c1 hc1 _) (fun r2 br2 => ?_)
            exact post_pure (br2.trans br1)
          · refine post_ite (fun _ => ?_) (fun _ => ?_)
            · refine post_bind_code (IH c0 hc0 _) (fun r1 br1 => ?_)
              refine post_bind_code (IH c1 hc1 _) (fun r2 br2 => ?_)
              exact post_pure (br2.trans br1)
            · exact post_pure rfl
      rw [if_neg hp]
      clear hp
      by_cases hp : root.production = "term term STAR factor"
      · rw [if_pos hp]
        refine post_child (fun c0 hc0 => ?_)
        refine post_child (fun c1 hc1 => ?_)
        refine post_bind_code (IH c0 hc0 _) (fun r1 br1 => ?_)
        refine post_bind_code (IH c1 hc1 _) (fun r2 br2 => ?_)
        exact post_pure (br2.trans br1)
      rw [if_neg hp]
      clear hp
      by_cases hp : root.production = "term term SLASH factor"
      · rw [if_pos hp]
        refine post_child (fun c0 hc0 => ?_)
        refine post_child (fun c1 hc1 => ?_)
        refine post_bind_code (IH c0 hc0 _) (fun r1 br1 => ?_)
        refine post_bind_code (IH c1 hc1 _) (fun r2 br2 => ?_)
        exact post_pure (br2.trans br1)
      rw [if_neg hp]
      clear hp
      by_cases hp : root.production = "term term PCT factor"
      · rw [if_pos hp]
        refine post_child (fun c0 hc0 => ?_)
        refine post_child (fun c1 hc1 => ?_)
        refine post_bind_code (IH c0 hc0 _) (fun r1 br1 => ?_)
        refine post_bind_code (IH c1 hc1 _) (fun r2 br2 => ?_)
        exact post_pure (br2.trans br1)
      rw [if_neg hp]
      clear hp
      by_cases hp : root.production = "statement IF LPAREN test RPAREN LBRACE statements RBRACE ELSE LBRACE statements RBRACE"
      · rw [if_pos hp]
        exfalso
        have h := allNodes_production _ root hfree
        rw [hp] at h
        revert h; decide
      rw [if_neg hp]
      clear hp
      by_cases hp : root.production = "statement WHILE LPAREN test RPAREN LBRACE statements RBRACE"
      · rw [if_pos hp]
        exfalso
        have h := allNodes_production _ root hfree
        rw [hp] at h
        revert h; decide
      rw [if_neg hp]
      clear hp
      by_cases hp : root.production = "test expr EQ expr"
      · rw [if_pos hp]
        refine post_child (fun c0 hc0 => ?_)
        refine post_child (fun c1 hc1 => ?_)
        refine post_bind_code (IH c0 hc0 _) (fun r1 br1 => ?_)
        refine post_bind_code (IH c1 hc1 _) (fun r2 br2 => ?_)
        exact post_pure (br2.trans br1)
      rw [if_neg hp]
      clear hp
      by_cases hp : root.production = "test expr NE expr"
      · rw [if_pos hp]
        refine post_child (fun c0 hc0 => ?_)
        refine post_child (fun c1 hc1 => ?_)
        refine post_bind_code (IH c0 hc0 _) (fun r1 br1 => ?_)
        refine post_bind_code (IH c1 hc1 _) (fun r2 br2 => ?_)
        exact post_pure (br2.trans br1)
      rw [if_neg hp]
      clear hp
      by_cases hp : root.production = "test expr LT expr"
      · rw [if_pos hp]
        refine post_child (fun c0 hc0 => ?_)
        refine post_child (fun c1 hc1 => ?_)
        refine post_bind_code (IH c0 hc0 _) (fun r1 br1 => ?_)
        refine post_bind_code (IH c1 hc1 _) (fun r2 br2 => ?_)
        exact post_pure (br2.trans br1)
      rw [if_neg hp]
      clear hp
      by_cases hp : root.production = "test expr LE expr"
      · rw [if_pos hp]
        refine post_child (fun c0 hc0 => ?_)
        refine post_child (fun c1 hc1 => ?_)
        refine post_bind_code (IH c0 hc0 _) (fun r1 br1 => ?_)
        refine post_bind_code (IH c1 hc1 _) (fun r2 br2 => ?_)
        refine post_bind_code (IH c0 hc0 _) (fun r3 br3 => ?_)
        refine post_bind_code (IH c1 hc1 _) (fun r4 br4 => ?_)
        exact post_pure (br4.trans (br3.trans (br2.trans br1)))
      rw [if_neg hp]
      clear hp
      by_cases hp : root.production = "test expr GE expr"
      · rw [if_pos hp]
        refine post_child (fun c0 hc0 => ?_)
        refine post_child (fun c1 hc1 => ?_)
        refine post_bind_code (IH c0 hc0 _) (fun r1 br1 => ?_)
        refine post_bind_code (IH c1 hc1 _) (fun r2 br2 => ?_)
        refine post_bind_code (IH c0 hc0 _) (fun r3 br3 => ?_)
        refine post_bind_code (IH c1 hc1 _) (fun r4 br4 => ?_)
        exact post_pure (br4.trans (br3.trans (br2.trans br1)))
      rw [if_neg hp]
      clear hp
      by_cases hp : root.production = "test expr GT expr"
      · rw [if_pos hp]
        refine post_child (fun c0 hc0 => ?_)
        refine post_child (fun c1 hc1 => ?_)
        refine post_bind_code (IH c0 hc0 _) (fun r1 br1 => ?_)
        refine post_bind_code (IH c1 hc1 _) (fun r2 br2 => ?_)
        exact post_pure (br2.trans br1)
      rw [if_neg hp]
      clear hp
      by_cases hp : root.production = "statement PRINTLN LPAREN expr RPAREN SEMI"
      · rw [if_pos hp]
        refine post_child (fun c0 hc0 => ?_)
        refine post_bind_code (IH c0 hc0 _) (fun r1 br1 => ?_)
        exact post_pure br1
      rw [if_neg hp]
      clear hp
      by_cases hp : root.production = "procedures procedure procedures"
      · rw [if_pos hp]
        refine post_child (fun c0 hc0 => ?_)
        refine post_child (fun c1 hc1 => ?_)
        refine post_bind_code (IH c0 hc0 _) (fun r1 br1 => ?_)
        refine post_bind_code (IH c1 hc1 _) (fun r2 br2 => ?_)
        exact post_pure (br2.trans br1)
      rw [if_neg hp]
      clear hp
      by_cases hp : root.production = "procedure INT ID LPAREN params RPAREN LBRACE dcls statements RETURN expr SEMI RBRACE"
      · rw [if_pos hp]
        refine post_child (fun c0 hc0 => ?_)
        refine post_child (fun c1 hc1 => ?_)
        refine post_child (fun c2 hc2 => ?_)
        refine post_child (fun c3 hc3 => ?_)
        refine post_child (fun c4 hc4 => ?_)
        refine post_bind_any (fun tok => ?_)
        refine post_bind_code (IH c0 hc0 _) (fun r1 br1 => ?_)
        refine post_bind_code (IH c1 hc1 _) (fun r2 br2 => ?_)
        refine post_bind_code (IH c2 hc2 _) (fun r3 br3 => ?_)
        refine post_bind_code (IH c3 hc3 _) (fun r4 br4 => ?_)
        refine post_bind_any (fun tables => ?_)
        exact post_pure (br4.trans (br3.trans (br2.trans br1)))
      rw [if_neg hp]
      clear hp
      by_cases hp : root.production = "params .EMPTY"
      · rw [if_pos hp]
        exact post_pure rfl
      rw [if_neg hp]
      clear hp
      by_cases hp : root.production = "params paramlist"
      · rw [if_pos hp]
        refine post_child (fun c0 hc0 => ?_)
        refine post_bind_code (IH c0 hc0 _) (fun r1 br1 => ?_)
        refine post_bind_any (fun tables => ?_)
        exact post_pure br1
      rw [if_neg hp]
      clear hp
      by_cases hp : root.production = "paramlist dcl"
      · rw [if_pos hp]
        refine post_child (fun c0 hc0 => ?_)
        refine post_child (fun c1 hc1 => ?_)
        refine post_bind_any (fun tok => ?_)
        refine post_bind_any (fun tables => ?_)
        exact post_pure rfl
      rw [if_neg hp]
      clear hp
      by_cases hp : root.production = "paramlist dcl COMMA paramlist"
      · rw [if_pos hp]
        refine post_child (fun c0 hc0 => ?_)
        refine post_child (fun c1 hc1 => ?_)
        refine post_child (fun c2 hc2 => ?_)
        refine post_bind_any (fun tok => ?_)
        refine post_bind_any (fun tables => ?_)
        exact IH c1 hc1 _
      rw [if_neg hp]
      clear hp
      by_cases hp : root.production = "factor ID LPAREN RPAREN"
      · rw [if_pos hp]
        refine post_child (fun c0 hc0 => ?_)
        refine post_bind_any (fun tok => ?_)
        exact post_pure rfl
      rw [if_neg hp]
      clear hp
      by_cases hp : root.production = "factor ID LPAREN arglist RPAREN"
      · rw [if_pos hp]
        refine post_child (fun c0 hc0 => ?_)
        refine post_child (fun c1 hc1 => ?_)
        refine post_bind_any (fun tok => ?_)
        refine post_bind_code (post_foldlM_label _ (fun e he st1 => ih e
          (by have h1 := TreeNode.sizeOf_lt_of_mem_getChildSymbolNodes "expr" _ _ he
              have h2 := c0.2
              omega)
          (allNodes_of_mem_getChildSymbolNodes _ "expr" _ e
            (allNodes_of_mem_children _ root c0.1 hfree hc0) he) st1) _ st)
          (fun r br => ?_)
        exact post_pure br
      rw [if_neg hp]
      clear hp
      by_cases hp : root.production = "arglist expr"
      · rw [if_pos hp]
        exact post_pure rfl
      rw [if_neg hp]
      clear hp
      by_cases hp : root.production = "arglist expr COMMA arglist"
      · rw [if_pos hp]
        exact post_pure rfl
      rw [if_neg hp]
      clear hp
      by_cases hp : root.production = "type INT STAR"
      · rw [if_pos hp]
        exact post_pure rfl
      rw [if_neg hp]
      clear hp
      by_cases hp : root.production = "dcls dcls dcl BECOMES NULL SEMI"
      · rw [if_pos hp]
        refine post_child (fun c0 hc0 => ?_)
        refine post_child (fun c1 hc1 => ?_)
        refine post_child (fun c2 hc2 => ?_)
        refine post_bind_code (IH c0 hc0 _) (fun r1 br1 => ?_)
        refine post_bind_code (IH c1 hc1 _) (fun r2 br2 => ?_)
        refine post_bind_code (IH c2 hc2 _) (fun r3 br3 => ?_)
        exact post_pure (br3.trans (br2.trans br1))
      rw [if_neg hp]
      clear hp
      by_cases hp : root.production = "factor NULL"
      · rw [if_pos hp]
        refine post_child (fun c0 hc0 => ?_)
        exact IH c0 hc0 _
      rw [if_neg hp]
      clear hp
      by_cases hp : root.production = "factor AMP lvalue"
      · rw [if_pos hp]
        refine post_child (fun c0 hc0 => ?_)
        exact IH c0 hc0 _
      rw [if_neg hp]
      clear hp
      by_cases hp : root.production = "factor STAR factor"
      · rw [if_pos hp]
        refine post_child (fun c0 hc0 => ?_)
        refine post_bind_code (IH c0 hc0 _) (fun r1 br1 => ?_)
        exact post_pure br1
      rw [if_neg hp]
      clear hp
      by_cases hp : root.production = "lvalue STAR factor"
      · rw [if_pos hp]
        refine post_child (fun c0 hc0 => ?_)
        refine post_bind_code (IH c0 hc0 _) (fun r1 br1 => ?_)
        exact post_pure br1
      rw [if_neg hp]
      clear hp
      by_cases hp : root.production = "factor NEW INT LBRACK expr RBRACK"
      · rw [if_pos hp]
        refine post_child (fun c0 hc0 => ?_)
        refine post_bind_code (IH c0 hc0 _) (fun r1 br1 => ?_)
        exact post_pure br1
      rw [if_neg hp]
      clear hp
      by_cases hp : root.production = "statement DELETE LBRACK RBRACK expr SEMI"
      · rw [if_pos hp]
        exfalso
        have h := allNodes_production _ root hfree
        rw [hp] at h
        revert h; decide
      rw [if_neg hp]
      clear hp
      exact rfl
    · rw [if_neg hN, codeT]
      refine post_bind_any (fun tok => ?_)
      refine post_ite (fun _ => ?_) (fun _ => ?_)
      · exact post_pure rfl
      · refine post_ite (fun _ => ?_) (fun _ => ?_)
        · exact post_pure rfl
        · refine post_ite (fun _ => ?_) (fun _ => ?_)
          · refine post_bind_any (fun off => ?_)
            exact post_pure rfl
          · exact post_pure rfl

theorem labelFree_labelCtr (root : TreeNode) (st : State) (r : List String × State)
    (hfree : root.labelFree = true) (h : code root st = .ok r) :
    r.2.labelCtr = st.labelCtr := by
  have hp := labelFree_aux (sizeOf root + 1) root (Nat.lt_succ_self _) hfree st
  rw [h] at hp
  exact hp

theorem code_two_ifs (outer inner s0 if1 if2 t1 a1 b1 t2 a2 b2 : TreeNode)
    (g : SymbolTableStack)
    (hpo : outer.production = "statements statements statement")
    (ho0 : outer.children[0]? = some inner) (ho1 : outer.children[1]? = some if2)
    (hpi : inner.production = "statements statements statement")
    (hi0 : inner.children[0]? = some s0) (hi1 : inner.children[1]? = some if1)
    (hs0 : s0.production = "statements .EMPTY")
    (hp1 : if1.production = "statement IF LPAREN test RPAREN LBRACE statements RBRACE ELSE LBRACE statements RBRACE")
    (h12 : if1.children[2]? = some t1) (h15 : if1.children[5]? = some a1)
    (h19 : if1.children[9]? = some b1)
    (hp2 : if2.production = "statement IF LPAREN test RPAREN LBRACE statements RBRACE ELSE LBRACE statements RBRACE")
    (h22 : if2.children[2]? = some t2) (h25 : if2.children[5]? = some a2)
    (h29 : if2.children[9]? = some b2)
    (hft : t1.labelFree = true) (hfa : a1.labelFree = true) (hfb : b1.labelFree = true) :
    code outer { g_tables := g, labelCtr := 0 } = (do
      let r1 ← code t1 { g_tables := g, labelCtr := 2 }
      let r2 ← code a1 r1.2
      let r3 ← code b1 r2.2
      let r4 ← code t2 { r3.2 with labelCtr := 4 }
      let r5 ← code a2 r4.2
      let r6 ← code b2 r5.2
      pure (r1.1 ++ ["beq $3, $0, Felse0"] ++ r2.1 ++ ["beq $0, $0, Fendif1", "Felse0:"]
        ++ r3.1 ++ ["Fendif1:"]
        ++ r4.1 ++ ["beq $3, $0, Felse2"] ++ r5.1 ++ ["beq $0, $0, Fendif3", "Felse2:"]
        ++ r6.1 ++ ["Fendif3:"], r6.2)) := by
  rw [code_statements _ hpo ho0 ho1, code_statements _ hpi hi0 hi1,
    code_statements_EMPTY _ hs0, ok_bind, code_if _ hp1 h12 h15 h19]
  have e : ({ g_tables := g, labelCtr := (0 : Nat) + 1 + 1 } : State)
      = { g_tables := g, labelCtr := 2 } := rfl
  dsimp only
  rw [e]
  cases h1 : code t1 { g_tables := g, labelCtr := 2 } with
  | error err => rfl
  | ok r1 =>
    have l1 := labelFree_labelCtr t1 _ r1 hft h1
    cases h2 : code a1 r1.2 with
    | error err => simp only [ok_bind, h2]; rfl
    | ok r2 =>
      have l2 := labelFree_labelCtr a1 _ r2 hfa h2
      cases h3 : code b1 r2.2 with
      | error err => simp only [ok_bind, h2, h3]; rfl
      | ok r3 =>
        have l3 := labelFree_labelCtr b1 _ r3 hfb h3
        have l : r3.2.labelCtr = 2 := by rw [l3, l2, l1]
        simp only [ok_bind, h2, h3, pure_bind, List.nil_append]
        rw [code_if _ hp2 h22 h25 h29, l]
        have e2 : ({ g_tables := r3.2.g_tables, labelCtr := 2 + 1 + 1 } : State)
            = { g_tables := r3.2.g_tables, labelCtr := 4 } := rfl
        rw [e2]
        cases h4 : code t2 { g_tables := r3.2.g_tables, labelCtr := 4 } with
        | error err => rfl
        | ok r4 =>
          cases h5 : code a2 r4.2 with
          | error err => simp only [ok_bind, h5]; rfl
          | ok r5 =>
            cases h6 : code b2 r5.2 with
            | error err => simp only [ok_bind, h5, h6]; rfl
            | ok r6 =>
              simp only [ok_bind, h5, h6]
              refine congrArg Except.ok (Prod.ext ?_ rfl)
              simp only [List.append_assoc, List.cons_append, List.nil_append]
              rfl

theorem code_testAB (n : Nat) :
    code testAB (stateAB n) = .ok (["lw $3, 0($29)", "sw $3, -4($30)", "sub $30, $30, $4",
      "lw $3, -4($29)", "add $30, $30, $4", "lw $5, -4($30)", "slt $3, $5, $3"],
      stateAB n) := by
  rw [testAB, code_test_LT (by rfl) (by simp [node, TreeNode.children])
    (by simp [node, TreeNode.children]) (code_exprId_a n) (code_exprId_b n)]
  rfl

/-- C12. An `if`/`else` node emitted when the label counter is `c` takes both labels first
(its test is emitted with the counter at `c + 2`) and outputs the code of the test,
`beq $3, $0, Felse<c>`, the code of the first body, `beq $0, $0, Fendif<c+1>`, `Felse<c>:`,
the code of the second body and `Fendif<c+1>:`. Consequently a statement list of two `if`
statements in sequence, the first with a test and bodies free of `if`, `while` and
`delete`, emitted from counter 0, uses the suffixes 0 and 1 for the first statement and 2
and 3 for the second. -/
theorem if_labels :
    (∀ (root test s1 s2 : TreeNode) (st : State),
      root.production = "statement IF LPAREN test RPAREN LBRACE statements RBRACE ELSE LBRACE statements RBRACE" →
      root.children[2]? = some test → root.children[5]? = some s1 →
      root.children[9]? = some s2 →
      code root st = (do
        let r1 ← code test { st with labelCtr := st.labelCtr + 2 }
        let r2 ← code s1 r1.2
        let r3 ← code s2 r2.2
        pure (r1.1 ++ ["beq $3, $0, " ++ ("Felse" ++ toString st.labelCtr)] ++ r2.1
          ++ ["beq $0, $0, " ++ ("Fendif" ++ toString (st.labelCtr + 1))]
          ++ [("Felse" ++ toString st.labelCtr) ++ ":"] ++ r3.1
          ++ [("Fendif" ++ toString (st.labelCtr + 1)) ++ ":"], r3.2))) ∧
    (∀ (outer inner s0 if1 if2 t1 a1 b1 t2 a2 b2 : TreeNode) (g : SymbolTableStack),
      outer.production = "statements statements statement" →
      outer.children[0]? = some inner → outer.children[1]? = some if2 →
      inner.production = "statements statements statement" →
      inner.children[0]? = some s0 → inner.children[1]? = some if1 →
      s0.production = "statements .EMPTY" →
      if1.production = "statement IF LPAREN test RPAREN LBRACE statements RBRACE ELSE LBRACE statements RBRACE" →
      if1.children[2]? = some t1 → if1.children[5]? = some a1 → if1.children[9]? = some b1 →
      if2.production = "statement IF LPAREN test RPAREN LBRACE statements RBRACE ELSE LBRACE statements RBRACE" →
      if2.children[2]? = some t2 → if2.children[5]? = some a2 → if2.children[9]? = some b2 →
      t1.labelFree = true → a1.labelFree = true → b1.labelFree = true →
      code outer { g_tables := g, labelCtr := 0 } = (do
        let r1 ← code t1 { g_tables := g, labelCtr := 2 }
        let r2 ← code a1 r1.2
        let r3 ← code b1 r2.2
        let r4 ← code t2 { r3.2 with labelCtr := 4 }
        let r5 ← code a2 r4.2
        let r6 ← code b2 r5.2
        pure (r1.1 ++ ["beq $3, $0, Felse0"] ++ r2.1 ++ ["beq $0, $0, Fendif1", "Felse0:"]
          ++ r3.1 ++ ["Fendif1:"]
          ++ r4.1 ++ ["beq $3, $0, Felse2"] ++ r5.1 ++ ["beq $0, $0, Fendif3", "Felse2:"]
          ++ r6.1 ++ ["Fendif3:"], r6.2))) := by
  refine ⟨?_, ?_⟩
  · intro root test s1 s2 st hp h2 h5 h9
    exact code_if st hp h2 h5 h9
  · intro outer inner s0 if1 if2 t1 a1 b1 t2 a2 b2 g hpo ho0 ho1 hpi hi0 hi1 hs0 hp1 h12 h15
      h19 hp2 h22 h25 h29 hft hfa hfb
    exact code_two_ifs outer inner s0 if1 if2 t1 a1 b1 t2 a2 b2 g hpo ho0 ho1 hpi hi0 hi1 hs0
      hp1 h12 h15 h19 hp2 h22 h25 h29 hft hfa hfb

theorem if_labels_witness : code twoIfs (stateAB 0) = .ok (twoIfsOutput, stateAB 4) := by
  have h := if_labels.2 twoIfs
    (node "statements" "statements statements statement" [emptyStatements, ifTree])
    emptyStatements ifTree ifTree testAB emptyStatements emptyStatements
    testAB emptyStatements emptyStatements (stateAB 0).g_tables
    (by rfl) (by simp [twoIfs, node, TreeNode.children])
    (by simp [twoIfs, node, TreeNode.children]) (by rfl)
    (by simp [node, TreeNode.children]) (by simp [node, TreeNode.children]) (by rfl)
    (by rfl) (by simp [ifTree, testAB, node, TreeNode.children])
    (by simp [ifTree, node, TreeNode.children]) (by simp [ifTree, node, TreeNode.children])
    (by rfl) (by simp [ifTree, testAB, node, TreeNode.children])
    (by simp [ifTree, node, TreeNode.children]) (by simp [ifTree, node, TreeNode.children])
    (by decide) (by decide) (by decide)
  have hs : ∀ n, code emptyStatements (stateAB n) = .ok ([], stateAB n) := by
    intro n
    simp only [emptyStatements, node, code_mk_statements_EMPTY]
  have e0 : stateAB 0 = { g_tables := (stateAB 0).g_tables, labelCtr := 0 } := rfl
  have e2 : ({ g_tables := (stateAB 0).g_tables, labelCtr := 2 } : State) = stateAB 2 := rfl
  rw [e0, h, e2, code_testAB 2, ok_bind, hs 2, ok_bind, hs 2, ok_bind]
  have e4 : ({ g_tables := (stateAB 2).g_tables, labelCtr := 4 } : State) = stateAB 4 := rfl
  dsimp only
  rw [e4, code_testAB 4, ok_bind, hs 4, ok_bind, hs 4, ok_bind]
  rfl

/-! ## C13: the null guard of `delete` -/

/-- C13 (null delete guard). For every `statement DELETE LBRACK RBRACK expr SEMI` node
emitted when the label counter is `c`, the operand is emitted with the counter at `c + 1`
and the output is the operand's code, `lis $5`, `.word 69`, `beq $3, $5, FskipDelete<c>`, the
call sequence (push `$3`, pop `$1`, push `$31`, push `$29`, `lis $5`, `.word delete`,
`jalr $5`, pop `$29`, pop `$31`) and `FskipDelete<c>:`; the label is the last line, so the
call of `delete` lies between the branch and its target. -/
theorem delete_guard (root expr : TreeNode) (st : State)
    (hp : root.production = "statement DELETE LBRACK RBRACK expr SEMI")
    (h3 : root.children[3]? = some expr) :
    code root st = (do
      let r1 ← code expr { st with labelCtr := st.labelCtr + 1 }
      pure (r1.1 ++ ["lis $5", ".word 69", "beq $3, $5, " ++ ("FskipDelete" ++ toString st.labelCtr)]
        ++ (push "$3" ++ pop "$1" ++ push "$31" ++ push "$29"
          ++ ["lis $5", ".word delete", "jalr $5"] ++ pop "$29" ++ pop "$31")
        ++ [("FskipDelete" ++ toString st.labelCtr) ++ ":"], r1.2)) ∧
    ∀ (out : List String) (st1 : State), code root st = .ok (out, st1) →
      out.getLast? = some (("FskipDelete" ++ toString st.labelCtr) ++ ":") ∧
      ∃ pre, code expr { st with labelCtr := st.labelCtr + 1 } = .ok (pre, st1) ∧
        out = pre ++ ["lis $5", ".word 69", "beq $3, $5, " ++ ("FskipDelete" ++ toString st.labelCtr),
          "sw $3, -4($30)", "sub $30, $30, $4", "add $30, $30, $4", "lw $1, -4($30)",
          "sw $31, -4($30)", "sub $30, $30, $4", "sw $29, -4($30)", "sub $30, $30, $4",
          "lis $5", ".word delete", "jalr $5",
          "add $30, $30, $4", "lw $29, -4($30)", "add $30, $30, $4", "lw $31, -4($30)",
          ("FskipDelete" ++ toString st.labelCtr) ++ ":"] := by
  have hcode : code root st = (do
      let r1 ← code expr { st with labelCtr := st.labelCtr + 1 }
      pure (r1.1 ++ ["lis $5", ".word 69", "beq $3, $5, " ++ ("FskipDelete" ++ toString st.labelCtr)]
        ++ (push "$3" ++ pop "$1" ++ push "$31" ++ push "$29"
          ++ ["lis $5", ".word delete", "jalr $5"] ++ pop "$29" ++ pop "$31")
        ++ [("FskipDelete" ++ toString st.labelCtr) ++ ":"], r1.2)) := by
    rw [code_eq_codeN st (by rw [hp]; decide), codeN, getProduction_eq_ok (by rw [hp]; decide),
      ok_bind, hp]
    simp only [↓reduceIte, String.reduceEq]
    rw [TreeNode.child_eq_ok h3, ok_bind]
    simp only [List.append_assoc]
  refine ⟨hcode, ?_⟩
  intro out st1 h
  rw [hcode] at h
  cases hr : code expr { st with labelCtr := st.labelCtr + 1 } with
  | error e => rw [hr] at h; cases h
  | ok r1 =>
    rw [hr, ok_bind] at h
    have h1 := Except.ok.inj h
    have ho : out = _ := (congrArg Prod.fst h1).symm
    have hs : st1 = r1.2 := (congrArg Prod.snd h1).symm
    subst ho
    subst hs
    refine ⟨by simp [push, pop, List.getLast?_append], r1.1, rfl, ?_⟩
    simp only [push, pop, List.append_assoc, List.cons_append, List.nil_append,
      String.reduceAppend]

theorem delete_guard_witness :
    code (node "statement" "statement DELETE LBRACK RBRACK expr SEMI"
        [leaf "DELETE" "delete", leaf "LBRACK" "[", leaf "RBRACK" "]", exprId "p" "int*",
         leaf "SEMI" ";"]) statePQ
      = .ok (["lw $3, 0($29)", "lis $5", ".word 69", "beq $3, $5, FskipDelete0",
          "sw $3, -4($30)", "sub $30, $30, $4", "add $30, $30, $4", "lw $1, -4($30)",
          "sw $31, -4($30)", "sub $30, $30, $4", "sw $29, -4($30)", "sub $30, $30, $4",
          "lis $5", ".word delete", "jalr $5",
          "add $30, $30, $4", "lw $29, -4($30)", "add $30, $30, $4", "lw $31, -4($30)",
          "FskipDelete0:"], { statePQ with labelCtr := 1 }) := by
  have h := (delete_guard (node "statement" "statement DELETE LBRACK RBRACK expr SEMI"
        [leaf "DELETE" "delete", leaf "LBRACK" "[", leaf "RBRACK" "]", exprId "p" "int*",
         leaf "SEMI" ";"]) (exprId "p" "int*") statePQ (by rfl)
        (by simp [node, TreeNode.children])).1
  rw [h]
  have hp : code (exprId "p" "int*") { statePQ with labelCtr := statePQ.labelCtr + 1 }
      = .ok (["lw $3, 0($29)"], { statePQ with labelCtr := 1 }) := by
    simp only [exprId, node, leaf, code_mk_expr_term, code_mk_term_factor, code_mk_factor_ID,
      code_mk_ID]
    rfl
  rw [hp, ok_bind]
  rfl

/-! ## C14: the null sentinel after `new` -/

/-- C14. For every `factor NEW INT LBRACK expr RBRACK` node the emitted code is the code of
the operand, push `$3`, pop `$1`, push `$31`, push `$29`, `lis $5`, `.word new`, `jalr $5`,
pop `$29`, pop `$31`, and then exactly the three lines `bne $3, $0, 2`, `lis $3`, `.word 69`:
the branch is followed by two instruction words, which load the sentinel 69 into `$3`, and
they are the last lines of the handler's output. -/
theorem new_sentinel (root expr : TreeNode) (st : State)
    (hp : root.production = "factor NEW INT LBRACK expr RBRACK")
    (h3 : root.children[3]? = some expr) :
    code root st = (do
      let r1 ← code expr st
      pure (r1.1 ++ push "$3" ++ pop "$1" ++ push "$31" ++ push "$29"
        ++ ["lis $5", ".word new", "jalr $5"] ++ pop "$29" ++ pop "$31"
        ++ ["bne $3, $0, 2", "lis $3", ".word 69"], r1.2)) ∧
    ∀ (out : List String) (st1 : State), code root st = .ok (out, st1) →
      out.drop (out.length - 3) = ["bne $3, $0, 2", "lis $3", ".word 69"] ∧
      ∃ pre, code expr st = .ok (pre, st1) ∧
        out = pre ++ ["sw $3, -4($30)", "sub $30, $30, $4", "add $30, $30, $4", "lw $1, -4($30)",
          "sw $31, -4($30)", "sub $30, $30, $4", "sw $29, -4($30)", "sub $30, $30, $4",
          "lis $5", ".word new", "jalr $5",
          "add $30, $30, $4", "lw $29, -4($30)", "add $30, $30, $4", "lw $31, -4($30)",
          "bne $3, $0, 2", "lis $3", ".word 69"] := by
  have hcode : code root st = (do
      let r1 ← code expr st
      pure (r1.1 ++ push "$3" ++ pop "$1" ++ push "$31" ++ push "$29"
        ++ ["lis $5", ".word new", "jalr $5"] ++ pop "$29" ++ pop "$31"
        ++ ["bne $3, $0, 2", "lis $3", ".word 69"], r1.2)) := by
    rw [code_eq_codeN st (by rw [hp]; decide), codeN, getProduction_eq_ok (by rw [hp]; decide),
      ok_bind, hp]
    simp only [↓reduceIte, String.reduceEq]
    rw [TreeNode.child_eq_ok h3, ok_bind]
  refine ⟨hcode, ?_⟩
  intro out st1 h
  rw [hcode] at h
  cases hr : code expr st with
  | error e => rw [hr] at h; cases h
  | ok r1 =>
    rw [hr, ok_bind] at h
    have h1 := Except.ok.inj h
    have ho : out = _ := (congrArg Prod.fst h1).symm
    have hs : st1 = r1.2 := (congrArg Prod.snd h1).symm
    subst ho
    subst hs
    have e : r1.1 ++ push "$3" ++ pop "$1" ++ push "$31" ++ push "$29"
        ++ ["lis $5", ".word new", "jalr $5"] ++ pop "$29" ++ pop "$31"
        ++ ["bne $3, $0, 2", "lis $3", ".word 69"]
        = (r1.1 ++ ["sw $3, -4($30)", "sub $30, $30, $4", "add $30, $30, $4", "lw $1, -4($30)",
          "sw $31, -4($30)", "sub $30, $30, $4", "sw $29, -4($30)", "sub $30, $30, $4",
          "lis $5", ".word new", "jalr $5",
          "add $30, $30, $4", "lw $29, -4($30)", "add $30, $30, $4", "lw $31, -4($30)"])
          ++ ["bne $3, $0, 2", "lis $3", ".word 69"] := by
      simp only [push, pop, List.append_assoc, List.cons_append, List.nil_append,
        String.reduceAppend]
    refine ⟨?_, r1.1, rfl, ?_⟩
    · show List.drop _ (_ : List String) = _
      rw [e, List.length_append]
      simp only [List.length_cons, List.length_nil, Nat.add_sub_cancel]
      exact List.drop_left _ _
    · simp only [push, pop, List.append_assoc, List.cons_append, List.nil_append,
        String.reduceAppend]

theorem new_sentinel_witness :
    code (node "factor" "factor NEW INT LBRACK expr RBRACK"
        [leaf "NEW" "new", leaf "INT" "int", leaf "LBRACK" "[", exprNum "5", leaf "RBRACK" "]"]
        "int*") statePQ
      = .ok (["lis $3", ".word 5",
          "sw $3, -4($30)", "sub $30, $30, $4", "add $30, $30, $4", "lw $1, -4($30)",
          "sw $31, -4($30)", "sub $30, $30, $4", "sw $29, -4($30)", "sub $30, $30, $4",
          "lis $5", ".word new", "jalr $5",
          "add $30, $30, $4", "lw $29, -4($30)", "add $30, $30, $4", "lw $31, -4($30)",
          "bne $3, $0, 2", "lis $3", ".word 69"], statePQ) := by
  have h := (new_sentinel (node "factor" "factor NEW INT LBRACK expr RBRACK"
        [leaf "NEW" "new", leaf "INT" "int", leaf "LBRACK" "[", exprNum "5", leaf "RBRACK" "]"]
        "int*") (exprNum "5") statePQ (by rfl) (by simp [node, TreeNode.children])).1
  rw [h, code_exprNum, ok_bind]
  rfl

/-! ## C15: offsets of locals -/

namespace SymbolTable

theorem localsFrom_keys (c : Int) (ls : List (Identifier × WType)) :
    (localsFrom c ls).map Prod.fst = ls.map Prod.fst := by
  induction ls generalizing c with
  | nil => rfl
  | cons p ps ih => simp [localsFrom, ih]

theorem localsFrom_nonpos (c : Int) (hc : c ≤ 0) (ls : List (Identifier × WType))
    (hb : -2147483648 ≤ c - 4 * (ls.length : Int) + 4) :
    ∀ var ∈ localsFrom c ls, var.2.2 ≤ 0 := by
  induction ls generalizing c with
  | nil => intro var h; simp [localsFrom] at h
  | cons p ps ih =>
    intro var h
    simp only [localsFrom, List.mem_cons] at h
    rcases h with h | h
    · subst h; exact hc
    · cases ps with
      | nil => simp [localsFrom] at h
      | cons q qs =>
        simp only [List.length_cons, Nat.cast_add, Nat.cast_one] at hb
        rw [wrapInt_of_range (c - 4) (by omega) (by omega)] at h
        exact ih (c - 4) (by omega)
          (by simp only [List.length_cons, Nat.cast_add, Nat.cast_one]; omega) var h

theorem localsFrom_mem (c : Int) (hc : wrapInt c = c) (ls : List (Identifier × WType))
    (i : Nat) (h : i < ls.length) :
    ((ls[i]).1, ((ls[i]).2, wrapInt (c - 4 * (i : Int)))) ∈ localsFrom c ls := by
  induction ls generalizing c i with
  | nil => simp at h
  | cons p ps ih =>
    cases i with
    | zero => simp [localsFrom, hc]
    | succ j =>
      have hj : j < ps.length := by simpa using h
      have hm := ih (wrapInt (c - 4)) (wrapInt_wrapInt _) j hj
      have e : wrapInt (wrapInt (c - 4) - 4 * (j : Int))
          = wrapInt (c - 4 * ((j + 1 : Nat) : Int)) := by
        rw [sub_eq_add_neg (wrapInt (c - 4)), wrapInt_wrapInt_add]
        congr 1
        push_cast
        ring
      rw [e] at hm
      simp only [localsFrom, List.getElem_cons_succ, List.mem_cons]
      exact Or.inr hm

theorem insertLocals_varTable (ls : List (Identifier × WType)) (t : SymbolTable)
    (hd : (ls.map Prod.fst).Nodup)
    (hdisj : ∀ id ∈ ls.map Prod.fst, id ∉ t.varTable.map Prod.fst) :
    (insertLocals t ls).varTable = t.varTable ++ localsFrom t.localCtr ls := by
  induction ls generalizing t with
  | nil => simp [insertLocals, localsFrom]
  | cons p ps ih =>
    have hp : find t.varTable p.1 = none :=
      (find_eq_none_iff _ _).2 (hdisj p.1 (by simp))
    simp only [List.map_cons, List.nodup_cons] at hd
    have hstep : t.insertLocalVariable p.1 p.2 =
        { varTable := t.varTable ++ [(p.1, (p.2, t.localCtr))],
          localCtr := wrapInt (t.localCtr - 4), paramCtr := t.paramCtr } := by
      simp [insertLocalVariable, mapInsert, hp]
    have hih := ih (t.insertLocalVariable p.1 p.2) hd.2 (by
      intro id hid
      rw [hstep]
      simp only [List.map_append, List.map_cons, List.map_nil, List.mem_append,
        List.mem_singleton, not_or]
      refine ⟨hdisj id (by simp only [List.map_cons, List.mem_cons]; exact Or.inr hid), ?_⟩
      intro h; subst h; exact hd.1 hid)
    show (insertLocals (t.insertLocalVariable p.1 p.2) ps).varTable = _
    rw [hih, hstep]
    simp only [localsFrom, List.append_assoc, List.singleton_append]

theorem insertLocals_localCtr (ls : List (Identifier × WType)) (t : SymbolTable)
    (hc : wrapInt t.localCtr = t.localCtr) :
    (insertLocals t ls).localCtr = wrapInt (t.localCtr - 4 * (ls.length : Int)) := by
  induction ls generalizing t with
  | nil => simp [insertLocals, hc]
  | cons p ps ih =>
    have h := ih (t.insertLocalVariable p.1 p.2) (wrapInt_wrapInt _)
    show (insertLocals (t.insertLocalVariable p.1 p.2) ps).localCtr = _
    rw [h]
    show wrapInt (wrapInt (t.localCtr - 4) - 4 * (ps.length : Int)) = _
    rw [sub_eq_add_neg (wrapInt (t.localCtr - 4)), wrapInt_wrapInt_add]
    congr 1
    simp only [List.length_cons]
    push_cast
    ring

theorem invertParamOffsets_of_nonpos (t : SymbolTable)
    (h : ∀ var ∈ t.varTable, var.2.2 ≤ 0) : t.invertParamOffsets = t := by
  have hmap : t.invertParamOffsets.varTable = t.varTable := by
    rw [invertParamOffsets_varTable]
    conv_rhs => rw [← List.map_id t.varTable]
    apply List.map_congr_left
    intro var hv
    have hle := h var hv
    have hn : ¬ var.2.2 > 0 := by omega
    simp only [invertEntry, hn, if_false, id]
  cases t with
  | mk vt lc pc =>
    simp only [invertParamOffsets] at hmap ⊢
    rw [hmap]

/-- Lookup of the `k`-th of the locals `locals` after insertion into a fresh table. -/
theorem getVariable_local (locals : List (Identifier × WType))
    (hd : (locals.map Prod.fst).Nodup) (k : Nat) (hk : k < locals.length) :
    (insertLocals {} locals).getVariable (locals[k]).1
      = .ok ((locals[k]).2, wrapInt (0 - 4 * (k : Int))) := by
  have hvt : (insertLocals {} locals).varTable = localsFrom 0 locals := by
    rw [insertLocals_varTable locals {} hd (by intro id _; simp)]
    rfl
  have hmem := localsFrom_mem 0 (by decide) locals k hk
  rw [← hvt] at hmem
  have hkeys : ((insertLocals {} locals).varTable.map Prod.fst).Nodup := by
    rw [hvt, localsFrom_keys]; exact hd
  have hfind := find_of_mem_nodup _ _ _ hkeys hmem
  simp only [getVariable, hfind]

end SymbolTable

/-- C15, counterexample. With the `2^29 + 2` locals `manyDcls (2^29 + 2)` the counter
`localCtr` reaches `-2^31` before the last insertion and the next decrement wraps: the
last local is bound to `2147483644`, a positive offset, not to `-4 * (2^29 + 1)`. -/
theorem local_offset_wraps :
    (manyDcls 536870914).length = 536870914 ∧
    ((manyDcls 536870914).map Prod.fst).Nodup ∧
    (insertLocals {} (manyDcls 536870914)).getVariable
        (ident 536870913) = .ok ("int", 2147483644) ∧
    (2147483644 : Int) ≠ -4 * ((536870914 : Int) - 1) ∧
    (SymbolTable.insertLocalVariable { localCtr := -2147483648 } "x" "int").localCtr
      = 2147483644 := by
  have hlen := manyDcls_length 536870914
  have hk : 536870913 < (manyDcls 536870914).length := by rw [hlen]; decide
  have h := SymbolTable.getVariable_local (manyDcls 536870914) (manyDcls_nodup _)
    536870913 hk
  rw [manyDcls_get 536870914 536870913 hk] at h
  have hw : wrapInt (0 - 4 * ((536870913 : Nat) : Int)) = 2147483644 := by decide
  rw [hw] at h
  exact ⟨hlen, manyDcls_nodup _, h, by decide, by decide⟩

/-- C15, amended. Inserting `n <= 2^29` locals with pairwise distinct identifiers (no `int`
operation overflows in this range) into a fresh symbol table in declaration order binds
the `i`-th one (1-based) to offset `-4 * (i - 1)`: 0, -4, -8, ..., strictly decreasing,
with `localCtr` left at `-4 * n`; a later `invertParamOffsets` changes nothing in the
table, so every one of these lookups returns the same offset afterwards. -/
theorem local_offsets (locals : List (Identifier × WType))
    (hB : locals.length ≤ 536870912) (hd : (locals.map Prod.fst).Nodup) :
    (∀ (i : Nat) (h1 : 1 ≤ i) (h2 : i ≤ locals.length),
      (insertLocals {} locals).getVariable (locals.get ⟨i - 1, by omega⟩).1
        = .ok ((locals.get ⟨i - 1, by omega⟩).2, -4 * ((i : Int) - 1))) ∧
    (∀ (i j : Nat), 1 ≤ i → i < j → j ≤ locals.length →
      -4 * ((j : Int) - 1) < -4 * ((i : Int) - 1)) ∧
    (insertLocals {} locals).localCtr = -4 * (locals.length : Int) ∧
    (insertLocals {} locals).invertParamOffsets = insertLocals {} locals ∧
    (∀ (i : Nat) (h1 : 1 ≤ i) (h2 : i ≤ locals.length),
      ((insertLocals {} locals).invertParamOffsets).getVariable
          (locals.get ⟨i - 1, by omega⟩).1
        = .ok ((locals.get ⟨i - 1, by omega⟩).2, -4 * ((i : Int) - 1))) := by
  have hvt : (insertLocals {} locals).varTable = SymbolTable.localsFrom 0 locals := by
    rw [SymbolTable.insertLocals_varTable locals {} hd (by intro id _; simp)]
    rfl
  have hmain : ∀ (i : Nat) (h1 : 1 ≤ i) (h2 : i ≤ locals.length),
      (insertLocals {} locals).getVariable (locals.get ⟨i - 1, by omega⟩).1
        = .ok ((locals.get ⟨i - 1, by omega⟩).2, -4 * ((i : Int) - 1)) := by
    intro i h1 h2
    have h := SymbolTable.getVariable_local locals hd (i - 1) (by omega)
    have e : wrapInt (0 - 4 * ((i - 1 : Nat) : Int)) = -4 * ((i : Int) - 1) := by
      rw [wrapInt_of_range _ (by omega) (by omega)]
      omega
    rw [e] at h
    simp only [List.get_eq_getElem]
    exact h
  have hinv : (insertLocals {} locals).invertParamOffsets = insertLocals {} locals := by
    apply SymbolTable.invertParamOffsets_of_nonpos
    rw [hvt]
    exact SymbolTable.localsFrom_nonpos 0 (le_refl 0) locals (by omega)
  refine ⟨hmain, ?_, ?_, hinv, ?_⟩
  · intro i j _ hij _
    omega
  · have h := SymbolTable.insertLocals_localCtr locals {} (by decide)
    rw [h]
    show wrapInt ((0 : Int) - 4 * (locals.length : Int)) = _
    rw [wrapInt_of_range _ (by omega) (by omega)]
    ring
  · intro i h1 h2
    rw [hinv]
    exact hmain i h1 h2

theorem local_offsets_witness :
    (insertLocals {} [("a", "int"), ("b", "int*"), ("c", "int")]).getVariable "a"
      = .ok ("int", 0) ∧
    (insertLocals {} [("a", "int"), ("b", "int*"), ("c", "int")]).getVariable "b"
      = .ok ("int*", -4) ∧
    ((insertLocals {} [("a", "int"), ("b", "int*"), ("c", "int")]).invertParamOffsets
        ).getVariable "c" = .ok ("int", -8) :=
  have h := local_offsets [("a", "int"), ("b", "int*"), ("c", "int")] (by decide) (by decide)
  ⟨h.1 1 (by decide) (by decide), h.1 2 (by decide) (by decide),
    h.2.2.2.2 3 (by decide) (by decide)⟩

/-! ## C16: the contract of `insertLocalVariable` -/

theorem SymbolTable.find_append_new (vt : List (Identifier × (WType × Int))) (id : Identifier)
    (v : WType × Int) (h : SymbolTable.find vt id = none) :
    SymbolTable.find (vt ++ [(id, v)]) id = some v := by
  induction vt with
  | nil => simp [SymbolTable.find]
  | cons kv rest ih =>
    obtain ⟨k, w⟩ := kv
    by_cases hk : k = id
    · simp [SymbolTable.find, hk] at h
    · simp only [SymbolTable.find, hk, if_false] at h
      simp only [List.cons_append, SymbolTable.find, hk, if_false]
      exact ih h

/-- C16, counterexample. With `x` already bound to `(int, 0)` and `localCtr = -4`,
`insertLocalVariable("x", "int*")` leaves the lookup of `x` at `(int, 0)`: it is not
`(int*, -4)`, the inserted type with the counter before the call. -/
theorem insertLocal_keeps_binding :
    (tableX.insertLocalVariable "x" "int*").getVariable "x" = .ok ("int", 0) ∧
    (tableX.insertLocalVariable "x" "int*").getVariable "x" ≠ .ok ("int*", tableX.localCtr) := by
  have h0 : (tableX.insertLocalVariable "x" "int*").getVariable "x" = .ok ("int", 0) := rfl
  refine ⟨h0, ?_⟩
  intro h
  rw [h0] at h
  have h1 := congrArg Prod.fst (Except.ok.inj h)
  revert h1
  decide

/-- C16, amended. For every symbol table `t`, identifier `id` and type `ty`: when `id` is not
bound in `t`, after `insertLocalVariable(id, ty)` the lookup of `id` returns `(ty, c)` with
`c` the value of `localCtr` before the call; when `id` is already bound, its binding is
unchanged; in both cases `localCtr` afterwards is `c - 4` in the 32-bit arithmetic of
`int`: `c - 4` itself when `c` is an `int` not below `-2^31 + 4`, and wrapped around
otherwise. -/
theorem insertLocal_contract (t : SymbolTable) (id : Identifier) (ty : WType) :
    (SymbolTable.find t.varTable id = none →
      (t.insertLocalVariable id ty).getVariable id = .ok (ty, t.localCtr)) ∧
    (∀ v, SymbolTable.find t.varTable id = some v →
      (t.insertLocalVariable id ty).getVariable id = .ok v) ∧
    (t.insertLocalVariable id ty).localCtr = wrapInt (t.localCtr - 4) ∧
    (-2147483644 ≤ t.localCtr → t.localCtr < 2147483648 →
      (t.insertLocalVariable id ty).localCtr = t.localCtr - 4) := by
  refine ⟨?_, ?_, rfl, ?_⟩
  · intro h
    simp only [SymbolTable.insertLocalVariable, SymbolTable.mapInsert, h,
      SymbolTable.getVariable, SymbolTable.find_append_new _ _ _ h]
  · intro v h
    simp only [SymbolTable.insertLocalVariable, SymbolTable.mapInsert, h,
      SymbolTable.getVariable]
  · intro h1 h2
    exact wrapInt_of_range _ (by omega) (by omega)

theorem insertLocal_contract_witness :
    (tableX.insertLocalVariable "y" "int*").getVariable "y" = .ok ("int*", -4) ∧
    (tableX.insertLocalVariable "x" "int*").getVariable "x" = .ok ("int", 0) ∧
    (tableX.insertLocalVariable "y" "int*").localCtr = tableX.localCtr - 4 :=
  ⟨(insertLocal_contract tableX "y" "int*").1 (by rfl),
   (insertLocal_contract tableX "x" "int*").2.1 ("int", 0) (by rfl),
   (insertLocal_contract tableX "y" "int*").2.2.2 (by decide) (by decide)⟩

/-! ## C17: lookups address the current scope only -/

theorem getOffset_error_of_getVariable (stk : SymbolTableStack) (id : Identifier) (e : Err)
    (h : stk.getVariable id = .error e) : stk.getOffset id = .error e := by
  unfold SymbolTableStack.getVariable at h
  unfold SymbolTableStack.getOffset
  cases hc : stk.current with
  | error e1 =>
    rw [hc, error_bind] at h
    rw [error_bind, Except.error.inj h]
  | ok t =>
    rw [hc, ok_bind] at h
    rw [ok_bind, SymbolTable.getOffset, h]
    rfl

theorem code_lvalue_ID {root idNode : TreeNode} (st : State)
    (hp : root.production = "lvalue ID") (h0 : root.children[0]? = some idNode) :
    code root st = (do
      let tok ← idNode.getToken
      let off ← st.g_tables.getOffset tok.lexeme
      pure (["lis $5", ".word " ++ off, "add $3, $29, $5"], st)) := by
  rw [code_eq_codeN st (by rw [hp]; decide), codeN, getProduction_eq_ok (by rw [hp]; decide),
    ok_bind, hp]
  simp only [↓reduceIte, String.reduceEq]
  rw [TreeNode.child_eq_ok h0, ok_bind]

/-- C17 (lookup contract). `SymbolTableStack::getVariable(id)` succeeds exactly when the
stack is non-empty and `id` is bound in the topmost table, and then returns that table's
`(type, offset)`; the lookup is a function of the stack and writes nothing. It throws on
the empty stack, and for every `id` right after `push()`, whatever the tables below bind.
Emitting an `ID` leaf or an `lvalue ID` node whose identifier the lookup rejects throws
instead of returning assembly. -/
theorem lookup_contract :
    (∀ (stk : SymbolTableStack) (id : Identifier) (v : WType × Int),
      stk.getVariable id = .ok v ↔
        ∃ t rest, stk.s = t :: rest ∧ SymbolTable.find t.varTable id = some v) ∧
    (∀ (stk : SymbolTableStack) (id : Identifier),
      (¬ ∃ t rest, stk.s = t :: rest ∧ (SymbolTable.find t.varTable id).isSome = true) →
        stk.getVariable id = .error .thrown) ∧
    (∀ (id : Identifier), SymbolTableStack.getVariable { s := [] } id = .error .thrown) ∧
    (∀ (stk : SymbolTableStack) (id : Identifier),
      stk.push.getVariable id = .error .thrown) ∧
    (∀ (root : TreeNode) (st : State) (e : Err), root.production = "" → root.symbol = "ID" →
      st.g_tables.getVariable root.token.lexeme = .error e →
      code root st = .error .thrown) ∧
    (∀ (root idNode : TreeNode) (st : State) (e : Err), root.production = "lvalue ID" →
      root.children[0]? = some idNode → idNode.production = "" →
      st.g_tables.getVariable idNode.token.lexeme = .error e →
      code root st = .error .thrown) := by
  have hchar : ∀ (stk : SymbolTableStack) (id : Identifier) (v : WType × Int),
      stk.getVariable id = .ok v ↔
        ∃ t rest, stk.s = t :: rest ∧ SymbolTable.find t.varTable id = some v := by
    intro stk id v
    obtain ⟨s⟩ := stk
    cases s with
    | nil =>
      constructor
      · intro h; cases h
      · rintro ⟨t, rest, h, _⟩; cases h
    | cons t rest =>
      show t.getVariable id = .ok v ↔ _
      unfold SymbolTable.getVariable
      constructor
      · intro h
        refine ⟨t, rest, rfl, ?_⟩
        cases hf : SymbolTable.find t.varTable id with
        | none => rw [hf] at h; cases h
        | some w => rw [hf] at h; exact congrArg some (Except.ok.inj h)
      · rintro ⟨t1, rest1, h, hf⟩
        have h1 : t :: rest = t1 :: rest1 := h
        have ht : t = t1 := (List.cons.inj h1).1
        subst ht
        rw [hf]
  have hthrown : ∀ (stk : SymbolTableStack) (id : Identifier) (e : Err),
      stk.getVariable id = .error e → e = .thrown := by
    intro stk id e h
    obtain ⟨s⟩ := stk
    cases s with
    | nil => exact (Except.error.inj h).symm
    | cons t rest =>
      change t.getVariable id = .error e at h
      unfold SymbolTable.getVariable at h
      cases hf : SymbolTable.find t.varTable id with
      | none => rw [hf] at h; exact (Except.error.inj h).symm
      | some w => rw [hf] at h; cases h
  have hfail : ∀ (stk : SymbolTableStack) (id : Identifier),
      (¬ ∃ t rest, stk.s = t :: rest ∧ (SymbolTable.find t.varTable id).isSome = true) →
        stk.getVariable id = .error .thrown := by
    intro stk id hn
    cases hg : stk.getVariable id with
    | error e => rw [hthrown stk id e hg]
    | ok v =>
      exfalso
      obtain ⟨t, rest, hs, hf⟩ := (hchar stk id v).1 hg
      exact hn ⟨t, rest, hs, by rw [hf]; rfl⟩
  refine ⟨hchar, hfail, fun id => rfl, fun stk id => rfl, ?_, ?_⟩
  · intro root st e hp hs hv
    have he := hthrown _ _ e hv
    subst he
    rw [code_eq_codeT st hp, codeT, getToken_eq_ok hp, ok_bind]
    simp only [TreeNode.getSymbol, hs, String.reduceEq, ↓reduceIte,
      getOffset_error_of_getVariable _ _ _ hv]
    rfl
  · intro root idNode st e hp h0 hid hv
    have he := hthrown _ _ e hv
    subst he
    rw [code_lvalue_ID st hp h0, getToken_eq_ok hid, ok_bind,
      getOffset_error_of_getVariable _ _ _ hv]
    rfl

theorem lookup_contract_witness :
    stackXBelow.getVariable "x" = .error .thrown ∧
    code (leaf "ID" "x" "int") { g_tables := stackXBelow, labelCtr := 0 } = .error .thrown ∧
    code (lvalueId "x") { g_tables := stackXBelow, labelCtr := 0 } = .error .thrown ∧
    SymbolTableStack.getVariable { s := [tableX] } "x" = .ok ("int", 0) :=
  ⟨lookup_contract.2.1 stackXBelow "x" (by
      rintro ⟨t, rest, hs, hf⟩
      have ht : t = {} := by
        have h := congrArg List.head? hs
        exact (Option.some.inj h).symm
      subst ht
      cases hf),
   lookup_contract.2.2.2.2.1 (leaf "ID" "x" "int") { g_tables := stackXBelow, labelCtr := 0 }
     .thrown (by rfl) (by rfl) (by rfl),
   lookup_contract.2.2.2.2.2 (lvalueId "x") (leaf "ID" "x" "int")
     { g_tables := stackXBelow, labelCtr := 0 } .thrown (by rfl)
     (by simp [lvalueId, node, TreeNode.children]) (by rfl) (by rfl),
   (lookup_contract.1 { s := [tableX] } "x" ("int", 0)).2 ⟨tableX, [], rfl, by rfl⟩⟩

/-! ## C18: terminal dispatch -/

theorem render_two (a b : String) : render [a, b] = a ++ "\n" ++ (b ++ "\n") := by
  simp [render, String.join]

theorem render_one (a : String) : render [a] = a ++ "\n" := by
  simp [render, String.join]

theorem getOffset_of_getVariable (stk : SymbolTableStack) (id : Identifier) (ty : WType)
    (offset : Int) (h : stk.getVariable id = .ok (ty, offset)) :
    stk.getOffset id = .ok (toString offset) := by
  unfold SymbolTableStack.getVariable at h
  unfold SymbolTableStack.getOffset
  cases hc : stk.current with
  | error e => rw [hc] at h; cases h
  | ok t =>
    rw [hc, ok_bind] at h
    rw [ok_bind, SymbolTable.getOffset, h]
    rfl

theorem codeT_state (root : TreeNode) (st st1 : State) (out : List String)
    (h : codeT root st = .ok (out, st1)) : st1 = st := by
  unfold codeT at h
  cases ht : root.getToken with
  | error e => rw [ht] at h; cases h
  | ok tok =>
    rw [ht, ok_bind] at h
    dsimp only at h
    split at h
    · exact (congrArg Prod.snd (Except.ok.inj h)).symm
    · split at h
      · exact (congrArg Prod.snd (Except.ok.inj h)).symm
      · split at h
        · cases ho : st.g_tables.getOffset tok.lexeme with
          | error e => rw [ho] at h; cases h
          | ok off =>
            rw [ho, ok_bind] at h
            exact (congrArg Prod.snd (Except.ok.inj h)).symm
        · exact (congrArg Prod.snd (Except.ok.inj h)).symm

/-- C18 (terminal dispatch). For every terminal node, `codeT` returns `lis $3` and
`.word <lexeme>` (the lexeme verbatim) when the symbol is `NUM`, `lis $3` and `.word 69`
when it is `NULL`, `lw $3, <offset>($29)` with the offset in signed decimal when it is `ID`
and the lexeme is bound to `<offset>` in the current scope, and nothing for every other
symbol; the symbol tables and the label counter are returned unchanged in every case. -/
theorem terminal_dispatch (root : TreeNode) (st : State) (hT : root.production = "") :
    (root.symbol = "NUM" →
      codeT root st = .ok (["lis $3", ".word " ++ root.token.lexeme], st) ∧
      render ["lis $3", ".word " ++ root.token.lexeme]
        = "lis $3\n" ++ (".word " ++ root.token.lexeme ++ "\n")) ∧
    (root.symbol = "NULL" →
      codeT root st = .ok (["lis $3", ".word 69"], st) ∧
      render ["lis $3", ".word 69"] = "lis $3\n.word 69\n") ∧
    (root.symbol = "ID" → ∀ (ty : WType) (offset : Int),
      st.g_tables.getVariable root.token.lexeme = .ok (ty, offset) →
      codeT root st = .ok (["lw $3, " ++ toString offset ++ "($29)"], st) ∧
      render ["lw $3, " ++ toString offset ++ "($29)"]
        = "lw $3, " ++ toString offset ++ "($29)\n") ∧
    (root.symbol ≠ "NUM" → root.symbol ≠ "NULL" → root.symbol ≠ "ID" →
      codeT root st = .ok ([], st) ∧ render [] = "") ∧
    (∀ (out : List String) (st1 : State), codeT root st = .ok (out, st1) → st1 = st) := by
  refine ⟨?_, ?_, ?_, ?_, ?_⟩
  · intro hs
    refine ⟨?_, ?_⟩
    · rw [← code_eq_codeT st hT]; exact code_NUM st hT hs
    · rw [render_two]; rfl
  · intro hs
    refine ⟨?_, by decide⟩
    rw [← code_eq_codeT st hT]; exact code_NULL st hT hs
  · intro hs ty offset hv
    refine ⟨?_, ?_⟩
    · rw [← code_eq_codeT st hT]
      exact code_ID st hT hs (getOffset_of_getVariable _ _ ty offset hv)
    · rw [render_one, String.append_assoc]
      rfl
  · intro h1 h2 h3
    refine ⟨?_, by decide⟩
    rw [← code_eq_codeT st hT]; exact code_other_terminal st hT h1 h2 h3
  · intro out st1 h
    exact codeT_state root st st1 out h

theorem terminal_dispatch_witness :
    codeT (leaf "ID" "q" "int*") statePQ = .ok (["lw $3, -4($29)"], statePQ) ∧
    render ["lw $3, -4($29)"] = "lw $3, -4($29)\n" := by
  have h := (terminal_dispatch (leaf "ID" "q" "int*") statePQ (by rfl)).2.2.1 (by rfl) "int*"
    (-4) (by rfl)
  have e : toString (-4 : Int) = "-4" := by rfl
  rw [e] at h
  exact h

/-! ## Unfolding lemmas for the loader -/

theorem loadParseTree_nil (isProduction : String → Bool) :
    loadParseTree isProduction [] = .error .thrown := by
  rw [loadParseTree, loadParseTreeCert]
  rfl

theorem loadChildren_nil (isProduction : String → Bool) (stream : List String) :
    loadChildren isProduction [] stream = .ok ([], stream) := by
  rw [loadChildren, loadChildrenCert]
  rfl

theorem loadParseTree_cons (isProduction : String → Bool) (line : String)
    (stream : List String) :
    loadParseTree isProduction (line :: stream) =
      (match stripType line with
      | .error e => .error e
      | .ok (type, parsedLine, line1) =>
        if isProduction line1 then
          match parsedLine with
          | [] => .error .undefined
          | sym :: rhs =>
            match loadChildren isProduction rhs stream with
            | .error e => .error e
            | .ok r => .ok (TreeNode.mk type sym line1 {} r.1, r.2)
        else
          match parsedLine with
          | kind :: lexeme :: _ => .ok (TreeNode.mk type kind "" ⟨kind, lexeme⟩ [], stream)
          | _ => .error .undefined) := by
  rw [loadParseTree, loadParseTreeCert]
  cases hs : stripType line with
  | error e => rfl
  | ok v =>
    obtain ⟨type, parsedLine, line1⟩ := v
    dsimp only
    by_cases hp : isProduction line1 = true
    · rw [if_pos hp, if_pos hp]
      cases parsedLine with
      | nil => rfl
      | cons sym rhs =>
        dsimp only
        rw [loadChildren]
        cases loadChildrenCert isProduction rhs stream with
        | error e => rfl
        | ok r => rfl
    · rw [if_neg hp, if_neg hp]
      cases parsedLine with
      | nil => rfl
      | cons kind rest =>
        cases rest with
        | nil => rfl
        | cons lexeme rest2 => rfl

theorem loadChildren_cons (isProduction : String → Bool) (sym : String) (rest : List String)
    (stream : List String) :
    loadChildren isProduction (sym :: rest) stream =
      (if sym = ".EMPTY" then
        match loadChildren isProduction rest stream with
        | .error e => .error e
        | .ok r => .ok (TreeNode.new ".EMPTY" :: r.1, r.2)
      else
        match loadParseTree isProduction stream with
        | .error e => .error e
        | .ok c =>
          match loadChildren isProduction rest c.2 with
          | .error e => .error e
          | .ok r => .ok (c.1 :: r.1, r.2)) := by
  rw [loadChildren, loadChildrenCert]
  by_cases hs : sym = ".EMPTY"
  · rw [if_pos hs, if_pos hs, loadChildren]
    cases loadChildrenCert isProduction rest stream with
    | error e => rfl
    | ok r => rfl
  · rw [if_neg hs, if_neg hs, loadParseTree]
    cases loadParseTreeCert isProduction stream with
    | error e => rfl
    | ok c =>
      dsimp only [Except.map]
      rw [loadChildren]
      cases loadChildrenCert isProduction rest c.1.2 with
      | error e => rfl
      | ok r => rfl

theorem loadParseTree_length (isProduction : String → Bool) (stream : List String)
    (r : TreeNode × List String) (h : loadParseTree isProduction stream = .ok r) :
    r.2.length < stream.length := by
  rw [loadParseTree] at h
  cases hc : loadParseTreeCert isProduction stream with
  | error e => rw [hc] at h; cases h
  | ok c =>
    rw [hc] at h
    have h1 : c.1 = r := Except.ok.inj h
    rw [← h1]
    exact c.2

theorem loadChildren_length (isProduction : String → Bool) (rhs : List String)
    (stream : List String) (r : List TreeNode × List String)
    (h : loadChildren isProduction rhs stream = .ok r) :
    r.2.length ≤ stream.length := by
  rw [loadChildren] at h
  cases hc : loadChildrenCert isProduction rhs stream with
  | error e => rw [hc] at h; cases h
  | ok c =>
    rw [hc] at h
    have h1 : c.1 = r := Except.ok.inj h
    rw [← h1]
    exact c.2

theorem loadParseTree_terminal (isProduction : String → Bool) (line : String)
    (stream : List String) (type kind lexeme line1 : String) (more : List String)
    (hs : stripType line = .ok (type, kind :: lexeme :: more, line1))
    (hp : isProduction line1 = false) :
    loadParseTree isProduction (line :: stream)
      = .ok (TreeNode.mk type kind "" ⟨kind, lexeme⟩ [], stream) := by
  rw [loadParseTree_cons, hs]
  simp only [hp, Bool.false_eq_true, if_false]

theorem loadParseTree_production (isProduction : String → Bool) (line : String)
    (stream : List String) (type sym line1 : String) (rhs : List String)
    (hs : stripType line = .ok (type, sym :: rhs, line1))
    (hp : isProduction line1 = true) :
    loadParseTree isProduction (line :: stream)
      = (match loadChildren isProduction rhs stream with
        | .error e => .error e
        | .ok r => .ok (TreeNode.mk type sym line1 {} r.1, r.2)) := by
  rw [loadParseTree_cons, hs]
  simp only [hp, if_true]

/-- Induction along the recursion of the loader: a property of successful loads that holds
for terminal lines, is passed from the children to a production line, and is passed along
the children loop, holds for every successful load. -/
theorem load_induction (isProduction : String → Bool)
    (PT : List String → TreeNode × List String → Prop)
    (PC : List String → List String → List TreeNode × List String → Prop)
    (hterm : ∀ (line : String) (s : List String) (type kind lexeme line1 : String)
      (more : List String), stripType line = .ok (type, kind :: lexeme :: more, line1) →
      isProduction line1 = false →
      PT (line :: s) (TreeNode.mk type kind "" ⟨kind, lexeme⟩ [], s))
    (hprod : ∀ (line : String) (s : List String) (type sym line1 : String)
      (rhs : List String) (cs : List TreeNode) (rest : List String),
      stripType line = .ok (type, sym :: rhs, line1) → isProduction line1 = true →
      loadChildren isProduction rhs s = .ok (cs, rest) → PC rhs s (cs, rest) →
      PT (line :: s) (TreeNode.mk type sym line1 {} cs, rest))
    (hnil : ∀ (s : List String), PC [] s ([], s))
    (hempty : ∀ (rhs s : List String) (cs : List TreeNode) (rest : List String),
      loadChildren isProduction rhs s = .ok (cs, rest) → PC rhs s (cs, rest) →
      PC (".EMPTY" :: rhs) s (TreeNode.new ".EMPTY" :: cs, rest))
    (hcons : ∀ (sym : String) (rhs s : List String) (c : TreeNode) (rest1 : List String)
      (cs : List TreeNode) (rest : List String), sym ≠ ".EMPTY" →
      loadParseTree isProduction s = .ok (c, rest1) → PT s (c, rest1) →
      loadChildren isProduction rhs rest1 = .ok (cs, rest) → PC rhs rest1 (cs, rest) →
      PC (sym :: rhs) s (c :: cs, rest)) :
    (∀ (s : List String) (r : TreeNode × List String),
      loadParseTree isProduction s = .ok r → PT s r) ∧
    (∀ (rhs s : List String) (r : List TreeNode × List String),
      loadChildren isProduction rhs s = .ok r → PC rhs s r) := by
  have key : ∀ (n : Nat) (s : List String), s.length < n →
      (∀ r, loadParseTree isProduction s = .ok r → PT s r) ∧
      (∀ rhs r, loadChildren isProduction rhs s = .ok r → PC rhs s r) := by
    intro n
    induction n with
    | zero => intro s h; omega
    | succ n ih =>
      intro s hs
      have hT : ∀ r, loadParseTree isProduction s = .ok r → PT s r := by
        intro r h
        cases s with
        | nil => rw [loadParseTree_nil] at h; cases h
        | cons line s1 =>
          rw [loadParseTree_cons] at h
          cases hst : stripType line with
          | error e => rw [hst] at h; cases h
          | ok v =>
            obtain ⟨type, parsedLine, line1⟩ := v
            rw [hst] at h
            dsimp only at h
            by_cases hp : isProduction line1 = true
            · rw [if_pos hp] at h
              cases parsedLine with
              | nil => cases h
              | cons sym rhs =>
                dsimp only at h
                cases hc : loadChildren isProduction rhs s1 with
                | error e => rw [hc] at h; cases h
                | ok rc =>
                  rw [hc] at h
                  have hr := Except.ok.inj h
                  rw [← hr]
                  have hlen : s1.length < n := by
                    simp only [List.length_cons] at hs; omega
                  exact hprod line s1 type sym line1 rhs rc.1 rc.2 hst hp hc
                    ((ih s1 hlen).2 rhs rc hc)
            · rw [if_neg hp] at h
              have hp2 : isProduction line1 = false := by
                cases hb : isProduction line1 with
                | true => exact absurd hb hp
                | false => rfl
              cases parsedLine with
              | nil => cases h
              | cons kind rest =>
                cases rest with
                | nil => cases h
                | cons lexeme more =>
                  have hr := Except.ok.inj h
                  rw [← hr]
                  exact hterm line s1 type kind lexeme line1 more hst hp2
      refine ⟨hT, ?_⟩
      intro rhs
      induction rhs generalizing s with
      | nil =>
        intro r h
        rw [loadChildren_nil] at h
        rw [← Except.ok.inj h]
        exact hnil s
      | cons sym rhs ihr =>
        intro r h
        rw [loadChildren_cons] at h
        by_cases hsym : sym = ".EMPTY"
        · rw [if_pos hsym] at h
          cases hc : loadChildren isProduction rhs s with
          | error e => rw [hc] at h; cases h
          | ok rc =>
            rw [hc] at h
            rw [← Except.ok.inj h, hsym]
            exact hempty rhs s rc.1 rc.2 hc (ihr s hs hT rc hc)
        · rw [if_neg hsym] at h
          cases ht : loadParseTree isProduction s with
          | error e => rw [ht] at h; cases h
          | ok c =>
            rw [ht] at h
            dsimp only at h
            cases hc : loadChildren isProduction rhs c.2 with
            | error e => rw [hc] at h; cases h
            | ok rc =>
              rw [hc] at h
              rw [← Except.ok.inj h]
              have hlen := loadParseTree_length isProduction s c ht
              have hlt : c.2.length < n + 1 := by omega
              exact hcons sym rhs s c.1 c.2 rc.1 rc.2 hsym ht (hT c ht) hc
                (ihr c.2 hlt (ih c.2 (by omega)).1 rc hc)
  exact ⟨fun s r h => (key (s.length + 1) s (Nat.lt_succ_self _)).1 r h,
    fun rhs s r h => (key (s.length + 1) s (Nat.lt_succ_self _)).2 rhs r h⟩

/-! ### Lines read by a successful load -/

theorem loadParseTree_error_of_children (isProduction : String → Bool) (line : String)
    (stream : List String) (type sym line1 : String) (rhs : List String) (e : Err)
    (hs : stripType line = .ok (type, sym :: rhs, line1))
    (hp : isProduction line1 = true)
    (hc : loadChildren isProduction rhs stream = .error e) :
    loadParseTree isProduction (line :: stream) = .error e := by
  rw [loadParseTree_production isProduction line stream type sym line1 rhs hs hp, hc]

theorem prefix_append_cases {α : Type} (p u1 u2 : List α) (h : p <+: u1 ++ u2)
    (hne : p ≠ u1 ++ u2) :
    (p <+: u1 ∧ p ≠ u1) ∨ ∃ p2, p = u1 ++ p2 ∧ p2 <+: u2 ∧ p2 ≠ u2 := by
  rcases List.prefix_or_prefix_of_prefix h (List.prefix_append u1 u2) with h1 | h1
  · by_cases he : p = u1
    · right
      refine ⟨[], by simp [he], List.nil_prefix, ?_⟩
      intro h2
      apply hne
      rw [he, ← h2, List.append_nil]
    · exact Or.inl ⟨h1, he⟩
  · right
    obtain ⟨p2, hp2⟩ := h1
    refine ⟨p2, hp2.symm, ?_, ?_⟩
    · rw [← hp2] at h
      exact (List.prefix_append_right_inj u1).1 h
    · intro h2
      apply hne
      rw [← hp2, h2]

/-- A successful load reads a block `used` of lines from the front of the stream; it gives
the same node whatever follows the block, and it throws on every proper prefix of the
block (the stream ends while a subtree is still expected). -/
theorem load_used (isProduction : String → Bool) :
    (∀ (s : List String) (r : TreeNode × List String),
      loadParseTree isProduction s = .ok r →
      ∃ used, s = used ++ r.2 ∧
        (∀ x, loadParseTree isProduction (used ++ x) = .ok (r.1, x)) ∧
        (∀ p, p <+: used → p ≠ used → loadParseTree isProduction p = .error .thrown)) ∧
    (∀ (rhs s : List String) (r : List TreeNode × List String),
      loadChildren isProduction rhs s = .ok r →
      ∃ used, s = used ++ r.2 ∧
        (∀ x, loadChildren isProduction rhs (used ++ x) = .ok (r.1, x)) ∧
        (∀ p, p <+: used → p ≠ used →
          loadChildren isProduction rhs p = .error .thrown)) := by
  apply load_induction isProduction
    (fun s r => ∃ used, s = used ++ r.2 ∧
        (∀ x, loadParseTree isProduction (used ++ x) = .ok (r.1, x)) ∧
        (∀ p, p <+: used → p ≠ used → loadParseTree isProduction p = .error .thrown))
    (fun rhs s r => ∃ used, s = used ++ r.2 ∧
        (∀ x, loadChildren isProduction rhs (used ++ x) = .ok (r.1, x)) ∧
        (∀ p, p <+: used → p ≠ used →
          loadChildren isProduction rhs p = .error .thrown))
  · intro line s type kind lexeme line1 more hst hp
    refine ⟨[line], rfl, ?_, ?_⟩
    · intro x
      exact loadParseTree_terminal isProduction line x type kind lexeme line1 more hst hp
    · intro p hpre hne
      cases p with
      | nil => exact loadParseTree_nil isProduction
      | cons a p1 =>
        exfalso
        apply hne
        have hl := hpre.length_le
        have h1 : p1 = [] := by
          cases p1 with
          | nil => rfl
          | cons b p2 => simp at hl
        subst h1
        have := List.prefix_iff_eq_take.1 hpre
        simpa using this
  · intro line s type sym line1 rhs cs rest hst hp hc ih
    obtain ⟨used, hs, hext, hpre⟩ := ih
    refine ⟨line :: used, by rw [hs]; rfl, ?_, ?_⟩
    · intro x
      rw [List.cons_append,
        loadParseTree_production isProduction line _ type sym line1 rhs hst hp, hext x]
    · intro p hp1 hne
      cases p with
      | nil => exact loadParseTree_nil isProduction
      | cons a p1 =>
        have ha : a = line := by
          have := List.prefix_iff_eq_take.1 hp1
          simp only [List.length_cons, List.take_succ_cons, List.cons.injEq] at this
          exact this.1
        subst ha
        have hp2 : p1 <+: used := (List.prefix_cons_inj a).1 hp1
        have hne2 : p1 ≠ used := fun h => hne (by rw [h])
        exact loadParseTree_error_of_children isProduction a p1 type sym line1 rhs _ hst hp
          (hpre p1 hp2 hne2)
  · intro s
    refine ⟨[], rfl, fun x => loadChildren_nil isProduction x, ?_⟩
    intro p hp hne
    exact absurd (List.prefix_nil.1 hp) hne
  · intro rhs s cs rest hc ih
    obtain ⟨used, hs, hext, hpre⟩ := ih
    refine ⟨used, hs, ?_, ?_⟩
    · intro x
      rw [loadChildren_cons, if_pos rfl, hext x]
    · intro p hp hne
      rw [loadChildren_cons, if_pos rfl, hpre p hp hne]
  · intro sym rhs s c rest1 cs rest hsym ht iht hc ihc
    obtain ⟨u1, hs1, hext1, hpre1⟩ := iht
    obtain ⟨u2, hs2, hext2, hpre2⟩ := ihc
    dsimp only at hs1 hs2 hext1 hext2
    refine ⟨u1 ++ u2, by rw [hs1, hs2, List.append_assoc], ?_, ?_⟩
    · intro x
      rw [loadChildren_cons, if_neg hsym, List.append_assoc, hext1 (u2 ++ x)]
      dsimp only
      rw [hext2 x]
    · intro p hp hne
      rw [loadChildren_cons, if_neg hsym]
      rcases prefix_append_cases p u1 u2 hp hne with ⟨h1, h2⟩ | ⟨p2, h1, h2, h3⟩
      · rw [hpre1 p h1 h2]
      · rw [h1, hext1 p2]
        dsimp only
        rw [hpre2 p2 h2 h3]

theorem load_exprNumLines :
    loadParseTree isProduction exprNumLines = .ok (exprNum "5", ["EOF EOF"]) := by
  have s1 : stripType "expr term : int" = .ok ("int", ["expr", "term"], "expr term") := by
    rfl
  have s2 : stripType "term factor : int"
      = .ok ("int", ["term", "factor"], "term factor") := by rfl
  have s3 : stripType "factor NUM : int"
      = .ok ("int", ["factor", "NUM"], "factor NUM") := by rfl
  have s4 : stripType "NUM 5 : int" = .ok ("int", ["NUM", "5"], "NUM 5") := by rfl
  rw [exprNumLines, loadParseTree_production isProduction _ _ _ _ _ _ s1 (by rfl),
    loadChildren_cons, if_neg (by decide),
    loadParseTree_production isProduction _ _ _ _ _ _ s2 (by rfl),
    loadChildren_cons, if_neg (by decide),
    loadParseTree_production isProduction _ _ _ _ _ _ s3 (by rfl),
    loadChildren_cons, if_neg (by decide),
    loadParseTree_terminal isProduction _ _ _ _ _ _ _ s4 (by rfl)]
  simp only [loadChildren_nil]
  rfl

/-! ## C19: loader failure -/

/-- C19. `loadParseTree` throws on an empty stream and, more generally, on every proper
prefix of the block of lines a successful load reads (the stream ends while a subtree is
still expected). On a line of a single word it does not throw: `*(parsedLine.end() - 2)` is
read outside the one-element vector, and for a line `KIND : TYPE`, left with the single
word `KIND` that is no production, `parsedLine[1]` is read past the end; in both cases the
behaviour is undefined. -/
theorem loader_failure (isProduction : String → Bool) :
    loadParseTree isProduction [] = .error .thrown ∧
    (∀ (s : List String) (t : TreeNode) (rest : List String),
      loadParseTree isProduction s = .ok (t, rest) →
      ∃ used, s = used ++ rest ∧
        ∀ p, p <+: used → p ≠ used → loadParseTree isProduction p = .error .thrown) ∧
    (∀ (line : String) (rest : List String), (splitString line).length = 1 →
      loadParseTree isProduction (line :: rest) = .error .undefined) ∧
    (∀ (line : String) (rest : List String) (type kind line1 : String),
      stripType line = .ok (type, [kind], line1) → isProduction line1 = false →
      loadParseTree isProduction (line :: rest) = .error .undefined) := by
  refine ⟨loadParseTree_nil isProduction, ?_, ?_, ?_⟩
  · intro s t rest h
    obtain ⟨used, hs, _, hpre⟩ := (load_used isProduction).1 s (t, rest) h
    exact ⟨used, hs, hpre⟩
  · intro line rest h1
    rw [loadParseTree_cons]
    have hs : stripType line = .error .undefined := by
      unfold stripType
      simp only [h1, Nat.one_lt_ofNat, if_true]
    rw [hs]
  · intro line rest type kind line1 hs hp
    rw [loadParseTree_cons, hs]
    simp only [hp, Bool.false_eq_true, if_false]

theorem loader_failure_witness :
    loadParseTree isProduction ["start BOF procedures EOF", "BOF"] = .error .undefined ∧
    loadParseTree isProduction ["start BOF procedures EOF", "BOF : int"] = .error .undefined ∧
    loadParseTree isProduction ["expr term : int", "term factor : int"] = .error .thrown := by
  have hstart : stripType "start BOF procedures EOF"
      = .ok ("", ["start", "BOF", "procedures", "EOF"], "start BOF procedures EOF") := by rfl
  have h1 := (loader_failure isProduction).2.2.1 "BOF" [] (by rfl)
  have h2 := (loader_failure isProduction).2.2.2 "BOF : int" [] "int" "BOF" "BOF" (by rfl)
    (by rfl)
  have h3 := load_exprNumLines
  obtain ⟨used, hu, hpre⟩ := (loader_failure isProduction).2.1 exprNumLines (exprNum "5")
    ["EOF EOF"] h3
  have hused : used = ["expr term : int", "term factor : int", "factor NUM : int",
      "NUM 5 : int"] := by
    have hl : used.length = 4 := by
      have := congrArg List.length hu
      simp only [exprNumLines, List.length_append, List.length_cons, List.length_nil] at this
      omega
    have ht := congrArg (List.take 4) hu
    rw [List.take_left' hl] at ht
    rw [← ht]
    rfl
  refine ⟨?_, ?_, ?_⟩
  · rw [loadParseTree_production isProduction _ _ _ _ _ _ hstart (by rfl), loadChildren_cons,
      if_neg (by decide), h1]
  · rw [loadParseTree_production isProduction _ _ _ _ _ _ hstart (by rfl), loadChildren_cons,
      if_neg (by decide), h2]
  · refine hpre _ ?_ ?_
    · rw [hused]
      exact ⟨["factor NUM : int", "NUM 5 : int"], rfl⟩
    · rw [hused]
      decide

/-! ## C20: type annotations are not validated -/

theorem typeOfLine_eq (line : String) (type line1 : String) (parsedLine : List String)
    (h : stripType line = .ok (type, parsedLine, line1)) : typeOfLine line = type := by
  rw [typeOfLine, h]

theorem load_types (isProduction : String → Bool) :
    (∀ (s : List String) (r : TreeNode × List String),
      loadParseTree isProduction s = .ok r →
      ∀ ty ∈ r.1.types, ty = "" ∨ ∃ l ∈ s, typeOfLine l = ty) ∧
    (∀ (rhs s : List String) (r : List TreeNode × List String),
      loadChildren isProduction rhs s = .ok r →
      ∀ ty ∈ TreeNode.typesList r.1, ty = "" ∨ ∃ l ∈ s, typeOfLine l = ty) := by
  apply load_induction isProduction
    (fun s r => ∀ ty ∈ r.1.types, ty = "" ∨ ∃ l ∈ s, typeOfLine l = ty)
    (fun _ s r => ∀ ty ∈ TreeNode.typesList r.1, ty = "" ∨ ∃ l ∈ s, typeOfLine l = ty)
  · intro line s type kind lexeme line1 more hst hp ty hty
    simp only [TreeNode.types, TreeNode.typesList, List.mem_singleton] at hty
    exact Or.inr ⟨line, List.mem_cons_self _ _, by rw [hty, typeOfLine_eq line _ _ _ hst]⟩
  · intro line s type sym line1 rhs cs rest hst hp hc ih ty hty
    simp only [TreeNode.types, List.mem_cons] at hty
    rcases hty with hty | hty
    · exact Or.inr ⟨line, List.mem_cons_self _ _, by rw [hty, typeOfLine_eq line _ _ _ hst]⟩
    · rcases ih ty hty with h | ⟨l, hl, ha⟩
      · exact Or.inl h
      · exact Or.inr ⟨l, List.mem_cons_of_mem _ hl, ha⟩
  · intro s ty hty
    simp [TreeNode.typesList] at hty
  · intro rhs s cs rest hc ih ty hty
    simp only [TreeNode.typesList, TreeNode.new, TreeNode.types, List.cons_append,
      List.nil_append, List.mem_cons] at hty
    rcases hty with hty | hty
    · exact Or.inl hty
    · exact ih ty hty
  · intro sym rhs s c rest1 cs rest hsym ht iht hc ihc ty hty
    simp only [TreeNode.typesList, List.mem_append] at hty
    rcases hty with hty | hty
    · exact iht ty hty
    · rcases ihc ty hty with h | ⟨l, hl, ha⟩
      · exact Or.inl h
      · obtain ⟨used, hs, _, _⟩ := (load_used isProduction).1 s (c, rest1) ht
        refine Or.inr ⟨l, ?_, ha⟩
        rw [hs]
        exact List.mem_append_right _ hl

/-- C20, counterexample. The one-line input `NUM 5 : float` carries a type annotation that
is neither `int` nor `int*`; `loadParseTree` does not fail on it and returns a node whose
type annotation is `float`. -/
theorem loader_accepts_any_type :
    loadParseTree isProduction ["NUM 5 : float"]
      = .ok (TreeNode.mk "float" "NUM" "" ⟨"NUM", "5"⟩ [], []) ∧
    typeOfLine "NUM 5 : float" = "float" ∧
    (TreeNode.mk "float" "NUM" "" ⟨"NUM", "5"⟩ []).type ≠ "" ∧
    (TreeNode.mk "float" "NUM" "" ⟨"NUM", "5"⟩ []).type ≠ INT ∧
    (TreeNode.mk "float" "NUM" "" ⟨"NUM", "5"⟩ []).type ≠ INT_STAR := by
  refine ⟨?_, by rfl, by decide, by decide, by decide⟩
  exact loadParseTree_terminal isProduction _ _ "float" "NUM" "5" "NUM 5" [] (by rfl) (by rfl)

/-- C20, amended. `loadParseTree` copies the annotation of a line into the node without
looking at it: the root of a loaded tree carries the annotation of the first line, every
node's type annotation is empty or the annotation of an input line, and so, when every
annotation in the input is `int` or `int*`, each node's type annotation is empty, `int` or
`int*`. -/
theorem loaded_types_verbatim (isProduction : String → Bool) (s : List String)
    (t : TreeNode) (rest : List String)
    (h : loadParseTree isProduction s = .ok (t, rest)) :
    (∃ line s1, s = line :: s1 ∧ t.type = typeOfLine line) ∧
    (∀ ty ∈ t.types, ty = "" ∨ ∃ l ∈ s, typeOfLine l = ty) ∧
    ((∀ l ∈ s, typeOfLine l = "" ∨ typeOfLine l = INT ∨ typeOfLine l = INT_STAR) →
      ∀ ty ∈ t.types, ty = "" ∨ ty = INT ∨ ty = INT_STAR) := by
  have hall := (load_types isProduction).1 s (t, rest) h
  refine ⟨?_, hall, ?_⟩
  · cases s with
    | nil => rw [loadParseTree_nil] at h; cases h
    | cons line s1 =>
      refine ⟨line, s1, rfl, ?_⟩
      rw [loadParseTree_cons] at h
      cases hst : stripType line with
      | error e => rw [hst] at h; cases h
      | ok v =>
        obtain ⟨type, parsedLine, line1⟩ := v
        rw [hst] at h
        rw [typeOfLine_eq line _ _ _ hst]
        dsimp only at h
        split at h
        · split at h
          · cases h
          · split at h
            · cases h
            · have ht : _ = t := congrArg Prod.fst (Except.ok.inj h)
              rw [← ht]; rfl
        · split at h
          · have ht : _ = t := congrArg Prod.fst (Except.ok.inj h)
            rw [← ht]; rfl
          · cases h
  · intro hs ty hty
    rcases hall ty hty with h1 | ⟨l, hl, ha⟩
    · exact Or.inl h1
    · rw [← ha]; exact hs l hl

theorem loaded_types_verbatim_witness :
    (exprNum "5").type = typeOfLine "expr term : int" ∧
    ((exprNum "5").type = "" ∨ (exprNum "5").type = INT ∨ (exprNum "5").type = INT_STAR) := by
  have h := loaded_types_verbatim isProduction exprNumLines (exprNum "5") ["EOF EOF"]
    load_exprNumLines
  refine ⟨?_, ?_⟩
  · obtain ⟨line, s1, hs, ht⟩ := h.1
    have hl : "expr term : int" = line := (List.cons.inj hs).1
    rw [hl]
    exact ht
  · refine h.2.2 ?_ _ (by simp [exprNum, node, TreeNode.types, TreeNode.type])
    intro l hl
    simp only [exprNumLines, List.mem_cons, List.mem_singleton, List.not_mem_nil, or_false]
      at hl
    rcases hl with h | h | h | h | h <;> subst h
    · exact Or.inr (Or.inl (by rfl))
    · exact Or.inr (Or.inl (by rfl))
    · exact Or.inr (Or.inl (by rfl))
    · exact Or.inr (Or.inl (by rfl))
    · exact Or.inl (by rfl)

/-! ## C21: dispatch falls through silently -/

theorem code_unhandled (root : TreeNode) (st : State) (hne : root.production ≠ "")
    (hnot : root.production ∉ wlp4Productions) : code root st = .ok ([], st) := by
  have hk : ∀ p ∈ wlp4Productions, ¬ (root.production = p) := by
    intro p hp h
    exact hnot (h ▸ hp)
  rw [code_eq_codeN st hne, codeN, getProduction_eq_ok hne, ok_bind]
  rw [if_neg (hk "start BOF procedures EOF" (by decide))]
  rw [if_neg (hk "procedures main" (by decide))]
  rw [if_neg (hk "main INT WAIN LPAREN dcl COMMA dcl RPAREN LBRACE dcls statements RETURN expr SEMI RBRACE" (by decide))]
  rw [if_neg (hk "type INT" (by decide))]
  rw [if_neg (hk "dcl type ID" (by decide))]
  rw [if_neg (hk "dcls .EMPTY" (by decide))]
  rw [if_neg (hk "statements .EMPTY" (by decide))]
  rw [if_neg (hk "expr term" (by decide))]
  rw [if_neg (hk "term factor" (by decide))]
  rw [if_neg (hk "factor NUM" (by decide))]
  rw [if_neg (hk "factor ID" (by decide))]
  rw [if_neg (hk "factor LPAREN expr RPAREN" (by decide))]
  rw [if_neg (hk "dcls dcls dcl BECOMES NUM SEMI" (by decide))]
  rw [if_neg (hk "statements statements statement" (by decide))]
  rw [if_neg (hk "statement lvalue BECOMES expr SEMI" (by decide))]
  rw [if_neg (hk "lvalue ID" (by decide))]
  rw [if_neg (hk "lvalue LPAREN lvalue RPAREN" (by decide))]
  rw [if_neg (hk "expr expr PLUS term" (by decide))]
  rw [if_neg (hk "expr expr MINUS term" (by decide))]
  rw [if_neg (hk "term term STAR factor" (by decide))]
  rw [if_neg (hk "term term SLASH factor" (by decide))]
  rw [if_neg (hk "term term PCT factor" (by decide))]
  rw [if_neg (hk "statement IF LPAREN test RPAREN LBRACE statements RBRACE ELSE LBRACE statements RBRACE" (by decide))]
  rw [if_neg (hk "statement WHILE LPAREN test RPAREN LBRACE statements RBRACE" (by decide))]
  rw [if_neg (hk "test expr EQ expr" (by decide))]
  rw [if_neg (hk "test expr NE expr" (by decide))]
  rw [if_neg (hk "test expr LT expr" (by decide))]
  rw [if_neg (hk "test expr LE expr" (by decide))]
  rw [if_neg (hk "test expr GE expr" (by decide))]
  rw [if_neg (hk "test expr GT expr" (by decide))]
  rw [if_neg (hk "statement PRINTLN LPAREN expr RPAREN SEMI" (by decide))]
  rw [if_neg (hk "procedures procedure procedures" (by decide))]
  rw [if_neg (hk "procedure INT ID LPAREN params RPAREN LBRACE dcls statements RETURN expr SEMI RBRACE" (by decide))]
  rw [if_neg (hk "params .EMPTY" (by decide))]
  rw [if_neg (hk "params paramlist" (by decide))]
  rw [if_neg (hk "paramlist dcl" (by decide))]
  rw [if_neg (hk "paramlist dcl COMMA paramlist" (by decide))]
  rw [if_neg (hk "factor ID LPAREN RPAREN" (by decide))]
  rw [if_neg (hk "factor ID LPAREN arglist RPAREN" (by decide))]
  rw [if_neg (hk "arglist expr" (by decide))]
  rw [if_neg (hk "arglist expr COMMA arglist" (by decide))]
  rw [if_neg (hk "type INT STAR" (by decide))]
  rw [if_neg (hk "dcls dcls dcl BECOMES NULL SEMI" (by decide))]
  rw [if_neg (hk "factor NULL" (by decide))]
  rw [if_neg (hk "factor AMP lvalue" (by decide))]
  rw [if_neg (hk "factor STAR factor" (by decide))]
  rw [if_neg (hk "lvalue STAR factor" (by decide))]
  rw [if_neg (hk "factor NEW INT LBRACK expr RBRACK" (by decide))]
  rw [if_neg (hk "statement DELETE LBRACK RBRACK expr SEMI" (by decide))]
  rfl

/-- C21, counterexample. Emission does not abort on a node whose production has no handler,
nor on `p + q` with both operands `int*`, nor on `1 - q` with `q : int*`: each returns the
empty output, with the globals unchanged. -/
theorem dispatch_returns_empty :
    unhandledTree.N = true ∧
    code unhandledTree stateFresh = .ok ([], stateFresh) ∧
    code plusPtrPtrTree statePQ = .ok ([], statePQ) ∧
    code minusIntPtrTree statePQ = .ok ([], statePQ) := by
  refine ⟨by decide, code_unhandled _ _ (by decide) (by decide), ?_, ?_⟩
  · rw [code_eq_codeN _ (by decide), @codeN_plus plusPtrPtrTree (exprId "p" "int*")
      (termId "q" "int*") statePQ (by rfl) (by simp [plusPtrPtrTree, node, TreeNode.children])
      (by simp [plusPtrPtrTree, node, TreeNode.children])]
    rfl
  · rw [code_eq_codeN _ (by decide), @codeN_minus minusIntPtrTree (exprNum "1")
      (termId "q" "int*") statePQ (by rfl) (by simp [minusIntPtrTree, node, TreeNode.children])
      (by simp [minusIntPtrTree, node, TreeNode.children])]
    rfl

/-- C21, amended. Emission never aborts at dispatch. For an interior node whose production
has no handler in `codeN`, and for an `expr expr PLUS term` or `expr expr MINUS term` node
whose operand type annotations match no row of the typing table (missing annotations
included), `code` returns the empty output, emits none of the children and leaves the
symbol tables and the label counter unchanged. -/
theorem dispatch_falls_through (root : TreeNode) (st : State) :
    (root.production ≠ "" → root.production ∉ wlp4Productions →
      code root st = .ok ([], st)) ∧
    (∀ (e t : TreeNode), root.production = "expr expr PLUS term" →
      root.children[0]? = some e → root.children[2]? = some t →
      ¬ (e.type = INT ∧ t.type = INT) → ¬ (e.type = INT_STAR ∧ t.type = INT) →
      ¬ (e.type = INT ∧ t.type = INT_STAR) →
      code root st = .ok ([], st)) ∧
    (∀ (e t : TreeNode), root.production = "expr expr MINUS term" →
      root.children[0]? = some e → root.children[2]? = some t →
      ¬ (e.type = INT ∧ t.type = INT) → ¬ (e.type = INT_STAR ∧ t.type = INT) →
      ¬ (e.type = INT_STAR ∧ t.type = INT_STAR) →
      code root st = .ok ([], st)) := by
  refine ⟨code_unhandled root st, ?_, ?_⟩
  · intro e t hp h0 h2 n1 n2 n3
    rw [code_eq_codeN st (by rw [hp]; decide), codeN_plus st hp h0 h2]
    simp only [TreeNode.getType]
    rw [if_neg n1, if_neg n2, if_neg n3]
    rfl
  · intro e t hp h0 h2 n1 n2 n3
    rw [code_eq_codeN st (by rw [hp]; decide), codeN_minus st hp h0 h2]
    simp only [TreeNode.getType]
    rw [if_neg n1, if_neg n2, if_neg n3]
    rfl

theorem dispatch_falls_through_witness :
    code unhandledTree stateFresh = .ok ([], stateFresh) ∧
    code plusPtrPtrTree statePQ = .ok ([], statePQ) ∧
    code (node "expr" "expr expr MINUS term" [exprId "a" "", leaf "MINUS" "-", termNum "1" ""])
      (stateAB 0) = .ok ([], stateAB 0) :=
  ⟨(dispatch_falls_through unhandledTree stateFresh).1 (by decide) (by decide),
   (dispatch_falls_through plusPtrPtrTree statePQ).2.1 (exprId "p" "int*") (termId "q" "int*")
     (by rfl) (by simp [plusPtrPtrTree, node, TreeNode.children])
     (by simp [plusPtrPtrTree, node, TreeNode.children]) (by decide) (by decide) (by decide),
   (dispatch_falls_through _ (stateAB 0)).2.2 (exprId "a" "") (termNum "1" "")
     (by rfl) (by simp [node, TreeNode.children]) (by simp [node, TreeNode.children])
     (by decide) (by decide) (by decide)⟩

/-! ## Splitting and joining words -/

theorem splitOnChar_ne_nil (c : Char) (s : List Char) : splitOnChar c s ≠ [] := by
  cases s with
  | nil => simp [splitOnChar]
  | cons x xs =>
    rw [splitOnChar]
    split
    · simp
    · split <;> simp

theorem splitOnChar_no_sep (c : Char) (s : List Char) :
    ∀ w ∈ splitOnChar c s, c ∉ w := by
  induction s with
  | nil => intro w hw; simp [splitOnChar] at hw; subst hw; simp
  | cons x xs ih =>
    intro w hw
    rw [splitOnChar] at hw
    by_cases hx : x = c
    · rw [if_pos hx] at hw
      rcases List.mem_cons.1 hw with h | h
      · subst h; simp
      · exact ih w h
    · rw [if_neg hx] at hw
      cases hsp : splitOnChar c xs with
      | nil => exact absurd hsp (splitOnChar_ne_nil c xs)
      | cons w0 ws =>
        rw [hsp] at hw ih
        simp only [List.mem_cons] at hw
        rcases hw with h | h
        · subst h
          intro hm
          rcases List.mem_cons.1 hm with h1 | h1
          · exact hx h1.symm
          · exact ih w0 (List.mem_cons_self _ _) h1
        · exact ih w (List.mem_cons_of_mem _ h)

theorem splitOnChar_of_no_sep (c : Char) (w : List Char) (h : c ∉ w) :
    splitOnChar c w = [w] := by
  induction w with
  | nil => rfl
  | cons x xs ih =>
    have hx : x ≠ c := fun e => h (by rw [e]; exact List.mem_cons_self _ _)
    have hxs : c ∉ xs := fun e => h (List.mem_cons_of_mem _ e)
    rw [splitOnChar, if_neg hx, ih hxs]

theorem splitOnChar_append_sep (c : Char) (w rest : List Char) (h : c ∉ w) :
    splitOnChar c (w ++ c :: rest) = w :: splitOnChar c rest := by
  induction w with
  | nil => simp [splitOnChar]
  | cons x xs ih =>
    have hx : x ≠ c := fun e => h (by rw [e]; exact List.mem_cons_self _ _)
    have hxs : c ∉ xs := fun e => h (List.mem_cons_of_mem _ e)
    rw [List.cons_append, splitOnChar, if_neg hx, ih hxs]

theorem splitOnChar_joinChars (ws : List (List Char)) (hne : ws ≠ [])
    (h : ∀ w ∈ ws, ' ' ∉ w) : splitOnChar ' ' (joinChars ws) = ws := by
  induction ws with
  | nil => exact absurd rfl hne
  | cons w rest ih =>
    cases rest with
    | nil =>
      rw [joinChars]
      exact splitOnChar_of_no_sep ' ' w (h w (List.mem_cons_self _ _))
    | cons w2 rest2 =>
      have e : joinChars (w :: w2 :: rest2) = w ++ ' ' :: joinChars (w2 :: rest2) := rfl
      rw [e, splitOnChar_append_sep ' ' w _ (h w (List.mem_cons_self _ _)),
        ih (List.cons_ne_nil _ _) (fun x hx => h x (List.mem_cons_of_mem _ hx))]

theorem foldl_join_data (ws : List String) (acc : String) :
    (ws.foldl (fun out s => out ++ s ++ " ") acc).data
      = acc.data ++ (ws.map (fun s => s.data ++ [' '])).flatten := by
  induction ws generalizing acc with
  | nil => simp
  | cons w rest ih =>
    rw [List.foldl_cons, ih]
    simp only [String.data_append, List.map_cons, List.flatten_cons, List.append_assoc]

theorem flatten_sep_eq (ws : List (List Char)) (hne : ws ≠ []) :
    (ws.map (fun w => w ++ [' '])).flatten = joinChars ws ++ [' '] := by
  induction ws with
  | nil => exact absurd rfl hne
  | cons w rest ih =>
    cases rest with
    | nil => simp [joinChars]
    | cons w2 rest2 =>
      have e : joinChars (w :: w2 :: rest2) = w ++ ' ' :: joinChars (w2 :: rest2) := rfl
      rw [e, List.map_cons, List.flatten_cons, ih (List.cons_ne_nil _ _)]
      simp

theorem joinVector_data (ws : List String) (hne : ws ≠ []) :
    (joinVector ws).data = joinChars (ws.map String.data) := by
  unfold joinVector
  have hd := foldl_join_data ws ""
  have hf := flatten_sep_eq (ws.map String.data) (by simpa using hne)
  rw [List.map_map] at hf
  have hd2 : (ws.foldl (fun out s => out ++ s ++ " ") "").data
      = joinChars (ws.map String.data) ++ [' '] := by
    rw [hd]
    simpa [Function.comp] using hf
  have hlen : (ws.foldl (fun out s => out ++ s ++ " ") "").length > 0 := by
    rw [String.length, hd2]
    simp
  simp only [hlen, if_true]
  show (List.dropLast (ws.foldl (fun out s => out ++ s ++ " ") "").data) = _
  rw [hd2, List.dropLast_concat]

theorem splitString_pieces (s : String) : ∀ w ∈ splitString s, ' ' ∉ w.data := by
  intro w hw
  rw [splitString, List.mem_map] at hw
  obtain ⟨cs, hcs, rfl⟩ := hw
  exact splitOnChar_no_sep ' ' _ cs hcs

theorem splitString_joinVector (ws : List String) (hne : ws ≠ [])
    (h : ∀ w ∈ ws, ' ' ∉ w.data) : splitString (joinVector ws) = ws := by
  rw [splitString]
  show (splitOnChar ' ' (joinVector ws).data).map String.mk = ws
  rw [joinVector_data ws hne, splitOnChar_joinChars _ (by simpa using hne)
    (by
      intro w hw
      rw [List.mem_map] at hw
      obtain ⟨x, hx, rfl⟩ := hw
      exact h x hx)]
  rw [List.map_map]
  conv_rhs => rw [← List.map_id ws]
  apply List.map_congr_left
  intro x _
  rfl

theorem stripType_split (line : String) (ty l1 : String) (pl : List String)
    (h : stripType line = .ok (ty, pl, l1)) (hne : pl ≠ []) : splitString l1 = pl := by
  unfold stripType at h
  dsimp only at h
  split at h
  · cases h
  · split at h
    · have h1 := Except.ok.inj h
      have hpl : List.take ((splitString line).length - 2) (splitString line) = pl :=
        congrArg (fun x => x.2.1) h1
      have hl1 : joinVector (List.take ((splitString line).length - 2) (splitString line))
          = l1 := congrArg (fun x => x.2.2) h1
      rw [← hl1, hpl]
      apply splitString_joinVector pl hne
      intro w hw
      rw [← hpl] at hw
      exact splitString_pieces line w (List.mem_of_mem_take hw)
    · have h1 := Except.ok.inj h
      have hpl : splitString line = pl := congrArg (fun x => x.2.1) h1
      have hl1 : line = l1 := congrArg (fun x => x.2.2) h1
      rw [← hl1, hpl]

/-! ## C23: shape of loaded trees -/

theorem load_shape (isProduction : String → Bool) :
    (∀ (s : List String) (r : TreeNode × List String),
      loadParseTree isProduction s = .ok r →
      ∀ n ∈ r.1.nodes, n.loadedShape isProduction) ∧
    (∀ (rhs s : List String) (r : List TreeNode × List String),
      loadChildren isProduction rhs s = .ok r →
      r.1.length = rhs.length ∧
      (∀ (i : Nat) (c : TreeNode), r.1[i]? = some c → rhs[i]? = some ".EMPTY" →
        c = TreeNode.new ".EMPTY") ∧
      ∀ n ∈ TreeNode.nodesList r.1, n.loadedShape isProduction) := by
  apply load_induction isProduction
    (fun _ r => ∀ n ∈ r.1.nodes, n.loadedShape isProduction)
    (fun rhs _ r => r.1.length = rhs.length ∧
      (∀ (i : Nat) (c : TreeNode), r.1[i]? = some c → rhs[i]? = some ".EMPTY" →
        c = TreeNode.new ".EMPTY") ∧
      ∀ n ∈ TreeNode.nodesList r.1, n.loadedShape isProduction)
  · intro line s type kind lexeme line1 more hst hp n hn
    simp only [TreeNode.nodes, TreeNode.nodesList, List.mem_singleton] at hn
    subst hn
    exact ⟨fun _ => rfl, fun h => absurd rfl h⟩
  · intro line s type sym line1 rhs cs rest hst hp hc ih n hn
    simp only [TreeNode.nodes, List.mem_cons] at hn
    rcases hn with hn | hn
    · subst hn
      refine ⟨?_, fun _ => ⟨hp, rhs, stripType_split line type line1 _ hst (by simp), ih.1,
        ih.2.1⟩⟩
      intro h0
      have hsp := stripType_split line type line1 _ hst (List.cons_ne_nil sym rhs)
      have h1 : line1 = "" := h0
      rw [h1] at hsp
      have h2 : splitString "" = [""] := by rfl
      rw [h2] at hsp
      have hr : rhs = [] := (List.cons.inj hsp).2.symm
      have hl := ih.1
      rw [hr] at hl
      exact List.length_eq_zero.1 hl
    · exact ih.2.2 n hn
  · intro s
    exact ⟨rfl, fun i c h => by simp at h, fun n hn => by simp [TreeNode.nodesList] at hn⟩
  · intro rhs s cs rest hc ih
    refine ⟨by simp [ih.1], ?_, ?_⟩
    · intro i c hi hr
      cases i with
      | zero =>
        simp only [List.getElem?_cons_zero, Option.some.injEq] at hi
        exact hi.symm
      | succ j =>
        simp only [List.getElem?_cons_succ] at hi hr
        exact ih.2.1 j c hi hr
    · intro n hn
      simp only [TreeNode.nodesList, TreeNode.new, TreeNode.nodes, List.cons_append,
        List.nil_append, List.mem_cons] at hn
      rcases hn with hn | hn
      · subst hn
        exact ⟨fun _ => rfl, fun h => absurd rfl h⟩
      · exact ih.2.2 n hn
  · intro sym rhs s c rest1 cs rest hsym ht iht hc ihc
    refine ⟨by simp [ihc.1], ?_, ?_⟩
    · intro i c1 hi hr
      cases i with
      | zero =>
        simp only [List.getElem?_cons_zero, Option.some.injEq] at hr
        exact absurd hr hsym
      | succ j =>
        simp only [List.getElem?_cons_succ] at hi hr
        exact ihc.2.1 j c1 hi hr
    · intro n hn
      simp only [TreeNode.nodesList, List.mem_append] at hn
      rcases hn with hn | hn
      · exact iht n hn
      · exact ihc.2.2 n hn

/-- C23, counterexample. The input lines `expr term` and `NUM 5` load into an `expr` node
with production `expr term` whose only child has the symbol `NUM`, not the right-hand
side symbol `term`. -/
theorem loader_accepts_any_child :
    loadParseTree isProduction ["expr term", "NUM 5"]
      = .ok (node "expr" "expr term" [leaf "NUM" "5"], []) ∧
    splitString "expr term" = ["expr", "term"] ∧
    (leaf "NUM" "5").symbol ≠ "term" := by
  refine ⟨?_, by rfl, by decide⟩
  rw [loadParseTree_production isProduction _ _ "" "expr" "expr term" ["term"] (by rfl)
    (by rfl), loadChildren_cons, if_neg (by decide),
    loadParseTree_terminal isProduction _ _ "" "NUM" "5" "NUM 5" [] (by rfl) (by rfl)]
  simp only [loadChildren_nil]
  rfl

/-- C23, amended. In every tree `loadParseTree` returns, a terminal node has no children,
and each interior node's production is a member of the registry, its symbol is the first
word of that production, it has exactly one child per right-hand side symbol, and the
child at an `.EMPTY` symbol is the childless sentinel leaf with symbol `.EMPTY`. Nothing is
said about the symbol of a child at another position: the loader does not compare it
with the right-hand side. -/
theorem loaded_shape (isProduction : String → Bool) (s : List String) (t : TreeNode)
    (rest : List String) (h : loadParseTree isProduction s = .ok (t, rest)) :
    ∀ n ∈ t.nodes, n.loadedShape isProduction :=
  (load_shape isProduction).1 s (t, rest) h

theorem loaded_shape_witness :
    (exprNum "5").loadedShape isProduction ∧
    (leaf "NUM" "5" "int").loadedShape isProduction :=
  have h := loaded_shape isProduction exprNumLines (exprNum "5") ["EOF EOF"] load_exprNumLines
  ⟨h _ (by simp [exprNum, node, TreeNode.nodes]),
   h _ (by simp [exprNum, node, leaf, TreeNode.nodes, TreeNode.nodesList])⟩

/-! ## C22: additional spaces in a line -/

theorem splitOnChar_replicate (n : Nat) (rest : List Char) :
    splitOnChar ' ' (List.replicate n ' ' ++ rest)
      = List.replicate n [] ++ splitOnChar ' ' rest := by
  induction n with
  | zero => rfl
  | succ n ih =>
    rw [List.replicate_succ, List.cons_append, splitOnChar, if_pos rfl, ih]
    rfl

theorem splitString_terminal_typed (kind lexeme ty : String) (n : Nat)
    (hk : ' ' ∉ kind.data) (hl : ' ' ∉ lexeme.data) (ht : ' ' ∉ ty.data) :
    splitString (kind ++ " " ++ lexeme ++ spaces n ++ " : " ++ ty)
      = [kind, lexeme] ++ List.replicate n "" ++ [":", ty] := by
  have hd : (kind ++ " " ++ lexeme ++ spaces n ++ " : " ++ ty).data
      = kind.data ++ ' ' :: (lexeme.data ++ ' ' ::
          (List.replicate n ' ' ++ (':' :: ' ' :: ty.data))) := by
    simp only [String.data_append, spaces, List.append_assoc]
    show kind.data ++ (' ' :: (lexeme.data ++ (List.replicate n ' ' ++ (' ' :: ':' :: ' ' ::
      ty.data)))) = _
    congr 3
    have e : List.replicate n ' ' ++ ' ' :: ':' :: ' ' :: ty.data
        = List.replicate (n + 1) ' ' ++ ':' :: ' ' :: ty.data := by
      rw [List.replicate_succ']
      simp
    rw [e, List.replicate_succ, List.cons_append]
  rw [splitString]
  show (splitOnChar ' ' (kind ++ " " ++ lexeme ++ spaces n ++ " : " ++ ty).data).map String.mk
    = _
  have hc : splitOnChar ' ' (':' :: ' ' :: ty.data) = [[':'], ty.data] := by
    have h := splitOnChar_append_sep ' ' [':'] ty.data (by decide)
    rw [splitOnChar_of_no_sep ' ' ty.data ht] at h
    exact h
  rw [hd, splitOnChar_append_sep ' ' _ _ hk, splitOnChar_append_sep ' ' _ _ hl,
    splitOnChar_replicate, hc]
  simp only [List.map_cons, List.map_append, List.map_replicate, List.map_nil,
    List.cons_append, List.nil_append]

theorem splitOnChar_trailing (w : List Char) (n : Nat) (h : ' ' ∉ w) :
    splitOnChar ' ' (w ++ List.replicate n ' ') = w :: List.replicate n [] := by
  cases n with
  | zero => simpa using splitOnChar_of_no_sep ' ' w h
  | succ n =>
    rw [List.replicate_succ, splitOnChar_append_sep ' ' w _ h]
    have e := splitOnChar_replicate n []
    rw [List.append_nil] at e
    rw [e, List.replicate_succ']
    rfl

theorem splitString_terminal_plain (kind lexeme : String) (n : Nat)
    (hk : ' ' ∉ kind.data) (hl : ' ' ∉ lexeme.data) :
    splitString (kind ++ " " ++ lexeme ++ spaces n)
      = [kind, lexeme] ++ List.replicate n "" := by
  have hd : (kind ++ " " ++ lexeme ++ spaces n).data
      = kind.data ++ ' ' :: (lexeme.data ++ List.replicate n ' ') := by
    simp only [String.data_append, spaces, List.append_assoc]
    rfl
  rw [splitString]
  show (splitOnChar ' ' (kind ++ " " ++ lexeme ++ spaces n).data).map String.mk = _
  rw [hd, splitOnChar_append_sep ' ' _ _ hk, splitOnChar_trailing _ n hl]
  simp only [List.map_cons, List.map_replicate, List.cons_append, List.nil_append]

theorem joinChars_trailing (w : List Char) (n : Nat) :
    joinChars (w :: List.replicate n []) = w ++ List.replicate n ' ' := by
  induction n generalizing w with
  | zero => simp [joinChars]
  | succ n ih =>
    have e : joinChars (w :: List.replicate (n + 1) [])
        = w ++ ' ' :: joinChars ([] :: List.replicate n []) := by
      rw [List.replicate_succ]
      rfl
    rw [e, ih []]
    simp [List.replicate_succ]

theorem joinVector_terminal (kind lexeme : String) (n : Nat) :
    joinVector ([kind, lexeme] ++ List.replicate n "")
      = kind ++ " " ++ lexeme ++ spaces n := by
  apply String.ext
  rw [joinVector_data _ (by simp)]
  have e : List.map String.data ([kind, lexeme] ++ List.replicate n "")
      = kind.data :: (lexeme.data :: List.replicate n []) := by
    simp
  have e2 : joinChars (kind.data :: (lexeme.data :: List.replicate n []))
      = kind.data ++ ' ' :: joinChars (lexeme.data :: List.replicate n []) := rfl
  rw [e, e2, joinChars_trailing]
  simp only [String.data_append, spaces, List.append_assoc]
  rfl

theorem stripType_terminal_typed (kind lexeme ty : String) (n : Nat)
    (hk : ' ' ∉ kind.data) (hl : ' ' ∉ lexeme.data) (ht : ' ' ∉ ty.data) :
    stripType (kind ++ " " ++ lexeme ++ spaces n ++ " : " ++ ty)
      = .ok (ty, kind :: lexeme :: List.replicate n "",
          kind ++ " " ++ lexeme ++ spaces n) := by
  unfold stripType
  dsimp only
  rw [splitString_terminal_typed kind lexeme ty n hk hl ht]
  have hlen : ([kind, lexeme] ++ List.replicate n "" ++ [":", ty]).length = n + 4 := by
    simp
  rw [hlen]
  have h1 : ¬ (n + 4 < 2) := by omega
  have e2 : n + 4 - 2 = n + 2 := by omega
  have e1 : n + 4 - 1 = n + 3 := by omega
  have hpre : ([kind, lexeme] ++ List.replicate n "").length = n + 2 := by
    simp
  have g2 : ([kind, lexeme] ++ List.replicate n "" ++ [":", ty]).getD (n + 2) "" = ":" := by
    rw [List.getD_eq_getElem?_getD, List.getElem?_append_right (by omega)]
    simp [hpre]
  have g3 : ([kind, lexeme] ++ List.replicate n "" ++ [":", ty]).getD (n + 3) "" = ty := by
    rw [List.getD_eq_getElem?_getD, List.getElem?_append_right (by omega)]
    simp [hpre]
  have ht2 : List.take (n + 2) ([kind, lexeme] ++ List.replicate n "" ++ [":", ty])
      = [kind, lexeme] ++ List.replicate n "" := by
    rw [List.take_left' hpre]
  rw [if_neg h1, e2, e1, g2, if_pos rfl, g3, ht2, joinVector_terminal]
  rfl

theorem stripType_terminal_plain (kind lexeme : String) (n : Nat)
    (hk : ' ' ∉ kind.data) (hl : ' ' ∉ lexeme.data) (hk2 : kind ≠ ":") (hl2 : lexeme ≠ ":") :
    stripType (kind ++ " " ++ lexeme ++ spaces n)
      = .ok ("", kind :: lexeme :: List.replicate n "",
          kind ++ " " ++ lexeme ++ spaces n) := by
  unfold stripType
  dsimp only
  rw [splitString_terminal_plain kind lexeme n hk hl]
  have hlen : ([kind, lexeme] ++ List.replicate n "").length = n + 2 := by
    simp
  rw [hlen]
  have h1 : ¬ (n + 2 < 2) := by omega
  have e2 : n + 2 - 2 = n := by omega
  have g : ([kind, lexeme] ++ List.replicate n "").getD n "" ≠ ":" := by
    cases n with
    | zero => simpa using hk2
    | succ m =>
      cases m with
      | zero => simpa using hl2
      | succ k =>
        simp [List.getD_eq_getElem?_getD, List.getElem?_replicate]
  rw [if_neg h1, e2, if_neg g]
  rfl

/-- Streams whose lines are pairwise read as the same terminal node load alike. -/
theorem load_congr (isProduction : String → Bool) :
    ∀ (n : Nat) (s1 s2 : List String), s1.length < n →
      List.Forall₂ (SameTerminal isProduction) s1 s2 →
      SameLoad isProduction (loadParseTree isProduction s1) (loadParseTree isProduction s2) ∧
      ∀ rhs, SameLoad isProduction (loadChildren isProduction rhs s1)
        (loadChildren isProduction rhs s2) := by
  intro n
  induction n with
  | zero => intro s1 s2 h; omega
  | succ n ih =>
    intro s1 s2 hlen hrel
    have hT : SameLoad isProduction (loadParseTree isProduction s1)
        (loadParseTree isProduction s2) := by
      cases hrel with
      | nil => rw [loadParseTree_nil]; exact rfl
      | @cons l1 l2 t1 t2 hl ht =>
        have hlt : t1.length < n := by simp only [List.length_cons] at hlen; omega
        rcases hl with hl | ⟨type, kind, lexeme, more1, more2, line1, line2, h1, h2, p1, p2⟩
        · subst hl
          rw [loadParseTree_cons, loadParseTree_cons]
          cases hst : stripType l1 with
          | error e => exact rfl
          | ok v =>
            obtain ⟨type, parsedLine, line1⟩ := v
            dsimp only
            by_cases hp : isProduction line1 = true
            · rw [if_pos hp, if_pos hp]
              cases parsedLine with
              | nil => exact rfl
              | cons sym rhs =>
                dsimp only
                have hc := (ih t1 t2 hlt ht).2 rhs
                cases hc1 : loadChildren isProduction rhs t1 with
                | error e1 =>
                  cases hc2 : loadChildren isProduction rhs t2 with
                  | error e2 => rw [hc1, hc2] at hc; exact hc
                  | ok r2 => rw [hc1, hc2] at hc; exact hc.elim
                | ok r1 =>
                  cases hc2 : loadChildren isProduction rhs t2 with
                  | error e2 => rw [hc1, hc2] at hc; exact hc.elim
                  | ok r2 =>
                    rw [hc1, hc2] at hc
                    exact ⟨by rw [show r1.1 = r2.1 from hc.1], hc.2⟩
            · rw [if_neg hp, if_neg hp]
              cases parsedLine with
              | nil => exact rfl
              | cons kind rest =>
                cases rest with
                | nil => exact rfl
                | cons lexeme more => exact ⟨rfl, ht⟩
        · rw [loadParseTree_terminal isProduction l1 t1 type kind lexeme line1 more1 h1 p1,
            loadParseTree_terminal isProduction l2 t2 type kind lexeme line2 more2 h2 p2]
          exact ⟨rfl, ht⟩
    refine ⟨hT, ?_⟩
    intro rhs
    induction rhs generalizing s1 s2 with
    | nil =>
      rw [loadChildren_nil, loadChildren_nil]
      exact ⟨rfl, hrel⟩
    | cons sym rhs ihr =>
      rw [loadChildren_cons, loadChildren_cons]
      by_cases hsym : sym = ".EMPTY"
      · rw [if_pos hsym, if_pos hsym]
        have hc := ihr s1 s2 hlen hrel hT
        cases hc1 : loadChildren isProduction rhs s1 with
        | error e1 =>
          cases hc2 : loadChildren isProduction rhs s2 with
          | error e2 => rw [hc1, hc2] at hc; exact hc
          | ok r2 => rw [hc1, hc2] at hc; exact hc.elim
        | ok r1 =>
          cases hc2 : loadChildren isProduction rhs s2 with
          | error e2 => rw [hc1, hc2] at hc; exact hc.elim
          | ok r2 =>
            rw [hc1, hc2] at hc
            exact ⟨by rw [show r1.1 = r2.1 from hc.1], hc.2⟩
      · rw [if_neg hsym, if_neg hsym]
        cases ht1 : loadParseTree isProduction s1 with
        | error e1 =>
          cases ht2 : loadParseTree isProduction s2 with
          | error e2 => rw [ht1, ht2] at hT; exact hT
          | ok c2 => rw [ht1, ht2] at hT; exact hT.elim
        | ok c1 =>
          cases ht2 : loadParseTree isProduction s2 with
          | error e2 => rw [ht1, ht2] at hT; exact hT.elim
          | ok c2 =>
            rw [ht1, ht2] at hT
            have hl1 := loadParseTree_length isProduction s1 c1 ht1
            have hc := ihr c1.2 c2.2 (by omega) hT.2 (ih c1.2 c2.2 (by omega) hT.2).1
            dsimp only
            cases hc1 : loadChildren isProduction rhs c1.2 with
            | error e1 =>
              cases hc2 : loadChildren isProduction rhs c2.2 with
              | error e2 => rw [hc1, hc2] at hc; exact hc
              | ok r2 => rw [hc1, hc2] at hc; exact hc.elim
            | ok r1 =>
              cases hc2 : loadChildren isProduction rhs c2.2 with
              | error e2 => rw [hc1, hc2] at hc; exact hc.elim
              | ok r2 =>
                rw [hc1, hc2] at hc
                exact ⟨by rw [show c1.1 = c2.1 from hT.1, show r1.1 = r2.1 from hc.1], hc.2⟩

theorem load_minimalProgramLines :
    loadParseTree isProduction minimalProgramLines = .ok (minimalProgram, []) := by
  have s0 : stripType "start BOF procedures EOF" = .ok ("", ["start", "BOF", "procedures", "EOF"], "start BOF procedures EOF") := by rfl
  have p0 : isProduction "start BOF procedures EOF" = true := by rfl
  have s1 : stripType "BOF BOF" = .ok ("", ["BOF", "BOF"], "BOF BOF") := by rfl
  have p1 : isProduction "BOF BOF" = false := by rfl
  have s2 : stripType "procedures main" = .ok ("", ["procedures", "main"], "procedures main") := by rfl
  have p2 : isProduction "procedures main" = true := by rfl
  have s3 : stripType "main INT WAIN LPAREN dcl COMMA dcl RPAREN LBRACE dcls statements RETURN expr SEMI RBRACE" = .ok ("", ["main", "INT", "WAIN", "LPAREN", "dcl", "COMMA", "dcl", "RPAREN", "LBRACE", "dcls", "statements", "RETURN", "expr", "SEMI", "RBRACE"], "main INT WAIN LPAREN dcl COMMA dcl RPAREN LBRACE dcls statements RETURN expr SEMI RBRACE") := by rfl
  have p3 : isProduction "main INT WAIN LPAREN dcl COMMA dcl RPAREN LBRACE dcls statements RETURN expr SEMI RBRACE" = true := by rfl
  have s4 : stripType "INT int" = .ok ("", ["INT", "int"], "INT int") := by rfl
  have p4 : isProduction "INT int" = false := by rfl
  have s5 : stripType "WAIN wain" = .ok ("", ["WAIN", "wain"], "WAIN wain") := by rfl
  have p5 : isProduction "WAIN wain" = false := by rfl
  have s6 : stripType "LPAREN (" = .ok ("", ["LPAREN", "("], "LPAREN (") := by rfl
  have p6 : isProduction "LPAREN (" = false := by rfl
  have s7 : stripType "dcl type ID" = .ok ("", ["dcl", "type", "ID"], "dcl type ID") := by rfl
  have p7 : isProduction "dcl type ID" = true := by rfl
  have s8 : stripType "type INT" = .ok ("", ["type", "INT"], "type INT") := by rfl
  have p8 : isProduction "type INT" = true := by rfl
  have s9 : stripType "ID a : int" = .ok ("int", ["ID", "a"], "ID a") := by rfl
  have p9 : isProduction "ID a" = false := by rfl
  have s10 : stripType "COMMA ," = .ok ("", ["COMMA", ","], "COMMA ,") := by rfl
  have p10 : isProduction "COMMA ," = false := by rfl
  have s11 : stripType "ID b : int" = .ok ("int", ["ID", "b"], "ID b") := by rfl
  have p11 : isProduction "ID b" = false := by rfl
  have s12 : stripType "RPAREN )" = .ok ("", ["RPAREN", ")"], "RPAREN )") := by rfl
  have p12 : isProduction "RPAREN )" = false := by rfl
  have s13 : stripType "LBRACE \x7b" = .ok ("", ["LBRACE", "\x7b"], "LBRACE \x7b") := by rfl
  have p13 : isProduction "LBRACE \x7b" = false := by rfl
  have s14 : stripType "dcls .EMPTY" = .ok ("", ["dcls", ".EMPTY"], "dcls .EMPTY") := by rfl
  have p14 : isProduction "dcls .EMPTY" = true := by rfl
  have s15 : stripType "statements .EMPTY" = .ok ("", ["statements", ".EMPTY"], "statements .EMPTY") := by rfl
  have p15 : isProduction "statements .EMPTY" = true := by rfl
  have s16 : stripType "RETURN return" = .ok ("", ["RETURN", "return"], "RETURN return") := by rfl
  have p16 : isProduction "RETURN return" = false := by rfl
  have s17 : stripType "expr term : int" = .ok ("int", ["expr", "term"], "expr term") := by rfl
  have p17 : isProduction "expr term" = true := by rfl
  have s18 : stripType "term factor : int" = .ok ("int", ["term", "factor"], "term factor") := by rfl
  have p18 : isProduction "term factor" = true := by rfl
  have s19 : stripType "factor ID : int" = .ok ("int", ["factor", "ID"], "factor ID") := by rfl
  have p19 : isProduction "factor ID" = true := by rfl
  have s20 : stripType "SEMI ;" = .ok ("", ["SEMI", ";"], "SEMI ;") := by rfl
  have p20 : isProduction "SEMI ;" = false := by rfl
  have s21 : stripType "RBRACE \x7d" = .ok ("", ["RBRACE", "\x7d"], "RBRACE \x7d") := by rfl
  have p21 : isProduction "RBRACE \x7d" = false := by rfl
  have s22 : stripType "EOF EOF" = .ok ("", ["EOF", "EOF"], "EOF EOF") := by rfl
  have p22 : isProduction "EOF EOF" = false := by rfl
  simp only [minimalProgramLines, loadParseTree_cons, loadChildren_cons, loadChildren_nil,
    s0, p0, s1, p1, s2, p2, s3, p3, s4, p4, s5, p5, s6, p6, s7, p7, s8, p8, s9, p9, s10, p10, s11, p11, s12, p12, s13, p13, s14, p14, s15, p15, s16, p16, s17, p17, s18, p18, s19, p19, s20, p20, s21, p21, s22, p22,
    String.reduceEq, ↓reduceIte, Bool.false_eq_true]
  rfl

theorem code_minimalProgram :
    code minimalProgram {} = .ok (minimalMainOutput, stateAB 0) := by
  have hs : code emptyStatements (stateAB 0) = .ok ([], stateAB 0) := by
    simp only [emptyStatements, node, code_mk_statements_EMPTY]
  simp only [minimalProgram, node, leaf, code_mk_start, code_mk_procedures_main]
  rw [code_mainTree emptyStatements [] 0 hs]
  rfl

theorem sameTerminal_of_trailingSpaces (isProduction : String → Bool) (l1 l2 : String)
    (h : TrailingSpaces isProduction l1 l2) : SameTerminal isProduction l1 l2 := by
  rcases h with h | ⟨kind, lexeme, n, hk, hl, p0, pn, h⟩
  · exact Or.inl h
  · rcases h with ⟨ty, ht, h1, h2⟩ | ⟨hk2, hl2, h1, h2⟩
    · refine Or.inr ⟨ty, kind, lexeme, List.replicate 0 "", List.replicate n "", _, _, ?_, ?_,
        p0, pn⟩
      · rw [h1]; exact stripType_terminal_typed kind lexeme ty 0 hk hl ht
      · rw [h2]; exact stripType_terminal_typed kind lexeme ty n hk hl ht
    · refine Or.inr ⟨"", kind, lexeme, List.replicate 0 "", List.replicate n "", _, _, ?_, ?_,
        p0, pn⟩
      · rw [h1]; exact stripType_terminal_plain kind lexeme 0 hk hl hk2 hl2
      · rw [h2]; exact stripType_terminal_plain kind lexeme n hk hl hk2 hl2

/-- C22, counterexample. The serialized tree of `int wain(int a, int b) { return a; }`
loads and is emitted; with one additional space between the left-hand side and the
right-hand side of its first line, the line is read as a terminal leaf, and the program
prints the prologue only. -/
theorem extra_space_changes_output :
    loadParseTree isProduction minimalProgramLines = .ok (minimalProgram, []) ∧
    main isProduction minimalProgramLines = .ok (render (prologue ++ minimalMainOutput)) ∧
    loadParseTree isProduction ("start  BOF procedures EOF" :: minimalProgramLines.tail)
      = .ok (leaf "start" "", minimalProgramLines.tail) ∧
    main isProduction ("start  BOF procedures EOF" :: minimalProgramLines.tail)
      = .ok (render prologue) ∧
    render (prologue ++ minimalMainOutput) ≠ render prologue := by
  have h2 : loadParseTree isProduction
      ("start  BOF procedures EOF" :: minimalProgramLines.tail)
      = .ok (leaf "start" "", minimalProgramLines.tail) :=
    loadParseTree_terminal isProduction _ _ "" "start" "" "start  BOF procedures EOF"
      ["BOF", "procedures", "EOF"] (by rfl) (by rfl)
  refine ⟨load_minimalProgramLines, ?_, h2, ?_, ?_⟩
  · rw [main, load_minimalProgramLines, ok_bind, emit, code_minimalProgram, ok_bind]
    rfl
  · rw [main, h2, ok_bind, emit, code_other_terminal _ (by rfl) (by decide) (by decide)
      (by decide), ok_bind]
    rfl
  · decide

theorem forall2_sameTerminal (isProduction : String → Bool) (s1 s2 : List String)
    (h : List.Forall₂ (TrailingSpaces isProduction) s1 s2) :
    List.Forall₂ (SameTerminal isProduction) s1 s2 := by
  induction h with
  | nil => exact List.Forall₂.nil
  | cons hl _ ih => exact List.Forall₂.cons (sameTerminal_of_trailingSpaces _ _ _ hl) ih

/-- C22, amended. Additional spaces directly after the lexeme of a terminal line
`KIND LEXEME : TYPE` or `KIND LEXEME` are ignored (kind, lexeme and type without a space,
neither kind nor lexeme equal to `:` in the second form, and the line, with and without
the added spaces, no member of the registry). When every line of the second input is the
corresponding line of the first or differs from it by such spaces, loading gives the same
error or the same tree, and the program gives the same result, byte for byte. -/
theorem trailing_spaces_ignored (isProduction : String → Bool) (s1 s2 : List String)
    (h : List.Forall₂ (TrailingSpaces isProduction) s1 s2) :
    SameLoad isProduction (loadParseTree isProduction s1) (loadParseTree isProduction s2) ∧
    (∀ t rest, loadParseTree isProduction s1 = .ok (t, rest) →
      ∃ rest2, loadParseTree isProduction s2 = .ok (t, rest2)) ∧
    main isProduction s1 = main isProduction s2 := by
  have hc := (load_congr isProduction (s1.length + 1) s1 s2 (Nat.lt_succ_self _)
    (forall2_sameTerminal isProduction s1 s2 h)).1
  refine ⟨hc, ?_, ?_⟩
  · intro t rest h1
    rw [h1] at hc
    cases h2 : loadParseTree isProduction s2 with
    | error e => rw [h2] at hc; exact hc.elim
    | ok r2 =>
      rw [h2] at hc
      exact ⟨r2.2, by rw [show t = r2.1 from hc.1]⟩
  · rw [main, main]
    cases h1 : loadParseTree isProduction s1 with
    | error e1 =>
      cases h2 : loadParseTree isProduction s2 with
      | error e2 =>
        rw [h1, h2] at hc
        rw [show e1 = e2 from hc]
      | ok r2 => rw [h1, h2] at hc; exact hc.elim
    | ok r1 =>
      cases h2 : loadParseTree isProduction s2 with
      | error e2 => rw [h1, h2] at hc; exact hc.elim
      | ok r2 =>
        rw [h1, h2] at hc
        rw [ok_bind, ok_bind, show r1.1 = r2.1 from hc.1]

theorem trailing_spaces_ignored_witness :
    main isProduction ["factor NUM : int", "NUM 5   : int"]
      = main isProduction ["factor NUM : int", "NUM 5 : int"] ∧
    ∃ rest2, loadParseTree isProduction ["factor NUM : int", "NUM 5   : int"]
      = .ok (node "factor" "factor NUM" [leaf "NUM" "5" "int"] "int", rest2) := by
  have hrel : List.Forall₂ (TrailingSpaces isProduction)
      ["factor NUM : int", "NUM 5 : int"] ["factor NUM : int", "NUM 5   : int"] :=
    List.Forall₂.cons (Or.inl rfl) (List.Forall₂.cons
      (Or.inr ⟨"NUM", "5", 2, by decide, by decide, by rfl, by rfl,
        Or.inl ⟨"int", by decide, by rfl, by rfl⟩⟩) List.Forall₂.nil)
  have h := trailing_spaces_ignored isProduction _ _ hrel
  have hload : loadParseTree isProduction ["factor NUM : int", "NUM 5 : int"]
      = .ok (node "factor" "factor NUM" [leaf "NUM" "5" "int"] "int", []) := by
    rw [loadParseTree_production isProduction _ _ "int" "factor" "factor NUM" ["NUM"]
      (by rfl) (by rfl), loadChildren_cons, if_neg (by decide),
      loadParseTree_terminal isProduction _ _ "int" "NUM" "5" "NUM 5" [] (by rfl) (by rfl)]
    simp only [loadChildren_nil]
    rfl
  exact ⟨h.2.2.symm, h.2.1 _ _ hload⟩

/-! ## Well-formed trees and closed sets of symbols -/

theorem closed_free_label :
    closedUnder statementFree (fun p => !allocatesLabel p) = true := by
  decide

theorem closedUnder_spec (S : Symbol → Bool) (p : Production → Bool)
    (hc : closedUnder S p = true) (prod : Production) (sym : Symbol) (rhs : List Symbol)
    (hm : wlp4Productions.contains prod = true) (hs : splitString prod = sym :: rhs)
    (hS : S sym = true) : p prod = true ∧ ∀ s ∈ rhs, S s = true := by
  unfold closedUnder at hc
  rw [List.all_eq_true] at hc
  have h := hc prod (by simpa using hm)
  rw [hs] at h
  simp only [hS, Bool.not_true, Bool.false_or, Bool.and_eq_true, List.all_eq_true] at h
  exact h

mutual
theorem wf_allNodes (S : Symbol → Bool) (p : Production → Bool)
    (hc : closedUnder S p = true) (hl : p "" = true) :
    ∀ (t : TreeNode), t.wellFormed = true → S t.symbol = true → t.allNodes p = true
  | .mk ty sym prod tok cs, hwf, hS => by
    unfold TreeNode.wellFormed at hwf
    unfold TreeNode.allNodes
    by_cases hp : prod = ""
    · rw [if_pos hp] at hwf
      simp only [Bool.and_eq_true, List.isEmpty_iff] at hwf
      rw [hp, hl, hwf.1]
      rfl
    · rw [if_neg hp] at hwf
      simp only [Bool.and_eq_true, beq_iff_eq] at hwf
      have h := closedUnder_spec S p hc prod sym _ hwf.1.1 hwf.1.2 hS
      rw [h.1, Bool.true_and]
      exact wf_allNodesList S p hc hl cs hwf.2
        (fun c hcm => h.2 c.symbol (List.mem_map_of_mem _ hcm))
theorem wf_allNodesList (S : Symbol → Bool) (p : Production → Bool)
    (hc : closedUnder S p = true) (hl : p "" = true) :
    ∀ (cs : List TreeNode), TreeNode.wellFormedList cs = true →
      (∀ c ∈ cs, S c.symbol = true) → TreeNode.allNodesList p cs = true
  | [], _, _ => rfl
  | c :: cs, hwf, hS => by
    unfold TreeNode.wellFormedList at hwf
    simp only [Bool.and_eq_true] at hwf
    unfold TreeNode.allNodesList
    rw [wf_allNodes S p hc hl c hwf.1 (hS c (List.mem_cons_self _ _)),
      wf_allNodesList S p hc hl cs hwf.2 (fun d hd => hS d (List.mem_cons_of_mem _ hd))]
    rfl
end

/-! ## C25: expressions leave the globals unchanged -/

theorem wellFormedList_mem :
    ∀ (cs : List TreeNode) (c : TreeNode), TreeNode.wellFormedList cs = true → c ∈ cs →
      c.wellFormed = true
  | [], c, _, hc => by simp at hc
  | d :: ds, c, h, hc => by
    unfold TreeNode.wellFormedList at h
    simp only [Bool.and_eq_true] at h
    simp only [List.mem_cons] at hc
    rcases hc with hc | hc
    · subst hc; exact h.1
    · exact wellFormedList_mem ds c h.2 hc

/-- In a well-formed interior node the `i`-th child is well-formed and its symbol is the
`i`-th symbol of the right-hand side. -/
theorem wf_child (root c : TreeNode) (i : Nat) (hwf : root.wellFormed = true)
    (hne : root.production ≠ "") (hc : root.children[i]? = some c) :
    c.wellFormed = true ∧ (splitString root.production)[i + 1]? = some c.symbol := by
  cases root with
  | mk ty sym prod tok cs =>
    unfold TreeNode.wellFormed at hwf
    have hp : prod ≠ "" := hne
    rw [if_neg hp] at hwf
    simp only [Bool.and_eq_true, beq_iff_eq] at hwf
    have hc2 : cs[i]? = some c := hc
    refine ⟨wellFormedList_mem cs c hwf.2 (List.getElem?_mem hc2), ?_⟩
    show (splitString prod)[i + 1]? = some c.symbol
    rw [hwf.1.2, List.getElem?_cons_succ, List.getElem?_map, hc2]
    rfl

theorem pb_append {ka kb k : Nat} {a b : List String} (hc : closed a = true)
    (ha : PB ka a) (hb : PB kb b) (h1 : ka ≤ k) (h2 : popCount a + kb ≤ pushCount a + k) :
    PB k (a ++ b) := by
  intro p hp
  rw [List.mem_inits] at hp
  rcases List.prefix_or_prefix_of_prefix hp (List.prefix_append a b) with h | h
  · have := ha p ((List.mem_inits _ _).2 h)
    omega
  · obtain ⟨q, rfl⟩ := h
    have hq : q <+: b := (List.prefix_append_right_inj a).1 hp
    have := hb q ((List.mem_inits _ _).2 hq)
    rw [pushCount_append q hc, popCount_append q hc]
    omega

theorem spok_append {a b : List String} (hc : closed a = true) (ha : SPok a) (hb : SPok b) :
    SPok (a ++ b) := by
  obtain ⟨a1, a2, a3⟩ := ha
  obtain ⟨b1, b2, b3⟩ := hb
  refine ⟨?_, ?_, ?_⟩
  · rw [List.count_append, pushCount_append b hc, a1, b1]
  · rw [List.count_append, popCount_append b hc, a2, b2]
  · intro l hl
    rcases List.mem_append.1 hl with h | h
    · exact a3 l h
    · exact b3 l h

theorem Good.seq {n k : Int} {a b : List String} (ha : Good n a) (hb : Good k b)
    (h : 0 ≤ n ∨ k ≤ 0) : Good (n + k) (a ++ b) := by
  obtain ⟨ba, pa, sa⟩ := ha
  obtain ⟨bb, pb, sb⟩ := hb
  have e := ba.2
  refine ⟨ba.append bb, pb_append ba.1 pa pb ?_ ?_, spok_append ba.1 sa sb⟩
  · omega
  · omega

theorem Good.cast {n k : Int} {out : List String} (h : Good n out) (e : n = k) :
    Good k out :=
  e ▸ h

theorem Good.empty : Good 0 [] := by decide

theorem good_push : ∀ r ∈ ["$1", "$2", "$3", "$5", "$6", "$7", "$29", "$31"],
    Good 1 (push r) := by decide

theorem good_pop : ∀ r ∈ ["$1", "$2", "$3", "$5", "$6", "$7", "$29", "$31"],
    Good (-1) (pop r) := by decide

theorem good_saves :
    Good 5 (push "$1" ++ push "$2" ++ push "$5" ++ push "$6" ++ push "$7") := by decide

theorem good_restores :
    Good (-5) (pop "$1" ++ pop "$2" ++ pop "$5" ++ pop "$6" ++ pop "$7") := by decide

theorem good_plain (ls : List String) (h : ∀ l ∈ ls, quiet l = true) : Good 0 ls := by
  induction ls with
  | nil => exact Good.empty
  | cons x rest ih =>
    have hx := h x (by simp)
    have hr := ih (fun l hl => h l (by simp [hl]))
    simp only [quiet, plain, Bool.and_eq_true, Bool.not_eq_true', bne_iff_ne, ne_eq] at hx
    obtain ⟨⟨⟨⟨h1, h2⟩, h3⟩, h4⟩, h5⟩ := hx
    have hsingle : Good 0 [x] := by
      refine ⟨⟨?_, by simp [pushCount, popCount]⟩, ?_, ?_, ?_, ?_⟩
      · simp [closed, opensSequence, h1, h4]
      · intro p hp
        have hl := ((List.mem_inits _ _).1 hp).length_le
        match p, hl with
        | [], _ => simp [popCount]
        | [y], _ => simp [popCount]
        | _ :: _ :: _, hl => simp at hl
      · simp [pushCount, List.count_singleton, Ne.symm h3]
      · simp [popCount, List.count_singleton, Ne.symm h4]
      · intro l hl
        simp only [List.mem_singleton] at hl
        rw [hl, h5]
        intro hf; cases hf
    have := Good.seq hsingle hr (Or.inl (le_refl 0))
    simpa using this

/-! ### Lines that do not write the stack pointer -/

theorem splitOnChar_first (sep c : Char) (rest : List Char) :
    ∃ w ws, splitOnChar sep (c :: rest) = w :: ws ∧ (w = [] ∨ w.head? = some c) := by
  rw [splitOnChar]
  by_cases h : c = sep
  · rw [if_pos h]; exact ⟨[], _, rfl, Or.inl rfl⟩
  · rw [if_neg h]
    cases splitOnChar sep rest with
    | nil => exact ⟨[c], [], rfl, Or.inr rfl⟩
    | cons w ws => exact ⟨c :: w, ws, rfl, Or.inr rfl⟩

theorem writers_head : ∀ s ∈ writers, s.data.head? = some 'a' ∨ s.data.head? = some 's'
    ∨ s.data.head? = some 'l' ∨ s.data.head? = some 'm' := by decide

theorem writesSP_of_head (line : String) (c : Char)
    (h : line.toList.head? = some c) (hs : c ≠ 's') (ha : c ≠ 'a') (hl : c ≠ 'l')
    (hm : c ≠ 'm') : writesSP line = false := by
  unfold writesSP
  cases hlist : line.toList with
  | nil => rfl
  | cons y ys =>
    rw [hlist] at h
    have hy : y = c := Option.some.inj h
    subst hy
    obtain ⟨w, ws, e, hw⟩ := splitOnChar_first ' ' y ys
    rw [e]
    cases ws with
    | nil => rfl
    | cons d ds =>
      have hnot : writers.contains (String.mk w) = false := by
        rw [Bool.eq_false_iff]
        intro hc
        have hmem : String.mk w ∈ writers := by simpa using hc
        have hh := writers_head _ hmem
        have hd : (String.mk w).data = w := rfl
        rw [hd] at hh
        rcases hw with hw | hw
        · rw [hw] at hh; simp at hh
        · rw [hw] at hh
          simp only [Option.some.injEq] at hh
          rcases hh with hh | hh | hh | hh
          · exact ha hh
          · exact hs hh
          · exact hl hh
          · exact hm hh
      simp only [hnot, Bool.false_and]

theorem quiet_of_head (line : String) (c : Char)
    (h : line.toList.head? = some c) (hs : c ≠ 's') (ha : c ≠ 'a') (hl : c ≠ 'l')
    (hm : c ≠ 'm') : quiet line = true := by
  unfold quiet
  rw [plain_of_head line c h hs ha hl, writesSP_of_head line c h hs ha hl hm]
  rfl

theorem quiet_lw (off : String) : quiet ("lw $3, " ++ off ++ "($29)") = true := by
  unfold quiet
  rw [plain_lw off]
  have e : ("lw $3, " ++ off ++ "($29)").toList
      = ['l', 'w'] ++ ' ' :: (['$', '3', ','] ++ ' ' :: (off.data ++ "($29)".data)) := by
    show ("lw $3, " ++ off ++ "($29)").data = _
    rw [String.data_append, String.data_append]
    rfl
  have hw : writesSP ("lw $3, " ++ off ++ "($29)") = false := by
    unfold writesSP
    rw [e, splitOnChar_append_sep ' ' _ _ (by decide)]
    cases hrest : splitOnChar ' ' (['$', '3', ','] ++ ' ' :: (off.data ++ "($29)".data)) with
    | nil => rfl
    | cons d ds =>
      rw [splitOnChar_append_sep ' ' _ _ (by decide)] at hrest
      have hd : d = ['$', '3', ','] := (List.cons.inj hrest).1.symm
      rw [hd]
      show (writers.contains (String.mk ['l', 'w'])
        && stripComma ['$', '3', ','] == "$30".toList) = false
      decide
  rw [hw]
  rfl

theorem quiet_append (pre x : String) (c : Char)
    (h : pre.toList.head? = some c) (hs : c ≠ 's') (ha : c ≠ 'a') (hl : c ≠ 'l') (hm : c ≠ 'm') :
    quiet (pre ++ x) = true :=
  quiet_of_head (pre ++ x) c (head?_toList_append pre x c h) hs ha hl hm

theorem quiet_append_append (pre x post : String) (c : Char)
    (h : pre.toList.head? = some c) (hs : c ≠ 's') (ha : c ≠ 'a') (hl : c ≠ 'l') (hm : c ≠ 'm') :
    quiet (pre ++ x ++ post) = true :=
  quiet_of_head (pre ++ x ++ post) c
    (head?_toList_append (pre ++ x) post c (head?_toList_append pre x c h)) hs ha hl hm

theorem quiet_cmp (type : WType) (args : String)
    (h1 : quiet ("slt" ++ args) = true) (h2 : quiet ("sltu" ++ args) = true) :
    quiet (comparisonOp type ++ args) = true := by
  rcases comparisonOp_cases type with h | h
  · rw [h]; exact h1
  · rw [h]; exact h2

theorem good_num (x : String) : Good 0 ["lis $3", ".word " ++ x] :=
  good_plain _ (by
    intro l hl
    simp only [List.mem_cons, List.mem_singleton, List.not_mem_nil, or_false] at hl
    rcases hl with h | h
    · rw [h]; decide
    · rw [h]; exact quiet_append ".word " x '.' (by decide) (by decide) (by decide)
        (by decide) (by decide))

theorem good_lw (off : String) : Good 0 ["lw $3, " ++ off ++ "($29)"] :=
  good_plain _ (by
    intro l hl
    simp only [List.mem_singleton] at hl
    rw [hl]; exact quiet_lw off)

theorem good_lvalue (off : String) : Good 0 ["lis $5", ".word " ++ off, "add $3, $29, $5"] :=
  good_plain _ (by
    intro l hl
    simp only [List.mem_cons, List.mem_singleton, List.not_mem_nil, or_false] at hl
    rcases hl with h | h | h
    · rw [h]; decide
    · rw [h]; exact quiet_append ".word " off '.' (by decide) (by decide) (by decide)
        (by decide) (by decide)
    · rw [h]; decide)

theorem good_call (label : String) : Good 0 ["lis $5", ".word " ++ label, "jalr $5"] :=
  good_plain _ (by
    intro l hl
    simp only [List.mem_cons, List.mem_singleton, List.not_mem_nil, or_false] at hl
    rcases hl with h | h | h
    · rw [h]; decide
    · rw [h]; exact quiet_append ".word " label '.' (by decide) (by decide) (by decide)
        (by decide) (by decide)
    · rw [h]; decide)

theorem good_branch (pre label : String) (c : Char)
    (h : pre.toList.head? = some c) (hs : c ≠ 's') (ha : c ≠ 'a') (hl : c ≠ 'l') (hm : c ≠ 'm') :
    Good 0 [pre ++ label] :=
  good_plain _ (by
    intro l hmem
    simp only [List.mem_singleton] at hmem
    rw [hmem]; exact quiet_append pre label c h hs ha hl hm)

theorem good_label (pre x : String) (c : Char)
    (h : pre.toList.head? = some c) (hs : c ≠ 's') (ha : c ≠ 'a') (hl : c ≠ 'l') (hm : c ≠ 'm') :
    Good 0 [pre ++ x ++ ":"] :=
  good_plain _ (by
    intro l hmem
    simp only [List.mem_singleton] at hmem
    rw [hmem]; exact quiet_append_append pre x ":" c h hs ha hl hm)

theorem good_proc_label (x : String) : Good 0 ["F" ++ x ++ ":", "sub $29, $30, $4"] :=
  good_plain _ (by
    intro l hl
    simp only [List.mem_cons, List.mem_singleton, List.not_mem_nil, or_false] at hl
    rcases hl with h | h
    · rw [h]; exact quiet_append_append "F" x ":" 'F' (by decide) (by decide) (by decide)
        (by decide) (by decide)
    · rw [h]; decide)

theorem good_delete_guard (label : String) :
    Good 0 ["lis $5", ".word 69", "beq $3, $5, " ++ label] :=
  good_plain _ (by
    intro l hl
    simp only [List.mem_cons, List.mem_singleton, List.not_mem_nil, or_false] at hl
    rcases hl with h | h | h
    · rw [h]; decide
    · rw [h]; decide
    · rw [h]; exact quiet_append "beq $3, $5, " label 'b' (by decide) (by decide)
        (by decide) (by decide) (by decide))

theorem good_cmp1 (type : WType) (args : String)
    (h1 : quiet ("slt" ++ args) = true) (h2 : quiet ("sltu" ++ args) = true) :
    Good 0 [comparisonOp type ++ args] :=
  good_plain _ (by
    intro l hl
    simp only [List.mem_singleton] at hl
    rw [hl]; exact quiet_cmp type args h1 h2)

theorem good_cmp_ne (type : WType) :
    Good 0 [comparisonOp type ++ " $6, $3, $5", comparisonOp type ++ " $7, $5, $3",
      "add $3, $6, $7"] :=
  good_plain _ (by
    intro l hl
    simp only [List.mem_cons, List.mem_singleton, List.not_mem_nil, or_false] at hl
    rcases hl with h | h | h
    · rw [h]; exact quiet_cmp type _ (by decide) (by decide)
    · rw [h]; exact quiet_cmp type _ (by decide) (by decide)
    · rw [h]; decide)

theorem good_cmp_eq (type : WType) :
    Good 0 [comparisonOp type ++ " $6, $3, $5", comparisonOp type ++ " $7, $5, $3",
      "add $3, $6, $7", "sub $3, $11, $3"] :=
  good_plain _ (by
    intro l hl
    simp only [List.mem_cons, List.mem_singleton, List.not_mem_nil, or_false] at hl
    rcases hl with h | h | h | h
    · rw [h]; exact quiet_cmp type _ (by decide) (by decide)
    · rw [h]; exact quiet_cmp type _ (by decide) (by decide)
    · rw [h]; decide
    · rw [h]; decide)

theorem good_replicate_pop (n : Nat) :
    Good (-(n : Int)) (List.replicate n (pop "$5")).flatten := by
  induction n with
  | zero => exact Good.empty
  | succ k ih =>
    have h := Good.seq (good_pop "$5" (by decide)) ih (Or.inr (by omega))
    rw [List.replicate_succ, List.flatten_cons]
    exact h.cast (by push_cast; ring)

theorem post_argsCode_good (args : List TreeNode)
    (h : ∀ e ∈ args, ∀ st, Post (fun r => Good 0 r.1) (code e st)) (st : State) :
    Post (fun r => Good (args.length : Int) r.1) (argsCode args st) := by
  induction args generalizing st with
  | nil => exact Good.empty
  | cons e es ih =>
    rw [argsCode]
    refine post_bind_code (h e (by simp) st) (fun r1 b1 => ?_)
    refine post_bind_code (ih (fun x hx => h x (by simp [hx])) r1.2) (fun r2 b2 => ?_)
    refine post_pure ?_
    exact ((b1.seq (good_push "$3" (by decide)) (Or.inl (by decide))).seq b2
      (Or.inl (by decide))).cast
      (by simp only [List.length_cons]; push_cast; ring)


theorem post_pure_good {out : List String} {st : State} (h : Good 0 out) :
    Post (fun r => Good 0 r.1) (pure (out, st)) := h

theorem post_foldlM_good (args : List TreeNode)
    (h : ∀ e ∈ args, ∀ st, Post (fun r => Good 0 r.1) (code e st))
    {k : Int} {acc : List String} (hacc : Good k acc) (hk : 0 ≤ k) (st : State) :
    Post (fun r => Good (k + (args.length : Int)) r.1)
      (args.attach.foldlM (fun (acc : List String × State) expr => do
        let r1 ← code expr.1 acc.2
        pure (acc.1 ++ r1.1 ++ push "$3", r1.2)) (acc, st)) := by
  rw [foldlM_attach_eq args (fun (acc : List String × State) e => do
        let r1 ← code e acc.2
        pure (acc.1 ++ r1.1 ++ push "$3", r1.2)), foldlM_args_eq]
  refine post_bind_code (post_argsCode_good args h st) (fun r br => ?_)
  exact hacc.seq br (Or.inl hk)

set_option maxHeartbeats 4000000 in
/-- Emission from a subtree without stack-allocating nodes keeps the stack-pointer
discipline (induction on the size of the tree, one case per production of `codeN`). -/
theorem good_aux (n : Nat) : ∀ (root : TreeNode), sizeOf root < n →
    root.allocationFree = true → ∀ st, Post (fun r => Good 0 r.1) (code root st) := by
  induction n with
  | zero => intro root h; omega
  | succ n ih =>
    intro root hsz hfree st
    have IH : ∀ (c : {c : TreeNode // sizeOf c < sizeOf root}), c.1 ∈ root.children →
        ∀ st, Post (fun r => Good 0 r.1) (code c.1 st) := fun c hc st =>
      ih c.1 (by have := c.2; omega) (allNodes_of_mem_children _ root c.1 hfree hc) st
    rw [code]
    by_cases hN : root.N = true
    · rw [if_pos hN, codeN]
      have hne : root.production ≠ "" := by
        intro h; simp [TreeNode.N, h] at hN
      rw [getProduction_eq_ok hne, ok_bind]
      by_cases hp : root.production = "start BOF procedures EOF"
      · rw [if_pos hp]
        refine post_child (fun c0 hc0 => ?_)
        exact IH c0 hc0 _
      rw [if_neg hp]
      clear hp
      by_cases hp : root.production = "procedures main"
      · rw [if_pos hp]
        refine post_child (fun c0 hc0 => ?_)
        exact IH c0 hc0 _
      rw [if_neg hp]
      clear hp
      by_cases hp : root.production = "main INT WAIN LPAREN dcl COMMA dcl RPAREN LBRACE dcls statements RETURN expr SEMI RBRACE"
      · rw [if_pos hp]
        exfalso
        have h := allNodes_production _ root hfree
        rw [hp] at h
        revert h; decide
      rw [if_neg hp]
      clear hp
      by_cases hp : root.production = "type INT"
      · rw [if_pos hp]
        exact post_pure_good Good.empty
      rw [if_neg hp]
      clear hp
      by_cases hp : root.production = "dcl type ID"
      · rw [if_pos hp]
        refine post_child (fun c0 hc0 => ?_)
        refine post_bind_any (fun tok => ?_)
        refine post_bind_any (fun tables => ?_)
        exact post_pure_good Good.empty
      rw [if_neg hp]
      clear hp
      by_cases hp : root.production = "dcls .EMPTY"
      · rw [if_pos hp]
        exact post_pure_good Good.empty
      rw [if_neg hp]
      clear hp
      by_cases hp : root.production = "statements .EMPTY"
      · rw [if_pos hp]
        exact post_pure_good Good.empty
      rw [if_neg hp]
      clear hp
      by_cases hp : root.production = "expr term"
      · rw [if_pos hp]
        refine post_child (fun c0 hc0 => ?_)
        exact IH c0 hc0 _
      rw [if_neg hp]
      clear hp
      by_cases hp : root.production = "term factor"
      · rw [if_pos hp]
        refine post_child (fun c0 hc0 => ?_)
        exact IH c0 hc0 _
      rw [if_neg hp]
      clear hp
      by_cases hp : root.production = "factor NUM"
      · rw [if_pos hp]
        refine post_child (fun c0 hc0 => ?_)
        exact IH c0 hc0 _
      rw [if_neg hp]
      clear hp
      by_cases hp : root.production = "factor ID"
      · rw [if_pos hp]
        refine post_child (fun c0 hc0 => ?_)
        exact IH c0 hc0 _
      rw [if_neg hp]
      clear hp
      by_cases hp : root.production = "factor LPAREN expr RPAREN"
      · rw [if_pos hp]
        refine post_child (fun c0 hc0 => ?_)
        exact IH c0 hc0 _
      rw [if_neg hp]
      clear hp
      by_cases hp : root.production = "dcls dcls dcl BECOMES NUM SEMI"
      · rw [if_pos hp]
        exfalso
        have h := allNodes_production _ root hfree
        rw [hp] at h
        revert h; decide
      rw [if_neg hp]
      clear hp
      by_cases hp : root.production = "statements statements statement"
      · rw [if_pos hp]
        refine post_child (fun c0 hc0 => ?_)
        refine post_child (fun c1 hc1 => ?_)
        refine post_bind_code (IH c0 hc0 _) (fun r1 br1 => ?_)
        refine post_bind_code (IH c1 hc1 _) (fun r2 br2 => ?_)
        exact post_pure_good ((br1.seq br2 (Or.inl (by decide))).cast (by decide))
      rw [if_neg hp]
      clear hp
      by_cases hp : root.production = "statement lvalue BECOMES expr SEMI"
      · rw [if_pos hp]
        refine post_child (fun c0 hc0 => ?_)
        refine post_child (fun c1 hc1 => ?_)
        refine post_bind_code (IH c0 hc0 _) (fun r1 br1 => ?_)
        refine post_bind_code (IH c1 hc1 _) (fun r2 br2 => ?_)
        exact post_pure_good (((((br1.seq (good_push "$3" (by decide)) (Or.inl (by decide))).seq br2 (Or.inl (by decide))).seq (good_pop "$5" (by decide)) (Or.inl (by decide))).seq (show Good 0 ["sw $3, 0($5)"] from by decide) (Or.inl (by decide))).cast (by decide))
      rw [if_neg hp]
      clear hp
      by_cases hp : root.production = "lvalue ID"
      · rw [if_pos hp]
        refine post_child (fun c0 hc0 => ?_)
        refine post_bind_any (fun tok => ?_)
        refine post_bind_any (fun off => ?_)
        exact post_pure_good ((good_lvalue _).cast (by decide))
      rw [if_neg hp]
      clear hp
      by_cases hp : root.production = "lvalue LPAREN lvalue RPAREN"
      · rw [if_pos hp]
        refine post_child (fun c0 hc0 => ?_)
        exact IH c0 hc0 _
      rw [if_neg hp]
      clear hp
      by_cases hp : root.production = "expr expr PLUS term"
      · rw [if_pos hp]
        refine post_child (fun c0 hc0 => ?_)
        refine post_child (fun c1 hc1 => ?_)
        refine post_ite (fun _ => ?_) (fun _ => ?_)
        · refine post_bind_code (IH c0 hc0 _) (fun r1 br1 => ?_)
          refine post_bind_code (IH c1 hc1 _) (fun r2 br2 => ?_)
          exact post_pure_good (((((br1.seq (good_push "$3" (by decide)) (Or.inl (by decide))).seq br2 (Or.inl (by decide))).seq (good_pop "$5" (by decide)) (Or.inl (by decide))).seq (show Good 0 ["add $3, $5, $3"] from by decide) (Or.inl (by decide))).cast (by decide))
        · refine post_ite (fun _ => ?_) (fun _ => ?_)
          · refine post_bind_code (IH c0 hc0 _) (fun r1 br1 => ?_)
            refine post_bind_code (IH c1 hc1 _) (fun r2 br2 => ?_)
            exact post_pure_good ((((((br1.seq (good_push "$3" (by decide)) (Or.inl (by decide))).seq br2 (Or.inl (by decide))).seq (show Good 0 ["mult $3, $4", "mflo $3"] from by decide) (Or.inl (by decide))).seq (good_pop "$5" (by decide)) (Or.inl (by decide))).seq (show Good 0 ["add $3, $5, $3"] from by decide) (Or.inl (by decide))).cast (by decide))
          · refine post_ite (fun _ => ?_) (fun _ => ?_)
            · refine post_bind_code (IH c0 hc0 _) (fun r1 br1 => ?_)
              refine post_bind_code (IH c1 hc1 _) (fun r2 br2 => ?_)
              exact post_pure_good ((((((br1.seq (show Good 0 ["mult $3, $4", "mflo $3"] from by decide) (Or.inl (by decide))).seq (good_push "$3" (by decide)) (Or.inl (by decide))).seq br2 (Or.inl (by decide))).seq (good_pop "$5" (by decide)) (Or.inl (by decide))).seq (show Good 0 ["add $3, $5, $3"] from by decide) (Or.inl (by decide))).cast (by decide))
            · exact post_pure_good Good.empty
      rw [if_neg hp]
      clear hp
      by_cases hp : root.production = "expr expr MINUS term"
      · rw [if_pos hp]
        refine post_child (fun c0 hc0 => ?_)
        refine post_child (fun c1 hc1 => ?_)
        refine post_ite (fun _ => ?_) (fun _ => ?_)
        · refine post_bind_code (IH c0 hc0 _) (fun r1 br1 => ?_)
          refine post_bind_code (IH c1 hc1 _) (fun r2 br2 => ?_)
          exact post_pure_good (((((br1.seq (good_push "$3" (by decide)) (Or.inl (by decide))).seq br2 (Or.inl (by decide))).seq (good_pop "$5" (by decide)) (Or.inl (by decide))).seq (show Good 0 ["sub $3, $5, $3"] from by decide) (Or.inl (by decide))).cast (by decide))
        · refine post_ite (fun _ => ?_) (fun _ => ?_)
          · refine post_bind_code (IH c0 hc0 _) (fun r1 br1 => ?_)
            refine post_bind_code (IH c1 hc1 _) (fun r2 br2 => ?_)
            exact post_pure_good ((((((br1.seq (good_push "$3" (by decide)) (Or.inl (by decide))).seq br2 (Or.inl (by decide))).seq (show Good 0 ["mult $3, $4", "mflo $3"] from by decide) (Or.inl (by decide))).seq (good_pop "$5" (by decide)) (Or.inl (by decide))).seq (show Good 0 ["sub $3, $5, $3"] from by decide) (Or.inl (by decide))).cast (by decide))
          · refine post_ite (fun _ => ?_) (fun _ => ?_)
            · refine post_bind_code (IH c0 hc0 _) (fun r1 br1 => ?_)
              refine post_bind_code (IH c1 hc1 _) (fun r2 br2 => ?_)
              exact post_pure_good (((((br1.seq (good_push "$3" (by decide)) (Or.inl (by decide))).seq br2 (Or.inl (by decide))).seq (good_pop "$5" (by decide)) (Or.inl (by decide))).seq (show Good 0 ["sub $3, $5, $3", "div $3, $4", "mflo $3"] from by decide) (Or.inl (by decide))).cast (by decide))
            · exact post_pure_good Good.empty
      rw [if_neg hp]
      clear hp
      by_cases hp : root.production = "term term STAR factor"
      · rw [if_pos hp]
        refine post_child (fun c0 hc0 => ?_)
        refine post_child (fun c1 hc1 => ?_)
        refine post_bind_code (IH c0 hc0 _) (fun r1 br1 => ?_)
        refine post_bind_code (IH c1 hc1 _) (fun r2 br2 => ?_)
        exact post_pure_good (((((br1.seq (good_push "$3" (by decide)) (Or.inl (by decide))).seq br2 (Or.inl (by decide))).seq (good_pop "$5" (by decide)) (Or.inl (by decide))).seq (show Good 0 ["mult $5, $3", "mflo $3"] from by decide) (Or.inl (by decide))).cast (by decide))
      rw [if_neg hp]
      clear hp
      by_cases hp : root.production = "term term SLASH factor"
      · rw [if_pos hp]
        refine post_child (fun c0 hc0 => ?_)
        refine post_child (fun c1 hc1 => ?_)
        refine post_bind_code (IH c0 hc0 _) (fun r1 br1 => ?_)
        refine post_bind_code (IH c1 hc1 _) (fun r2 br2 => ?_)
        exact post_pure_good (((((br1.seq (good_push "$3" (by decide)) (Or.inl (by decide))).seq br2 (Or.inl (by decide))).seq (good_pop "$5" (by decide)) (Or.inl (by decide))).seq (show Good 0 ["div $5, $3", "mflo $3"] from by decide) (Or.inl (by decide))).cast (by decide))
      rw [if_neg hp]
      clear hp
      by_cases hp : root.production = "term term PCT factor"
      · rw [if_pos hp]
        refine post_child (fun c0 hc0 => ?_)
        refine post_child (fun c1 hc1 => ?_)
        refine post_bind_code (IH c0 hc0 _) (fun r1 br1 => ?_)
        refine post_bind_code (IH c1 hc1 _) (fun r2 br2 => ?_)
        exact post_pure_good (((((br1.seq (good_push "$3" (by decide)) (Or.inl (by decide))).seq br2 (Or.inl (by decide))).seq (good_pop "$5" (by decide)) (Or.inl (by decide))).seq (show Good 0 ["div $5, $3", "mfhi $3"] from by decide) (Or.inl (by decide))).cast (by decide))
      rw [if_neg hp]
      clear hp
      by_cases hp : root.production = "statement IF LPAREN test RPAREN LBRACE statements RBRACE ELSE LBRACE statements RBRACE"
      · rw [if_pos hp]
        refine post_child (fun c0 hc0 => ?_)
        refine post_child (fun c1 hc1 => ?_)
        refine post_child (fun c2 hc2 => ?_)
        refine post_bind_code (IH c0 hc0 _) (fun r1 br1 => ?_)
        refine post_bind_code (IH c1 hc1 _) (fun r2 br2 => ?_)
        refine post_bind_code (IH c2 hc2 _) (fun r3 br3 => ?_)
        exact post_pure_good (((((((br1.seq (good_branch "beq $3, $0, " _ 'b' (by decide) (by decide) (by decide) (by decide) (by decide)) (Or.inl (by decide))).seq br2 (Or.inl (by decide))).seq (good_branch "beq $0, $0, " _ 'b' (by decide) (by decide) (by decide) (by decide) (by decide)) (Or.inl (by decide))).seq (good_label "Felse" _ 'F' (by decide) (by decide) (by decide) (by decide) (by decide)) (Or.inl (by decide))).seq br3 (Or.inl (by decide))).seq (good_label "Fendif" _ 'F' (by decide) (by decide) (by decide) (by decide) (by decide)) (Or.inl (by decide))).cast (by decide))
      rw [if_neg hp]
      clear hp
      by_cases hp : root.production = "statement WHILE LPAREN test RPAREN LBRACE statements RBRACE"
      · rw [if_pos hp]
        refine post_child (fun c0 hc0 => ?_)
        refine post_child (fun c1 hc1 => ?_)
        refine post_bind_code (IH c0 hc0 _) (fun r1 br1 => ?_)
        refine post_bind_code (IH c1 hc1 _) (fun r2 br2 => ?_)
        exact post_pure_good (((((((good_label "Floop" _ 'F' (by decide) (by decide) (by decide) (by decide) (by decide)).seq br1 (Or.inl (by decide))).seq (good_branch "beq $3, $0, " _ 'b' (by decide) (by decide) (by decide) (by decide) (by decide)) (Or.inl (by decide))).seq br2 (Or.inl (by decide))).seq (good_branch "beq $0, $0, " _ 'b' (by decide) (by decide) (by decide) (by decide) (by decide)) (Or.inl (by decide))).seq (good_label "Fendwhile" _ 'F' (by decide) (by decide) (by decide) (by decide) (by decide)) (Or.inl (by decide))).cast (by decide))
      rw [if_neg hp]
      clear hp
      by_cases hp : root.production = "test expr EQ expr"
      · rw [if_pos hp]
        refine post_child (fun c0 hc0 => ?_)
        refine post_child (fun c1 hc1 => ?_)
        refine post_bind_code (IH c0 hc0 _) (fun r1 br1 => ?_)
        refine post_bind_code (IH c1 hc1 _) (fun r2 br2 => ?_)
        exact post_pure_good (((((br1.seq (good_push "$3" (by decide)) (Or.inl (by decide))).seq br2 (Or.inl (by decide))).seq (good_pop "$5" (by decide)) (Or.inl (by decide))).seq (good_cmp_eq _) (Or.inl (by decide))).cast (by decide))
      rw [if_neg hp]
      clear hp
      by_cases hp : root.production = "test expr NE expr"
      · rw [if_pos hp]
        refine post_child (fun c0 hc0 => ?_)
        refine post_child (fun c1 hc1 => ?_)
        refine post_bind_code (IH c0 hc0 _) (fun r1 br1 => ?_)
        refine post_bind_code (IH c1 hc1 _) (fun r2 br2 => ?_)
        exact post_pure_good (((((br1.seq (good_push "$3" (by decide)) (Or.inl (by decide))).seq br2 (Or.inl (by decide))).seq (good_pop "$5" (by decide)) (Or.inl (by decide))).seq (good_cmp_ne _) (Or.inl (by decide))).cast (by decide))
      rw [if_neg hp]
      clear hp
      by_cases hp : root.production = "test expr LT expr"
      · rw [if_pos hp]
        refine post_child (fun c0 hc0 => ?_)
        refine post_child (fun c1 hc1 => ?_)
        refine post_bind_code (IH c0 hc0 _) (fun r1 br1 => ?_)
        refine post_bind_code (IH c1 hc1 _) (fun r2 br2 => ?_)
        exact post_pure_good (((((br1.seq (good_push "$3" (by decide)) (Or.inl (by decide))).seq br2 (Or.inl (by decide))).seq (good_pop "$5" (by decide)) (Or.inl (by decide))).seq (good_cmp1 _ " $3, $5, $3" (by decide) (by decide)) (Or.inl (by decide))).cast (by decide))
      rw [if_neg hp]
      clear hp
      by_cases hp : root.production = "test expr LE expr"
      · rw [if_pos hp]
        refine post_child (fun c0 hc0 => ?_)
        refine post_child (fun c1 hc1 => ?_)
        refine post_bind_code (IH c0 hc0 _) (fun r1 br1 => ?_)
        refine post_bind_code (IH c1 hc1 _) (fun r2 br2 => ?_)
        refine post_bind_code (IH c0 hc0 _) (fun r3 br3 => ?_)
        refine post_bind_code (IH c1 hc1 _) (fun r4 br4 => ?_)
        exact post_pure_good (((((((((((((br1.seq (good_push "$3" (by decide)) (Or.inl (by decide))).seq br2 (Or.inl (by decide))).seq (good_pop "$5" (by decide)) (Or.inl (by decide))).seq (good_cmp1 _ " $3, $5, $3" (by decide) (by decide)) (Or.inl (by decide))).seq (good_push "$3" (by decide)) (Or.inl (by decide))).seq br3 (Or.inl (by decide))).seq (good_push "$3" (by decide)) (Or.inl (by decide))).seq br4 (Or.inl (by decide))).seq (good_pop "$5" (by decide)) (Or.inl (by decide))).seq (good_cmp_eq _) (Or.inl (by decide))).seq (good_pop "$5" (by decide)) (Or.inl (by decide))).seq (show Good 0 ["add $3, $5, $3"] from by decide) (Or.inl (by decide))).cast (by decide))
      rw [if_neg hp]
      clear hp
      by_cases hp : root.production = "test expr GE expr"
      · rw [if_pos hp]
        refine post_child (fun c0 hc0 => ?_)
        refine post_child (fun c1 hc1 => ?_)
        refine post_bind_code (IH c0 hc0 _) (fun r1 br1 => ?_)
        refine post_bind_code (IH c1 hc1 _) (fun r2 br2 => ?_)
        refine post_bind_code (IH c0 hc0 _) (fun r3 br3 => ?_)
        refine post_bind_code (IH c1 hc1 _) (fun r4 br4 => ?_)
        exact post_pure_good (((((((((((((br1.seq (good_push "$3" (by decide)) (Or.inl (by decide))).seq br2 (Or.inl (by decide))).seq (good_pop "$5" (by decide)) (Or.inl (by decide))).seq (good_cmp1 _ " $3, $3, $5" (by decide) (by decide)) (Or.inl (by decide))).seq (good_push "$3" (by decide)) (Or.inl (by decide))).seq br3 (Or.inl (by decide))).seq (good_push "$3" (by decide)) (Or.inl (by decide))).seq br4 (Or.inl (by decide))).seq (good_pop "$5" (by decide)) (Or.inl (by decide))).seq (good_cmp_eq _) (Or.inl (by decide))).seq (good_pop "$5" (by decide)) (Or.inl (by decide))).seq (show Good 0 ["add $3, $5, $3"] from by decide) (Or.inl (by decide))).cast (by decide))
      rw [if_neg hp]
      clear hp
      by_cases hp : root.production = "test expr GT expr"
      · rw [if_pos hp]
        refine post_child (fun c0 hc0 => ?_)
        refine post_child (fun c1 hc1 => ?_)
        refine post_bind_code (IH c0 hc0 _) (fun r1 br1 => ?_)
        refine post_bind_code (IH c1 hc1 _) (fun r2 br2 => ?_)
        exact post_pure_good (((((br1.seq (good_push "$3" (by decide)) (Or.inl (by decide))).seq br2 (Or.inl (by decide))).seq (good_pop "$5" (by decide)) (Or.inl (by decide))).seq (good_cmp1 _ " $3, $3, $5" (by decide) (by decide)) (Or.inl (by decide))).cast (by decide))
      rw [if_neg hp]
      clear hp
      by_cases hp : root.production = "statement PRINTLN LPAREN expr RPAREN SEMI"
      · rw [if_pos hp]
        refine post_child (fun c0 hc0 => ?_)
        refine post_bind_code (IH c0 hc0 _) (fun r1 br1 => ?_)
        exact post_pure_good ((((((((br1.seq (good_push "$3" (by decide)) (Or.inl (by decide))).seq (good_pop "$1" (by decide)) (Or.inl (by decide))).seq (good_push "$31" (by decide)) (Or.inl (by decide))).seq (good_push "$29" (by decide)) (Or.inl (by decide))).seq (show Good 0 ["jalr $10"] from by decide) (Or.inl (by decide))).seq (good_pop "$29" (by decide)) (Or.inl (by decide))).seq (good_pop "$31" (by decide)) (Or.inl (by decide))).cast (by decide))
      rw [if_neg hp]
      clear hp
      by_cases hp : root.production = "procedures procedure procedures"
      · rw [if_pos hp]
        refine post_child (fun c0 hc0 => ?_)
        refine post_child (fun c1 hc1 => ?_)
        refine post_bind_code (IH c0 hc0 _) (fun r1 br1 => ?_)
        refine post_bind_code (IH c1 hc1 _) (fun r2 br2 => ?_)
        exact post_pure_good ((br1.seq br2 (Or.inl (by decide))).cast (by decide))
      rw [if_neg hp]
      clear hp
      by_cases hp : root.production = "procedure INT ID LPAREN params RPAREN LBRACE dcls statements RETURN expr SEMI RBRACE"
      · rw [if_pos hp]
        refine post_child (fun c0 hc0 => ?_)
        refine post_child (fun c1 hc1 => ?_)
        refine post_child (fun c2 hc2 => ?_)
        refine post_child (fun c3 hc3 => ?_)
        refine post_child (fun c4 hc4 => ?_)
        refine post_bind_any (fun tok => ?_)
        refine post_bind_code (IH c0 hc0 _) (fun r1 br1 => ?_)
        refine post_bind_code (IH c1 hc1 _) (fun r2 br2 => ?_)
        refine post_bind_code (IH c2 hc2 _) (fun r3 br3 => ?_)
        refine post_bind_code (IH c3 hc3 _) (fun r4 br4 => ?_)
        refine post_bind_any (fun tables => ?_)
        exact post_pure_good (((((((((good_proc_label _).seq br1 (Or.inl (by decide))).seq br2 (Or.inl (by decide))).seq good_saves (Or.inl (by decide))).seq br3 (Or.inl (by decide))).seq br4 (Or.inl (by decide))).seq good_restores (Or.inl (by decide))).seq (show Good 0 ["jr $31"] from by decide) (Or.inl (by decide))).cast (by decide))
      rw [if_neg hp]
      clear hp
      by_cases hp : root.production = "params .EMPTY"
      · rw [if_pos hp]
        exact post_pure_good Good.empty
      rw [if_neg hp]
      clear hp
      by_cases hp : root.production = "params paramlist"
      · rw [if_pos hp]
        refine post_child (fun c0 hc0 => ?_)
        refine post_bind_code (IH c0 hc0 _) (fun r1 br1 => ?_)
        refine post_bind_any (fun tables => ?_)
        exact post_pure_good (br1.cast (by decide))
      rw [if_neg hp]
      clear hp
      by_cases hp : root.production = "paramlist dcl"
      · rw [if_pos hp]
        refine post_child (fun c0 hc0 => ?_)
        refine post_child (fun c1 hc1 => ?_)
        refine post_bind_any (fun tok => ?_)
        refine post_bind_any (fun tables => ?_)
        exact post_pure_good Good.empty
      rw [if_neg hp]
      clear hp
      by_cases hp : root.production = "paramlist dcl COMMA paramlist"
      · rw [if_pos hp]
        refine post_child (fun c0 hc0 => ?_)
        refine post_child (fun c1 hc1 => ?_)
        refine post_child (fun c2 hc2 => ?_)
        refine post_bind_any (fun tok => ?_)
        refine post_bind_any (fun tables => ?_)
        exact IH c1 hc1 _
      rw [if_neg hp]
      clear hp
      by_cases hp : root.production = "factor ID LPAREN RPAREN"
      · rw [if_pos hp]
        refine post_child (fun c0 hc0 => ?_)
        refine post_bind_any (fun tok => ?_)
        exact post_pure_good ((((((good_push "$29" (by decide)).seq (good_push "$31" (by decide)) (Or.inl (by decide))).seq (good_call _) (Or.inl (by decide))).seq (good_pop "$31" (by decide)) (Or.inl (by decide))).seq (good_pop "$29" (by decide)) (Or.inl (by decide))).cast (by decide))
      rw [if_neg hp]
      clear hp
      by_cases hp : root.production = "factor ID LPAREN arglist RPAREN"
      · rw [if_pos hp]
        refine post_child (fun c0 hc0 => ?_)
        refine post_child (fun c1 hc1 => ?_)
        refine post_bind_any (fun tok => ?_)
        refine post_bind_code (post_foldlM_good _ (fun e he st1 => ih e
          (by have h1 := TreeNode.sizeOf_lt_of_mem_getChildSymbolNodes "expr" _ _ he
              have h2 := c0.2
              omega)
          (allNodes_of_mem_getChildSymbolNodes _ "expr" _ e
            (allNodes_of_mem_children _ root c0.1 hfree hc0) he) st1)
          ((good_push "$29" (by decide)).seq (good_push "$31" (by decide))
            (Or.inl (by decide))) (by decide) st)
          (fun r br => ?_)
        exact post_pure_good (((((br.seq (good_call _) (Or.inl (by omega))).seq
          (good_replicate_pop _) (Or.inl (by omega))).seq
          (good_pop "$31" (by decide)) (Or.inl (by omega))).seq
          (good_pop "$29" (by decide)) (Or.inl (by omega))).cast (by omega))
      rw [if_neg hp]
      clear hp
      by_cases hp : root.production = "arglist expr"
      · rw [if_pos hp]
        exact post_pure_good Good.empty
      rw [if_neg hp]
      clear hp
      by_cases hp : root.production = "arglist expr COMMA arglist"
      · rw [if_pos hp]
        exact post_pure_good Good.empty
      rw [if_neg hp]
      clear hp
      by_cases hp : root.production = "type INT STAR"
      · rw [if_pos hp]
        exact post_pure_good Good.empty
      rw [if_neg hp]
      clear hp
      by_cases hp : root.production = "dcls dcls dcl BECOMES NULL SEMI"
      · rw [if_pos hp]
        exfalso
        have h := allNodes_production _ root hfree
        rw [hp] at h
        revert h; decide
      rw [if_neg hp]
      clear hp
      by_cases hp : root.production = "factor NULL"
      · rw [if_pos hp]
        refine post_child (fun c0 hc0 => ?_)
        exact IH c0 hc0 _
      rw [if_neg hp]
      clear hp
      by_cases hp : root.production = "factor AMP lvalue"
      · rw [if_pos hp]
        refine post_child (fun c0 hc0 => ?_)
        exact IH c0 hc0 _
      rw [if_neg hp]
      clear hp
      by_cases hp : root.production = "factor STAR factor"
      · rw [if_pos hp]
        refine post_child (fun c0 hc0 => ?_)
        refine post_bind_code (IH c0 hc0 _) (fun r1 br1 => ?_)
        exact post_pure_good ((br1.seq (show Good 0 ["lw $3, 0($3)"] from by decide) (Or.inl (by decide))).cast (by decide))
      rw [if_neg hp]
      clear hp
      by_cases hp : root.production = "lvalue STAR factor"
      · rw [if_pos hp]
        refine post_child (fun c0 hc0 => ?_)
        refine post_bind_code (IH c0 hc0 _) (fun r1 br1 => ?_)
        exact post_pure_good (br1.cast (by decide))
      rw [if_neg hp]
      clear hp
      by_cases hp : root.production = "factor NEW INT LBRACK expr RBRACK"
      · rw [if_pos hp]
        refine post_child (fun c0 hc0 => ?_)
        refine post_bind_code (IH c0 hc0 _) (fun r1 br1 => ?_)
        exact post_pure_good (((((((((br1.seq (good_push "$3" (by decide)) (Or.inl (by decide))).seq (good_pop "$1" (by decide)) (Or.inl (by decide))).seq (good_push "$31" (by decide)) (Or.inl (by decide))).seq (good_push "$29" (by decide)) (Or.inl (by decide))).seq (show Good 0 ["lis $5", ".word new", "jalr $5"] from by decide) (Or.inl (by decide))).seq (good_pop "$29" (by decide)) (Or.inl (by decide))).seq (good_pop "$31" (by decide)) (Or.inl (by decide))).seq (show Good 0 ["bne $3, $0, 2", "lis $3", ".word 69"] from by decide) (Or.inl (by decide))).cast (by decide))
      rw [if_neg hp]
      clear hp
      by_cases hp : root.production = "statement DELETE LBRACK RBRACK expr SEMI"
      · rw [if_pos hp]
        refine post_child (fun c0 hc0 => ?_)
        refine post_bind_code (IH c0 hc0 _) (fun r1 br1 => ?_)
        exact post_pure_good ((((((((((br1.seq (good_delete_guard _) (Or.inl (by decide))).seq (good_push "$3" (by decide)) (Or.inl (by decide))).seq (good_pop "$1" (by decide)) (Or.inl (by decide))).seq (good_push "$31" (by decide)) (Or.inl (by decide))).seq (good_push "$29" (by decide)) (Or.inl (by decide))).seq (show Good 0 ["lis $5", ".word delete", "jalr $5"] from by decide) (Or.inl (by decide))).seq (good_pop "$29" (by decide)) (Or.inl (by decide))).seq (good_pop "$31" (by decide)) (Or.inl (by decide))).seq (good_label "FskipDelete" _ 'F' (by decide) (by decide) (by decide) (by decide) (by decide)) (Or.inl (by decide))).cast (by decide))
      rw [if_neg hp]
      clear hp
      exact Good.empty
    · rw [if_neg hN, codeT]
      refine post_bind_any (fun tok => ?_)
      refine post_ite (fun _ => ?_) (fun _ => ?_)
      · exact post_pure_good ((good_num _).cast (by decide))
      · refine post_ite (fun _ => ?_) (fun _ => ?_)
        · exact post_pure_good ((show Good 0 ["lis $3", ".word 69"] from by decide).cast (by decide))
        · refine post_ite (fun _ => ?_) (fun _ => ?_)
          · refine post_bind_any (fun off => ?_)
            exact post_pure_good ((good_lw _).cast (by decide))
          · exact post_pure_good Good.empty

/-! ## C26: balanced statements and expressions -/

theorem closed_body_alloc : closedUnder allocFreeLevel (fun p => !allocates p) = true := by
  decide

theorem wf_allocationFree (root : TreeNode) (hwf : root.wellFormed = true)
    (hs : allocFreeLevel root.symbol = true) : root.allocationFree = true :=
  wf_allNodes allocFreeLevel (fun p => !allocates p) closed_body_alloc (by decide) root hwf hs

theorem wf_children (root : TreeNode) (hwf : root.wellFormed = true)
    (hne : root.production ≠ "") :
    wlp4Productions.contains root.production = true ∧
    splitString root.production = root.symbol :: root.children.map TreeNode.symbol ∧
    TreeNode.wellFormedList root.children = true := by
  cases root with
  | mk ty sym prod tok cs =>
    unfold TreeNode.wellFormed at hwf
    have hp : prod ≠ "" := hne
    rw [if_neg hp] at hwf
    simp only [Bool.and_eq_true, beq_iff_eq] at hwf
    exact ⟨hwf.1.1, hwf.1.2, hwf.2⟩

theorem wf_terminal (root : TreeNode) (hwf : root.wellFormed = true)
    (he : root.production = "") : nonterminals.contains root.symbol = false := by
  cases root with
  | mk ty sym prod tok cs =>
    unfold TreeNode.wellFormed at hwf
    have hp : prod = "" := he
    rw [if_pos hp] at hwf
    simp only [Bool.and_eq_true, Bool.not_eq_true'] at hwf
    exact hwf.2

theorem countNodes_eq (p : Production → Bool) (root : TreeNode) :
    root.countNodes p
      = (if p root.production then 1 else 0) + TreeNode.countNodesList p root.children := by
  cases root with
  | mk ty sym prod tok cs => rw [TreeNode.countNodes]; rfl

mutual
theorem countNodes_initialised_free :
    ∀ (t : TreeNode), t.allocationFree = true → t.countNodes initialised = 0
  | .mk ty sym prod tok cs, h => by
    unfold TreeNode.allocationFree TreeNode.allNodes at h
    simp only [Bool.and_eq_true, Bool.not_eq_true'] at h
    have hi : initialised prod = false := by
      have h1 := h.1
      simp only [allocates, Bool.or_eq_false_iff] at h1
      simp only [initialised, Bool.or_eq_false_iff]
      exact h1.1
    rw [TreeNode.countNodes, hi, countNodesList_initialised_free cs h.2]
    rfl
theorem countNodesList_initialised_free :
    ∀ (cs : List TreeNode), TreeNode.allNodesList (fun p => !allocates p) cs = true →
      TreeNode.countNodesList initialised cs = 0
  | [], _ => rfl
  | c :: cs, h => by
    unfold TreeNode.allNodesList at h
    simp only [Bool.and_eq_true] at h
    rw [TreeNode.countNodesList, countNodes_initialised_free c h.1,
      countNodesList_initialised_free cs h.2]
end

theorem dcls_productions : ∀ p ∈ wlp4Productions, (splitString p).head? = some "dcls" →
    p = "dcls .EMPTY" ∨ p = "dcls dcls dcl BECOMES NUM SEMI"
      ∨ p = "dcls dcls dcl BECOMES NULL SEMI" := by
  decide

theorem wf_child_exists (root : TreeNode) (i : Nat) (hwf : root.wellFormed = true)
    (hne : root.production ≠ "") (hi : i + 1 < (splitString root.production).length) :
    ∃ c, root.children[i]? = some c ∧ c.wellFormed = true
      ∧ (splitString root.production)[i + 1]? = some c.symbol := by
  have hlen : i < root.children.length := by
    have h := (wf_children root hwf hne).2.1
    rw [h] at hi
    simpa using hi
  have hc : root.children[i]? = some root.children[i] := List.getElem?_eq_getElem hlen
  exact ⟨root.children[i], hc, wf_child root _ i hwf hne hc⟩

theorem countNodesList_free (cs : List TreeNode) (hwf : TreeNode.wellFormedList cs = true)
    (hs : ∀ c ∈ cs, allocFreeLevel c.symbol = true) :
    TreeNode.countNodesList initialised cs = 0 :=
  countNodesList_initialised_free cs
    (wf_allNodesList allocFreeLevel (fun p => !allocates p) closed_body_alloc (by decide) cs
      hwf hs)

theorem good_free (c : TreeNode) (hwf : c.wellFormed = true)
    (hs : allocFreeLevel c.symbol = true) (st : State) :
    Post (fun r => Good 0 r.1) (code c st) :=
  good_aux (sizeOf c + 1) c (Nat.lt_succ_self _) (wf_allocationFree c hwf hs) st

/-- The code of a chain of initialised declarations contains one push sequence more than
pop sequences for each declaration (induction on the size of the tree). -/
theorem dcls_good (n : Nat) : ∀ (t : TreeNode), sizeOf t < n → t.wellFormed = true →
    t.symbol = "dcls" → ∀ st,
    Post (fun r => Good (t.countNodes initialised) r.1) (code t st) := by
  induction n with
  | zero => intro t h; omega
  | succ n ih =>
    intro t hsz hwf hsym st
    have hne : t.production ≠ "" := by
      intro he
      have h := wf_terminal t hwf he
      rw [hsym] at h
      revert h; decide
    obtain ⟨hmem, hsplit, hcs⟩ := wf_children t hwf hne
    have hhead : (splitString t.production).head? = some "dcls" := by
      rw [hsplit, hsym]; rfl
    have step : ∀ (lex : String),
        t.production = "dcls dcls dcl BECOMES " ++ lex ++ " SEMI" →
        splitString ("dcls dcls dcl BECOMES " ++ lex ++ " SEMI")
          = ["dcls", "dcls", "dcl", "BECOMES", lex, "SEMI"] →
        initialised ("dcls dcls dcl BECOMES " ++ lex ++ " SEMI") = true →
        allocFreeLevel lex = true →
        (∀ c0 c1 c3 : TreeNode, t.children[0]? = some c0 → t.children[1]? = some c1 →
          t.children[3]? = some c3 → code t st = (do
            let r1 ← code c0 st
            let r2 ← code c1 r1.2
            let r3 ← code c3 r2.2
            pure (r1.1 ++ r2.1 ++ r3.1 ++ push "$3", r3.2))) →
        Post (fun r => Good (t.countNodes initialised) r.1) (code t st) := by
      intro lex hp hs hinit hlex hcode
      rw [hp, hs] at hsplit
      have hmap : t.children.map TreeNode.symbol = ["dcls", "dcl", "BECOMES", lex, "SEMI"] :=
        (List.cons.inj hsplit).2.symm
      have hlen : (splitString t.production).length = 6 := by rw [hp, hs]; rfl
      obtain ⟨c0, h0, w0, s0⟩ := wf_child_exists t 0 hwf hne (by rw [hlen]; decide)
      obtain ⟨c1, h1, w1, s1⟩ := wf_child_exists t 1 hwf hne (by rw [hlen]; decide)
      obtain ⟨c3, h3, w3, s3⟩ := wf_child_exists t 3 hwf hne (by rw [hlen]; decide)
      rw [hp, hs] at s0 s1 s3
      have e0 : c0.symbol = "dcls" := (Option.some.inj s0).symm
      have e1 : c1.symbol = "dcl" := (Option.some.inj s1).symm
      have e3 : c3.symbol = lex := (Option.some.inj s3).symm
      cases hch : t.children with
      | nil => rw [hch] at h0; cases h0
      | cons d rest =>
        rw [hch] at h0 hmap hcs
        have hd : d = c0 := by
          rw [List.getElem?_cons_zero] at h0
          exact Option.some.inj h0
        subst hd
        have hrest : rest.map TreeNode.symbol = ["dcl", "BECOMES", lex, "SEMI"] :=
          (List.cons.inj hmap).2
        unfold TreeNode.wellFormedList at hcs
        simp only [Bool.and_eq_true] at hcs
        have hcount : TreeNode.countNodesList initialised rest = 0 :=
          countNodesList_free rest hcs.2 (by
            intro c hc
            have hm : c.symbol ∈ rest.map TreeNode.symbol := List.mem_map_of_mem _ hc
            rw [hrest] at hm
            simp only [List.mem_cons, List.mem_singleton, List.not_mem_nil, or_false] at hm
            rcases hm with h | h | h | h
            · rw [h]; decide
            · rw [h]; decide
            · rw [h]; exact hlex
            · rw [h]; decide)
        have hD : t.countNodes initialised = d.countNodes initialised + 1 := by
          rw [countNodes_eq, hch, hp, hinit, TreeNode.countNodesList, hcount]
          simp only [↓reduceIte]
          omega
        have hsz0 : sizeOf d < n := by
          have := TreeNode.sizeOf_lt_of_mem_children
            (List.getElem?_mem (show t.children[0]? = some d by rw [hch]; simp))
          omega
        rw [hcode d c1 c3 (by rw [hch]; simp) h1 h3]
        refine post_bind_code (ih d hsz0 w0 e0 st) (fun r1 b1 => ?_)
        refine post_bind_code (good_free c1 w1 (by rw [e1]; decide) _) (fun r2 b2 => ?_)
        refine post_bind_code (good_free c3 w3 (by rw [e3]; exact hlex) _) (fun r3 b3 => ?_)
        refine post_pure ?_
        have hnn : (0 : Int) ≤ (d.countNodes initialised : Int) := Int.ofNat_nonneg _
        exact (((b1.seq b2 (Or.inl hnn)).seq b3 (Or.inl (by omega))).seq
          (good_push "$3" (by decide)) (Or.inl (by omega))).cast (by rw [hD]; push_cast; ring)
    rcases dcls_productions _ (by simpa using hmem) hhead with hp | hp | hp
    · rw [code_dcls_EMPTY st hp]
      rw [hp] at hsplit
      have hmap : t.children.map TreeNode.symbol = [".EMPTY"] := by
        have e : splitString "dcls .EMPTY" = ["dcls", ".EMPTY"] := by decide
        rw [e] at hsplit
        exact (List.cons.inj hsplit).2.symm
      have hcount : TreeNode.countNodesList initialised t.children = 0 :=
        countNodesList_free _ hcs (by
          intro c hc
          have hm : c.symbol ∈ t.children.map TreeNode.symbol := List.mem_map_of_mem _ hc
          rw [hmap] at hm
          simp only [List.mem_singleton] at hm
          rw [hm]; decide)
      have hD : t.countNodes initialised = 0 := by
        rw [countNodes_eq, hp, hcount]; rfl
      rw [hD]
      exact Good.empty
    · exact step "NUM" hp (by decide) (by decide) (by decide)
        (fun c0 c1 c3 h0 h1 h3 => code_dcls_NUM st hp h0 h1 h3)
    · exact step "NULL" hp (by decide) (by decide) (by decide)
        (fun c0 c1 c3 h0 h1 h3 => code_dcls_NULL st hp h0 h1 h3)

theorem spEffect_count (out : List String) :
    spEffect out = 4 * (out.count "add $30, $30, $4" : Int)
      - 4 * (out.count "sub $30, $30, $4" : Int) := by
  induction out with
  | nil => rfl
  | cons l rest ih =>
    rw [spEffect, ih, List.count_cons, List.count_cons]
    by_cases h1 : l = "sub $30, $30, $4"
    · subst h1
      simp only [↓reduceIte, beq_self_eq_true]
      have e : (("sub $30, $30, $4" : String) == "add $30, $30, $4") = false := by decide
      rw [e]
      simp only [Bool.false_eq_true, ↓reduceIte]
      push_cast
      ring
    · by_cases h2 : l = "add $30, $30, $4"
      · subst h2
        have e : (("add $30, $30, $4" : String) == "sub $30, $30, $4") = false := by decide
        rw [e]
        simp only [Bool.false_eq_true, ↓reduceIte, beq_self_eq_true, String.reduceEq]
        push_cast
        ring
      · have e1 : (l == "sub $30, $30, $4") = false := beq_eq_false_iff_ne.2 h1
        have e2 : (l == "add $30, $30, $4") = false := beq_eq_false_iff_ne.2 h2
        rw [e1, e2, if_neg h1, if_neg h2]
        simp only [Bool.false_eq_true, ↓reduceIte]
        push_cast
        ring

theorem good_effect (D : Nat) (body : List String) (hg : Good (D : Int) body) :
    pushCount body = popCount body + D ∧
    body.count "sub $30, $30, $4" = pushCount body ∧
    body.count "add $30, $30, $4" = popCount body ∧
    (∀ l ∈ body, writesSP l = true → l = "sub $30, $30, $4" ∨ l = "add $30, $30, $4") ∧
    spEffect body = -4 * (D : Int) ∧ (spEffect body = 0 ↔ D = 0) := by
  obtain ⟨⟨_, hnet⟩, _, hsub, hadd, hw⟩ := hg
  have he : spEffect body = -4 * (D : Int) := by
    rw [spEffect_count, hsub, hadd]
    omega
  refine ⟨by omega, hsub, hadd, hw, he, ?_⟩
  rw [he]
  omega

/-- C27, amended. For every well-formed user procedure node whose `dcls` child contains `D`
initialised declarations, the lines emitted between the label and the final `jr $31`
contain exactly `D` more push sequences than pop sequences (the code of the parameters,
of the statements and of the return expression is balanced, the declarations contribute
`D` and the five saves are matched by the five restores), every line that writes `$30` is
the `sub $30, $30, $4` of a push sequence or the `add $30, $30, $4` of a pop sequence, and
so the sum of the changes these lines themselves make to `$30`, with no call and no
branch followed, is `-4 * D`, which is 0 if and only if `D = 0`. -/
theorem procedure_stack_effect (root dcls : TreeNode) (st st1 : State) (out : List String)
    (hwf : root.wellFormed = true)
    (hp : root.production = "procedure INT ID LPAREN params RPAREN LBRACE dcls statements RETURN expr SEMI RBRACE")
    (hd : root.children[6]? = some dcls)
    (h : code root st = .ok (out, st1)) :
    ∃ (name : String) (body oParams oDcls oStmts oRet : List String),
      out = ("F" ++ name ++ ":") :: body ++ ["jr $31"] ∧
      body = "sub $29, $30, $4" :: (oParams ++ oDcls
        ++ (push "$1" ++ push "$2" ++ push "$5" ++ push "$6" ++ push "$7")
        ++ oStmts ++ oRet
        ++ (pop "$1" ++ pop "$2" ++ pop "$5" ++ pop "$6" ++ pop "$7")) ∧
      pushCount oParams = popCount oParams ∧
      pushCount oDcls = popCount oDcls + dcls.countNodes initialised ∧
      pushCount oStmts = popCount oStmts ∧ pushCount oRet = popCount oRet ∧
      pushCount body = popCount body + dcls.countNodes initialised ∧
      body.count "sub $30, $30, $4" = pushCount body ∧
      body.count "add $30, $30, $4" = popCount body ∧
      (∀ l ∈ body, writesSP l = true → l = "sub $30, $30, $4" ∨ l = "add $30, $30, $4") ∧
      spEffect body = -4 * (dcls.countNodes initialised : Int) ∧
      (spEffect body = 0 ↔ dcls.countNodes initialised = 0) := by
  have hne : root.production ≠ "" := by rw [hp]; decide
  have hlen : (splitString root.production).length = 13 := by rw [hp]; decide
  obtain ⟨c1, h1, _, _⟩ := wf_child_exists root 1 hwf hne (by rw [hlen]; decide)
  obtain ⟨c3, h3, w3, s3⟩ := wf_child_exists root 3 hwf hne (by rw [hlen]; decide)
  obtain ⟨c7, h7, w7, s7⟩ := wf_child_exists root 7 hwf hne (by rw [hlen]; decide)
  obtain ⟨c9, h9, w9, s9⟩ := wf_child_exists root 9 hwf hne (by rw [hlen]; decide)
  obtain ⟨w6, s6⟩ := wf_child root dcls 6 hwf hne hd
  have hsplit : splitString root.production = ["procedure", "INT", "ID", "LPAREN", "params",
      "RPAREN", "LBRACE", "dcls", "statements", "RETURN", "expr", "SEMI", "RBRACE"] := by
    rw [hp]; decide
  rw [hsplit] at s3 s6 s7 s9
  have e3 : c3.symbol = "params" := (Option.some.inj s3).symm
  have e6 : dcls.symbol = "dcls" := (Option.some.inj s6).symm
  have e7 : c7.symbol = "statements" := (Option.some.inj s7).symm
  have e9 : c9.symbol = "expr" := (Option.some.inj s9).symm
  have key : Post (fun r => ∃ (name : String) (body oParams oDcls oStmts oRet : List String),
      r.1 = ("F" ++ name ++ ":") :: body ++ ["jr $31"] ∧
      body = "sub $29, $30, $4" :: (oParams ++ oDcls
        ++ (push "$1" ++ push "$2" ++ push "$5" ++ push "$6" ++ push "$7")
        ++ oStmts ++ oRet
        ++ (pop "$1" ++ pop "$2" ++ pop "$5" ++ pop "$6" ++ pop "$7")) ∧
      Good 0 oParams ∧ Good (dcls.countNodes initialised : Int) oDcls ∧
      Good 0 oStmts ∧ Good 0 oRet ∧ Good (dcls.countNodes initialised : Int) body)
      (code root st) := by
    rw [code_procedure st hp h1 h3 hd h7 h9]
    refine post_bind_any (fun tok => ?_)
    refine post_bind_code (good_free c3 w3 (by rw [e3]; decide) _) (fun r1 b1 => ?_)
    refine post_bind_code (dcls_good (sizeOf dcls + 1) dcls (Nat.lt_succ_self _) w6 e6 _)
      (fun r2 b2 => ?_)
    refine post_bind_code (good_free c7 w7 (by rw [e7]; decide) _) (fun r3 b3 => ?_)
    refine post_bind_code (good_free c9 w9 (by rw [e9]; decide) _) (fun r4 b4 => ?_)
    refine post_bind_any (fun tables => ?_)
    refine post_pure ?_
    have hnn : (0 : Int) ≤ (dcls.countNodes initialised : Int) := Int.ofNat_nonneg _
    refine ⟨tok.lexeme, _, r1.1, r2.1, r3.1, r4.1, ?_, rfl, b1, b2, b3, b4, ?_⟩
    · simp only [List.cons_append, List.nil_append, List.append_assoc, List.singleton_append]
    · have hg := ((((((show Good 0 ["sub $29, $30, $4"] from by decide).seq b1
        (Or.inl (by decide))).seq b2 (Or.inl (by decide))).seq good_saves
        (Or.inl (by omega))).seq b3 (Or.inl (by omega))).seq b4
        (Or.inl (by omega))).seq good_restores (Or.inl (by omega))
      have hl : "sub $29, $30, $4" :: (r1.1 ++ r2.1
          ++ (push "$1" ++ push "$2" ++ push "$5" ++ push "$6" ++ push "$7")
          ++ r3.1 ++ r4.1
          ++ (pop "$1" ++ pop "$2" ++ pop "$5" ++ pop "$6" ++ pop "$7"))
          = ["sub $29, $30, $4"] ++ r1.1 ++ r2.1
          ++ (push "$1" ++ push "$2" ++ push "$5" ++ push "$6" ++ push "$7")
          ++ r3.1 ++ r4.1
          ++ (pop "$1" ++ pop "$2" ++ pop "$5" ++ pop "$6" ++ pop "$7") := by
        simp only [List.cons_append, List.nil_append, List.append_assoc,
          List.singleton_append]
      rw [hl]
      exact hg.cast (by omega)
  rw [h] at key
  obtain ⟨name, body, oParams, oDcls, oStmts, oRet, hout, hbody, g1, g2, g3, g4, gb⟩ := key
  have q1 := good_effect 0 oParams g1
  have q2 := good_effect _ oDcls g2
  have q3 := good_effect 0 oStmts g3
  have q4 := good_effect 0 oRet g4
  have qb := good_effect _ body gb
  exact ⟨name, body, oParams, oDcls, oStmts, oRet, hout, hbody, q1.1, q2.1, q3.1, q4.1, qb⟩

theorem code_procWithLocal :
    code procWithLocal {} = .ok ("Ff:" :: procWithLocalBody ++ ["jr $31"], {}) := by
  simp only [procWithLocal, procTree, dclsInitTree, dclInt, emptyDcls, emptyStatements,
    emptyParams, node, leaf, TreeNode.new,
    code_mk_procedure, code_mk_params_EMPTY, code_mk_dcls_EMPTY, code_mk_statements_EMPTY,
    code_mk_dcls_NUM, code_mk_dcl, code_mk_NUM,
    code_exprNum, getToken_eq_ok, TreeNode.production, ok_bind]
  rfl

theorem procedure_stack_effect_witness :
    procWithLocal.wellFormed = true ∧ dclsInitTree.countNodes initialised = 1 ∧
    ∃ (name : String) (body : List String),
      "Ff:" :: procWithLocalBody ++ ["jr $31"] = ("F" ++ name ++ ":") :: body ++ ["jr $31"] ∧
      pushCount body = popCount body + 1 ∧ spEffect body = -4 * (1 : Int) := by
  have hD : dclsInitTree.countNodes initialised = 1 := by decide
  obtain ⟨name, body, _, _, _, _, hout, _, _, _, _, _, hnet, _, _, _, heff, _⟩ :=
    procedure_stack_effect procWithLocal dclsInitTree {} {} _ (by decide) (by rfl) (by rfl)
      code_procWithLocal
  rw [hD] at hnet heff
  exact ⟨by decide, hD, name, body, hout, hnet, heff⟩

theorem code_callerTree : code callerTree {} = .ok (callerOutput, {}) := by
  simp only [callerTree, exprCall, emptyDcls, emptyStatements, emptyParams, node, leaf,
    TreeNode.new, code_mk_procedure, code_mk_params_EMPTY, code_mk_dcls_EMPTY,
    code_mk_statements_EMPTY, code_mk_expr_term, code_mk_term_factor,
    getToken_eq_ok, TreeNode.production, ok_bind]
  rw [code_eq_codeN _ (by decide), @codeN_call0 _
    (TreeNode.mk "" "ID" "" { kind := "ID", lexeme := "f" } []) _ (by rfl)
    (by simp [TreeNode.children]) (by rfl)]
  rfl

set_option maxRecDepth 100000 in
theorem run_caller :
    (runUntil (callerOutput ++ ("Ff:" :: procWithLocalBody ++ ["jr $31"])) 33 100
      callerEntry).map (fun s => s.m.reg "$30") = some 996 := by
  decide

/-- C27, counterexample. The procedure `int h() { return f(); }` is well-formed and has no
declaration, `D = 0`. Its body, run from the line after its label with 1000 in `$30` and
`f` the procedure `int f() { int x = 5; return 0; }`, arrives at its `jr $31` with 996 in
`$30`: the stack pointer is not restored, since the procedure it calls leaves its local on
the stack. -/
theorem callee_leak_reaches_caller :
    callerTree.wellFormed = true ∧
    callerTree.production = "procedure INT ID LPAREN params RPAREN LBRACE dcls statements RETURN expr SEMI RBRACE" ∧
    callerTree.children[6]? = some emptyDcls ∧ emptyDcls.countNodes initialised = 0 ∧
    code callerTree {} = .ok (callerOutput, {}) ∧
    code procWithLocal {} = .ok ("Ff:" :: procWithLocalBody ++ ["jr $31"], {}) ∧
    callerOutput[33]? = some "jr $31" ∧ callerOutput.length = 34 ∧
    callerEntry.m.reg "$30" = 1000 ∧
    (runUntil (callerOutput ++ ("Ff:" :: procWithLocalBody ++ ["jr $31"])) 33 100
      callerEntry).map (fun s => s.m.reg "$30") = some 996 :=
  ⟨by decide, by rfl, by rfl, by decide, code_callerTree, code_procWithLocal, by rfl,
    by rfl, by rfl, run_caller⟩

/-! ## Label definitions in emitted output -/

theorem labelDefs_append (a b : List String) :
    labelDefs (a ++ b) = labelDefs a ++ labelDefs b := by
  simp [labelDefs]

theorem NoF.both {a b : List String} (ha : NoF a) (hb : NoF b) : NoF (a ++ b) := by
  unfold NoF at *
  rw [labelDefs_append, ha, hb]
  rfl

theorem NoF.none : NoF [] := rfl

theorem isLabelLine_of_head (line : String) (c : Char) (h : line.toList.head? = some c)
    (hc : c ≠ 'F') : isLabelLine line = false := by
  unfold isLabelLine
  rw [h]
  simpa using hc

theorem nof_cons (line : String) (rest : List String) (c : Char)
    (h : line.toList.head? = some c) (hc : c ≠ 'F') (hr : NoF rest) :
    NoF (line :: rest) := by
  unfold NoF labelDefs at *
  rw [List.filter_cons, isLabelLine_of_head line c h hc]
  exact hr

theorem nof_push (r : Register) : NoF (push r) :=
  nof_cons _ _ 's' (head?_toList_append _ _ 's' (head?_toList_append "sw " r 's' (by decide)))
    (by decide) (by decide)

theorem nof_pop (r : Register) : NoF (pop r) :=
  nof_cons _ _ 'a' (by decide) (by decide)
    (nof_cons _ _ 'l' (head?_toList_append _ _ 'l' (head?_toList_append "lw " r 'l' (by decide)))
      (by decide) NoF.none)

theorem nof_num (x : String) : NoF ["lis $3", ".word " ++ x] :=
  nof_cons _ _ 'l' (by decide) (by decide)
    (nof_cons _ _ '.' (head?_toList_append ".word " x '.' (by decide)) (by decide) NoF.none)

theorem nof_lw (off : String) : NoF ["lw $3, " ++ off ++ "($29)"] :=
  nof_cons _ _ 'l' (head?_toList_append _ _ 'l' (head?_toList_append "lw $3, " off 'l'
    (by decide))) (by decide) NoF.none

theorem nof_lvalue (off : String) : NoF ["lis $5", ".word " ++ off, "add $3, $29, $5"] :=
  nof_cons _ _ 'l' (by decide) (by decide)
    (nof_cons _ _ '.' (head?_toList_append ".word " off '.' (by decide)) (by decide)
      (by decide))

theorem nof_call (label : String) : NoF ["lis $5", ".word " ++ label, "jalr $5"] :=
  nof_cons _ _ 'l' (by decide) (by decide)
    (nof_cons _ _ '.' (head?_toList_append ".word " label '.' (by decide)) (by decide)
      (by decide))

theorem head_cmp (type : WType) (args : String) :
    (comparisonOp type ++ args).toList.head? = some 's' := by
  rcases comparisonOp_cases type with h | h
  · rw [h]; exact head?_toList_append "slt" args 's' (by decide)
  · rw [h]; exact head?_toList_append "sltu" args 's' (by decide)

theorem nof_cmp1 (type : WType) (args : String) : NoF [comparisonOp type ++ args] :=
  nof_cons _ _ 's' (head_cmp type args) (by decide) NoF.none

theorem nof_cmp_ne (type : WType) :
    NoF [comparisonOp type ++ " $6, $3, $5", comparisonOp type ++ " $7, $5, $3",
      "add $3, $6, $7"] :=
  nof_cons _ _ 's' (head_cmp type _) (by decide)
    (nof_cons _ _ 's' (head_cmp type _) (by decide) (by decide))

theorem nof_cmp_eq (type : WType) :
    NoF [comparisonOp type ++ " $6, $3, $5", comparisonOp type ++ " $7, $5, $3",
      "add $3, $6, $7", "sub $3, $11, $3"] :=
  nof_cons _ _ 's' (head_cmp type _) (by decide)
    (nof_cons _ _ 's' (head_cmp type _) (by decide) (by decide))

theorem nof_replicate_pop (n : Nat) : NoF (List.replicate n (pop "$5")).flatten := by
  induction n with
  | zero => exact NoF.none
  | succ k ih =>
    rw [List.replicate_succ, List.flatten_cons]
    exact (nof_pop "$5").both ih

theorem post_argsCode_nof (args : List TreeNode)
    (h : ∀ e ∈ args, ∀ st, Post (fun r => NoF r.1) (code e st)) (st : State) :
    Post (fun r => NoF r.1) (argsCode args st) := by
  induction args generalizing st with
  | nil => exact NoF.none
  | cons e es ih =>
    rw [argsCode]
    refine post_bind_code (h e (by simp) st) (fun r1 b1 => ?_)
    refine post_bind_code (ih (fun x hx => h x (by simp [hx])) r1.2) (fun r2 b2 => ?_)
    refine post_pure ?_
    exact (b1.both (nof_push "$3")).both b2

theorem post_pure_nof {out : List String} {st : State} (h : NoF out) :
    Post (fun r => NoF r.1) (pure (out, st)) := h

theorem post_foldlM_nof (args : List TreeNode)
    (h : ∀ e ∈ args, ∀ st, Post (fun r => NoF r.1) (code e st))
    {acc : List String} (hacc : NoF acc) (st : State) :
    Post (fun r => NoF r.1)
      (args.attach.foldlM (fun (acc : List String × State) expr => do
        let r1 ← code expr.1 acc.2
        pure (acc.1 ++ r1.1 ++ push "$3", r1.2)) (acc, st)) := by
  rw [foldlM_attach_eq args (fun (acc : List String × State) e => do
        let r1 ← code e acc.2
        pure (acc.1 ++ r1.1 ++ push "$3", r1.2)), foldlM_args_eq]
  refine post_bind_code (post_argsCode_nof args h st) (fun r br => ?_)
  exact hacc.both br

set_option maxHeartbeats 4000000 in
/-- Emission from a subtree without label-defining nodes outputs no label definition
(induction on the size of the tree, one case per production of `codeN`). -/
theorem nof_aux (n : Nat) : ∀ (root : TreeNode), sizeOf root < n →
    root.definitionFree = true → ∀ st, Post (fun r => NoF r.1) (code root st) := by
  induction n with
  | zero => intro root h; omega
  | succ n ih =>
    intro root hsz hfree st
    have IH : ∀ (c : {c : TreeNode // sizeOf c < sizeOf root}), c.1 ∈ root.children →
        ∀ st, Post (fun r => NoF r.1) (code c.1 st) := fun c hc st =>
      ih c.1 (by have := c.2; omega) (allNodes_of_mem_children _ root c.1 hfree hc) st
    rw [code]
    by_cases hN : root.N = true
    · rw [if_pos hN, codeN]
      have hne : root.production ≠ "" := by
        intro h; simp [TreeNode.N, h] at hN
      rw [getProduction_eq_ok hne, ok_bind]
      by_cases hp : root.production = "start BOF procedures EOF"
      · rw [if_pos hp]
        refine post_child (fun c0 hc0 => ?_)
        exact IH c0 hc0 _
      rw [if_neg hp]
      clear hp
      by_cases hp : root.production = "procedures main"
      · rw [if_pos hp]
        refine post_child (fun c0 hc0 => ?_)
        exact IH c0 hc0 _
      rw [if_neg hp]
      clear hp
      by_cases hp : root.production = "main INT WAIN LPAREN dcl COMMA dcl RPAREN LBRACE dcls statements RETURN expr SEMI RBRACE"
      · rw [if_pos hp]
        exfalso
        have h := allNodes_production _ root hfree
        rw [hp] at h
        revert h; decide
      rw [if_neg hp]
      clear hp
      by_cases hp : root.production = "type INT"
      · rw [if_pos hp]
        exact post_pure_nof NoF.none
      rw [if_neg hp]
      clear hp
      by_cases hp : root.production = "dcl type ID"
      · rw [if_pos hp]
        refine post_child (fun c0 hc0 => ?_)
        refine post_bind_any (fun tok => ?_)
        refine post_bind_any (fun tables => ?_)
        exact post_pure_nof NoF.none
      rw [if_neg hp]
      clear hp
      by_cases hp : root.production = "dcls .EMPTY"
      · rw [if_pos hp]
        exact post_pure_nof NoF.none
      rw [if_neg hp]
      clear hp
      by_cases hp : root.production = "statements .EMPTY"
      · rw [if_pos hp]
        exact post_pure_nof NoF.none
      rw [if_neg hp]
      clear hp
      by_cases hp : root.production = "expr term"
      · rw [if_pos hp]
        refine post_child (fun c0 hc0 => ?_)
        exact IH c0 hc0 _
      rw [if_neg hp]
      clear hp
      by_cases hp : root.production = "term factor"
      · rw [if_pos hp]
        refine post_child (fun c0 hc0 => ?_)
        exact IH c0 hc0 _
      rw [if_neg hp]
      clear hp
      by_cases hp : root.production = "factor NUM"
      · rw [if_pos hp]
        refine post_child (fun c0 hc0 => ?_)
        exact IH c0 hc0 _
      rw [if_neg hp]
      clear hp
      by_cases hp : root.production = "factor ID"
      · rw [if_pos hp]
        refine post_child (fun c0 hc0 => ?_)
        exact IH c0 hc0 _
      rw [if_neg hp]
      clear hp
      by_cases hp : root.production = "factor LPAREN expr RPAREN"
      · rw [if_pos hp]
        refine post_child (fun c0 hc0 => ?_)
        exact IH c0 hc0 _
      rw [if_neg hp]
      clear hp
      by_cases hp : root.production = "dcls dcls dcl BECOMES NUM SEMI"
      · rw [if_pos hp]
        refine post_child (fun c0 hc0 => ?_)
        refine post_child (fun c1 hc1 => ?_)
        refine post_child (fun c2 hc2 => ?_)
        refine post_bind_code (IH c0 hc0 _) (fun r1 br1 => ?_)
        refine post_bind_code (IH c1 hc1 _) (fun r2 br2 => ?_)
        refine post_bind_code (IH c2 hc2 _) (fun r3 br3 => ?_)
        exact post_pure_nof (((br1.both br2).both br3).both (nof_push "$3"))
      rw [if_neg hp]
      clear hp
      by_cases hp : root.production = "statements statements statement"
      · rw [if_pos hp]
        refine post_child (fun c0 hc0 => ?_)
        refine post_child (fun c1 hc1 => ?_)
        refine post_bind_code (IH c0 hc0 _) (fun r1 br1 => ?_)
        refine post_bind_code (IH c1 hc1 _) (fun r2 br2 => ?_)
        exact post_pure_nof (br1.both br2)
      rw [if_neg hp]
      clear hp
      by_cases hp : root.production = "statement lvalue BECOMES expr SEMI"
      · rw [if_pos hp]
        refine post_child (fun c0 hc0 => ?_)
        refine post_child (fun c1 hc1 => ?_)
        refine post_bind_code (IH c0 hc0 _) (fun r1 br1 => ?_)
        refine post_bind_code (IH c1 hc1 _) (fun r2 br2 => ?_)
        exact post_pure_nof ((((br1.both (nof_push "$3")).both br2).both (nof_pop "$5")).both (show NoF ["sw $3, 0($5)"] from by decide))
      rw [if_neg hp]
      clear hp
      by_cases hp : root.production = "lvalue ID"
      · rw [if_pos hp]
        refine post_child (fun c0 hc0 => ?_)
        refine post_bind_any (fun tok => ?_)
        refine post_bind_any (fun off => ?_)
        exact post_pure_nof (nof_lvalue _)
      rw [if_neg hp]
      clear hp
      by_cases hp : root.production = "lvalue LPAREN lvalue RPAREN"
      · rw [if_pos hp]
        refine post_child (fun c0 hc0 => ?_)
        exact IH c0 hc0 _
      rw [if_neg hp]
      clear hp
      by_cases hp : root.production = "expr expr PLUS term"
      · rw [if_pos hp]
        refine post_child (fun c0 hc0 => ?_)
        refine post_child (fun c1 hc1 => ?_)
        refine post_ite (fun _ => ?_) (fun _ => ?_)
        · refine post_bind_code (IH c0 hc0 _) (fun r1 br1 => ?_)
          refine post_bind_code (IH c1 hc1 _) (fun r2 br2 => ?_)
          exact post_pure_nof ((((br1.both (nof_push "$3")).both br2).both (nof_pop "$5")).both (show NoF ["add $3, $5, $3"] from by decide))
        · refine post_ite (fun _ => ?_) (fun _ => ?_)
          · refine post_bind_code (IH c0 hc0 _) (fun r1 br1 => ?_)
            refine post_bind_code (IH c1 hc1 _) (fun r2 br2 => ?_)
            exact post_pure_nof (((((br1.both (nof_push "$3")).both br2).both (show NoF ["mult $3, $4", "mflo $3"] from by decide)).both (nof_pop "$5")).both (show NoF ["add $3, $5, $3"] from by decide))
          · refine post_ite (fun _ => ?_) (fun _ => ?_)
            · refine post_bind_code (IH c0 hc0 _) (fun r1 br1 => ?_)
              refine post_bind_code (IH c1 hc1 _) (fun r2 br2 => ?_)
              exact post_pure_nof (((((br1.both (show NoF ["mult $3, $4", "mflo $3"] from by decide)).both (nof_push "$3")).both br2).both (nof_pop "$5")).both (show NoF ["add $3, $5, $3"] from by decide))
            · exact post_pure_nof NoF.none
      rw [if_neg hp]
      clear hp
      by_cases hp : root.production = "expr expr MINUS term"
      · rw [if_pos hp]
        refine post_child (fun c0 hc0 => ?_)
        refine post_child (fun c1 hc1 => ?_)
        refine post_ite (fun _ => ?_) (fun _ => ?_)
        · refine post_bind_code (IH c0 hc0 _) (fun r1 br1 => ?_)
          refine post_bind_code (IH c1 hc1 _) (fun r2 br2 => ?_)
          exact post_pure_nof ((((br1.both (nof_push "$3")).both br2).both (nof_pop "$5")).both (show NoF ["sub $3, $5, $3"] from by decide))
        · refine post_ite (fun _ => ?_) (fun _ => ?_)
          · refine post_bind_code (IH c0 hc0 _) (fun r1 br1 => ?_)
            refine post_bind_code (IH c1 hc1 _) (fun r2 br2 => ?_)
            exact post_pure_nof (((((br1.both (nof_push "$3")).both br2).both (show NoF ["mult $3, $4", "mflo $3"] from by decide)).both (nof_pop "$5")).both (show NoF ["sub $3, $5, $3"] from by decide))
          · refine post_ite (fun _ => ?_) (fun _ => ?_)
            · refine post_bind_code (IH c0 hc0 _) (fun r1 br1 => ?_)
              refine post_bind_code (IH c1 hc1 _) (fun r2 br2 => ?_)
              exact post_pure_nof ((((br1.both (nof_push "$3")).both br2).both (nof_pop "$5")).both (show NoF ["sub $3, $5, $3", "div $3, $4", "mflo $3"] from by decide))
            · exact post_pure_nof NoF.none
      rw [if_neg hp]
      clear hp
      by_cases hp : root.production = "term term STAR factor"
      · rw [if_pos hp]
        refine post_child (fun c0 hc0 => ?_)
        refine post_child (fun c1 hc1 => ?_)
        refine post_bind_code (IH c0 hc0 _) (fun r1 br1 => ?_)
        refine post_bind_code (IH c1 hc1 _) (fun r2 br2 => ?_)
        exact post_pure_nof ((((br1.both (nof_push "$3")).both br2).both (nof_pop "$5")).both (show NoF ["mult $5, $3", "mflo $3"] from by decide))
      rw [if_neg hp]
      clear hp
      by_cases hp : root.production = "term term SLASH factor"
      · rw [if_pos hp]
        refine post_child (fun c0 hc0 => ?_)
        refine post_child (fun c1 hc1 => ?_)
        refine post_bind_code (IH c0 hc0 _) (fun r1 br1 => ?_)
        refine post_bind_code (IH c1 hc1 _) (fun r2 br2 => ?_)
        exact post_pure_nof ((((br1.both (nof_push "$3")).both br2).both (nof_pop "$5")).both (show NoF ["div $5, $3", "mflo $3"] from by decide))
      rw [if_neg hp]
      clear hp
      by_cases hp : root.production = "term term PCT factor"
      · rw [if_pos hp]
        refine post_child (fun c0 hc0 => ?_)
        refine post_child (fun c1 hc1 => ?_)
        refine post_bind_code (IH c0 hc0 _) (fun r1 br1 => ?_)
        refine post_bind_code (IH c1 hc1 _) (fun r2 br2 => ?_)
        exact post_pure_nof ((((br1.both (nof_push "$3")).both br2).both (nof_pop "$5")).both (show NoF ["div $5, $3", "mfhi $3"] from by decide))
      rw [if_neg hp]
      clear hp
      by_cases hp : root.production = "statement IF LPAREN test RPAREN LBRACE statements RBRACE ELSE LBRACE statements RBRACE"
      · rw [if_pos hp]
        exfalso
        have h := allNodes_production _ root hfree
        rw [hp] at h
        revert h; decide
      rw [if_neg hp]
      clear hp
      by_cases hp : root.production = "statement WHILE LPAREN test RPAREN LBRACE statements RBRACE"
      · rw [if_pos hp]
        exfalso
        have h := allNodes_production _ root hfree
        rw [hp] at h
        revert h; decide
      rw [if_neg hp]
      clear hp
      by_cases hp : root.production = "test expr EQ expr"
      · rw [if_pos hp]
        refine post_child (fun c0 hc0 => ?_)
        refine post_child (fun c1 hc1 => ?_)
        refine post_bind_code (IH c0 hc0 _) (fun r1 br1 => ?_)
        refine post_bind_code (IH c1 hc1 _) (fun r2 br2 => ?_)
        exact post_pure_nof ((((br1.both (nof_push "$3")).both br2).both (nof_pop "$5")).both (nof_cmp_eq _))
      rw [if_neg hp]
      clear hp
      by_cases hp : root.production = "test expr NE expr"
      · rw [if_pos hp]
        refine post_child (fun c0 hc0 => ?_)
        refine post_child (fun c1 hc1 => ?_)
        refine post_bind_code (IH c0 hc0 _) (fun r1 br1 => ?_)
        refine post_bind_code (IH c1 hc1 _) (fun r2 br2 => ?_)
        exact post_pure_nof ((((br1.both (nof_push "$3")).both br2).both (nof_pop "$5")).both (nof_cmp_ne _))
      rw [if_neg hp]
      clear hp
      by_cases hp : root.production = "test expr LT expr"
      · rw [if_pos hp]
        refine post_child (fun c0 hc0 => ?_)
        refine post_child (fun c1 hc1 => ?_)
        refine post_bind_code (IH c0 hc0 _) (fun r1 br1 => ?_)
        refine post_bind_code (IH c1 hc1 _) (fun r2 br2 => ?_)
        exact post_pure_nof ((((br1.both (nof_push "$3")).both br2).both (nof_pop "$5")).both (nof_cmp1 _ " $3, $5, $3"))
      rw [if_neg hp]
      clear hp
      by_cases hp : root.production = "test expr LE expr"
      · rw [if_pos hp]
        refine post_child (fun c0 hc0 => ?_)
        refine post_child (fun c1 hc1 => ?_)
        refine post_bind_code (IH c0 hc0 _) (fun r1 br1 => ?_)
        refine post_bind_code (IH c1 hc1 _) (fun r2 br2 => ?_)
        refine post_bind_code (IH c0 hc0 _) (fun r3 br3 => ?_)
        refine post_bind_code (IH c1 hc1 _) (fun r4 br4 => ?_)
        exact post_pure_nof ((((((((((((br1.both (nof_push "$3")).both br2).both (nof_pop "$5")).both (nof_cmp1 _ " $3, $5, $3")).both (nof_push "$3")).both br3).both (nof_push "$3")).both br4).both (nof_pop "$5")).both (nof_cmp_eq _)).both (nof_pop "$5")).both (show NoF ["add $3, $5, $3"] from by decide))
      rw [if_neg hp]
      clear hp
      by_cases hp : root.production = "test expr GE expr"
      · rw [if_pos hp]
        refine post_child (fun c0 hc0 => ?_)
        refine post_child (fun c1 hc1 => ?_)
        refine post_bind_code (IH c0 hc0 _) (fun r1 br1 => ?_)
        refine post_bind_code (IH c1 hc1 _) (fun r2 br2 => ?_)
        refine post_bind_code (IH c0 hc0 _) (fun r3 br3 => ?_)
        refine post_bind_code (IH c1 hc1 _) (fun r4 br4 => ?_)
        exact post_pure_nof ((((((((((((br1.both (nof_push "$3")).both br2).both (nof_pop "$5")).both (nof_cmp1 _ " $3, $3, $5")).both (nof_push "$3")).both br3).both (nof_push "$3")).both br4).both (nof_pop "$5")).both (nof_cmp_eq _)).both (nof_pop "$5")).both (show NoF ["add $3, $5, $3"] from by decide))
      rw [if_neg hp]
      clear hp
      by_cases hp : root.production = "test expr GT expr"
      · rw [if_pos hp]
        refine post_child (fun c0 hc0 => ?_)
        refine post_child (fun c1 hc1 => ?_)
        refine post_bind_code (IH c0 hc0 _) (fun r1 br1 => ?_)
        refine post_bind_code (IH c1 hc1 _) (fun r2 br2 => ?_)
        exact post_pure_nof ((((br1.both (nof_push "$3")).both br2).both (nof_pop "$5")).both (nof_cmp1 _ " $3, $3, $5"))
      rw [if_neg hp]
      clear hp
      by_cases hp : root.production = "statement PRINTLN LPAREN expr RPAREN SEMI"
      · rw [if_pos hp]
        refine post_child (fun c0 hc0 => ?_)
        refine post_bind_code (IH c0 hc0 _) (fun r1 br1 => ?_)
        exact post_pure_nof (((((((br1.both (nof_push "$3")).both (nof_pop "$1")).both (nof_push "$31")).both (nof_push "$29")).both (show NoF ["jalr $10"] from by decide)).both (nof_pop "$29")).both (nof_pop "$31"))
      rw [if_neg hp]
      clear hp
      by_cases hp : root.production = "procedures procedure procedures"
      · rw [if_pos hp]
        refine post_child (fun c0 hc0 => ?_)
        refine post_child (fun c1 hc1 => ?_)
        refine post_bind_code (IH c0 hc0 _) (fun r1 br1 => ?_)
        refine post_bind_code (IH c1 hc1 _) (fun r2 br2 => ?_)
        exact post_pure_nof (br1.both br2)
      rw [if_neg hp]
      clear hp
      by_cases hp : root.production = "procedure INT ID LPAREN params RPAREN LBRACE dcls statements RETURN expr SEMI RBRACE"
      · rw [if_pos hp]
        exfalso
        have h := allNodes_production _ root hfree
        rw [hp] at h
        revert h; decide
      rw [if_neg hp]
      clear hp
      by_cases hp : root.production = "params .EMPTY"
      · rw [if_pos hp]
        exact post_pure_nof NoF.none
      rw [if_neg hp]
      clear hp
      by_cases hp : root.production = "params paramlist"
      · rw [if_pos hp]
        refine post_child (fun c0 hc0 => ?_)
        refine post_bind_code (IH c0 hc0 _) (fun r1 br1 => ?_)
        refine post_bind_any (fun tables => ?_)
        exact post_pure_nof br1
      rw [if_neg hp]
      clear hp
      by_cases hp : root.production = "paramlist dcl"
      · rw [if_pos hp]
        refine post_child (fun c0 hc0 => ?_)
        refine post_child (fun c1 hc1 => ?_)
        refine post_bind_any (fun tok => ?_)
        refine post_bind_any (fun tables => ?_)
        exact post_pure_nof NoF.none
      rw [if_neg hp]
      clear hp
      by_cases hp : root.production = "paramlist dcl COMMA paramlist"
      · rw [if_pos hp]
        refine post_child (fun c0 hc0 => ?_)
        refine post_child (fun c1 hc1 => ?_)
        refine post_child (fun c2 hc2 => ?_)
        refine post_bind_any (fun tok => ?_)
        refine post_bind_any (fun tables => ?_)
        exact IH c1 hc1 _
      rw [if_neg hp]
      clear hp
      by_cases hp : root.production = "factor ID LPAREN RPAREN"
      · rw [if_pos hp]
        refine post_child (fun c0 hc0 => ?_)
        refine post_bind_any (fun tok => ?_)
        exact post_pure_nof (((((nof_push "$29").both (nof_push "$31")).both (nof_call _)).both (nof_pop "$31")).both (nof_pop "$29"))
      rw [if_neg hp]
      clear hp
      by_cases hp : root.production = "factor ID LPAREN arglist RPAREN"
      · rw [if_pos hp]
        refine post_child (fun c0 hc0 => ?_)
        refine post_child (fun c1 hc1 => ?_)
        refine post_bind_any (fun tok => ?_)
        refine post_bind_code (post_foldlM_nof _ (fun e he st1 => ih e
          (by have h1 := TreeNode.sizeOf_lt_of_mem_getChildSymbolNodes "expr" _ _ he
              have h2 := c0.2
              omega)
          (allNodes_of_mem_getChildSymbolNodes _ "expr" _ e
            (allNodes_of_mem_children _ root c0.1 hfree hc0) he) st1)
          ((nof_push "$29").both (nof_push "$31")) st)
          (fun r br => ?_)
        exact post_pure_nof ((((br.both (nof_call _)).both (nof_replicate_pop _)).both
          (nof_pop "$31")).both (nof_pop "$29"))
      rw [if_neg hp]
      clear hp
      by_cases hp : root.production = "arglist expr"
      · rw [if_pos hp]
        exact post_pure_nof NoF.none
      rw [if_neg hp]
      clear hp
      by_cases hp : root.production = "arglist expr COMMA arglist"
      · rw [if_pos hp]
        exact post_pure_nof NoF.none
      rw [if_neg hp]
      clear hp
      by_cases hp : root.production = "type INT STAR"
      · rw [if_pos hp]
        exact post_pure_nof NoF.none
      rw [if_neg hp]
      clear hp
      by_cases hp : root.production = "dcls dcls dcl BECOMES NULL SEMI"
      · rw [if_pos hp]
        refine post_child (fun c0 hc0 => ?_)
        refine post_child (fun c1 hc1 => ?_)
        refine post_child (fun c2 hc2 => ?_)
        refine post_bind_code (IH c0 hc0 _) (fun r1 br1 => ?_)
        refine post_bind_code (IH c1 hc1 _) (fun r2 br2 => ?_)
        refine post_bind_code (IH c2 hc2 _) (fun r3 br3 => ?_)
        exact post_pure_nof (((br1.both br2).both br3).both (nof_push "$3"))
      rw [if_neg hp]
      clear hp
      by_cases hp : root.production = "factor NULL"
      · rw [if_pos hp]
        refine post_child (fun c0 hc0 => ?_)
        exact IH c0 hc0 _
      rw [if_neg hp]
      clear hp
      by_cases hp : root.production = "factor AMP lvalue"
      · rw [if_pos hp]
        refine post_child (fun c0 hc0 => ?_)
        exact IH c0 hc0 _
      rw [if_neg hp]
      clear hp
      by_cases hp : root.production = "factor STAR factor"
      · rw [if_pos hp]
        refine post_child (fun c0 hc0 => ?_)
        refine post_bind_code (IH c0 hc0 _) (fun r1 br1 => ?_)
        exact post_pure_nof (br1.both (show NoF ["lw $3, 0($3)"] from by decide))
      rw [if_neg hp]
      clear hp
      by_cases hp : root.production = "lvalue STAR factor"
      · rw [if_pos hp]
        refine post_child (fun c0 hc0 => ?_)
        refine post_bind_code (IH c0 hc0 _) (fun r1 br1 => ?_)
        exact post_pure_nof br1
      rw [if_neg hp]
      clear hp
      by_cases hp : root.production = "factor NEW INT LBRACK expr RBRACK"
      · rw [if_pos hp]
        refine post_child (fun c0 hc0 => ?_)
        refine post_bind_code (IH c0 hc0 _) (fun r1 br1 => ?_)
        exact post_pure_nof ((((((((br1.both (nof_push "$3")).both (nof_pop "$1")).both (nof_push "$31")).both (nof_push "$29")).both (show NoF ["lis $5", ".word new", "jalr $5"] from by decide)).both (nof_pop "$29")).both (nof_pop "$31")).both (show NoF ["bne $3, $0, 2", "lis $3", ".word 69"] from by decide))
      rw [if_neg hp]
      clear hp
      by_cases hp : root.production = "statement DELETE LBRACK RBRACK expr SEMI"
      · rw [if_pos hp]
        exfalso
        have h := allNodes_production _ root hfree
        rw [hp] at h
        revert h; decide
      rw [if_neg hp]
      clear hp
      exact NoF.none
    · rw [if_neg hN, codeT]
      refine post_bind_any (fun tok => ?_)
      refine post_ite (fun _ => ?_) (fun _ => ?_)
      · exact post_pure_nof (nof_num _)
      · refine post_ite (fun _ => ?_) (fun _ => ?_)
        · exact post_pure_nof (show NoF ["lis $3", ".word 69"] from by decide)
        · refine post_ite (fun _ => ?_) (fun _ => ?_)
          · refine post_bind_any (fun off => ?_)
            exact post_pure_nof (nof_lw _)
          · exact post_pure_nof NoF.none

/-! ## C24: label counter accounting -/

theorem closed_free_defs : closedUnder statementFree (fun p => !definesLabel p) = true := by
  decide

theorem wf_definitionFree (root : TreeNode) (hwf : root.wellFormed = true)
    (hs : statementFree root.symbol = true) : root.definitionFree = true :=
  wf_allNodes statementFree (fun p => !definesLabel p) closed_free_defs (by decide) root hwf hs

mutual
theorem countNodes_of_allNodes (q p : Production → Bool)
    (hqp : ∀ x, p x = true → q x = false) :
    ∀ (t : TreeNode), t.allNodes p = true → t.countNodes q = 0
  | .mk ty sym prod tok cs, h => by
    unfold TreeNode.allNodes at h
    simp only [Bool.and_eq_true] at h
    rw [TreeNode.countNodes, hqp prod h.1, countNodesList_of_allNodes q p hqp cs h.2]
    rfl
theorem countNodesList_of_allNodes (q p : Production → Bool)
    (hqp : ∀ x, p x = true → q x = false) :
    ∀ (cs : List TreeNode), TreeNode.allNodesList p cs = true →
      TreeNode.countNodesList q cs = 0
  | [], _ => rfl
  | c :: cs, h => by
    unfold TreeNode.allNodesList at h
    simp only [Bool.and_eq_true] at h
    rw [TreeNode.countNodesList, countNodes_of_allNodes q p hqp c h.1,
      countNodesList_of_allNodes q p hqp cs h.2]
end

mutual
theorem entryLabels_of_definitionFree :
    ∀ (t : TreeNode), t.definitionFree = true → t.entryLabels = []
  | .mk ty sym prod tok cs, h => by
    unfold TreeNode.definitionFree TreeNode.allNodes at h
    simp only [Bool.and_eq_true, Bool.not_eq_true'] at h
    have h1 := h.1
    simp only [definesLabel, Bool.or_eq_false_iff, beq_eq_false_iff_ne, ne_eq] at h1
    unfold TreeNode.entryLabels
    rw [if_neg h1.1.2, if_neg h1.2]
    exact entryLabelsList_of_definitionFree cs h.2
theorem entryLabelsList_of_definitionFree :
    ∀ (cs : List TreeNode), TreeNode.allNodesList (fun p => !definesLabel p) cs = true →
      TreeNode.entryLabelsList cs = []
  | [], _ => rfl
  | c :: cs, h => by
    unfold TreeNode.allNodesList at h
    simp only [Bool.and_eq_true] at h
    rw [TreeNode.entryLabelsList, entryLabels_of_definitionFree c h.1,
      entryLabelsList_of_definitionFree cs h.2]
    rfl
end

theorem not_definesLabel (x : Production) (h : (!definesLabel x) = true) :
    isIf x = false ∧ isWhile x = false ∧ isDelete x = false := by
  simp only [definesLabel, allocatesLabel, Bool.not_eq_true', Bool.or_eq_false_iff] at h
  exact ⟨h.1.1.1.1, h.1.1.1.2, h.1.1.2⟩

theorem labelCount_of_definitionFree (t : TreeNode) (h : t.definitionFree = true) :
    t.labelCount = 0 := by
  unfold TreeNode.labelCount
  rw [countNodes_of_allNodes isIf _ (fun x hx => (not_definesLabel x hx).1) t h,
    countNodes_of_allNodes isWhile _ (fun x hx => (not_definesLabel x hx).2.1) t h,
    countNodes_of_allNodes isDelete _ (fun x hx => (not_definesLabel x hx).2.2) t h]

theorem Defs.sum {m n : Multiset String} {a b : List String} (ha : Defs m a)
    (hb : Defs n b) : Defs (m + n) (a ++ b) := by
  unfold Defs at *
  rw [labelDefs_append, ← Multiset.coe_add, ha, hb]

theorem Defs.congr {m n : Multiset String} {out : List String} (h : Defs m out)
    (e : m = n) : Defs n out :=
  e ▸ h

theorem Defs.of_nof {out : List String} (h : NoF out) : Defs 0 out := by
  unfold Defs
  rw [h]
  rfl

theorem defs_label (pre x : String) (h : pre.toList.head? = some 'F') :
    Defs (↑[pre ++ x ++ ":"]) [pre ++ x ++ ":"] := by
  have e : isLabelLine (pre ++ x ++ ":") = true := by
    unfold isLabelLine
    rw [head?_toList_append _ _ 'F' (head?_toList_append pre x 'F' h)]
    rfl
  unfold Defs labelDefs
  rw [List.filter_cons, e]
  rfl

theorem nof_line (pre x : String) (c : Char) (h : pre.toList.head? = some c)
    (hc : c ≠ 'F') : NoF [pre ++ x] :=
  nof_cons _ _ c (head?_toList_append pre x c h) hc NoF.none

theorem nof_delete_guard (label : String) :
    NoF ["lis $5", ".word 69", "beq $3, $5, " ++ label] :=
  nof_cons _ _ 'l' (by decide) (by decide)
    (nof_cons _ _ '.' (by decide) (by decide) (nof_line "beq $3, $5, " label 'b' (by decide)
      (by decide)))

theorem controlLabels_append (a b : List String) (c : Nat) :
    controlLabels (a ++ b) c = controlLabels a c ++ controlLabels b (c + a.length) := by
  induction a generalizing c with
  | nil => rfl
  | cons x xs ih =>
    have e : c + 1 + xs.length = c + (xs.length + 1) := by omega
    rw [List.cons_append, controlLabels, controlLabels, ih, List.length_cons, List.cons_append,
      e]

theorem labelCount_mk (ty sym prod : String) (tok : Token) (cs : List TreeNode) :
    (TreeNode.mk ty sym prod tok cs).labelCount
      = (2 * (if isIf prod then 1 else 0) + 2 * (if isWhile prod then 1 else 0)
          + (if isDelete prod then 1 else 0)) + TreeNode.labelCountList cs := by
  unfold TreeNode.labelCount TreeNode.labelCountList
  rw [TreeNode.countNodes, TreeNode.countNodes, TreeNode.countNodes]
  omega

theorem labelCountList_nil : TreeNode.labelCountList [] = 0 := rfl

theorem labelCountList_cons (c : TreeNode) (cs : List TreeNode) :
    TreeNode.labelCountList (c :: cs) = c.labelCount + TreeNode.labelCountList cs := by
  unfold TreeNode.labelCountList TreeNode.labelCount
  rw [TreeNode.countNodesList, TreeNode.countNodesList, TreeNode.countNodesList]
  omega

theorem code_assign {root c0 c2 : TreeNode} (st : State)
    (hp : root.production = "statement lvalue BECOMES expr SEMI")
    (h0 : root.children[0]? = some c0) (h2 : root.children[2]? = some c2) :
    code root st = (do
      let r1 ← code c0 st
      let r2 ← code c2 r1.2
      pure (r1.1 ++ push "$3" ++ r2.1 ++ pop "$5" ++ ["sw $3, 0($5)"], r2.2)) := by
  rw [code_eq_codeN st (by rw [hp]; decide), codeN, getProduction_eq_ok (by rw [hp]; decide),
    ok_bind, hp]
  simp only [↓reduceIte, String.reduceEq]
  rw [TreeNode.child_eq_ok h0, ok_bind, TreeNode.child_eq_ok h2, ok_bind]

theorem code_while {root c2 c5 : TreeNode} (st : State)
    (hp : root.production = "statement WHILE LPAREN test RPAREN LBRACE statements RBRACE")
    (h2 : root.children[2]? = some c2) (h5 : root.children[5]? = some c5) :
    code root st = (do
      let r1 ← code c2 { st with labelCtr := st.labelCtr + 1 + 1 }
      let r2 ← code c5 r1.2
      pure ([("Floop" ++ toString st.labelCtr) ++ ":"] ++ r1.1
        ++ ["beq $3, $0, " ++ ("Fendwhile" ++ toString (st.labelCtr + 1))] ++ r2.1
        ++ ["beq $0, $0, " ++ ("Floop" ++ toString st.labelCtr)]
        ++ [("Fendwhile" ++ toString (st.labelCtr + 1)) ++ ":"], r2.2)) := by
  rw [code_eq_codeN st (by rw [hp]; decide), codeN, getProduction_eq_ok (by rw [hp]; decide),
    ok_bind, hp]
  simp only [↓reduceIte, String.reduceEq]
  rw [TreeNode.child_eq_ok h2, ok_bind, TreeNode.child_eq_ok h5, ok_bind]

theorem code_println {root c2 : TreeNode} (st : State)
    (hp : root.production = "statement PRINTLN LPAREN expr RPAREN SEMI")
    (h2 : root.children[2]? = some c2) :
    code root st = (do
      let r1 ← code c2 st
      pure (r1.1 ++ push "$3" ++ pop "$1" ++ push "$31" ++ push "$29" ++ ["jalr $10"]
        ++ pop "$29" ++ pop "$31", r1.2)) := by
  rw [code_eq_codeN st (by rw [hp]; decide), codeN, getProduction_eq_ok (by rw [hp]; decide),
    ok_bind, hp]
  simp only [↓reduceIte, String.reduceEq]
  rw [TreeNode.child_eq_ok h2, ok_bind]

theorem code_delete {root c3 : TreeNode} (st : State)
    (hp : root.production = "statement DELETE LBRACK RBRACK expr SEMI")
    (h3 : root.children[3]? = some c3) :
    code root st = (do
      let r1 ← code c3 { st with labelCtr := st.labelCtr + 1 }
      pure (r1.1 ++ ["lis $5", ".word 69",
          "beq $3, $5, " ++ ("FskipDelete" ++ toString st.labelCtr)]
        ++ push "$3" ++ pop "$1" ++ push "$31" ++ push "$29"
        ++ ["lis $5", ".word delete", "jalr $5"] ++ pop "$29" ++ pop "$31"
        ++ [("FskipDelete" ++ toString st.labelCtr) ++ ":"], r1.2)) := by
  rw [code_eq_codeN st (by rw [hp]; decide), codeN, getProduction_eq_ok (by rw [hp]; decide),
    ok_bind, hp]
  simp only [↓reduceIte, String.reduceEq]
  rw [TreeNode.child_eq_ok h3, ok_bind]

/-- Accounting for a subtree below which no statement occurs: no label is taken and none
is defined. -/
theorem accounted_free (root : TreeNode) (hwf : root.wellFormed = true)
    (hs : statementFree root.symbol = true) (st : State) :
    Post (Accounted root st.labelCtr) (code root st) := by
  have hfree := wf_definitionFree root hwf hs
  have hlab : root.labelFree = true :=
    wf_allNodes statementFree (fun p => !allocatesLabel p) closed_free_label (by decide) root
      hwf hs
  have hn := nof_aux (sizeOf root + 1) root (Nat.lt_succ_self _) hfree st
  cases hc : code root st with
  | error e => exact True.intro
  | ok r =>
    rw [hc] at hn
    have hctr := labelFree_labelCtr root st r hlab hc
    have hk := labelCount_of_definitionFree root hfree
    have he := entryLabels_of_definitionFree root hfree
    refine ⟨by rw [hk, hctr]; rfl, [], by rw [hk]; rfl, by simp, ?_⟩
    rw [he]
    exact (Defs.of_nof hn).congr rfl

theorem statement_productions : ∀ p ∈ wlp4Productions,
    (match (splitString p).head? with
      | some s => statementFree s
      | none => true) = false →
    p = "start BOF procedures EOF" ∨ p = "procedures procedure procedures"
      ∨ p = "procedures main"
      ∨ p = "procedure INT ID LPAREN params RPAREN LBRACE dcls statements RETURN expr SEMI RBRACE"
      ∨ p = "main INT WAIN LPAREN dcl COMMA dcl RPAREN LBRACE dcls statements RETURN expr SEMI RBRACE"
      ∨ p = "statements .EMPTY" ∨ p = "statements statements statement"
      ∨ p = "statement lvalue BECOMES expr SEMI"
      ∨ p = "statement IF LPAREN test RPAREN LBRACE statements RBRACE ELSE LBRACE statements RBRACE"
      ∨ p = "statement WHILE LPAREN test RPAREN LBRACE statements RBRACE"
      ∨ p = "statement PRINTLN LPAREN expr RPAREN SEMI"
      ∨ p = "statement DELETE LBRACK RBRACK expr SEMI" := by
  decide

theorem production_heads : ∀ p ∈ wlp4Productions,
    (match (splitString p).head? with
      | some s => nonterminals.contains s
      | none => false) = true := by
  decide

theorem wf_leaf (c : TreeNode) (hwf : c.wellFormed = true)
    (hs : nonterminals.contains c.symbol = false) : c.production = "" := by
  by_contra hne
  obtain ⟨hmem, hsplit, _⟩ := wf_children c hwf hne
  have h := production_heads c.production (by simpa using hmem)
  rw [hsplit] at h
  simp only [List.head?_cons] at h
  rw [hs] at h
  cases h

theorem nonterminal_of_not_statementFree (s : Symbol) (h : ¬statementFree s = true) :
    nonterminals.contains s = true := by
  have hsub : ∀ x ∈ ["start", "procedures", "procedure", "main", "statements", "statement"],
      nonterminals.contains x = true := by decide
  apply hsub
  have hc : ["start", "procedures", "procedure", "main", "statements", "statement"].contains s
      = true := by
    cases hc : ["start", "procedures", "procedure", "main", "statements", "statement"].contains s with
    | true => rfl
    | false => exact absurd (by unfold statementFree; rw [hc]; rfl) h
  exact List.elem_iff.1 hc

theorem free_zero (c : TreeNode) (hwf : c.wellFormed = true)
    (hs : statementFree c.symbol = true) : c.labelCount = 0 ∧ c.entryLabels = [] :=
  ⟨labelCount_of_definitionFree c (wf_definitionFree c hwf hs),
    entryLabels_of_definitionFree c (wf_definitionFree c hwf hs)⟩

theorem post_imp {P Q : List String × State → Prop} {x : Result} (hx : Post P x)
    (h : ∀ a, P a → Q a) : Post Q x := by
  cases x with
  | error e => exact True.intro
  | ok a => exact h a hx

theorem defs_of_list {out l : List String} (h : labelDefs out = l) : Defs (↑l) out := by
  unfold Defs
  rw [h]

theorem defs_proc_label (x : String) :
    Defs (↑["F" ++ x ++ ":"]) ["F" ++ x ++ ":", "sub $29, $30, $4"] :=
  (defs_label "F" x (by decide)).sum
    (Defs.of_nof (show NoF ["sub $29, $30, $4"] from by decide)) |>.congr (add_zero _)

theorem defs_wain_prologue (ty : WType) :
    Defs (↑["Fwain:"]) (if ty = INT_STAR then
        ["Fwain:", "sub $29, $30, $4"] ++ push "$29" ++ push "$31"
          ++ ["lis $5", ".word init", "jalr $5"] ++ pop "$31" ++ pop "$29"
      else if ty = INT then
        ["Fwain:", "sub $29, $30, $4"] ++ push "$29" ++ push "$31" ++ push "$2"
          ++ ["lis $2", ".word 0"] ++ ["lis $5", ".word init", "jalr $5"]
          ++ pop "$2" ++ pop "$31" ++ pop "$29"
      else ["Fwain:", "sub $29, $30, $4"]) := by
  apply defs_of_list
  split
  · decide
  · split
    · decide
    · decide

theorem dcl_productions : ∀ p ∈ wlp4Productions, (splitString p).head? = some "dcl" →
    p = "dcl type ID" := by
  decide

theorem dcl_id (c : TreeNode) (hwf : c.wellFormed = true) (hs : c.symbol = "dcl") :
    ∃ id1, c.children[1]? = some id1 := by
  have hne : c.production ≠ "" := by
    intro he
    have h := wf_terminal c hwf he
    rw [hs] at h
    revert h; decide
  obtain ⟨hmem, hsplit, _⟩ := wf_children c hwf hne
  have hp := dcl_productions _ (by simpa using hmem) (by rw [hsplit, hs]; rfl)
  obtain ⟨id1, h1, _, _⟩ := wf_child_exists c 1 hwf hne (by rw [hp]; decide)
  exact ⟨id1, h1⟩

set_option maxHeartbeats 4000000 in
/-- Label accounting of a well-formed subtree (induction on the size of the tree; the
subtrees without statements are covered by `accounted_free`, the remaining productions
one by one). -/
theorem accounted_aux (n : Nat) : ∀ (root : TreeNode), sizeOf root < n →
    root.wellFormed = true → ∀ st, Post (Accounted root st.labelCtr) (code root st) := by
  induction n with
  | zero => intro root h; omega
  | succ n ih =>
    intro root hsz hwf st
    by_cases hfree : statementFree root.symbol = true
    · exact accounted_free root hwf hfree st
    have hne : root.production ≠ "" := by
      intro he
      have h := wf_terminal root hwf he
      rw [nonterminal_of_not_statementFree _ hfree] at h
      cases h
    obtain ⟨hmem, hsplit, hcs⟩ := wf_children root hwf hne
    have hprod := statement_productions root.production (by simpa using hmem)
      (by rw [hsplit]; simpa using hfree)
    have hsize : ∀ c ∈ root.children, sizeOf c < n := fun c hc => by
      have := TreeNode.sizeOf_lt_of_mem_children hc
      omega
    cases root with
    | mk ty sym prod tok cs =>
    simp only [TreeNode.production, TreeNode.children, TreeNode.symbol] at hsplit hcs hsize hprod
    rcases hprod with hp | hp | hp | hp | hp | hp | hp | hp | hp | hp | hp | hp
    · subst hp
      have hs : splitString "start BOF procedures EOF" = ["start", "BOF", "procedures", "EOF"] := by decide
      rw [hs] at hsplit
      obtain ⟨hsym, hmap⟩ := List.cons.inj hsplit
      subst hsym
      have hmap := hmap.symm
      obtain ⟨c0, cs, rfl, s0, hmap⟩ := List.map_eq_cons_iff.1 hmap
      obtain ⟨c1, cs, rfl, s1, hmap⟩ := List.map_eq_cons_iff.1 hmap
      obtain ⟨c2, cs, rfl, s2, hmap⟩ := List.map_eq_cons_iff.1 hmap
      obtain rfl := List.map_eq_nil_iff.1 hmap
      simp only [TreeNode.wellFormedList, Bool.and_eq_true, and_true] at hcs
      obtain ⟨w0, w1, w2⟩ := hcs
      have f0 := free_zero c0 w0 (by rw [s0]; decide)
      have f2 := free_zero c2 w2 (by rw [s2]; decide)
      have hk : (TreeNode.mk ty "start" "start BOF procedures EOF" tok [c0, c1, c2]).labelCount = 0 + c1.labelCount := by
        rw [labelCount_mk]
        simp only [labelCountList_cons, labelCountList_nil, f0.1, f2.1]
        have o : (2 * (if isIf "start BOF procedures EOF" then 1 else 0) + 2 * (if isWhile "start BOF procedures EOF" then 1 else 0) + (if isDelete "start BOF procedures EOF" then 1 else 0)) = 0 := by decide
        rw [o]
        omega
      rw [code_mk_start]
      refine post_imp (ih c1 (hsize c1 (by simp)) w1 _) (fun r1 q1 => ?_)
      obtain ⟨e1, k1, l1, m1, d1⟩ := q1
      try dsimp only at e1 d1
      refine ⟨?_, ([] : List String) ++ k1, ?_, ?_, ?_⟩
      · rw [hk]; show r1.2.labelCtr = _; omega
      · rw [hk]; simp only [List.length_append, List.length_cons, List.length_nil]; omega
      · intro x hx
        simp only [List.mem_append] at hx
        rcases hx with hx | hx
        · revert x; decide
        · exact m1 x hx
      · have a1 : st.labelCtr = st.labelCtr + ([] : List String).length := rfl
        rw [a1] at d1
        refine Defs.congr d1 ?_
        rw [controlLabels_append]
        simp only [TreeNode.entryLabels, TreeNode.entryLabelsList, f0.2, f2.2, List.nil_append, List.append_nil, String.reduceEq, ↓reduceIte, ← Multiset.coe_add, controlLabels, Multiset.coe_nil]
    · subst hp
      have hs : splitString "procedures procedure procedures" = ["procedures", "procedure", "procedures"] := by decide
      rw [hs] at hsplit
      obtain ⟨hsym, hmap⟩ := List.cons.inj hsplit
      subst hsym
      have hmap := hmap.symm
      obtain ⟨c0, cs, rfl, s0, hmap⟩ := List.map_eq_cons_iff.1 hmap
      obtain ⟨c1, cs, rfl, s1, hmap⟩ := List.map_eq_cons_iff.1 hmap
      obtain rfl := List.map_eq_nil_iff.1 hmap
      simp only [TreeNode.wellFormedList, Bool.and_eq_true, and_true] at hcs
      obtain ⟨w0, w1⟩ := hcs
      have hk : (TreeNode.mk ty "procedures" "procedures procedure procedures" tok [c0, c1]).labelCount = 0 + c0.labelCount + c1.labelCount := by
        rw [labelCount_mk]
        simp only [labelCountList_cons, labelCountList_nil]
        have o : (2 * (if isIf "procedures procedure procedures" then 1 else 0) + 2 * (if isWhile "procedures procedure procedures" then 1 else 0) + (if isDelete "procedures procedure procedures" then 1 else 0)) = 0 := by decide
        rw [o]
        omega
      rw [code_mk_procedures]
      refine post_bind_code (ih c0 (hsize c0 (by simp)) w0 _) (fun r1 q1 => ?_)
      refine post_bind_code (ih c1 (hsize c1 (by simp)) w1 _) (fun r2 q2 => ?_)
      refine post_pure ?_
      obtain ⟨e1, k1, l1, m1, d1⟩ := q1
      obtain ⟨e2, k2, l2, m2, d2⟩ := q2
      try dsimp only at e1 d1
      refine ⟨?_, ([] : List String) ++ k1 ++ k2, ?_, ?_, ?_⟩
      · rw [hk]; show r2.2.labelCtr = _; omega
      · rw [hk]; simp only [List.length_append, List.length_cons, List.length_nil]; omega
      · intro x hx
        simp only [List.mem_append] at hx
        rcases hx with (hx | hx) | hx
        · revert x; decide
        · exact m1 x hx
        · exact m2 x hx
      · have a1 : st.labelCtr = st.labelCtr + ([] : List String).length := rfl
        have a2 : r1.2.labelCtr = st.labelCtr + (([] : List String) ++ k1).length := by
          simp only [List.length_append, List.length_cons, List.length_nil]; omega
        rw [a1] at d1
        rw [a2] at d2
        refine Defs.congr (d1.sum d2) ?_
        rw [controlLabels_append, controlLabels_append]
        simp only [TreeNode.entryLabels, TreeNode.entryLabelsList, List.nil_append, List.append_nil, String.reduceEq, ↓reduceIte, ← Multiset.coe_add, controlLabels, Multiset.coe_nil]
        abel
    · subst hp
      have hs : splitString "procedures main" = ["procedures", "main"] := by decide
      rw [hs] at hsplit
      obtain ⟨hsym, hmap⟩ := List.cons.inj hsplit
      subst hsym
      have hmap := hmap.symm
      obtain ⟨c0, cs, rfl, s0, hmap⟩ := List.map_eq_cons_iff.1 hmap
      obtain rfl := List.map_eq_nil_iff.1 hmap
      simp only [TreeNode.wellFormedList, Bool.and_eq_true, and_true] at hcs
      have w0 := hcs
      have hk : (TreeNode.mk ty "procedures" "procedures main" tok [c0]).labelCount = 0 + c0.labelCount := by
        rw [labelCount_mk]
        simp only [labelCountList_cons, labelCountList_nil]
        have o : (2 * (if isIf "procedures main" then 1 else 0) + 2 * (if isWhile "procedures main" then 1 else 0) + (if isDelete "procedures main" then 1 else 0)) = 0 := by decide
        rw [o]
        omega
      rw [code_mk_procedures_main]
      refine post_imp (ih c0 (hsize c0 (by simp)) w0 _) (fun r1 q1 => ?_)
      obtain ⟨e1, k1, l1, m1, d1⟩ := q1
      try dsimp only at e1 d1
      refine ⟨?_, ([] : List String) ++ k1, ?_, ?_, ?_⟩
      · rw [hk]; show r1.2.labelCtr = _; omega
      · rw [hk]; simp only [List.length_append, List.length_cons, List.length_nil]; omega
      · intro x hx
        simp only [List.mem_append] at hx
        rcases hx with hx | hx
        · revert x; decide
        · exact m1 x hx
      · have a1 : st.labelCtr = st.labelCtr + ([] : List String).length := rfl
        rw [a1] at d1
        refine Defs.congr d1 ?_
        rw [controlLabels_append]
        simp only [TreeNode.entryLabels, TreeNode.entryLabelsList, List.nil_append, List.append_nil, String.reduceEq, ↓reduceIte, ← Multiset.coe_add, controlLabels, Multiset.coe_nil]
    · subst hp
      have hs : splitString "procedure INT ID LPAREN params RPAREN LBRACE dcls statements RETURN expr SEMI RBRACE" = ["procedure", "INT", "ID", "LPAREN", "params", "RPAREN", "LBRACE", "dcls", "statements", "RETURN", "expr", "SEMI", "RBRACE"] := by decide
      rw [hs] at hsplit
      obtain ⟨hsym, hmap⟩ := List.cons.inj hsplit
      subst hsym
      have hmap := hmap.symm
      obtain ⟨c0, cs, rfl, s0, hmap⟩ := List.map_eq_cons_iff.1 hmap
      obtain ⟨c1, cs, rfl, s1, hmap⟩ := List.map_eq_cons_iff.1 hmap
      obtain ⟨c2, cs, rfl, s2, hmap⟩ := List.map_eq_cons_iff.1 hmap
      obtain ⟨c3, cs, rfl, s3, hmap⟩ := List.map_eq_cons_iff.1 hmap
      obtain ⟨c4, cs, rfl, s4, hmap⟩ := List.map_eq_cons_iff.1 hmap
      obtain ⟨c5, cs, rfl, s5, hmap⟩ := List.map_eq_cons_iff.1 hmap
      obtain ⟨c6, cs, rfl, s6, hmap⟩ := List.map_eq_cons_iff.1 hmap
      obtain ⟨c7, cs, rfl, s7, hmap⟩ := List.map_eq_cons_iff.1 hmap
      obtain ⟨c8, cs, rfl, s8, hmap⟩ := List.map_eq_cons_iff.1 hmap
      obtain ⟨c9, cs, rfl, s9, hmap⟩ := List.map_eq_cons_iff.1 hmap
      obtain ⟨c10, cs, rfl, s10, hmap⟩ := List.map_eq_cons_iff.1 hmap
      obtain ⟨c11, cs, rfl, s11, hmap⟩ := List.map_eq_cons_iff.1 hmap
      obtain rfl := List.map_eq_nil_iff.1 hmap
      simp only [TreeNode.wellFormedList, Bool.and_eq_true, and_true] at hcs
      obtain ⟨w0, w1, w2, w3, w4, w5, w6, w7, w8, w9, w10, w11⟩ := hcs
      have f0 := free_zero c0 w0 (by rw [s0]; decide)
      have f1 := free_zero c1 w1 (by rw [s1]; decide)
      have f2 := free_zero c2 w2 (by rw [s2]; decide)
      have f4 := free_zero c4 w4 (by rw [s4]; decide)
      have f5 := free_zero c5 w5 (by rw [s5]; decide)
      have f8 := free_zero c8 w8 (by rw [s8]; decide)
      have f10 := free_zero c10 w10 (by rw [s10]; decide)
      have f11 := free_zero c11 w11 (by rw [s11]; decide)
      have hk : (TreeNode.mk ty "procedure" "procedure INT ID LPAREN params RPAREN LBRACE dcls statements RETURN expr SEMI RBRACE" tok [c0, c1, c2, c3, c4, c5, c6, c7, c8, c9, c10, c11]).labelCount = 0 + c3.labelCount + c6.labelCount + c7.labelCount + c9.labelCount := by
        rw [labelCount_mk]
        simp only [labelCountList_cons, labelCountList_nil, f0.1, f1.1, f2.1, f4.1, f5.1, f8.1, f10.1, f11.1]
        have o : (2 * (if isIf "procedure INT ID LPAREN params RPAREN LBRACE dcls statements RETURN expr SEMI RBRACE" then 1 else 0) + 2 * (if isWhile "procedure INT ID LPAREN params RPAREN LBRACE dcls statements RETURN expr SEMI RBRACE" then 1 else 0) + (if isDelete "procedure INT ID LPAREN params RPAREN LBRACE dcls statements RETURN expr SEMI RBRACE" then 1 else 0)) = 0 := by decide
        rw [o]
        omega
      rw [code_mk_procedure, getToken_eq_ok (wf_leaf c1 w1 (by rw [s1]; decide)), ok_bind]
      refine post_bind_code (ih c3 (hsize c3 (by simp)) w3 _) (fun r1 q1 => ?_)
      refine post_bind_code (ih c6 (hsize c6 (by simp)) w6 _) (fun r2 q2 => ?_)
      refine post_bind_code (ih c7 (hsize c7 (by simp)) w7 _) (fun r3 q3 => ?_)
      refine post_bind_code (ih c9 (hsize c9 (by simp)) w9 _) (fun r4 q4 => ?_)
      refine post_bind_any (fun tables => ?_)
      refine post_pure ?_
      obtain ⟨e1, k1, l1, m1, d1⟩ := q1
      obtain ⟨e2, k2, l2, m2, d2⟩ := q2
      obtain ⟨e3, k3, l3, m3, d3⟩ := q3
      obtain ⟨e4, k4, l4, m4, d4⟩ := q4
      try dsimp only at e1 d1
      refine ⟨?_, ([] : List String) ++ k1 ++ k2 ++ k3 ++ k4, ?_, ?_, ?_⟩
      · rw [hk]; show r4.2.labelCtr = _; omega
      · rw [hk]; simp only [List.length_append, List.length_cons, List.length_nil]; omega
      · intro x hx
        simp only [List.mem_append] at hx
        rcases hx with (((hx | hx) | hx) | hx) | hx
        · revert x; decide
        · exact m1 x hx
        · exact m2 x hx
        · exact m3 x hx
        · exact m4 x hx
      · have a1 : st.labelCtr = st.labelCtr + ([] : List String).length := rfl
        have a2 : r1.2.labelCtr = st.labelCtr + (([] : List String) ++ k1).length := by
          simp only [List.length_append, List.length_cons, List.length_nil]; omega
        have a3 : r2.2.labelCtr = st.labelCtr + (([] : List String) ++ k1 ++ k2).length := by
          simp only [List.length_append, List.length_cons, List.length_nil]; omega
        have a4 : r3.2.labelCtr = st.labelCtr + (([] : List String) ++ k1 ++ k2 ++ k3).length := by
          simp only [List.length_append, List.length_cons, List.length_nil]; omega
        rw [a1] at d1
        rw [a2] at d2
        rw [a3] at d3
        rw [a4] at d4
        refine Defs.congr ((((((((defs_proc_label _).sum d1).sum d2).sum (Defs.of_nof (show NoF (push "$1" ++ push "$2" ++ push "$5" ++ push "$6" ++ push "$7") from by decide))).sum d3).sum d4).sum (Defs.of_nof (show NoF (pop "$1" ++ pop "$2" ++ pop "$5" ++ pop "$6" ++ pop "$7") from by decide))).sum (Defs.of_nof (show NoF ["jr $31"] from by decide))) ?_
        rw [controlLabels_append, controlLabels_append, controlLabels_append, controlLabels_append]
        simp only [TreeNode.entryLabels, TreeNode.entryLabelsList, f0.2, f1.2, f2.2, f4.2, f5.2, f8.2, f10.2, f11.2, List.nil_append, List.append_nil, String.reduceEq, ↓reduceIte, ← Multiset.coe_add, controlLabels, Multiset.coe_nil]
        abel
    · subst hp
      have hs : splitString "main INT WAIN LPAREN dcl COMMA dcl RPAREN LBRACE dcls statements RETURN expr SEMI RBRACE" = ["main", "INT", "WAIN", "LPAREN", "dcl", "COMMA", "dcl", "RPAREN", "LBRACE", "dcls", "statements", "RETURN", "expr", "SEMI", "RBRACE"] := by decide
      rw [hs] at hsplit
      obtain ⟨hsym, hmap⟩ := List.cons.inj hsplit
      subst hsym
      have hmap := hmap.symm
      obtain ⟨c0, cs, rfl, s0, hmap⟩ := List.map_eq_cons_iff.1 hmap
      obtain ⟨c1, cs, rfl, s1, hmap⟩ := List.map_eq_cons_iff.1 hmap
      obtain ⟨c2, cs, rfl, s2, hmap⟩ := List.map_eq_cons_iff.1 hmap
      obtain ⟨c3, cs, rfl, s3, hmap⟩ := List.map_eq_cons_iff.1 hmap
      obtain ⟨c4, cs, rfl, s4, hmap⟩ := List.map_eq_cons_iff.1 hmap
      obtain ⟨c5, cs, rfl, s5, hmap⟩ := List.map_eq_cons_iff.1 hmap
      obtain ⟨c6, cs, rfl, s6, hmap⟩ := List.map_eq_cons_iff.1 hmap
      obtain ⟨c7, cs, rfl, s7, hmap⟩ := List.map_eq_cons_iff.1 hmap
      obtain ⟨c8, cs, rfl, s8, hmap⟩ := List.map_eq_cons_iff.1 hmap
      obtain ⟨c9, cs, rfl, s9, hmap⟩ := List.map_eq_cons_iff.1 hmap
      obtain ⟨c10, cs, rfl, s10, hmap⟩ := List.map_eq_cons_iff.1 hmap
      obtain ⟨c11, cs, rfl, s11, hmap⟩ := List.map_eq_cons_iff.1 hmap
      obtain ⟨c12, cs, rfl, s12, hmap⟩ := List.map_eq_cons_iff.1 hmap
      obtain ⟨c13, cs, rfl, s13, hmap⟩ := List.map_eq_cons_iff.1 hmap
      obtain rfl := List.map_eq_nil_iff.1 hmap
      simp only [TreeNode.wellFormedList, Bool.and_eq_true, and_true] at hcs
      obtain ⟨w0, w1, w2, w3, w4, w5, w6, w7, w8, w9, w10, w11, w12, w13⟩ := hcs
      have f0 := free_zero c0 w0 (by rw [s0]; decide)
      have f1 := free_zero c1 w1 (by rw [s1]; decide)
      have f2 := free_zero c2 w2 (by rw [s2]; decide)
      have f4 := free_zero c4 w4 (by rw [s4]; decide)
      have f6 := free_zero c6 w6 (by rw [s6]; decide)
      have f7 := free_zero c7 w7 (by rw [s7]; decide)
      have f10 := free_zero c10 w10 (by rw [s10]; decide)
      have f12 := free_zero c12 w12 (by rw [s12]; decide)
      have f13 := free_zero c13 w13 (by rw [s13]; decide)
      have hk : (TreeNode.mk ty "main" "main INT WAIN LPAREN dcl COMMA dcl RPAREN LBRACE dcls statements RETURN expr SEMI RBRACE" tok [c0, c1, c2, c3, c4, c5, c6, c7, c8, c9, c10, c11, c12, c13]).labelCount = 0 + c3.labelCount + c5.labelCount + c8.labelCount + c9.labelCount + c11.labelCount := by
        rw [labelCount_mk]
        simp only [labelCountList_cons, labelCountList_nil, f0.1, f1.1, f2.1, f4.1, f6.1, f7.1, f10.1, f12.1, f13.1]
        have o : (2 * (if isIf "main INT WAIN LPAREN dcl COMMA dcl RPAREN LBRACE dcls statements RETURN expr SEMI RBRACE" then 1 else 0) + 2 * (if isWhile "main INT WAIN LPAREN dcl COMMA dcl RPAREN LBRACE dcls statements RETURN expr SEMI RBRACE" then 1 else 0) + (if isDelete "main INT WAIN LPAREN dcl COMMA dcl RPAREN LBRACE dcls statements RETURN expr SEMI RBRACE" then 1 else 0)) = 0 := by decide
        rw [o]
        omega
      obtain ⟨id1, hid⟩ := dcl_id c3 w3 s3
      rw [code_main (TreeNode.mk ty "main" "main INT WAIN LPAREN dcl COMMA dcl RPAREN LBRACE dcls statements RETURN expr SEMI RBRACE" tok [c0, c1, c2, c3, c4, c5, c6, c7, c8, c9, c10, c11, c12, c13]) c3 c5 c8 c9 c11 id1 st rfl (show (TreeNode.mk ty "main" "main INT WAIN LPAREN dcl COMMA dcl RPAREN LBRACE dcls statements RETURN expr SEMI RBRACE" tok [c0, c1, c2, c3, c4, c5, c6, c7, c8, c9, c10, c11, c12, c13]).children[3]? = some c3 from by simp [TreeNode.children]) (show (TreeNode.mk ty "main" "main INT WAIN LPAREN dcl COMMA dcl RPAREN LBRACE dcls statements RETURN expr SEMI RBRACE" tok [c0, c1, c2, c3, c4, c5, c6, c7, c8, c9, c10, c11, c12, c13]).children[5]? = some c5 from by simp [TreeNode.children]) (show (TreeNode.mk ty "main" "main INT WAIN LPAREN dcl COMMA dcl RPAREN LBRACE dcls statements RETURN expr SEMI RBRACE" tok [c0, c1, c2, c3, c4, c5, c6, c7, c8, c9, c10, c11, c12, c13]).children[8]? = some c8 from by simp [TreeNode.children]) (show (TreeNode.mk ty "main" "main INT WAIN LPAREN dcl COMMA dcl RPAREN LBRACE dcls statements RETURN expr SEMI RBRACE" tok [c0, c1, c2, c3, c4, c5, c6, c7, c8, c9, c10, c11, c12, c13]).children[9]? = some c9 from by simp [TreeNode.children]) (show (TreeNode.mk ty "main" "main INT WAIN LPAREN dcl COMMA dcl RPAREN LBRACE dcls statements RETURN expr SEMI RBRACE" tok [c0, c1, c2, c3, c4, c5, c6, c7, c8, c9, c10, c11, c12, c13]).children[11]? = some c11 from by simp [TreeNode.children]) hid]
      refine post_bind_code (ih c3 (hsize c3 (by simp)) w3 _) (fun r1 q1 => ?_)
      refine post_bind_code (ih c5 (hsize c5 (by simp)) w5 _) (fun r2 q2 => ?_)
      refine post_bind_code (ih c8 (hsize c8 (by simp)) w8 _) (fun r3 q3 => ?_)
      refine post_bind_code (ih c9 (hsize c9 (by simp)) w9 _) (fun r4 q4 => ?_)
      refine post_bind_code (ih c11 (hsize c11 (by simp)) w11 _) (fun r5 q5 => ?_)
      refine post_pure ?_
      obtain ⟨e1, k1, l1, m1, d1⟩ := q1
      obtain ⟨e2, k2, l2, m2, d2⟩ := q2
      obtain ⟨e3, k3, l3, m3, d3⟩ := q3
      obtain ⟨e4, k4, l4, m4, d4⟩ := q4
      obtain ⟨e5, k5, l5, m5, d5⟩ := q5
      try dsimp only at e1 d1
      refine ⟨?_, ([] : List String) ++ k1 ++ k2 ++ k3 ++ k4 ++ k5, ?_, ?_, ?_⟩
      · rw [hk]; show r5.2.labelCtr = _; omega
      · rw [hk]; simp only [List.length_append, List.length_cons, List.length_nil]; omega
      · intro x hx
        simp only [List.mem_append] at hx
        rcases hx with ((((hx | hx) | hx) | hx) | hx) | hx
        · revert x; decide
        · exact m1 x hx
        · exact m2 x hx
        · exact m3 x hx
        · exact m4 x hx
        · exact m5 x hx
      · have a1 : st.labelCtr = st.labelCtr + ([] : List String).length := rfl
        have a2 : r1.2.labelCtr = st.labelCtr + (([] : List String) ++ k1).length := by
          simp only [List.length_append, List.length_cons, List.length_nil]; omega
        have a3 : r2.2.labelCtr = st.labelCtr + (([] : List String) ++ k1 ++ k2).length := by
          simp only [List.length_append, List.length_cons, List.length_nil]; omega
        have a4 : r3.2.labelCtr = st.labelCtr + (([] : List String) ++ k1 ++ k2 ++ k3).length := by
          simp only [List.length_append, List.length_cons, List.length_nil]; omega
        have a5 : r4.2.labelCtr = st.labelCtr + (([] : List String) ++ k1 ++ k2 ++ k3 ++ k4).length := by
          simp only [List.length_append, List.length_cons, List.length_nil]; omega
        rw [a1] at d1
        rw [a2] at d2
        rw [a3] at d3
        rw [a4] at d4
        rw [a5] at d5
        refine Defs.congr (((((((((defs_wain_prologue _).sum (Defs.of_nof (nof_push "$1"))).sum d1).sum (Defs.of_nof (nof_push "$2"))).sum d2).sum d3).sum d4).sum d5).sum (Defs.of_nof (show NoF ["jr $31"] from by decide))) ?_
        rw [controlLabels_append, controlLabels_append, controlLabels_append, controlLabels_append, controlLabels_append]
        simp only [TreeNode.entryLabels, TreeNode.entryLabelsList, f0.2, f1.2, f2.2, f4.2, f6.2, f7.2, f10.2, f12.2, f13.2, List.nil_append, List.append_nil, String.reduceEq, ↓reduceIte, ← Multiset.coe_add, controlLabels, Multiset.coe_nil]
        abel
    · subst hp
      have hs : splitString "statements .EMPTY" = ["statements", ".EMPTY"] := by decide
      rw [hs] at hsplit
      obtain ⟨hsym, hmap⟩ := List.cons.inj hsplit
      subst hsym
      have hmap := hmap.symm
      obtain ⟨c0, cs, rfl, s0, hmap⟩ := List.map_eq_cons_iff.1 hmap
      obtain rfl := List.map_eq_nil_iff.1 hmap
      simp only [TreeNode.wellFormedList, Bool.and_eq_true, and_true] at hcs
      have w0 := hcs
      have f0 := free_zero c0 w0 (by rw [s0]; decide)
      have hk : (TreeNode.mk ty "statements" "statements .EMPTY" tok [c0]).labelCount = 0 := by
        rw [labelCount_mk]
        simp only [labelCountList_cons, labelCountList_nil, f0.1]
        have o : (2 * (if isIf "statements .EMPTY" then 1 else 0) + 2 * (if isWhile "statements .EMPTY" then 1 else 0) + (if isDelete "statements .EMPTY" then 1 else 0)) = 0 := by decide
        rw [o]
      rw [code_mk_statements_EMPTY]
      refine post_pure ?_
      refine ⟨?_, ([] : List String), ?_, ?_, ?_⟩
      · rw [hk]; rfl
      · rw [hk]; rfl
      · intro x hx
        cases hx
      · refine Defs.congr (Defs.of_nof NoF.none) ?_
        simp only [TreeNode.entryLabels, TreeNode.entryLabelsList, f0.2, List.nil_append, List.append_nil, String.reduceEq, ↓reduceIte, ← Multiset.coe_add, controlLabels, Multiset.coe_nil]
        abel
    · subst hp
      have hs : splitString "statements statements statement" = ["statements", "statements", "statement"] := by decide
      rw [hs] at hsplit
      obtain ⟨hsym, hmap⟩ := List.cons.inj hsplit
      subst hsym
      have hmap := hmap.symm
      obtain ⟨c0, cs, rfl, s0, hmap⟩ := List.map_eq_cons_iff.1 hmap
      obtain ⟨c1, cs, rfl, s1, hmap⟩ := List.map_eq_cons_iff.1 hmap
      obtain rfl := List.map_eq_nil_iff.1 hmap
      simp only [TreeNode.wellFormedList, Bool.and_eq_true, and_true] at hcs
      obtain ⟨w0, w1⟩ := hcs
      have hk : (TreeNode.mk ty "statements" "statements statements statement" tok [c0, c1]).labelCount = 0 + c0.labelCount + c1.labelCount := by
        rw [labelCount_mk]
        simp only [labelCountList_cons, labelCountList_nil]
        have o : (2 * (if isIf "statements statements statement" then 1 else 0) + 2 * (if isWhile "statements statements statement" then 1 else 0) + (if isDelete "statements statements statement" then 1 else 0)) = 0 := by decide
        rw [o]
        omega
      rw [code_mk_statements]
      refine post_bind_code (ih c0 (hsize c0 (by simp)) w0 _) (fun r1 q1 => ?_)
      refine post_bind_code (ih c1 (hsize c1 (by simp)) w1 _) (fun r2 q2 => ?_)
      refine post_pure ?_
      obtain ⟨e1, k1, l1, m1, d1⟩ := q1
      obtain ⟨e2, k2, l2, m2, d2⟩ := q2
      try dsimp only at e1 d1
      refine ⟨?_, ([] : List String) ++ k1 ++ k2, ?_, ?_, ?_⟩
      · rw [hk]; show r2.2.labelCtr = _; omega
      · rw [hk]; simp only [List.length_append, List.length_cons, List.length_nil]; omega
      · intro x hx
        simp only [List.mem_append] at hx
        rcases hx with (hx | hx) | hx
        · revert x; decide
        · exact m1 x hx
        · exact m2 x hx
      · have a1 : st.labelCtr = st.labelCtr + ([] : List String).length := rfl
        have a2 : r1.2.labelCtr = st.labelCtr + (([] : List String) ++ k1).length := by
          simp only [List.length_append, List.length_cons, List.length_nil]; omega
        rw [a1] at d1
        rw [a2] at d2
        refine Defs.congr (d1.sum d2) ?_
        rw [controlLabels_append, controlLabels_append]
        simp only [TreeNode.entryLabels, TreeNode.entryLabelsList, List.nil_append, List.append_nil, String.reduceEq, ↓reduceIte, ← Multiset.coe_add, controlLabels, Multiset.coe_nil]
        abel
    · subst hp
      have hs : splitString "statement lvalue BECOMES expr SEMI" = ["statement", "lvalue", "BECOMES", "expr", "SEMI"] := by decide
      rw [hs] at hsplit
      obtain ⟨hsym, hmap⟩ := List.cons.inj hsplit
      subst hsym
      have hmap := hmap.symm
      obtain ⟨c0, cs, rfl, s0, hmap⟩ := List.map_eq_cons_iff.1 hmap
      obtain ⟨c1, cs, rfl, s1, hmap⟩ := List.map_eq_cons_iff.1 hmap
      obtain ⟨c2, cs, rfl, s2, hmap⟩ := List.map_eq_cons_iff.1 hmap
      obtain ⟨c3, cs, rfl, s3, hmap⟩ := List.map_eq_cons_iff.1 hmap
      obtain rfl := List.map_eq_nil_iff.1 hmap
      simp only [TreeNode.wellFormedList, Bool.and_eq_true, and_true] at hcs
      obtain ⟨w0, w1, w2, w3⟩ := hcs
      have f1 := free_zero c1 w1 (by rw [s1]; decide)
      have f3 := free_zero c3 w3 (by rw [s3]; decide)
      have hk : (TreeNode.mk ty "statement" "statement lvalue BECOMES expr SEMI" tok [c0, c1, c2, c3]).labelCount = 0 + c0.labelCount + c2.labelCount := by
        rw [labelCount_mk]
        simp only [labelCountList_cons, labelCountList_nil, f1.1, f3.1]
        have o : (2 * (if isIf "statement lvalue BECOMES expr SEMI" then 1 else 0) + 2 * (if isWhile "statement lvalue BECOMES expr SEMI" then 1 else 0) + (if isDelete "statement lvalue BECOMES expr SEMI" then 1 else 0)) = 0 := by decide
        rw [o]
        omega
      rw [@code_assign (TreeNode.mk ty "statement" "statement lvalue BECOMES expr SEMI" tok [c0, c1, c2, c3]) c0 c2 st rfl (show (TreeNode.mk ty "statement" "statement lvalue BECOMES expr SEMI" tok [c0, c1, c2, c3]).children[0]? = some c0 from by simp [TreeNode.children]) (show (TreeNode.mk ty "statement" "statement lvalue BECOMES expr SEMI" tok [c0, c1, c2, c3]).children[2]? = some c2 from by simp [TreeNode.children])]
      refine post_bind_code (ih c0 (hsize c0 (by simp)) w0 _) (fun r1 q1 => ?_)
      refine post_bind_code (ih c2 (hsize c2 (by simp)) w2 _) (fun r2 q2 => ?_)
      refine post_pure ?_
      obtain ⟨e1, k1, l1, m1, d1⟩ := q1
      obtain ⟨e2, k2, l2, m2, d2⟩ := q2
      try dsimp only at e1 d1
      refine ⟨?_, ([] : List String) ++ k1 ++ k2, ?_, ?_, ?_⟩
      · rw [hk]; show r2.2.labelCtr = _; omega
      · rw [hk]; simp only [List.length_append, List.length_cons, List.length_nil]; omega
      · intro x hx
        simp only [List.mem_append] at hx
        rcases hx with (hx | hx) | hx
        · revert x; decide
        · exact m1 x hx
        · exact m2 x hx
      · have a1 : st.labelCtr = st.labelCtr + ([] : List String).length := rfl
        have a2 : r1.2.labelCtr = st.labelCtr + (([] : List String) ++ k1).length := by
          simp only [List.length_append, List.length_cons, List.length_nil]; omega
        rw [a1] at d1
        rw [a2] at d2
        refine Defs.congr ((((d1.sum (Defs.of_nof (nof_push "$3"))).sum d2).sum (Defs.of_nof (nof_pop "$5"))).sum (Defs.of_nof (show NoF ["sw $3, 0($5)"] from by decide))) ?_
        rw [controlLabels_append, controlLabels_append]
        simp only [TreeNode.entryLabels, TreeNode.entryLabelsList, f1.2, f3.2, List.nil_append, List.append_nil, String.reduceEq, ↓reduceIte, ← Multiset.coe_add, controlLabels, Multiset.coe_nil]
        abel
    · subst hp
      have hs : splitString "statement IF LPAREN test RPAREN LBRACE statements RBRACE ELSE LBRACE statements RBRACE" = ["statement", "IF", "LPAREN", "test", "RPAREN", "LBRACE", "statements", "RBRACE", "ELSE", "LBRACE", "statements", "RBRACE"] := by decide
      rw [hs] at hsplit
      obtain ⟨hsym, hmap⟩ := List.cons.inj hsplit
      subst hsym
      have hmap := hmap.symm
      obtain ⟨c0, cs, rfl, s0, hmap⟩ := List.map_eq_cons_iff.1 hmap
      obtain ⟨c1, cs, rfl, s1, hmap⟩ := List.map_eq_cons_iff.1 hmap
      obtain ⟨c2, cs, rfl, s2, hmap⟩ := List.map_eq_cons_iff.1 hmap
      obtain ⟨c3, cs, rfl, s3, hmap⟩ := List.map_eq_cons_iff.1 hmap
      obtain ⟨c4, cs, rfl, s4, hmap⟩ := List.map_eq_cons_iff.1 hmap
      obtain ⟨c5, cs, rfl, s5, hmap⟩ := List.map_eq_cons_iff.1 hmap
      obtain ⟨c6, cs, rfl, s6, hmap⟩ := List.map_eq_cons_iff.1 hmap
      obtain ⟨c7, cs, rfl, s7, hmap⟩ := List.map_eq_cons_iff.1 hmap
      obtain ⟨c8, cs, rfl, s8, hmap⟩ := List.map_eq_cons_iff.1 hmap
      obtain ⟨c9, cs, rfl, s9, hmap⟩ := List.map_eq_cons_iff.1 hmap
      obtain ⟨c10, cs, rfl, s10, hmap⟩ := List.map_eq_cons_iff.1 hmap
      obtain rfl := List.map_eq_nil_iff.1 hmap
      simp only [TreeNode.wellFormedList, Bool.and_eq_true, and_true] at hcs
      obtain ⟨w0, w1, w2, w3, w4, w5, w6, w7, w8, w9, w10⟩ := hcs
      have f0 := free_zero c0 w0 (by rw [s0]; decide)
      have f1 := free_zero c1 w1 (by rw [s1]; decide)
      have f3 := free_zero c3 w3 (by rw [s3]; decide)
      have f4 := free_zero c4 w4 (by rw [s4]; decide)
      have f6 := free_zero c6 w6 (by rw [s6]; decide)
      have f7 := free_zero c7 w7 (by rw [s7]; decide)
      have f8 := free_zero c8 w8 (by rw [s8]; decide)
      have f10 := free_zero c10 w10 (by rw [s10]; decide)
      have hk : (TreeNode.mk ty "statement" "statement IF LPAREN test RPAREN LBRACE statements RBRACE ELSE LBRACE statements RBRACE" tok [c0, c1, c2, c3, c4, c5, c6, c7, c8, c9, c10]).labelCount = 2 + c2.labelCount + c5.labelCount + c9.labelCount := by
        rw [labelCount_mk]
        simp only [labelCountList_cons, labelCountList_nil, f0.1, f1.1, f3.1, f4.1, f6.1, f7.1, f8.1, f10.1]
        have o : (2 * (if isIf "statement IF LPAREN test RPAREN LBRACE statements RBRACE ELSE LBRACE statements RBRACE" then 1 else 0) + 2 * (if isWhile "statement IF LPAREN test RPAREN LBRACE statements RBRACE ELSE LBRACE statements RBRACE" then 1 else 0) + (if isDelete "statement IF LPAREN test RPAREN LBRACE statements RBRACE ELSE LBRACE statements RBRACE" then 1 else 0)) = 2 := by decide
        rw [o]
        omega
      rw [code_mk_if]
      refine post_bind_code (ih c2 (hsize c2 (by simp)) w2 _) (fun r1 q1 => ?_)
      refine post_bind_code (ih c5 (hsize c5 (by simp)) w5 _) (fun r2 q2 => ?_)
      refine post_bind_code (ih c9 (hsize c9 (by simp)) w9 _) (fun r3 q3 => ?_)
      refine post_pure ?_
      obtain ⟨e1, k1, l1, m1, d1⟩ := q1
      obtain ⟨e2, k2, l2, m2, d2⟩ := q2
      obtain ⟨e3, k3, l3, m3, d3⟩ := q3
      try dsimp only at e1 d1
      refine ⟨?_, (["Felse", "Fendif"] : List String) ++ k1 ++ k2 ++ k3, ?_, ?_, ?_⟩
      · rw [hk]; show r3.2.labelCtr = _; omega
      · rw [hk]; simp only [List.length_append, List.length_cons, List.length_nil]; omega
      · intro x hx
        simp only [List.mem_append] at hx
        rcases hx with ((hx | hx) | hx) | hx
        · revert x; decide
        · exact m1 x hx
        · exact m2 x hx
        · exact m3 x hx
      · have a1 : st.labelCtr + 1 + 1 = st.labelCtr + (["Felse", "Fendif"] : List String).length := rfl
        have a2 : r1.2.labelCtr = st.labelCtr + ((["Felse", "Fendif"] : List String) ++ k1).length := by
          simp only [List.length_append, List.length_cons, List.length_nil]; omega
        have a3 : r2.2.labelCtr = st.labelCtr + ((["Felse", "Fendif"] : List String) ++ k1 ++ k2).length := by
          simp only [List.length_append, List.length_cons, List.length_nil]; omega
        rw [a1] at d1
        rw [a2] at d2
        rw [a3] at d3
        refine Defs.congr ((((((d1.sum (Defs.of_nof (nof_line "beq $3, $0, " _ 'b' (by decide) (by decide)))).sum d2).sum (Defs.of_nof (nof_line "beq $0, $0, " _ 'b' (by decide) (by decide)))).sum (defs_label "Felse" (toString st.labelCtr) (by decide))).sum d3).sum (defs_label "Fendif" (toString (st.labelCtr + 1)) (by decide))) ?_
        rw [controlLabels_append, controlLabels_append, controlLabels_append]
        simp only [TreeNode.entryLabels, TreeNode.entryLabelsList, f0.2, f1.2, f3.2, f4.2, f6.2, f7.2, f8.2, f10.2, List.nil_append, List.append_nil, String.reduceEq, ↓reduceIte, ← Multiset.coe_add, controlLabels, Multiset.coe_nil]
        have hs2 : ((["Felse" ++ toString st.labelCtr ++ ":", "Fendif" ++ toString (st.labelCtr + 1) ++ ":"] : List String) : Multiset String) = ↑["Felse" ++ toString st.labelCtr ++ ":"] + ↑["Fendif" ++ toString (st.labelCtr + 1) ++ ":"] := rfl
        rw [hs2]
        abel
    · subst hp
      have hs : splitString "statement WHILE LPAREN test RPAREN LBRACE statements RBRACE" = ["statement", "WHILE", "LPAREN", "test", "RPAREN", "LBRACE", "statements", "RBRACE"] := by decide
      rw [hs] at hsplit
      obtain ⟨hsym, hmap⟩ := List.cons.inj hsplit
      subst hsym
      have hmap := hmap.symm
      obtain ⟨c0, cs, rfl, s0, hmap⟩ := List.map_eq_cons_iff.1 hmap
      obtain ⟨c1, cs, rfl, s1, hmap⟩ := List.map_eq_cons_iff.1 hmap
      obtain ⟨c2, cs, rfl, s2, hmap⟩ := List.map_eq_cons_iff.1 hmap
      obtain ⟨c3, cs, rfl, s3, hmap⟩ := List.map_eq_cons_iff.1 hmap
      obtain ⟨c4, cs, rfl, s4, hmap⟩ := List.map_eq_cons_iff.1 hmap
      obtain ⟨c5, cs, rfl, s5, hmap⟩ := List.map_eq_cons_iff.1 hmap
      obtain ⟨c6, cs, rfl, s6, hmap⟩ := List.map_eq_cons_iff.1 hmap
      obtain rfl := List.map_eq_nil_iff.1 hmap
      simp only [TreeNode.wellFormedList, Bool.and_eq_true, and_true] at hcs
      obtain ⟨w0, w1, w2, w3, w4, w5, w6⟩ := hcs
      have f0 := free_zero c0 w0 (by rw [s0]; decide)
      have f1 := free_zero c1 w1 (by rw [s1]; decide)
      have f3 := free_zero c3 w3 (by rw [s3]; decide)
      have f4 := free_zero c4 w4 (by rw [s4]; decide)
      have f6 := free_zero c6 w6 (by rw [s6]; decide)
      have hk : (TreeNode.mk ty "statement" "statement WHILE LPAREN test RPAREN LBRACE statements RBRACE" tok [c0, c1, c2, c3, c4, c5, c6]).labelCount = 2 + c2.labelCount + c5.labelCount := by
        rw [labelCount_mk]
        simp only [labelCountList_cons, labelCountList_nil, f0.1, f1.1, f3.1, f4.1, f6.1]
        have o : (2 * (if isIf "statement WHILE LPAREN test RPAREN LBRACE statements RBRACE" then 1 else 0) + 2 * (if isWhile "statement WHILE LPAREN test RPAREN LBRACE statements RBRACE" then 1 else 0) + (if isDelete "statement WHILE LPAREN test RPAREN LBRACE statements RBRACE" then 1 else 0)) = 2 := by decide
        rw [o]
        omega
      rw [@code_while (TreeNode.mk ty "statement" "statement WHILE LPAREN test RPAREN LBRACE statements RBRACE" tok [c0, c1, c2, c3, c4, c5, c6]) c2 c5 st rfl (show (TreeNode.mk ty "statement" "statement WHILE LPAREN test RPAREN LBRACE statements RBRACE" tok [c0, c1, c2, c3, c4, c5, c6]).children[2]? = some c2 from by simp [TreeNode.children]) (show (TreeNode.mk ty "statement" "statement WHILE LPAREN test RPAREN LBRACE statements RBRACE" tok [c0, c1, c2, c3, c4, c5, c6]).children[5]? = some c5 from by simp [TreeNode.children])]
      refine post_bind_code (ih c2 (hsize c2 (by simp)) w2 _) (fun r1 q1 => ?_)
      refine post_bind_code (ih c5 (hsize c5 (by simp)) w5 _) (fun r2 q2 => ?_)
      refine post_pure ?_
      obtain ⟨e1, k1, l1, m1, d1⟩ := q1
      obtain ⟨e2, k2, l2, m2, d2⟩ := q2
      try dsimp only at e1 d1
      refine ⟨?_, (["Floop", "Fendwhile"] : List String) ++ k1 ++ k2, ?_, ?_, ?_⟩
      · rw [hk]; show r2.2.labelCtr = _; omega
      · rw [hk]; simp only [List.length_append, List.length_cons, List.length_nil]; omega
      · intro x hx
        simp only [List.mem_append] at hx
        rcases hx with (hx | hx) | hx
        · revert x; decide
        · exact m1 x hx
        · exact m2 x hx
      · have a1 : st.labelCtr + 1 + 1 = st.labelCtr + (["Floop", "Fendwhile"] : List String).length := rfl
        have a2 : r1.2.labelCtr = st.labelCtr + ((["Floop", "Fendwhile"] : List String) ++ k1).length := by
          simp only [List.length_append, List.length_cons, List.length_nil]; omega
        rw [a1] at d1
        rw [a2] at d2
        refine Defs.congr ((((((defs_label "Floop" (toString st.labelCtr) (by decide)).sum d1).sum (Defs.of_nof (nof_line "beq $3, $0, " _ 'b' (by decide) (by decide)))).sum d2).sum (Defs.of_nof (nof_line "beq $0, $0, " _ 'b' (by decide) (by decide)))).sum (defs_label "Fendwhile" (toString (st.labelCtr + 1)) (by decide))) ?_
        rw [controlLabels_append, controlLabels_append]
        simp only [TreeNode.entryLabels, TreeNode.entryLabelsList, f0.2, f1.2, f3.2, f4.2, f6.2, List.nil_append, List.append_nil, String.reduceEq, ↓reduceIte, ← Multiset.coe_add, controlLabels, Multiset.coe_nil]
        have hs2 : ((["Floop" ++ toString st.labelCtr ++ ":", "Fendwhile" ++ toString (st.labelCtr + 1) ++ ":"] : List String) : Multiset String) = ↑["Floop" ++ toString st.labelCtr ++ ":"] + ↑["Fendwhile" ++ toString (st.labelCtr + 1) ++ ":"] := rfl
        rw [hs2]
        abel
    · subst hp
      have hs : splitString "statement PRINTLN LPAREN expr RPAREN SEMI" = ["statement", "PRINTLN", "LPAREN", "expr", "RPAREN", "SEMI"] := by decide
      rw [hs] at hsplit
      obtain ⟨hsym, hmap⟩ := List.cons.inj hsplit
      subst hsym
      have hmap := hmap.symm
      obtain ⟨c0, cs, rfl, s0, hmap⟩ := List.map_eq_cons_iff.1 hmap
      obtain ⟨c1, cs, rfl, s1, hmap⟩ := List.map_eq_cons_iff.1 hmap
      obtain ⟨c2, cs, rfl, s2, hmap⟩ := List.map_eq_cons_iff.1 hmap
      obtain ⟨c3, cs, rfl, s3, hmap⟩ := List.map_eq_cons_iff.1 hmap
      obtain ⟨c4, cs, rfl, s4, hmap⟩ := List.map_eq_cons_iff.1 hmap
      obtain rfl := List.map_eq_nil_iff.1 hmap
      simp only [TreeNode.wellFormedList, Bool.and_eq_true, and_true] at hcs
      obtain ⟨w0, w1, w2, w3, w4⟩ := hcs
      have f0 := free_zero c0 w0 (by rw [s0]; decide)
      have f1 := free_zero c1 w1 (by rw [s1]; decide)
      have f3 := free_zero c3 w3 (by rw [s3]; decide)
      have f4 := free_zero c4 w4 (by rw [s4]; decide)
      have hk : (TreeNode.mk ty "statement" "statement PRINTLN LPAREN expr RPAREN SEMI" tok [c0, c1, c2, c3, c4]).labelCount = 0 + c2.labelCount := by
        rw [labelCount_mk]
        simp only [labelCountList_cons, labelCountList_nil, f0.1, f1.1, f3.1, f4.1]
        have o : (2 * (if isIf "statement PRINTLN LPAREN expr RPAREN SEMI" then 1 else 0) + 2 * (if isWhile "statement PRINTLN LPAREN expr RPAREN SEMI" then 1 else 0) + (if isDelete "statement PRINTLN LPAREN expr RPAREN SEMI" then 1 else 0)) = 0 := by decide
        rw [o]
        omega
      rw [@code_println (TreeNode.mk ty "statement" "statement PRINTLN LPAREN expr RPAREN SEMI" tok [c0, c1, c2, c3, c4]) c2 st rfl (show (TreeNode.mk ty "statement" "statement PRINTLN LPAREN expr RPAREN SEMI" tok [c0, c1, c2, c3, c4]).children[2]? = some c2 from by simp [TreeNode.children])]
      refine post_bind_code (ih c2 (hsize c2 (by simp)) w2 _) (fun r1 q1 => ?_)
      refine post_pure ?_
      obtain ⟨e1, k1, l1, m1, d1⟩ := q1
      try dsimp only at e1 d1
      refine ⟨?_, ([] : List String) ++ k1, ?_, ?_, ?_⟩
      · rw [hk]; show r1.2.labelCtr = _; omega
      · rw [hk]; simp only [List.length_append, List.length_cons, List.length_nil]; omega
      · intro x hx
        simp only [List.mem_append] at hx
        rcases hx with hx | hx
        · revert x; decide
        · exact m1 x hx
      · have a1 : st.labelCtr = st.labelCtr + ([] : List String).length := rfl
        rw [a1] at d1
        refine Defs.congr (((((((d1.sum (Defs.of_nof (nof_push "$3"))).sum (Defs.of_nof (nof_pop "$1"))).sum (Defs.of_nof (nof_push "$31"))).sum (Defs.of_nof (nof_push "$29"))).sum (Defs.of_nof (show NoF ["jalr $10"] from by decide))).sum (Defs.of_nof (nof_pop "$29"))).sum (Defs.of_nof (nof_pop "$31"))) ?_
        rw [controlLabels_append]
        simp only [TreeNode.entryLabels, TreeNode.entryLabelsList, f0.2, f1.2, f3.2, f4.2, List.nil_append, List.append_nil, String.reduceEq, ↓reduceIte, ← Multiset.coe_add, controlLabels, Multiset.coe_nil]
        abel
    · subst hp
      have hs : splitString "statement DELETE LBRACK RBRACK expr SEMI" = ["statement", "DELETE", "LBRACK", "RBRACK", "expr", "SEMI"] := by decide
      rw [hs] at hsplit
      obtain ⟨hsym, hmap⟩ := List.cons.inj hsplit
      subst hsym
      have hmap := hmap.symm
      obtain ⟨c0, cs, rfl, s0, hmap⟩ := List.map_eq_cons_iff.1 hmap
      obtain ⟨c1, cs, rfl, s1, hmap⟩ := List.map_eq_cons_iff.1 hmap
      obtain ⟨c2, cs, rfl, s2, hmap⟩ := List.map_eq_cons_iff.1 hmap
      obtain ⟨c3, cs, rfl, s3, hmap⟩ := List.map_eq_cons_iff.1 hmap
      obtain ⟨c4, cs, rfl, s4, hmap⟩ := List.map_eq_cons_iff.1 hmap
      obtain rfl := List.map_eq_nil_iff.1 hmap
      simp only [TreeNode.wellFormedList, Bool.and_eq_true, and_true] at hcs
      obtain ⟨w0, w1, w2, w3, w4⟩ := hcs
      have f0 := free_zero c0 w0 (by rw [s0]; decide)
      have f1 := free_zero c1 w1 (by rw [s1]; decide)
      have f2 := free_zero c2 w2 (by rw [s2]; decide)
      have f4 := free_zero c4 w4 (by rw [s4]; decide)
      have hk : (TreeNode.mk ty "statement" "statement DELETE LBRACK RBRACK expr SEMI" tok [c0, c1, c2, c3, c4]).labelCount = 1 + c3.labelCount := by
        rw [labelCount_mk]
        simp only [labelCountList_cons, labelCountList_nil, f0.1, f1.1, f2.1, f4.1]
        have o : (2 * (if isIf "statement DELETE LBRACK RBRACK expr SEMI" then 1 else 0) + 2 * (if isWhile "statement DELETE LBRACK RBRACK expr SEMI" then 1 else 0) + (if isDelete "statement DELETE LBRACK RBRACK expr SEMI" then 1 else 0)) = 1 := by decide
        rw [o]
        omega
      rw [@code_delete (TreeNode.mk ty "statement" "statement DELETE LBRACK RBRACK expr SEMI" tok [c0, c1, c2, c3, c4]) c3 st rfl (show (TreeNode.mk ty "statement" "statement DELETE LBRACK RBRACK expr SEMI" tok [c0, c1, c2, c3, c4]).children[3]? = some c3 from by simp [TreeNode.children])]
      refine post_bind_code (ih c3 (hsize c3 (by simp)) w3 _) (fun r1 q1 => ?_)
      refine post_pure ?_
      obtain ⟨e1, k1, l1, m1, d1⟩ := q1
      try dsimp only at e1 d1
      refine ⟨?_, (["FskipDelete"] : List String) ++ k1, ?_, ?_, ?_⟩
      · rw [hk]; show r1.2.labelCtr = _; omega
      · rw [hk]; simp only [List.length_append, List.length_cons, List.length_nil]; omega
      · intro x hx
        simp only [List.mem_append] at hx
        rcases hx with hx | hx
        · revert x; decide
        · exact m1 x hx
      · have a1 : st.labelCtr + 1 = st.labelCtr + (["FskipDelete"] : List String).length := rfl
        rw [a1] at d1
        refine Defs.congr (((((((((d1.sum (Defs.of_nof (nof_delete_guard _))).sum (Defs.of_nof (nof_push "$3"))).sum (Defs.of_nof (nof_pop "$1"))).sum (Defs.of_nof (nof_push "$31"))).sum (Defs.of_nof (nof_push "$29"))).sum (Defs.of_nof (show NoF ["lis $5", ".word delete", "jalr $5"] from by decide))).sum (Defs.of_nof (nof_pop "$29"))).sum (Defs.of_nof (nof_pop "$31"))).sum (defs_label "FskipDelete" (toString st.labelCtr) (by decide))) ?_
        rw [controlLabels_append]
        simp only [TreeNode.entryLabels, TreeNode.entryLabelsList, f0.2, f1.2, f2.2, f4.2, List.nil_append, List.append_nil, String.reduceEq, ↓reduceIte, ← Multiset.coe_add, controlLabels, Multiset.coe_nil]
        abel

theorem code_else0Program :
    code else0Program {} = .ok (else0ProgramOutput, stateAB 2) := by
  have hstm : code (node "statements" "statements statements statement"
      [emptyStatements, ifTree]) (stateAB 0) = .ok (["lw $3, 0($29)", "sw $3, -4($30)",
        "sub $30, $30, $4", "lw $3, -4($29)", "add $30, $30, $4", "lw $5, -4($30)",
        "slt $3, $5, $3", "beq $3, $0, Felse0", "beq $0, $0, Fendif1", "Felse0:", "Fendif1:"],
        stateAB 2) := by
    have hs : code emptyStatements (stateAB 0) = .ok ([], stateAB 0) := by
      simp only [emptyStatements, node, code_mk_statements_EMPTY]
    rw [node, code_mk_statements, hs, ok_bind, code_ifTree, ok_bind]
    rfl
  have hmain := code_mainTree _ _ 2 hstm
  rw [else0Program, node, code_mk_start, node, code_mk_procedures, code_procTree, ok_bind,
    node, code_mk_procedures_main, hmain, ok_bind]
  rfl

/-- C24 (the code in general, and at a failing input). For every well-formed subtree on
which emission succeeds from label counter `c`, the counter after emission is `c + k` with
`k` twice the number of `if` nodes plus twice the number of `while` nodes plus the number
of `delete` nodes of the subtree, so it has not decreased; and the label definitions of the
output are, up to order, the entry labels of the procedures of the subtree together with
one control-flow label for each of the suffixes `c`, `c + 1`, ..., `c + k - 1`. An entry
label can be the same text as a control-flow label: for the well-formed program
`int else0() { return 0; } int wain(int a, int b) { if (a < b) {} else {} return a; }`,
emitted from counter 0 with `k = 2`, the label definitions are `Felse0:`, `Fwain:`,
`Felse0:`, `Fendif1:`, and the control-flow label with suffix 0 is defined twice. -/
theorem label_accounting :
    (∀ (root : TreeNode) (st st1 : State) (out : List String),
      root.wellFormed = true → code root st = .ok (out, st1) →
      st1.labelCtr = st.labelCtr
        + (2 * root.countNodes isIf + 2 * root.countNodes isWhile
            + root.countNodes isDelete) ∧
      st.labelCtr ≤ st1.labelCtr ∧
      ∃ kinds : List String,
        kinds.length
          = 2 * root.countNodes isIf + 2 * root.countNodes isWhile
              + root.countNodes isDelete ∧
        (∀ x ∈ kinds, x ∈ controlKinds) ∧
        (labelDefs out).Perm (root.entryLabels ++ controlLabels kinds st.labelCtr)) ∧
    (else0Program.wellFormed = true ∧
      code else0Program {} = .ok (else0ProgramOutput, stateAB 2) ∧
      2 * else0Program.countNodes isIf + 2 * else0Program.countNodes isWhile
        + else0Program.countNodes isDelete = 2 ∧
      labelDefs else0ProgramOutput = ["Felse0:", "Fwain:", "Felse0:", "Fendif1:"] ∧
      else0Program.entryLabels = ["Felse0:", "Fwain:"] ∧
      controlLabels ["Felse", "Fendif"] 0 = ["Felse0:", "Fendif1:"] ∧
      (labelDefs else0ProgramOutput).count "Felse0:" = 2) := by
  refine ⟨?_, by decide, code_else0Program, by decide, by decide, by decide, by decide,
    by decide⟩
  intro root st st1 out hwf h
  have hq := accounted_aux (sizeOf root + 1) root (Nat.lt_succ_self _) hwf st
  rw [h] at hq
  obtain ⟨e, kinds, hl, hm, hd⟩ := hq
  have e2 : st1.labelCtr = st.labelCtr
      + (2 * root.countNodes isIf + 2 * root.countNodes isWhile + root.countNodes isDelete) := e
  refine ⟨e2, by omega, kinds, hl, hm, ?_⟩
  unfold Defs at hd
  rw [Multiset.coe_add] at hd
  exact Multiset.coe_eq_coe.1 hd

theorem label_accounting_witness :
    ifTree.wellFormed = true ∧
    2 * ifTree.countNodes isIf + 2 * ifTree.countNodes isWhile + ifTree.countNodes isDelete
      = 2 ∧
    (stateAB 2).labelCtr = (stateAB 0).labelCtr + 2 ∧
    ∃ kinds : List String, kinds.length = 2 ∧
      (labelDefs ["lw $3, 0($29)", "sw $3, -4($30)", "sub $30, $30, $4",
        "lw $3, -4($29)", "add $30, $30, $4", "lw $5, -4($30)", "slt $3, $5, $3",
        "beq $3, $0, Felse0", "beq $0, $0, Fendif1", "Felse0:", "Fendif1:"]).Perm
        (ifTree.entryLabels ++ controlLabels kinds (stateAB 0).labelCtr) := by
  have hk : 2 * ifTree.countNodes isIf + 2 * ifTree.countNodes isWhile
      + ifTree.countNodes isDelete = 2 := by decide
  obtain ⟨e, _, kinds, hl, _, hp⟩ :=
    label_accounting.1 ifTree (stateAB 0) (stateAB 2) _ (by decide) code_ifTree
  rw [hk] at e hl
  exact ⟨by decide, hk, e, kinds, hl, hp⟩

end Wlp4gen
